import Mathlib

/-!
Verification of heal8s: patch engine, alert router, webhook intake, reconciler and GitOps worker

A shallow embedding of the Go sources under `operator/internal/remediate`
(`oom.go`, `scale.go`, `rollback.go`, `router.go`),
`operator/internal/webhooks/alertmanager_handler.go`,
`operator/internal/controller/remediation_controller.go` and of the GitOps
worker under `github-app` (`internal/k8s/client.go`, `internal/yaml/patcher.go`,
`internal/github/client.go`, `internal/remediation/processor.go`,
`internal/config/config.go`, `cmd/server/main.go`), followed by theorems about
them.

Conventions of the embedding:

* Go maps (`map[string]string`, `corev1.ResourceList`, the deduplicator table)
  are association lists read with `List.lookup` and written with `mapSet`.
* Go `int`/`int64`/`int32` are `Int`, wrapped with `wrapInt64`/`wrapInt32`
  wherever the source computes with quantities, replica counts and the counter
  `Attempts`. Instants and durations of the clock are integers without
  wrap-around.
* Go `float64` is `F64`, a finite binary64 value `±man·2^exp` with every
  operation rounded to nearest, ties to even, on 53 bits.
* A function that mutates its argument and returns `error` becomes a function
  returning the object after the call together with `Option` of the error.
* The API client is a record of calls over a store passed explicitly; the
  store as a map keyed by (namespace, name) is `mapClient`. A call of the
  reconciler or of `processAlert` runs to completion on the store, and every
  `metav1.Now()` of one call reads the same instant.
* The worker acts on a state made of the store, the remote repository and the
  lines of its logger. The calls of `go-github` are a record over the remote
  repository, and the library functions that the worker calls are the record
  `WorkerLib`. A poll reads the clock once for every record it processes.
  Nothing in the worker recovers a panic: a call that panics marks the state
  as `panicked`, and a process that has panicked runs nothing more.
-/

namespace Heal8s

/-! ## Machine integers -/

/-- Two's-complement wrap-around of Go's `int64` (and 64-bit `int`). -/
def wrapInt64 (x : Int) : Int := (x + 2 ^ 63) % 2 ^ 64 - 2 ^ 63

/-- Two's-complement wrap-around of Go's `int32`. -/
def wrapInt32 (x : Int) : Int := (x + 2 ^ 31) % 2 ^ 32 - 2 ^ 31

/-! ## binary64 arithmetic -/

/-- Worker of `bitLen`: counts the halvings that take `n` to zero. -/
def bitLenAux : Nat → Nat → Nat
  | 0, _ => 0
  | fuel + 1, n => if n = 0 then 0 else bitLenAux fuel (n / 2) + 1

/-- Number of binary digits of `n`; `bitLen 0 = 0`. -/
def bitLen (n : Nat) : Nat := bitLenAux n n

/-- Quotient `a / b` rounded to the nearest natural number, ties to even. -/
def rneDiv (a b : Nat) : Nat :=
  let q := a / b
  let r := a % b
  if 2 * r < b then q
  else if b < 2 * r then q + 1
  else if q % 2 = 0 then q else q + 1

/-- A finite binary64 value `±man·2^exp`. The exponent range is not bounded:
the values computed from 64-bit integers by the sources below stay far inside
the normal range of binary64, so neither overflow nor subnormals arise. -/
structure F64 where
  neg : Bool
  man : Nat
  exp : Int
  deriving DecidableEq, Repr

namespace F64

/-- The exponent `k` with `2^k ≤ a/b < 2^(k+1)`, for `a, b > 0`. -/
def ilog2 (a b : Nat) : Int :=
  let k0 : Int := (bitLen a : Int) - (bitLen b : Int)
  let ge : Bool := if 0 ≤ k0 then decide (b * 2 ^ k0.toNat ≤ a) else decide (b ≤ a * 2 ^ (-k0).toNat)
  if ge then k0 else k0 - 1

/-- The binary64 value nearest to `±(a/b)·2^e` (ties to even), for `b > 0`:
the quotient is scaled into `[2^52, 2^53)` and rounded to an integer. -/
def round (neg : Bool) (a b : Nat) (e : Int) : F64 :=
  if a = 0 then ⟨neg, 0, 0⟩
  else
    let s : Int := ilog2 a b - 52
    let m : Nat := if 0 ≤ s then rneDiv a (b * 2 ^ s.toNat) else rneDiv (a * 2 ^ (-s).toNat) b
    ⟨neg, m, s + e⟩

/-- Conversion `float64(n)` of an integer. -/
def ofInt (n : Int) : F64 := round (decide (n < 0)) n.natAbs 1 0

/-- Signed mantissa. -/
def sman (x : F64) : Int := if x.neg then -(x.man : Int) else (x.man : Int)

/-- Sum `x + y`, rounded. -/
def add (x y : F64) : F64 :=
  let e : Int := min x.exp y.exp
  let M : Int := x.sman * 2 ^ (x.exp - e).toNat + y.sman * 2 ^ (y.exp - e).toNat
  round (if M = 0 then x.neg && y.neg else decide (M < 0)) M.natAbs 1 e

/-- Product `x * y`, rounded. -/
def mul (x y : F64) : F64 :=
  round (xor x.neg y.neg) (x.man * y.man) 1 (x.exp + y.exp)

/-- Quotient `x / y`, rounded, for `y ≠ 0`. -/
def div (x y : F64) : F64 :=
  round (xor x.neg y.neg) x.man y.man (x.exp - y.exp)

/-- Integer part (truncation toward zero). -/
def trunc (x : F64) : Int :=
  let mag : Nat := if 0 ≤ x.exp then x.man * 2 ^ x.exp.toNat else x.man / 2 ^ (-x.exp).toNat
  if x.neg then -(mag : Int) else (mag : Int)

/-- Conversion `int64(x)`: the integer part when it fits; otherwise Go leaves
the result to the implementation, and the value taken here is the one amd64
produces (the smallest `int64`). -/
def toInt64 (x : F64) : Int :=
  let t := x.trunc
  if -2 ^ 63 ≤ t ∧ t < 2 ^ 63 then t else -2 ^ 63

/-- Conversion `int32(x)`: the integer part when it fits; otherwise the value
amd64 produces (the smallest `int32`). -/
def toInt32 (x : F64) : Int :=
  let t := x.trunc
  if -2 ^ 31 ≤ t ∧ t < 2 ^ 31 then t else -2 ^ 31

/-- The magnitude `man·2^exp` of a value, as a rational number. -/
def mag (x : F64) : ℚ := (x.man : ℚ) * (2 : ℚ) ^ x.exp

end F64

/-! ## `resource.Quantity` -/

/-- A `resource.Quantity` of memory, modelled by its value in bytes (what
`Value()` returns); `Cmp` is the order of `Int` and `IsZero` is `= 0`. -/
abbrev Quantity := Int

/-- One mebibyte, the unit of `resource.MustParse("64Mi")`. -/
def Mi : Int := 1024 * 1024

/-- One gibibyte. -/
def Gi : Int := 1024 * 1024 * 1024

/-! ## `oom.go` -/

/-- The constant `roundTo := int64(64 * 1024 * 1024)`. -/
def roundTo : Int := 64 * 1024 * 1024

/-- Function `CalculateMemoryIncrease(current, percent, max)` of `oom.go`. -/
def CalculateMemoryIncrease (current : Quantity) (percent : Int) (max : Quantity) : Quantity :=
  let multiplier := F64.add (F64.ofInt 1) (F64.div (F64.ofInt percent) (F64.ofInt 100))
  let newMemoryValue := F64.toInt64 (F64.mul (F64.ofInt current) multiplier)
  let newMemoryValue :=
    wrapInt64 (Int.tdiv (wrapInt64 (wrapInt64 (newMemoryValue + roundTo) - 1)) roundTo * roundTo)
  let newMemory : Quantity := newMemoryValue
  if newMemory > max then max else newMemory

/-- The `float64` product `float64(current.Value()) * multiplier` that
`CalculateMemoryIncrease` converts to `int64`. -/
def memoryProduct (current percent : Int) : F64 :=
  F64.mul (F64.ofInt current) (F64.add (F64.ofInt 1) (F64.div (F64.ofInt percent) (F64.ofInt 100)))

/-- Ceiling of `a / b` for a positive `b`. -/
def ceilDiv (a b : Int) : Int := -((-a) / b)

/-- The least multiple of 64Mi that is not below `n`. -/
def roundUp64Mi (n : Int) : Int := ceilDiv n roundTo * roundTo

/-- The byte count of the specification before rounding to 64Mi: the ceiling
of `current × (1 + percent/100)`, in exact arithmetic. -/
def specNewBytes (current percent : Int) : Int := ceilDiv (current * (100 + percent)) 100

/-- The memory increase as the specification words it: the ceiling of
`current × (1 + percent/100)`, rounded up to the nearest multiple of 64Mi,
capped at `max`. -/
def specMemoryIncrease (current percent max : Int) : Int :=
  min (roundUp64Mi (specNewBytes current percent)) max

/-! ## Go maps and `strconv.Atoi` -/

/-- A `map[string]string`; `m[k]` with the comma-ok form is `List.lookup k m`. -/
abbrev StrMap := List (String × String)

/-- The assignment `m[k] = v` on a map held as an association list. -/
def mapSet {β : Type} (k : String) (v : β) : List (String × β) → List (String × β)
  | [] => [(k, v)]
  | (k0, v0) :: rest => if k0 = k then (k, v) :: rest else (k0, v0) :: mapSet k v rest

/-- The plain index expression `m[k]` on a `map[string]string`: the empty
string when the key is absent. -/
def mapGet (m : StrMap) (k : String) : String := (m.lookup k).getD ""

/-- Value of a non-empty string of decimal digits, read left to right onto
the accumulator; `none` on any other character. -/
def parseDigits : List Char → Nat → Option Nat
  | [], acc => some acc
  | c :: cs, acc =>
    if 48 ≤ c.toNat ∧ c.toNat ≤ 57 then parseDigits cs (acc * 10 + (c.toNat - 48)) else none

/-- Go's `strconv.Atoi` on a 64-bit platform: an optional sign, then one or
more decimal digits, the value within `int64`; `none` stands for a non-nil
error. -/
def Atoi (s : String) : Option Int :=
  let signed : Bool × List Char :=
    match s.data with
    | [] => (false, [])
    | c :: cs => if c = '-' then (true, cs) else if c = '+' then (false, cs) else (false, c :: cs)
  if signed.2 = [] then none
  else
    match parseDigits signed.2 0 with
    | none => none
    | some n =>
      let v : Int := if signed.1 then -(n : Int) else (n : Int)
      if -2 ^ 63 ≤ v ∧ v < 2 ^ 63 then some v else none

/-! ## Workload objects -/

/-- A `corev1.ResourceList`, from resource name to quantity. -/
abbrev ResourceList := List (String × Quantity)

/-- The key `corev1.ResourceMemory`. -/
def ResourceMemory : String := "memory"

/-- The fields of `corev1.Container` that the patch engine reads or writes
(`Resources.Limits` and `Resources.Requests` flattened). -/
structure Container where
  name : String
  image : String
  limits : ResourceList
  requests : ResourceList
  deriving DecidableEq, Repr

/-- An `appsv1.Deployment`: metadata, `Spec.Replicas` (a `*int32`) and
`Spec.Template.Spec.Containers`. -/
structure Deployment where
  name : String
  ns : String
  annotations : StrMap
  replicas : Option Int
  containers : List Container
  deriving DecidableEq, Repr

/-- An `appsv1.StatefulSet`. -/
structure StatefulSet where
  name : String
  ns : String
  annotations : StrMap
  replicas : Option Int
  containers : List Container
  deriving DecidableEq, Repr

/-- An `appsv1.DaemonSet`; it has no replica count. -/
structure DaemonSet where
  name : String
  ns : String
  annotations : StrMap
  containers : List Container
  deriving DecidableEq, Repr

/-- A `client.Object` as the type switches of the patch engine see it: one of
the three workload kinds, or any other value, kept with its `%T` name. -/
inductive Object where
  | deployment (d : Deployment)
  | statefulSet (s : StatefulSet)
  | daemonSet (d : DaemonSet)
  | other (typeName : String)
  deriving DecidableEq, Repr

/-- The `%T` rendering of an object. -/
def Object.typeName : Object → String
  | .deployment _ => "*v1.Deployment"
  | .statefulSet _ => "*v1.StatefulSet"
  | .daemonSet _ => "*v1.DaemonSet"
  | .other t => t

/-- The first type switch of `ApplyIncreaseMemory`: the containers of the pod
template, `none` in the `default` branch. -/
def Object.podContainers : Object → Option (List Container)
  | .deployment d => some d.containers
  | .statefulSet s => some s.containers
  | .daemonSet d => some d.containers
  | .other _ => none

/-- Writing the pod template's containers back into the object. -/
def Object.setContainers : Object → List Container → Object
  | .deployment d, cs => .deployment { d with containers := cs }
  | .statefulSet s, cs => .statefulSet { s with containers := cs }
  | .daemonSet d, cs => .daemonSet { d with containers := cs }
  | .other t, _ => .other t

/-- The loop `for i, c := range containers { if c.Name == containerName ... break }`:
index of the first container with that name. -/
def indexOfName (containerName : String) : List Container → Option Nat
  | [] => none
  | c :: cs =>
    if c.name = containerName then some 0
    else (indexOfName containerName cs).map (· + 1)

/-- The container selection of `ApplyIncreaseMemory`; `none` is `containerIndex == -1`. -/
def selectContainer (containers : List Container) (containerName : String) : Option Nat :=
  if containerName = "" ∧ containers.length = 1 then some 0
  else indexOfName containerName containers

/-- The element update `l[i] = f(l[i])`. -/
def updateAt {α : Type} (f : α → α) : Nat → List α → List α
  | _, [] => []
  | 0, x :: xs => f x :: xs
  | i + 1, x :: xs => x :: updateAt f i xs

/-! ## `oom.go`: `ApplyIncreaseMemory` -/

/-- The body of `ApplyIncreaseMemory` from `container := &containers[containerIndex]`
to the two map writes, as a function of the selected container. -/
def increaseContainerMemory (increasePercent : Int) (maxMemory : Quantity)
    (container : Container) : Container :=
  let currentMemory : Quantity := (container.limits.lookup ResourceMemory).getD 0
  let currentMemory : Quantity := if currentMemory = 0 then 256 * Mi else currentMemory
  let multiplier := F64.add (F64.ofInt 1) (F64.div (F64.ofInt increasePercent) (F64.ofInt 100))
  let newMemoryValue := F64.toInt64 (F64.mul (F64.ofInt currentMemory) multiplier)
  let newMemoryValue :=
    wrapInt64 (Int.tdiv (wrapInt64 (wrapInt64 (newMemoryValue + roundTo) - 1)) roundTo * roundTo)
  let newMemory : Quantity := newMemoryValue
  let newMemory : Quantity := if newMemory > maxMemory then maxMemory else newMemory
  { container with
    limits := mapSet ResourceMemory newMemory container.limits
    requests := mapSet ResourceMemory newMemory container.requests }

/-- Function `ApplyIncreaseMemory(obj, containerName, params)` of `oom.go`. The object
is mutated in place by the source; the result is the object after the call and
the returned error. `parseQuantity` is `resource.ParseQuantity` (`none` for a
non-nil error). -/
def ApplyIncreaseMemory (parseQuantity : String → Option Quantity)
    (obj : Object) (containerName : String) (params : StrMap) : Object × Option String :=
  let increasePercent : Int :=
    match params.lookup "memoryIncreasePercent" with
    | some p => (match Atoi p with
      | some val => val
      | none => 25)
    | none => 25
  let maxMemory : Quantity :=
    match params.lookup "maxMemory" with
    | some m => (match parseQuantity m with
      | some parsed => parsed
      | none => 2 * Gi)
    | none => 2 * Gi
  match obj.podContainers with
  | none => (obj, some ("unsupported object type: " ++ obj.typeName))
  | some containers =>
    match selectContainer containers containerName with
    | none => (obj, some ("container " ++ containerName ++ " not found"))
    | some containerIndex =>
      (obj.setContainers
        (updateAt (increaseContainerMemory increasePercent maxMemory) containerIndex containers),
        none)

/-! ## `scale.go` -/

/-- Function `CalculateScaleUp(current, percent, max)` of `scale.go`. -/
def CalculateScaleUp (current : Int) (percent : Int) (max : Int) : Int :=
  let increase := F64.toInt32 (F64.div (F64.mul (F64.ofInt current) (F64.ofInt percent)) (F64.ofInt 100))
  let increase := if increase < 1 then 1 else increase
  let newReplicas := wrapInt32 (current + increase)
  if newReplicas > max then max else newReplicas

/-- The replica computation in the body of `ApplyScaleUp`, from the dereferenced
`currentReplicas`. -/
def scaledReplicas (currentReplicas : Option Int) (scalePercent maxReplicas : Int) : Int :=
  let currentReplicas : Int :=
    match currentReplicas with
    | none => 1
    | some r => r
  let increase :=
    F64.toInt32 (F64.div (F64.mul (F64.ofInt currentReplicas) (F64.ofInt scalePercent)) (F64.ofInt 100))
  let increase := if increase < 1 then 1 else increase
  let newReplicas := wrapInt32 (currentReplicas + increase)
  if newReplicas > maxReplicas then maxReplicas else newReplicas

/-- Function `ApplyScaleUp(obj, params)` of `scale.go`: the object after the call and
the returned error. -/
def ApplyScaleUp (obj : Object) (params : StrMap) : Object × Option String :=
  let scalePercent : Int :=
    match params.lookup "scaleUpPercent" with
    | some p => (match Atoi p with
      | some val => val
      | none => 50)
    | none => 50
  let maxReplicas : Int :=
    match params.lookup "maxReplicas" with
    | some m => (match Atoi m with
      | some val => wrapInt32 val
      | none => 10)
    | none => 10
  match obj with
  | .deployment d =>
    (.deployment { d with replicas := some (scaledReplicas d.replicas scalePercent maxReplicas) }, none)
  | .statefulSet s =>
    (.statefulSet { s with replicas := some (scaledReplicas s.replicas scalePercent maxReplicas) }, none)
  | _ => (obj, some ("unsupported object type for scale: " ++ obj.typeName))

/-! ## `rollback.go` -/

/-- The annotation key read by `rollbackDeployment`. -/
def lastStableImageKey : String := "heal8s.io/last-stable-image"

/-- The annotation key written by `rollbackDeployment`. -/
def attemptedImageKey : String := "heal8s.io/attempted-image"

/-- The loop of `rollbackDeployment` over the containers, threading the
annotations: record the image as attempted, then overwrite it. -/
def rollbackLoop (lastStableImage : String) : List Container → StrMap → List Container × StrMap
  | [], annotations => ([], annotations)
  | container :: rest, annotations =>
    let annotations := mapSet attemptedImageKey container.image annotations
    let done := rollbackLoop lastStableImage rest annotations
    ({ container with image := lastStableImage } :: done.1, done.2)

/-- Function `rollbackDeployment(ctx, cl, deployment, maxRevisions)` of `rollback.go`;
the context, the client and `maxRevisions` are not used by the source. -/
def rollbackDeployment (deployment : Deployment) (_maxRevisions : Int) : Deployment × Option String :=
  let lastStableImage := mapGet deployment.annotations lastStableImageKey
  if lastStableImage = "" then
    (deployment,
      some "no previous stable image found (annotation heal8s.io/last-stable-image missing)")
  else
    let done := rollbackLoop lastStableImage deployment.containers deployment.annotations
    ({ deployment with containers := done.1, annotations := done.2 }, none)

/-- Function `ApplyRollbackImage(ctx, cl, obj, params)` of `rollback.go`. -/
def ApplyRollbackImage (obj : Object) (params : StrMap) : Object × Option String :=
  let maxRevisions : Int :=
    match params.lookup "rollbackMaxRevisions" with
    | some m => (match Atoi m with
      | some val => val
      | none => 5)
    | none => 5
  match obj with
  | .deployment v =>
    let r := rollbackDeployment v maxRevisions
    (.deployment r.1, r.2)
  | _ => (obj, some ("rollback not supported for type: " ++ obj.typeName))

/-! ## `router.go` -/

/-- The `Alert` of `router.go`. -/
structure Alert where
  labels : StrMap
  annotations : StrMap
  status : String
  startsAt : String
  fingerprint : String
  deriving DecidableEq, Repr

/-- The `RouteConfig` of `router.go`; `ActionType` is a string type. -/
structure RouteConfig where
  actionType : String
  params : StrMap
  deriving DecidableEq, Repr

/-- The `RouterConfig` of `router.go`: the routing table by alert name. -/
structure RouterConfig where
  routes : List (String × RouteConfig)
  deriving DecidableEq, Repr

/-- The constant `ActionTypeIncreaseMemory`. -/
def ActionTypeIncreaseMemory : String := "IncreaseMemory"

/-- The constant `ActionTypeScaleUp`. -/
def ActionTypeScaleUp : String := "ScaleUp"

/-- The constant `ActionTypeRollbackImage`. -/
def ActionTypeRollbackImage : String := "RollbackImage"

/-- The constant `StrategyModeGitOps` of the API types. -/
def StrategyModeGitOps : String := "GitOps"

/-- Function `DefaultRouterConfig()` of `router.go`. -/
def DefaultRouterConfig : RouterConfig :=
  { routes :=
      [ ("KubePodOOMKilled",
          { actionType := ActionTypeIncreaseMemory
            params := [("memoryIncreasePercent", "25"), ("maxMemory", "2Gi")] }),
        ("ContainerOOMKilled",
          { actionType := ActionTypeIncreaseMemory
            params := [("memoryIncreasePercent", "25"), ("maxMemory", "2Gi")] }),
        ("KubeHpaMaxedOut",
          { actionType := ActionTypeScaleUp
            params := [("scaleUpPercent", "50"), ("maxReplicas", "10")] }),
        ("KubePodCrashLooping",
          { actionType := ActionTypeRollbackImage
            params := [("rollbackMaxRevisions", "5")] }) ] }

/-- The `AlertInfo` of the API types. -/
structure AlertInfo where
  name : String
  alertID : String
  fingerprint : String
  source : String
  severity : String
  payload : String
  deriving DecidableEq, Repr

/-- The `TargetResource` of the API types. -/
structure TargetResource where
  kind : String
  name : String
  ns : String
  container : String
  deriving DecidableEq, Repr

/-- The `Action` of the API types. -/
structure Action where
  type : String
  params : StrMap
  deriving DecidableEq, Repr

/-- The `Strategy` of the API types. -/
structure Strategy where
  mode : String
  requireApproval : Bool
  environment : String
  ttl : String
  deriving DecidableEq, Repr

/-- The `GitHubConfig` of the API types. -/
structure GitHubConfig where
  enabled : Bool
  owner : String
  repo : String
  baseBranch : String
  manifestPath : String
  prTitleTemplate : String
  prLabels : List String
  autoMerge : Bool
  deriving DecidableEq, Repr

/-- The `RemediationSpec` of the API types; `gitHub` is a pointer, `none` for nil. -/
structure RemediationSpec where
  alert : AlertInfo
  target : TargetResource
  action : Action
  strategy : Strategy
  gitHub : Option GitHubConfig
  deriving DecidableEq, Repr

/-- Function `extractDeploymentNameFromPod(podName)` of `router.go`. -/
def extractDeploymentNameFromPod (podName : String) : String := podName

/-- Function `extractTargetFromAlert(alert)` of `router.go`; the error is its message. -/
def extractTargetFromAlert (alert : Alert) : Except String TargetResource :=
  let ns := mapGet alert.labels "namespace"
  if ns = "" then .error "alert has no namespace label"
  else
    let deploymentName := mapGet alert.labels "deployment"
    let statefulsetName := mapGet alert.labels "statefulset"
    let podName := mapGet alert.labels "pod"
    let container := mapGet alert.labels "container"
    if deploymentName ≠ "" then
      .ok { kind := "Deployment", name := deploymentName, ns := ns, container := container }
    else if statefulsetName ≠ "" then
      .ok { kind := "StatefulSet", name := statefulsetName, ns := ns, container := container }
    else if podName ≠ "" then
      .ok { kind := "Deployment", name := extractDeploymentNameFromPod podName, ns := ns,
            container := container }
    else .error "cannot determine target resource from alert labels"

/-- Function `RouteAlert(alert, config)` of `router.go`; the error is its message. -/
def RouteAlert (alert : Alert) (config : RouterConfig) : Except String RemediationSpec :=
  let alertname := mapGet alert.labels "alertname"
  if alertname = "" then .error "alert has no alertname label"
  else
    match config.routes.lookup alertname with
    | none => .error ("no route configured for alert: " ++ alertname)
    | some route =>
      match extractTargetFromAlert alert with
      | .error err => .error ("failed to extract target from alert: " ++ err)
      | .ok target =>
        .ok
          { alert :=
              { name := alertname
                alertID := ""
                fingerprint := alert.fingerprint
                source := "alertmanager"
                severity := mapGet alert.labels "severity"
                payload := "" }
            target := target
            action := { type := route.actionType, params := route.params }
            strategy :=
              { mode := StrategyModeGitOps
                requireApproval := true
                environment := mapGet alert.labels "environment"
                ttl := "24h" }
            gitHub := none }

/-! ## `alertmanager_handler.go` -/

/-- A `time.Time` carried by an alert: the instant and the zone offset it is
printed in. -/
structure Time where
  unixNano : Int
  zoneOffset : Int
  deriving DecidableEq, Repr

/-- The `AlertPayload` of the webhook. -/
structure AlertPayload where
  status : String
  labels : StrMap
  annotations : StrMap
  startsAt : Time
  endsAt : Time
  generatorURL : String
  fingerprint : String
  deriving DecidableEq, Repr

/-- The `AlertmanagerWebhookPayload` of the webhook. -/
structure AlertmanagerWebhookPayload where
  version : String
  receiver : String
  status : String
  groupKey : String
  groupLabels : StrMap
  commonLabels : StrMap
  commonAnnotations : StrMap
  externalURL : String
  alerts : List AlertPayload
  deriving DecidableEq, Repr

/-- The `AlertDeduplicator`: the table `seen` of last-seen instants (in
nanoseconds of the process clock) and the TTL (a `time.Duration`, nanoseconds).
The mutex is not modelled: a call runs to completion under the lock. -/
structure AlertDeduplicator where
  seen : List (String × Int)
  ttl : Int
  deriving DecidableEq, Repr

/-- The key `fmt.Sprintf("%s:%s", fingerprint, startsAt.Format(time.RFC3339))`;
`rfc3339` is the library's formatting of a time. -/
def dedupKey (rfc3339 : Time → String) (fingerprint : String) (startsAt : Time) : String :=
  fingerprint ++ ":" ++ rfc3339 startsAt

/-- Function `ShouldProcess(fingerprint, startsAt)` run when the clock reads `now`
(both `time.Since(lastSeen)` and `time.Now()` read that instant): the
deduplicator after the call and the returned boolean. -/
def AlertDeduplicator.ShouldProcess (rfc3339 : Time → String) (d : AlertDeduplicator)
    (fingerprint : String) (startsAt : Time) (now : Int) : AlertDeduplicator × Bool :=
  let key := dedupKey rfc3339 fingerprint startsAt
  match d.seen.lookup key with
  | some lastSeen =>
    if now - lastSeen < d.ttl then (d, false)
    else ({ d with seen := mapSet key now d.seen }, true)
  | none => ({ d with seen := mapSet key now d.seen }, true)

/-- An `http.Request` as the handler reads it: the method and the outcome of
`io.ReadAll(r.Body)`, `none` when reading fails. -/
structure Request where
  method : String
  body : Option String
  deriving DecidableEq, Repr

/-- What the handler has written to the `http.ResponseWriter`. -/
structure Response where
  status : Nat
  body : String
  deriving DecidableEq, Repr

/-- The library's `http.Error(w, msg, code)`: the status and the message
followed by a newline. -/
def httpError (msg : String) (code : Nat) : Response := { status := code, body := msg ++ "\n" }

/-- The state an `AlertmanagerHandler` works on: its deduplicator and router
configuration, the increments made on the counters `AlertsReceived` and
`AlertsSkipped` (one entry of label values per `Inc()`), and the alerts for
which `go h.processAlert(alert, payload)` was started, in order. -/
structure AlertmanagerHandler where
  dedup : AlertDeduplicator
  routerConfig : RouterConfig
  alertsReceived : List (String × String)
  alertsSkipped : List (String × String)
  dispatched : List AlertPayload
  deriving DecidableEq, Repr

/-- The loop `for _, alert := range payload.Alerts` of `HandleWebhook`. -/
def handleAlerts (rfc3339 : Time → String) (now : Int) :
    List AlertPayload → AlertmanagerHandler → AlertmanagerHandler
  | [], h => h
  | alert :: rest, h =>
    let alertname := mapGet alert.labels "alertname"
    let severity := mapGet alert.labels "severity"
    let h := { h with alertsReceived := h.alertsReceived ++ [(alertname, severity)] }
    if alert.status ≠ "firing" then
      handleAlerts rfc3339 now rest
        { h with alertsSkipped := h.alertsSkipped ++ [(alertname, "not-firing")] }
    else
      let r := h.dedup.ShouldProcess rfc3339 alert.fingerprint alert.startsAt now
      if r.2 = false then
        handleAlerts rfc3339 now rest
          { h with dedup := r.1, alertsSkipped := h.alertsSkipped ++ [(alertname, "duplicate")] }
      else
        handleAlerts rfc3339 now rest
          { h with dedup := r.1, dispatched := h.dispatched ++ [alert] }

/-- Function `HandleWebhook(w, r)` of `alertmanager_handler.go`, run when the clock
reads `now`: the handler state after the call and the response written.
`unmarshal` is `json.Unmarshal` into the payload type, `none` for an error. -/
def HandleWebhook (rfc3339 : Time → String)
    (unmarshal : String → Option AlertmanagerWebhookPayload)
    (h : AlertmanagerHandler) (now : Int) (r : Request) : AlertmanagerHandler × Response :=
  if r.method ≠ "POST" then (h, httpError "Only POST method is allowed" 405)
  else
    match r.body with
    | none => (h, httpError "Failed to read request body" 400)
    | some body =>
      match unmarshal body with
      | none => (h, httpError "Invalid JSON payload" 400)
      | some payload =>
        (handleAlerts rfc3339 now payload.alerts h, { status := 200, body := "OK" })

/-! ## The Remediation record -/

/-- The constant `StrategyModeDirect` of the API types. -/
def StrategyModeDirect : String := "Direct"

/-- The constant `RemediationPhasePending`. -/
def RemediationPhasePending : String := "Pending"

/-- The constant `RemediationPhaseAnalyzing`. -/
def RemediationPhaseAnalyzing : String := "Analyzing"

/-- The constant `RemediationPhasePRCreated`. -/
def RemediationPhasePRCreated : String := "PRCreated"

/-- The constant `RemediationPhaseApplying`. -/
def RemediationPhaseApplying : String := "Applying"

/-- The constant `RemediationPhaseSucceeded`. -/
def RemediationPhaseSucceeded : String := "Succeeded"

/-- The constant `RemediationPhaseFailed`. -/
def RemediationPhaseFailed : String := "Failed"

/-- The constant `RemediationPhaseExpired`. -/
def RemediationPhaseExpired : String := "Expired"

/-- A `metav1.Condition`; the transition time is an instant of the clock and
`status` is one of the strings `"True"`, `"False"`, `"Unknown"`. -/
structure Condition where
  type : String
  status : String
  observedGeneration : Int
  lastTransitionTime : Int
  reason : String
  message : String
  deriving DecidableEq, Repr

/-- The constant `metav1.ConditionTrue`. -/
def ConditionTrue : String := "True"

/-- The `RemediationStatus` of the API types; the `*metav1.Time` fields are
`none` for nil and an instant of the clock otherwise. `Attempts` is a Go `int`:
the increment `Attempts++` of the controller wraps with `wrapInt64`. -/
structure RemediationStatus where
  phase : String
  reason : String
  prNumber : Int
  prURL : String
  commitSHA : String
  appliedAt : Option Int
  resolvedAt : Option Int
  attempts : Int
  lastUpdateTime : Option Int
  conditions : List Condition
  deriving DecidableEq, Repr

/-- The `Remediation` of the API types, with the fields of `ObjectMeta` that
the operator reads or writes. -/
structure Remediation where
  name : String
  ns : String
  labels : StrMap
  generation : Int
  creationTimestamp : Int
  spec : RemediationSpec
  status : RemediationStatus
  deriving DecidableEq, Repr

/-- The zero value of `RemediationStatus`. -/
def RemediationStatus.zero : RemediationStatus :=
  { phase := "", reason := "", prNumber := 0, prURL := "", commitSHA := "", appliedAt := none,
    resolvedAt := none, attempts := 0, lastUpdateTime := none, conditions := [] }

/-- The function `meta.SetStatusCondition(&conditions, newCondition)` of
`k8s.io/apimachinery`, which is not part of this repository, after its
documentation, for the non-zero transition time that the callers pass: when a
condition of the same type exists, the first one is updated in place (all
fields, the transition time only when the status changes); when none exists
the new condition is appended. -/
def SetStatusCondition : List Condition → Condition → List Condition
  | [], newCondition => [newCondition]
  | c :: rest, newCondition =>
    if c.type = newCondition.type then
      { c with
        status := newCondition.status
        lastTransitionTime :=
          if c.status ≠ newCondition.status then newCondition.lastTransitionTime
          else c.lastTransitionTime
        reason := newCondition.reason
        message := newCondition.message
        observedGeneration := newCondition.observedGeneration } :: rest
    else c :: SetStatusCondition rest newCondition

/-! ## The API client -/

/-- An error returned by the API client: whether `apierrors.IsNotFound` holds of
it, and its message. -/
structure StoreError where
  notFound : Bool
  message : String
  deriving DecidableEq, Repr

/-- The calls of `client.Client` that the operator makes, over a store of type
`σ`. A read returns the object or an error; a write returns the store after it,
or an error that leaves the store as it was. `updateStatus` is
`Status().Update`, `update` is `Update` on a workload. -/
structure Client (σ : Type) where
  getRemediation : σ → String → String → Except StoreError Remediation
  createRemediation : σ → Remediation → Except StoreError σ
  updateStatus : σ → Remediation → Except StoreError σ
  getDeployment : σ → String → String → Except StoreError Deployment
  getStatefulSet : σ → String → String → Except StoreError StatefulSet
  getDaemonSet : σ → String → String → Except StoreError DaemonSet
  update : σ → Object → Except StoreError σ

/-- The store as a map keyed by (namespace, name), one per kind: the value of a
key is the first object of the list that carries it. -/
structure Store where
  remediations : List Remediation
  deployments : List Deployment
  statefulSets : List StatefulSet
  daemonSets : List DaemonSet
  deriving DecidableEq, Repr

/-- Replacing the first element that satisfies `p`. -/
def replaceFirst {α : Type} (p : α → Bool) (x : α) : List α → List α
  | [] => []
  | y :: ys => if p y then x :: ys else y :: replaceFirst p x ys

/-- The not-found error of the store. -/
def errNotFound (name : String) : StoreError :=
  { notFound := true, message := "\"" ++ name ++ "\" not found" }

/-- The already-exists error of the store. -/
def errAlreadyExists (name : String) : StoreError :=
  { notFound := false, message := "\"" ++ name ++ "\" already exists" }

/-- The client of a store that is a map, like the fake client of the controller
tests: a read fails only when the key is absent, `Create` fails only when the
key is present, an update replaces the stored value of the key
(`Status().Update` only its status) and fails only when the key is absent. -/
def mapClient : Client Store :=
  { getRemediation := fun s ns name =>
      match s.remediations.find? fun r => decide (r.ns = ns ∧ r.name = name) with
      | some r => .ok r
      | none => .error (errNotFound name)
    createRemediation := fun s r =>
      if s.remediations.any fun x => decide (x.ns = r.ns ∧ x.name = r.name) then
        .error (errAlreadyExists r.name)
      else .ok { s with remediations := s.remediations ++ [r] }
    updateStatus := fun s r =>
      match s.remediations.find? fun x => decide (x.ns = r.ns ∧ x.name = r.name) with
      | some stored =>
        .ok { s with
              remediations :=
                replaceFirst (fun x => decide (x.ns = r.ns ∧ x.name = r.name))
                  { stored with status := r.status } s.remediations }
      | none => .error (errNotFound r.name)
    getDeployment := fun s ns name =>
      match s.deployments.find? fun d => decide (d.ns = ns ∧ d.name = name) with
      | some d => .ok d
      | none => .error (errNotFound name)
    getStatefulSet := fun s ns name =>
      match s.statefulSets.find? fun d => decide (d.ns = ns ∧ d.name = name) with
      | some d => .ok d
      | none => .error (errNotFound name)
    getDaemonSet := fun s ns name =>
      match s.daemonSets.find? fun d => decide (d.ns = ns ∧ d.name = name) with
      | some d => .ok d
      | none => .error (errNotFound name)
    update := fun s obj =>
      match obj with
      | .deployment d =>
        if s.deployments.any fun x => decide (x.ns = d.ns ∧ x.name = d.name) then
          .ok { s with
                deployments :=
                  replaceFirst (fun x => decide (x.ns = d.ns ∧ x.name = d.name)) d s.deployments }
        else .error (errNotFound d.name)
      | .statefulSet d =>
        if s.statefulSets.any fun x => decide (x.ns = d.ns ∧ x.name = d.name) then
          .ok { s with
                statefulSets :=
                  replaceFirst (fun x => decide (x.ns = d.ns ∧ x.name = d.name)) d s.statefulSets }
        else .error (errNotFound d.name)
      | .daemonSet d =>
        if s.daemonSets.any fun x => decide (x.ns = d.ns ∧ x.name = d.name) then
          .ok { s with
                daemonSets :=
                  replaceFirst (fun x => decide (x.ns = d.ns ∧ x.name = d.name)) d s.daemonSets }
        else .error (errNotFound d.name)
      | .other t => .error { notFound := false, message := "unknown type " ++ t } }

/-- Whether the store holds a workload of the given kind under (namespace,
name); no other kind is held. -/
def Store.hasTarget (s : Store) (kind ns name : String) : Bool :=
  if kind = "Deployment" then s.deployments.any fun d => decide (d.ns = ns ∧ d.name = name)
  else if kind = "StatefulSet" then
    s.statefulSets.any fun d => decide (d.ns = ns ∧ d.name = name)
  else if kind = "DaemonSet" then s.daemonSets.any fun d => decide (d.ns = ns ∧ d.name = name)
  else false

/-! ## `alertmanager_handler.go`: `processAlert` -/

/-- The name `fmt.Sprintf("rem-%s-%s", alert.Labels["alertname"],
alert.StartsAt.Format("20060102-150405"))`; `compact` is the library's
formatting of a time in the layout `20060102-150405`. -/
def remediationName (compact : Time → String) (alert : AlertPayload) : String :=
  "rem-" ++ mapGet alert.labels "alertname" ++ "-" ++ compact alert.startsAt

/-- The first half of `processAlert(alert, payload)`: the Remediation object it
builds, or the routing error it logs. `marshal` is `json.Marshal` of the alert;
`StartsAt.Unix()` is the instant in whole seconds. -/
def newRemediation (rfc3339 compact : Time → String) (marshal : AlertPayload → String)
    (routerConfig : RouterConfig) (alert : AlertPayload) : Except String Remediation :=
  let remAlert : Alert :=
    { labels := alert.labels
      annotations := alert.annotations
      status := alert.status
      startsAt := rfc3339 alert.startsAt
      fingerprint := alert.fingerprint }
  match RouteAlert remAlert routerConfig with
  | .error err => .error err
  | .ok spec =>
    let spec :=
      { spec with
        alert :=
          { spec.alert with
            payload := marshal alert
            alertID :=
              alert.fingerprint ++ "-" ++ toString (alert.startsAt.unixNano / 1000000000) } }
    .ok
      { name := remediationName compact alert
        ns := spec.target.ns
        labels :=
          [ ("k8s-healer.io/alert", mapGet alert.labels "alertname"),
            ("k8s-healer.io/target", spec.target.name),
            ("k8s-healer.io/fingerprint", alert.fingerprint) ]
        generation := 0
        creationTimestamp := 0
        spec := spec
        status := RemediationStatus.zero }

/-- What `processAlert` works on: the store behind the client and the
increments made on the counter `RemediationsCreated` (one entry of label values
per `Inc()`). -/
structure IntakeState (σ : Type) where
  store : σ
  remediationsCreated : List (String × String × String)

/-- Function `processAlert(alert, payload)` of `alertmanager_handler.go`, run to
completion on the state `w`. -/
def processAlert {σ : Type} (c : Client σ) (rfc3339 compact : Time → String)
    (marshal : AlertPayload → String) (h : AlertmanagerHandler) (alert : AlertPayload)
    (w : IntakeState σ) : IntakeState σ :=
  match newRemediation rfc3339 compact marshal h.routerConfig alert with
  | .error _ => w
  | .ok remediation =>
    match c.getRemediation w.store remediation.ns remediation.name with
    | .ok _ => w
    | .error _ =>
      match c.createRemediation w.store remediation with
      | .error _ => w
      | .ok s =>
        { store := s
          remediationsCreated :=
            w.remediationsCreated ++
              [(remediation.spec.action.type, remediation.spec.target.kind,
                remediation.spec.strategy.mode)] }

/-- The goroutines `go h.processAlert(alert, payload)` of one request, run one
after the other in the order in which they were started. -/
def processAlerts {σ : Type} (c : Client σ) (rfc3339 compact : Time → String)
    (marshal : AlertPayload → String) (h : AlertmanagerHandler) :
    List AlertPayload → IntakeState σ → IntakeState σ
  | [], w => w
  | alert :: rest, w =>
    processAlerts c rfc3339 compact marshal h rest (processAlert c rfc3339 compact marshal h alert w)

/-- One request handled to the end: `HandleWebhook` at the instant `now`, then
the goroutines it started, which finish before the next request arrives. -/
def HandleWebhookAndProcess {σ : Type} (c : Client σ) (rfc3339 compact : Time → String)
    (marshal : AlertPayload → String) (unmarshal : String → Option AlertmanagerWebhookPayload)
    (h : AlertmanagerHandler) (w : IntakeState σ) (now : Int) (r : Request) :
    (AlertmanagerHandler × IntakeState σ) × Response :=
  let out := HandleWebhook rfc3339 unmarshal h now r
  let started := out.1.dispatched.drop h.dispatched.length
  ((out.1, processAlerts c rfc3339 compact marshal out.1 started w), out.2)

/-- Function `NewAlertmanagerHandler(client, scheme, logger)`: an empty
deduplicator with a TTL of one hour and the default routes. The counters are
process-wide; they start empty. -/
def NewAlertmanagerHandler : AlertmanagerHandler :=
  { dedup := { seen := [], ttl := 3600 * 1000000000 }
    routerConfig := DefaultRouterConfig
    alertsReceived := []
    alertsSkipped := []
    dispatched := [] }

/-! ## `remediation_controller.go` -/

/-- A `ctrl.Result`; `requeueAfter` is a `time.Duration` in nanoseconds. -/
structure Result where
  requeue : Bool
  requeueAfter : Int
  deriving DecidableEq, Repr

/-- The zero value `ctrl.Result{}`. -/
def Result.empty : Result := { requeue := false, requeueAfter := 0 }

/-- What a step of the reconciler leaves behind: the store, the returned
`ctrl.Result` and the returned error, `none` for nil. -/
abbrev Outcome (σ : Type) := σ × Result × Option StoreError

/-- Function `updateStatusToFailed(ctx, remediation, reason)`; `now` is the reading
of `metav1.Now()`. -/
def updateStatusToFailed {σ : Type} (c : Client σ) (now : Int) (s : σ)
    (remediation : Remediation) (reason : String) : Outcome σ :=
  let remediation :=
    { remediation with
      status :=
        { remediation.status with
          phase := RemediationPhaseFailed
          reason := reason
          lastUpdateTime := some now
          resolvedAt := some now
          conditions :=
            SetStatusCondition remediation.status.conditions
              { type := "Failed"
                status := ConditionTrue
                observedGeneration := remediation.generation
                lastTransitionTime := now
                reason := "RemediationFailed"
                message := reason } } }
  match c.updateStatus s remediation with
  | .error err => (s, Result.empty, some err)
  | .ok s1 => (s1, Result.empty, none)

/-- Function `updateStatusToExpired(ctx, remediation, reason)`. -/
def updateStatusToExpired {σ : Type} (c : Client σ) (now : Int) (s : σ)
    (remediation : Remediation) (reason : String) : Outcome σ :=
  let remediation :=
    { remediation with
      status :=
        { remediation.status with
          phase := RemediationPhaseExpired
          reason := reason
          lastUpdateTime := some now
          resolvedAt := some now } }
  match c.updateStatus s remediation with
  | .error err => (s, Result.empty, some err)
  | .ok s1 => (s1, Result.empty, none)

/-- Function `handleNewRemediation(ctx, remediation)`. -/
def handleNewRemediation {σ : Type} (c : Client σ) (now : Int) (s : σ)
    (remediation : Remediation) : Outcome σ :=
  let remediation :=
    { remediation with
      status :=
        { remediation.status with
          phase := RemediationPhasePending
          reason := "Remediation created, waiting for processing"
          lastUpdateTime := some now
          conditions :=
            SetStatusCondition remediation.status.conditions
              { type := "AlertReceived"
                status := ConditionTrue
                observedGeneration := remediation.generation
                lastTransitionTime := now
                reason := "AlertReceived"
                message :=
                  "Alert " ++ remediation.spec.alert.name ++ " received from " ++
                    remediation.spec.alert.source } } }
  match c.updateStatus s remediation with
  | .error err => (s, Result.empty, some err)
  | .ok s1 => (s1, { requeue := true, requeueAfter := 0 }, none)

/-- Function `handlePendingRemediation(ctx, remediation)`: the target is read
with the client call of its kind; only the outcome of the read is used. -/
def handlePendingRemediation {σ : Type} (c : Client σ) (now : Int) (s : σ)
    (remediation : Remediation) : Outcome σ :=
  let target := remediation.spec.target
  let read : Option (Option StoreError) :=
    if target.kind = "Deployment" then
      some (match c.getDeployment s target.ns target.name with
        | .ok _ => none
        | .error err => some err)
    else if target.kind = "StatefulSet" then
      some (match c.getStatefulSet s target.ns target.name with
        | .ok _ => none
        | .error err => some err)
    else if target.kind = "DaemonSet" then
      some (match c.getDaemonSet s target.ns target.name with
        | .ok _ => none
        | .error err => some err)
    else none
  match read with
  | none =>
    updateStatusToFailed c now s remediation ("Unsupported target kind: " ++ target.kind)
  | some (some err) =>
    if err.notFound then
      updateStatusToFailed c now s remediation
        ("Target resource not found: " ++ target.ns ++ "/" ++ target.name)
    else (s, Result.empty, some err)
  | some none =>
    let remediation :=
      { remediation with
        status :=
          { remediation.status with
            phase := RemediationPhaseAnalyzing
            reason := "Analyzing target resource and calculating remediation"
            lastUpdateTime := some now } }
    match c.updateStatus s remediation with
    | .error err => (s, Result.empty, some err)
    | .ok s1 => (s1, { requeue := true, requeueAfter := 0 }, none)

/-- The switch on `Spec.Action.Type` in `handleDirectRemediation`: the patched
object and the error of the patch engine, or `none` in the `default` branch. -/
def applyAction (parseQuantity : String → Option Quantity) (targetObj : Object)
    (remediation : Remediation) : Option (Object × Option String) :=
  let action := remediation.spec.action
  if action.type = ActionTypeIncreaseMemory then
    some (ApplyIncreaseMemory parseQuantity targetObj remediation.spec.target.container
      action.params)
  else if action.type = ActionTypeScaleUp then some (ApplyScaleUp targetObj action.params)
  else if action.type = ActionTypeRollbackImage then
    some (ApplyRollbackImage targetObj action.params)
  else none

/-- Function `handleDirectRemediation(ctx, remediation)`; every `metav1.Now()` of
the call reads `now`. -/
def handleDirectRemediation {σ : Type} (c : Client σ)
    (parseQuantity : String → Option Quantity) (now : Int) (s : σ)
    (remediation : Remediation) : Outcome σ :=
  let target := remediation.spec.target
  if target.kind ≠ "Deployment" then
    updateStatusToFailed c now s remediation
      ("Direct remediation not implemented for kind: " ++ target.kind)
  else
    match c.getDeployment s target.ns target.name with
    | .error err =>
      updateStatusToFailed c now s remediation ("Failed to get target: " ++ err.message)
    | .ok deployment =>
      match applyAction parseQuantity (.deployment deployment) remediation with
      | none =>
        updateStatusToFailed c now s remediation
          ("Unsupported action type: " ++ remediation.spec.action.type)
      | some (_, some err) =>
        updateStatusToFailed c now s remediation ("Failed to calculate remediation: " ++ err)
      | some (targetObj, none) =>
        let remediation :=
          { remediation with
            status :=
              { remediation.status with
                phase := RemediationPhaseApplying
                reason := "Applying remediation directly to cluster"
                lastUpdateTime := some now
                attempts := wrapInt64 (remediation.status.attempts + 1) } }
        match c.updateStatus s remediation with
        | .error err => (s, Result.empty, some err)
        | .ok s1 =>
          match c.update s1 targetObj with
          | .error err =>
            updateStatusToFailed c now s1 remediation
              ("Failed to apply remediation: " ++ err.message)
          | .ok s2 =>
            let remediation :=
              { remediation with
                status :=
                  { remediation.status with
                    phase := RemediationPhaseSucceeded
                    reason := "Remediation applied successfully"
                    appliedAt := some now
                    resolvedAt := some now
                    lastUpdateTime := some now
                    conditions :=
                      SetStatusCondition remediation.status.conditions
                        { type := "Applied"
                          status := ConditionTrue
                          observedGeneration := remediation.generation
                          lastTransitionTime := now
                          reason := "RemediationApplied"
                          message := "Remediation applied directly to cluster" } } }
            match c.updateStatus s2 remediation with
            | .error err => (s2, Result.empty, some err)
            | .ok s3 => (s3, Result.empty, none)

/-- Function `handleAnalyzingRemediation(ctx, remediation)`. -/
def handleAnalyzingRemediation {σ : Type} (c : Client σ)
    (parseQuantity : String → Option Quantity) (now : Int) (s : σ)
    (remediation : Remediation) : Outcome σ :=
  if remediation.spec.strategy.mode = StrategyModeDirect ∧
      remediation.spec.strategy.requireApproval = false then
    handleDirectRemediation c parseQuantity now s remediation
  else
    let remediation :=
      { remediation with
        status :=
          { remediation.status with
            phase := RemediationPhasePending
            reason := "Waiting for GitHub App service to create PR"
            lastUpdateTime := some now } }
    match c.updateStatus s remediation with
    | .error err => (s, Result.empty, some err)
    | .ok s1 => (s1, Result.empty, none)

/-- Function `handleApplyingRemediation(ctx, remediation)`: a requeue after 30 seconds. -/
def handleApplyingRemediation {σ : Type} (s : σ) (_remediation : Remediation) : Outcome σ :=
  (s, { requeue := false, requeueAfter := 30 * 1000000000 }, none)

/-- The test of `handlePRCreated`: `Spec.Strategy.TTL` is set, `time.ParseDuration`
accepts it, and `time.Since` of the creation timestamp exceeds it.
`parseDuration` is `time.ParseDuration`, `none` for an error, and `time.Since`
of the creation timestamp is `now - creationTimestamp`. -/
def ttlExceeded (parseDuration : String → Option Int) (now : Int)
    (remediation : Remediation) : Bool :=
  if remediation.spec.strategy.ttl ≠ "" then
    match parseDuration remediation.spec.strategy.ttl with
    | some ttl => decide (now - remediation.creationTimestamp > ttl)
    | none => false
  else false

/-- Function `handlePRCreated(ctx, remediation)`. -/
def handlePRCreated {σ : Type} (c : Client σ) (parseDuration : String → Option Int)
    (now : Int) (s : σ) (remediation : Remediation) : Outcome σ :=
  if ttlExceeded parseDuration now remediation then
    updateStatusToExpired c now s remediation "Remediation TTL exceeded"
  else (s, { requeue := false, requeueAfter := 60 * 1000000000 }, none)

/-- Function `Reconcile(ctx, req)` of `remediation_controller.go`, for the request
`(ns, name)` when the clock reads `now`. -/
def Reconcile {σ : Type} (c : Client σ) (parseQuantity : String → Option Quantity)
    (parseDuration : String → Option Int) (now : Int) (s : σ) (ns name : String) : Outcome σ :=
  match c.getRemediation s ns name with
  | .error err => if err.notFound then (s, Result.empty, none) else (s, Result.empty, some err)
  | .ok remediation =>
    let phase := remediation.status.phase
    if phase = "" then handleNewRemediation c now s remediation
    else if phase = RemediationPhasePending then handlePendingRemediation c now s remediation
    else if phase = RemediationPhaseAnalyzing then
      handleAnalyzingRemediation c parseQuantity now s remediation
    else if phase = RemediationPhaseApplying then handleApplyingRemediation s remediation
    else if phase = RemediationPhaseSucceeded ∨ phase = RemediationPhaseFailed ∨
        phase = RemediationPhaseExpired then (s, Result.empty, none)
    else if phase = RemediationPhasePRCreated then
      handlePRCreated c parseDuration now s remediation
    else (s, Result.empty, none)

/-! ## `strings.ReplaceAll` -/

/-- The scan of `strings.ReplaceAll` for a non-empty `old`, on the characters
that remain: `skip` counts the characters of a match still to be passed over. -/
def replaceAllFrom (old new : List Char) : Nat → List Char → List Char
  | _, [] => []
  | skip + 1, _ :: cs => replaceAllFrom old new skip cs
  | 0, c :: cs =>
    if old.isPrefixOf (c :: cs) then new ++ replaceAllFrom old new (old.length - 1) cs
    else c :: replaceAllFrom old new 0 cs

/-- The function `strings.ReplaceAll(s, old, new)` of the Go library, which is
not part of this repository, after its documentation: a copy of `s` with all
non-overlapping instances of `old`, found from left to right, replaced by
`new`; an empty `old` matches at the beginning of the string and after each
character. -/
def ReplaceAll (s old new : String) : String :=
  if old.data = [] then ⟨new.data ++ (s.data.map fun c => c :: new.data).flatten⟩
  else ⟨replaceAllFrom old.data new.data 0 s.data⟩

/-! ## `github-app/internal/k8s/client.go` -/

/-- The calls of `client.Client` that the GitOps worker makes through its
`k8s.Client`, over a store of type `σ`: `list` is `List` of Remediations, with
the option `InNamespace(namespace)` when the namespace is not empty, and
`statusUpdate` is `Status().Update`. -/
structure K8sClient (σ : Type) where
  list : σ → String → Except StoreError (List Remediation)
  statusUpdate : σ → Remediation → Except StoreError σ

/-- Method `ListPendingRemediations(ctx, namespace)` of `k8s.Client`: the items
of the returned list, or the error. -/
def ListPendingRemediations {σ : Type} (c : K8sClient σ) (s : σ) (ns : String) :
    Except String (List Remediation) :=
  match c.list s ns with
  | .error err => .error ("failed to list remediations: " ++ err.message)
  | .ok items =>
    .ok (items.filter fun item =>
      decide (item.status.phase = RemediationPhasePending) &&
        (match item.spec.gitHub with
          | some gitHub => gitHub.enabled
          | none => false))

/-- Method `UpdateRemediationStatus(ctx, remediation)` of `k8s.Client`. -/
def UpdateRemediationStatus {σ : Type} (c : K8sClient σ) (s : σ) (remediation : Remediation) :
    Except String σ :=
  match c.statusUpdate s remediation with
  | .error err => .error ("failed to update remediation status: " ++ err.message)
  | .ok s1 => .ok s1

/-- The Remediations of a store that is a map, one per key, in the order of the
first occurrences. -/
def firstOfKey : List Remediation → List Remediation
  | [] => []
  | r :: rs => r :: (firstOfKey rs).filter fun x => !decide (x.ns = r.ns ∧ x.name = r.name)

/-- The `k8s.Client` of a store that is a map: `List` returns the values of the
map, those of the namespace when one is given, and never fails;
`Status().Update` is that of `mapClient`. -/
def mapK8sClient : K8sClient Store :=
  { list := fun s ns =>
      .ok ((firstOfKey s.remediations).filter fun r => decide (ns = "") || decide (r.ns = ns))
    statusUpdate := mapClient.updateStatus }

/-! ## `github-app/internal/yaml/patcher.go` -/

/-- The library functions that the GitOps worker calls and that are not part of
this repository: `decode` is `UniversalDeserializer().Decode` of the scheme of
the patcher, `marshal` is `yaml.Marshal`, `sscanInt val` is the integer that
`fmt.Sscanf(val, "%d", &x)` stores in `x` (`none` when it stores nothing and
returns an error), `parseQuantity` is `resource.ParseQuantity`, `rfc3339` and
`stamp` are `Format(time.RFC3339)` and `Format("20060102-150405")` of a
creation timestamp, `toLower` is `strings.ToLower`. -/
structure WorkerLib where
  decode : String → Except String Object
  marshal : Object → Except String String
  sscanInt : String → Option Int
  parseQuantity : String → Option Quantity
  rfc3339 : Int → String
  stamp : Int → String
  toLower : String → String

/-- Method `patchIncreaseMemory(obj, remediation)` of the patcher: the object
after the call and the returned error. From the selection of the container on,
the body is that of `ApplyIncreaseMemory`. -/
def patchIncreaseMemory (lib : WorkerLib) (obj : Object) (remediation : Remediation) :
    Object × Option String :=
  let increasePercent : Int :=
    match remediation.spec.action.params.lookup "memoryIncreasePercent" with
    | some val => (match lib.sscanInt val with
      | some scanned => scanned
      | none => 25)
    | none => 25
  let maxMemory : Quantity :=
    match remediation.spec.action.params.lookup "maxMemory" with
    | some val => (match lib.parseQuantity val with
      | some parsed => parsed
      | none => 2 * Gi)
    | none => 2 * Gi
  let containerName := remediation.spec.target.container
  match obj.podContainers with
  | none => (obj, some ("unsupported object type: " ++ obj.typeName))
  | some containers =>
    match selectContainer containers containerName with
    | none => (obj, some ("container " ++ containerName ++ " not found"))
    | some containerIndex =>
      (obj.setContainers
        (updateAt (increaseContainerMemory increasePercent maxMemory) containerIndex containers),
        none)

/-- Method `patchScaleUp(obj, remediation)` of the patcher: the object after the
call and the returned error. A `maxReplicas` that is present is scanned into a
zero-initialised `int` and converted to `int32`. -/
def patchScaleUp (lib : WorkerLib) (obj : Object) (remediation : Remediation) :
    Object × Option String :=
  let scalePercent : Int :=
    match remediation.spec.action.params.lookup "scaleUpPercent" with
    | some val => (match lib.sscanInt val with
      | some scanned => scanned
      | none => 50)
    | none => 50
  let maxReplicas : Int :=
    match remediation.spec.action.params.lookup "maxReplicas" with
    | some val =>
      let tmp : Int :=
        match lib.sscanInt val with
        | some scanned => scanned
        | none => 0
      wrapInt32 tmp
    | none => 10
  match obj with
  | .deployment d =>
    (.deployment { d with replicas := some (scaledReplicas d.replicas scalePercent maxReplicas) }, none)
  | .statefulSet s =>
    (.statefulSet { s with replicas := some (scaledReplicas s.replicas scalePercent maxReplicas) }, none)
  | _ => (obj, some ("unsupported object type for scale: " ++ obj.typeName))

/-- Method `PatchManifest(yamlContent, remediation)` of the patcher. -/
def PatchManifest (lib : WorkerLib) (yamlContent : String) (remediation : Remediation) :
    Except String String :=
  match lib.decode yamlContent with
  | .error err => .error ("failed to decode YAML: " ++ err)
  | .ok obj =>
    let patched : Except String Object :=
      if remediation.spec.action.type = ActionTypeIncreaseMemory then
        match patchIncreaseMemory lib obj remediation with
        | (_, some err) => .error ("failed to patch memory: " ++ err)
        | (obj1, none) => .ok obj1
      else if remediation.spec.action.type = ActionTypeScaleUp then
        match patchScaleUp lib obj remediation with
        | (_, some err) => .error ("failed to patch scale: " ++ err)
        | (obj1, none) => .ok obj1
      else .error ("unsupported action type: " ++ remediation.spec.action.type)
    match patched with
    | .error err => .error err
    | .ok obj1 =>
      match lib.marshal obj1 with
      | .error err => .error ("failed to encode YAML: " ++ err)
      | .ok patchedYAML => .ok patchedYAML

/-! ## `github-app/internal/github/client.go` -/

/-- The `PRRequest` of the GitHub client. -/
structure PRRequest where
  owner : String
  repo : String
  title : String
  body : String
  baseBranch : String
  headBranch : String
  filePath : String
  fileContent : String
  commitMessage : String
  deriving DecidableEq, Repr

/-- The `RepositoryContent` that `Repositories.GetContents` returns for a file:
its SHA and the result of its method `GetContent()`. -/
structure RepositoryContent where
  sha : Option String
  content : Except String String

/-- The `RepositoryContentFileOptions` of a file write. -/
structure FileOptions where
  message : String
  content : String
  branch : String
  sha : Option String
  deriving DecidableEq, Repr

/-- The `NewPullRequest` of a pull-request creation. -/
structure NewPullRequest where
  title : String
  body : String
  head : String
  base : String
  deriving DecidableEq, Repr

/-- The calls of the `go-github` client that the worker makes, over a remote
state of type `γ`; the arguments are owner, repository and then those of the
call. A read returns its result or an error; a write returns the state after
it, or an error that leaves the state as it was. `getRef` returns the SHA of
the object of the reference. `getContents` returns the file at a path and
reference (the path names a file), or the error together with the status code
of the response, which is `none` when the call returns a nil `*Response` with
its error, as the library does when the request fails before any response
arrives. -/
structure GitHubAPI (γ : Type) where
  getRef : γ → String → String → String → Except String String
  createRef : γ → String → String → String → String → Except String γ
  updateRef : γ → String → String → String → String → Except String γ
  getContents :
    γ → String → String → String → String → Except (String × Option Nat) RepositoryContent
  createFile : γ → String → String → String → FileOptions → Except String γ
  updateFile : γ → String → String → String → FileOptions → Except String γ
  createPullRequest : γ → String → String → NewPullRequest → Except String (γ × Int × String)

/-- Method `CreatePR(ctx, req)` of the GitHub client: the remote state after the
call, and the number and URL of the pull request or the error; `none` when the
call panics instead of returning. The test of step 3,
`err != nil && resp.StatusCode != 404`, dereferences the response: with an
error and a nil response it panics. -/
def CreatePR {γ : Type} (api : GitHubAPI γ) (g : γ) (req : PRRequest) :
    γ × Option (Except String (Int × String)) :=
  match api.getRef g req.owner req.repo ("refs/heads/" ++ req.baseBranch) with
  | .error err => (g, some (.error ("failed to get base branch: " ++ err)))
  | .ok baseSHA =>
    let created : Except String γ :=
      match api.createRef g req.owner req.repo ("refs/heads/" ++ req.headBranch) baseSHA with
      | .ok g1 => .ok g1
      | .error _ =>
        match api.updateRef g req.owner req.repo ("refs/heads/" ++ req.headBranch) baseSHA with
        | .ok g1 => .ok g1
        | .error err => .error ("failed to create/update branch: " ++ err)
    match created with
    | .error err => (g, some (.error err))
    | .ok g1 =>
      let current : Option (Except String (Option String)) :=
        match api.getContents g1 req.owner req.repo req.filePath req.headBranch with
        | .error (err, resp) =>
          match resp with
          | none => none
          | some statusCode =>
            if statusCode ≠ 404 then some (.error ("failed to get current file: " ++ err))
            else some (.ok none)
        | .ok fileContent => some (.ok fileContent.sha)
      match current with
      | none => (g1, none)
      | some (.error err) => (g1, some (.error err))
      | some (.ok currentSHA) =>
        let opts : FileOptions :=
          { message := req.commitMessage
            content := req.fileContent
            branch := req.headBranch
            sha := currentSHA }
        let written : Except String γ :=
          match api.createFile g1 req.owner req.repo req.filePath opts with
          | .ok g2 => .ok g2
          | .error _ =>
            match api.updateFile g1 req.owner req.repo req.filePath opts with
            | .ok g2 => .ok g2
            | .error err => .error ("failed to create/update file: " ++ err)
        match written with
        | .error err => (g1, some (.error err))
        | .ok g2 =>
          match api.createPullRequest g2 req.owner req.repo
              { title := req.title, body := req.body, head := req.headBranch,
                base := req.baseBranch } with
          | .error err => (g2, some (.error ("failed to create pull request: " ++ err)))
          | .ok (g3, number, url) => (g3, some (.ok (number, url)))

/-! ## `github-app/internal/remediation/processor.go` -/

/-- A line written by the logger of the processor: the message and the keys and
values logged with it. -/
structure LogLine where
  message : String
  values : StrMap
  deriving DecidableEq, Repr

/-- The `Processor`: the two clients and the namespace; the patcher and the
logger have no fields that the processor reads. -/
structure Processor (σ γ : Type) where
  k8sClient : K8sClient σ
  githubClient : GitHubAPI γ
  ns : String

/-- Function `NewProcessor(k8sClient, githubClient, logger, namespace)`. -/
def NewProcessor {σ γ : Type} (k8sClient : K8sClient σ) (githubClient : GitHubAPI γ)
    (ns : String) : Processor σ γ :=
  { k8sClient := k8sClient, githubClient := githubClient, ns := ns }

/-- What the worker acts on: the store, the remote repository and the log, and
whether the process of the worker has panicked. No code of the worker recovers
a panic, so the process ends with it: a process that has panicked runs nothing
more. -/
structure WorkerState (σ γ : Type) where
  store : σ
  remote : γ
  log : List LogLine
  panicked : Bool := false

/-- Method `fetchManifestFromGitHub(ctx, owner, repo, path, branch)`. -/
def fetchManifestFromGitHub {σ γ : Type} (p : Processor σ γ) (g : γ)
    (owner repo path branch : String) : Except String String :=
  match p.githubClient.getContents g owner repo path branch with
  | .error (err, _) => .error err
  | .ok fileContent =>
    match fileContent.content with
    | .error err => .error err
    | .ok content => .ok content

/-- Method `interpolateManifestPath(template, remediation)`. -/
def interpolateManifestPath (template : String) (remediation : Remediation) : String :=
  let result := template
  let result := ReplaceAll result "{environment}" remediation.spec.strategy.environment
  let result := ReplaceAll result "{namespace}" remediation.spec.target.ns
  let result := ReplaceAll result "{name}" remediation.spec.target.name
  result

/-- Method `generatePRTitle(remediation, template)`. -/
def generatePRTitle (remediation : Remediation) (template : String) : String :=
  let template := if template = "" then "[heal8s] {action}: {target} in {namespace}" else template
  let result := template
  let result := ReplaceAll result "{action}" remediation.spec.action.type
  let result := ReplaceAll result "{target}" remediation.spec.target.name
  let result := ReplaceAll result "{namespace}" remediation.spec.target.ns
  let result := ReplaceAll result "{alert}" remediation.spec.alert.name
  result

/-- Method `generatePRBody(remediation)`. -/
def generatePRBody (lib : WorkerLib) (remediation : Remediation) : String :=
  let body :=
    "## heal8s Automatic Remediation\n\n**Alert**: " ++ remediation.spec.alert.name ++
    "\n**Severity**: " ++ remediation.spec.alert.severity ++
    "\n**Target**: " ++ remediation.spec.target.ns ++ "/" ++ remediation.spec.target.name ++
    " (" ++ remediation.spec.target.kind ++ ")" ++
    "\n**Action**: " ++ remediation.spec.action.type ++
    "\n\n### Details\n\nThis PR was automatically generated in response to a " ++
    remediation.spec.alert.name ++ " alert in " ++ remediation.spec.target.ns ++
    ".\n\n**Fingerprint**: " ++ remediation.spec.alert.fingerprint ++
    "\n**Timestamp**: " ++ lib.rfc3339 remediation.creationTimestamp ++
    "\n\n### Changes\n\n"
  let body :=
    if remediation.spec.action.type = ActionTypeIncreaseMemory then
      body ++ "- Increase memory limits by " ++
        mapGet remediation.spec.action.params "memoryIncreasePercent" ++ "%\n" ++
        "- Maximum memory: " ++ mapGet remediation.spec.action.params "maxMemory" ++ "\n"
    else if remediation.spec.action.type = ActionTypeScaleUp then
      body ++ "- Scale up by " ++ mapGet remediation.spec.action.params "scaleUpPercent" ++
        "%\n" ++
        "- Maximum replicas: " ++ mapGet remediation.spec.action.params "maxReplicas" ++ "\n"
    else body
  let body := body ++ "\n### Review Checklist\n\n"
  let body := body ++ "- [ ] Verify the changes are appropriate\n"
  let body := body ++ "- [ ] Check resource limits and quotas\n"
  let body := body ++ "- [ ] Ensure no sensitive data is exposed\n"
  let body := body ++ "- [ ] Merge when ready\n"
  body

/-- Method `generateBranchName(remediation)`. -/
def generateBranchName (lib : WorkerLib) (remediation : Remediation) : String :=
  let timestamp := lib.stamp remediation.creationTimestamp
  "heal8s/" ++ lib.toLower remediation.spec.action.type ++ "/" ++
    remediation.spec.target.name ++ "-" ++ timestamp

/-- A call `logger.Info(message, keysAndValues...)` or `logger.Error(...)`: the
line is appended to the log. -/
def WorkerState.logged {σ γ : Type} (w : WorkerState σ γ) (message : String) (values : StrMap) :
    WorkerState σ γ :=
  { w with log := w.log ++ [{ message := message, values := values }] }

/-- The names of the records on which `processRemediation` was invoked, read
off the log in order. -/
def processedNames (log : List LogLine) : List String :=
  (log.filter fun line => decide (line.message = "processing remediation")).map fun line =>
    mapGet line.values "remediation"

/-- Method `updateStatusPRCreated(ctx, remediation, prNumber, prURL)`: the state
after the call and the returned error; `now` is the reading of `metav1.Now()`. -/
def updateStatusPRCreated {σ γ : Type} (p : Processor σ γ) (now : Int) (w : WorkerState σ γ)
    (remediation : Remediation) (prNumber : Int) (prURL : String) :
    WorkerState σ γ × Option String :=
  let remediation : Remediation :=
    { remediation with
      status :=
        { remediation.status with
          phase := RemediationPhasePRCreated
          reason := "GitHub PR created successfully"
          prNumber := prNumber
          prURL := prURL
          lastUpdateTime := some now } }
  match UpdateRemediationStatus p.k8sClient w.store remediation with
  | .error err => (w, some err)
  | .ok s1 => ({ w with store := s1 }, none)

/-- Method `updateStatusFailed(ctx, remediation, reason)`: the state after the
call and the returned error; `now` is the reading of `metav1.Now()`. -/
def updateStatusFailed {σ γ : Type} (p : Processor σ γ) (now : Int) (w : WorkerState σ γ)
    (remediation : Remediation) (reason : String) : WorkerState σ γ × Option String :=
  let remediation : Remediation :=
    { remediation with
      status :=
        { remediation.status with
          phase := RemediationPhaseFailed
          reason := reason
          lastUpdateTime := some now
          resolvedAt := some now } }
  match UpdateRemediationStatus p.k8sClient w.store remediation with
  | .error err => (w, some err)
  | .ok s1 => ({ w with store := s1 }, none)

/-- The `PRRequest` that `processRemediation` builds for a record, its GitHub
configuration, the interpolated path and the patched manifest. -/
def newPRRequest (lib : WorkerLib) (remediation : Remediation) (ghConfig : GitHubConfig)
    (manifestPath patchedManifest : String) : PRRequest :=
  let prTitle := generatePRTitle remediation ghConfig.prTitleTemplate
  let prBody := generatePRBody lib remediation
  let headBranch := generateBranchName lib remediation
  { owner := ghConfig.owner
    repo := ghConfig.repo
    title := prTitle
    body := prBody
    baseBranch := ghConfig.baseBranch
    headBranch := headBranch
    filePath := manifestPath
    fileContent := patchedManifest
    commitMessage :=
      "heal8s: " ++ remediation.spec.action.type ++ " for " ++
        remediation.spec.target.ns ++ "/" ++ remediation.spec.target.name }

/-- Method `processRemediation(ctx, remediation)`: the state after the call and
the returned error; `now` is the reading of `metav1.Now()` of the status
update. When `CreatePR` panics the call does not return: the state is marked
as panicked where the panic occurs, with no status written and no error
returned. -/
def processRemediation {σ γ : Type} (lib : WorkerLib) (p : Processor σ γ) (now : Int)
    (w : WorkerState σ γ) (remediation : Remediation) : WorkerState σ γ × Option String :=
  if w.panicked then (w, none)
  else
  let w := w.logged "processing remediation" [("remediation", remediation.name)]
  match remediation.spec.gitHub with
  | none => (w, some "GitHub config is nil")
  | some ghConfig =>
    let manifestPath := interpolateManifestPath ghConfig.manifestPath remediation
    let w := w.logged "fetching manifest from GitHub"
      [("remediation", remediation.name), ("path", manifestPath)]
    match fetchManifestFromGitHub p w.remote ghConfig.owner ghConfig.repo manifestPath
        ghConfig.baseBranch with
    | .error err => updateStatusFailed p now w remediation ("Failed to fetch manifest: " ++ err)
    | .ok manifest =>
      let w := w.logged "patching manifest" [("remediation", remediation.name)]
      match PatchManifest lib manifest remediation with
      | .error err => updateStatusFailed p now w remediation ("Failed to patch manifest: " ++ err)
      | .ok patchedManifest =>
        let w := w.logged "creating GitHub PR" [("remediation", remediation.name)]
        match CreatePR p.githubClient w.remote
            (newPRRequest lib remediation ghConfig manifestPath patchedManifest) with
        | (g1, none) => ({ w with remote := g1, panicked := true }, none)
        | (g1, some (.error err)) =>
          updateStatusFailed p now { w with remote := g1 } remediation
            ("Failed to create PR: " ++ err)
        | (g1, some (.ok (prNumber, prURL))) =>
          let w := ({ w with remote := g1 } : WorkerState σ γ).logged "PR created successfully"
            [("remediation", remediation.name), ("number", toString prNumber), ("url", prURL)]
          updateStatusPRCreated p now w remediation prNumber prURL

/-- The loop of `processPendingRemediations` over the listed items, from the
item of index `i` on: an error of `processRemediation` is logged and the loop
continues. `now i` is the reading of `metav1.Now()` while the item of index `i`
is processed. After a call that panics the loop is gone with the process: the
calls for the remaining items run nothing. -/
def processItems {σ γ : Type} (lib : WorkerLib) (p : Processor σ γ) (now : Nat → Int) :
    Nat → List Remediation → WorkerState σ γ → WorkerState σ γ
  | _, [], w => w
  | i, rem :: rest, w =>
    match processRemediation lib p (now i) w rem with
    | (w1, some err) =>
      processItems lib p now (i + 1) rest
        (w1.logged "failed to process remediation"
          [("error", err), ("name", rem.name), ("namespace", rem.ns)])
    | (w1, none) => processItems lib p now (i + 1) rest w1

/-- Method `processPendingRemediations(ctx)`: one poll of the worker, the state
after it and the returned error. -/
def processPendingRemediations {σ γ : Type} (lib : WorkerLib) (p : Processor σ γ)
    (now : Nat → Int) (w : WorkerState σ γ) : WorkerState σ γ × Option String :=
  if w.panicked then (w, none)
  else
  match ListPendingRemediations p.k8sClient w.store p.ns with
  | .error err => (w, some ("failed to list pending remediations: " ++ err))
  | .ok items =>
    if items.length = 0 then (w, none)
    else
      let w := w.logged "found pending remediations" [("count", toString items.length)]
      (processItems lib p now 0 items w, none)

/-! ## `github-app/internal/config/config.go` and `cmd/server/main.go` -/

/-- The `GitHubConfig` of the configuration of the worker. -/
structure GitHubAppConfig where
  appID : Int
  installationID : Int
  privateKeyPath : String
  deriving DecidableEq, Repr

/-- The `KubernetesConfig` of the configuration. -/
structure KubernetesConfig where
  kubeconfig : String
  ns : String
  deriving DecidableEq, Repr

/-- The `ProcessorConfig` of the configuration. -/
structure ProcessorConfig where
  pollInterval : String
  batchSize : Int
  deriving DecidableEq, Repr

/-- The `Config` of the worker. -/
structure Config where
  gitHub : GitHubAppConfig
  kubernetes : KubernetesConfig
  processor : ProcessorConfig
  deriving DecidableEq, Repr

/-- Function `LoadConfig(path)`; `parsed` is the result of reading the file and
of `yaml.Unmarshal` into a zero `Config`. -/
def LoadConfig (parsed : Except String Config) : Except String Config :=
  match parsed with
  | .error err => .error err
  | .ok config =>
    let config : Config :=
      if config.processor.pollInterval = "" then
        { config with processor := { config.processor with pollInterval := "10s" } }
      else config
    let config : Config :=
      if config.processor.batchSize = 0 then
        { config with processor := { config.processor with batchSize := 10 } }
      else config
    let config : Config :=
      if config.kubernetes.ns = "" then
        { config with kubernetes := { config.kubernetes with ns := "heal8s-system" } }
      else config
    .ok config

/-- Function `getEnv(key, defaultValue)`; `getenv` is `os.Getenv`. -/
def getEnv (getenv : String → String) (key defaultValue : String) : String :=
  if getenv key ≠ "" then getenv key else defaultValue

/-- Functions `getEnvInt(key, defaultValue)` and `getEnvInt64`. -/
def getEnvInt (getenv : String → String) (sscanInt : String → Option Int) (key : String)
    (defaultValue : Int) : Int :=
  if getenv key ≠ "" then
    match sscanInt (getenv key) with
    | some result => result
    | none => defaultValue
  else defaultValue

/-- Function `LoadFromEnv()`. -/
def LoadFromEnv (getenv : String → String) (sscanInt : String → Option Int) :
    Except String Config :=
  let config : Config :=
    { gitHub :=
        { appID := getEnvInt getenv sscanInt "GITHUB_APP_ID" 0
          installationID := getEnvInt getenv sscanInt "GITHUB_INSTALLATION_ID" 0
          privateKeyPath := getEnv getenv "GITHUB_PRIVATE_KEY_PATH" "/secrets/github-app.pem" }
      kubernetes :=
        { kubeconfig := getEnv getenv "KUBECONFIG" ""
          ns := getEnv getenv "K8S_NAMESPACE" "heal8s-system" }
      processor :=
        { pollInterval := getEnv getenv "POLL_INTERVAL" "10s"
          batchSize := getEnvInt getenv sscanInt "BATCH_SIZE" 10 } }
  if config.gitHub.appID = 0 then .error "GITHUB_APP_ID is required"
  else if config.gitHub.installationID = 0 then .error "GITHUB_INSTALLATION_ID is required"
  else .ok config

/-- The processor that `main` creates from the loaded configuration: the only
field of the configuration passed to `NewProcessor` is the namespace. -/
def mainProcessor {σ γ : Type} (cfg : Config) (k8sClient : K8sClient σ)
    (githubClient : GitHubAPI γ) : Processor σ γ :=
  NewProcessor k8sClient githubClient cfg.kubernetes.ns

/-! ## Manifest path templates -/

/-- A piece of a manifest path template, as the specification describes one:
literal text or one of the three placeholders. -/
inductive PathSegment where
  | literal (text : String)
  | environment
  | targetNamespace
  | targetName
  deriving DecidableEq, Repr

/-- The text of a piece inside a template. -/
def PathSegment.text : PathSegment → String
  | .literal text => text
  | .environment => "{environment}"
  | .targetNamespace => "{namespace}"
  | .targetName => "{name}"

/-- The template that a list of pieces spells. -/
def templateOf : List PathSegment → String
  | [] => ""
  | segment :: rest => segment.text ++ templateOf rest

/-- The path that the specification assigns to a template: every placeholder
replaced by the value of the record, literal text kept. -/
def specInterpolate (remediation : Remediation) : List PathSegment → String
  | [] => ""
  | .literal text :: rest => text ++ specInterpolate remediation rest
  | .environment :: rest =>
    remediation.spec.strategy.environment ++ specInterpolate remediation rest
  | .targetNamespace :: rest => remediation.spec.target.ns ++ specInterpolate remediation rest
  | .targetName :: rest => remediation.spec.target.name ++ specInterpolate remediation rest

/-- A string without brace characters. -/
def BraceFree (s : String) : Prop := '{' ∉ s.data ∧ '}' ∉ s.data

instance (s : String) : Decidable (BraceFree s) := by
  unfold BraceFree
  infer_instance

/-- A piece of a template is admissible when it is a placeholder or literal
text without brace characters. -/
def PathSegment.Admissible : PathSegment → Prop
  | .literal text => BraceFree text
  | _ => True

instance (segment : PathSegment) : Decidable segment.Admissible := by
  cases segment <;> unfold PathSegment.Admissible <;> infer_instance

/-! ## Outcomes of the worker and steps of the system -/

/-- The status that the worker leaves on a record it has processed, in terms of
the status before: `Failed` with a reason that names the failed step and with
`ResolvedAt` set, or `PRCreated` with the number and URL of the pull request;
`now j` is the reading of the clock. Every other field is as before. -/
def WorkerOutcome (now : Nat → Int) (before after : RemediationStatus) : Prop :=
  (∃ j e reason,
    (reason = "Failed to fetch manifest: " ++ e ∨ reason = "Failed to patch manifest: " ++ e ∨
      reason = "Failed to create PR: " ++ e) ∧
    after = { before with
              phase := RemediationPhaseFailed
              reason := reason
              lastUpdateTime := some (now j)
              resolvedAt := some (now j) }) ∨
  (∃ j n u,
    after = { before with
              phase := RemediationPhasePRCreated
              reason := "GitHub PR created successfully"
              prNumber := n
              prURL := u
              lastUpdateTime := some (now j) })

/-- The terminal phases: those of the case `Succeeded, Failed, Expired` of
`Reconcile`. -/
def terminalPhase (phase : String) : Prop :=
  phase = RemediationPhaseSucceeded ∨ phase = RemediationPhaseFailed ∨
    phase = RemediationPhaseExpired

instance (phase : String) : Decidable (terminalPhase phase) := by
  unfold terminalPhase
  infer_instance

/-- The invariant of the two time stamps: `ResolvedAt` is set exactly in the
terminal phases, and `AppliedAt` is set only in `Succeeded` or `Failed`. -/
def TimesInvariant (status : RemediationStatus) : Prop :=
  (status.resolvedAt.isSome ↔ terminalPhase status.phase) ∧
    (status.appliedAt.isSome → status.phase = RemediationPhaseSucceeded ∨
      status.phase = RemediationPhaseFailed)

/-- What one step of the controller or of the worker does to the time stamps of
a status: nothing at all; or, from a phase that is not terminal, a move to a
phase that is not terminal with both stamps kept, a move to `Failed` or
`Expired` that sets `ResolvedAt` and keeps `AppliedAt`, or a move to
`Succeeded` that sets both. -/
def StatusStep (before after : RemediationStatus) : Prop :=
  after = before ∨
    (¬ terminalPhase before.phase ∧
      ((¬ terminalPhase after.phase ∧ after.resolvedAt = before.resolvedAt ∧
          after.appliedAt = before.appliedAt) ∨
        ((after.phase = RemediationPhaseFailed ∨ after.phase = RemediationPhaseExpired) ∧
          (∃ t, after.resolvedAt = some t) ∧ after.appliedAt = before.appliedAt) ∨
        (after.phase = RemediationPhaseSucceeded ∧
          ∃ t, after.resolvedAt = some t ∧ after.appliedAt = some t)))

/-- A step of the system: a call of `Reconcile` for a key, a poll of the worker,
or the worker processing the record of a key that `ListPendingRemediations`
selects in the current store. -/
inductive SystemStep where
  | reconcile (ns name : String) (now : Int)
  | poll (now : Nat → Int)
  | process (ns name : String) (now : Int)

/-- The state after a step; the steps run one after the other on the store as a
map, the controller with `lib.parseQuantity` as `resource.ParseQuantity`. -/
def SystemStep.run {γ : Type} (lib : WorkerLib) (api : GitHubAPI γ) (nsp : String)
    (parseDuration : String → Option Int) :
    SystemStep → WorkerState Store γ → WorkerState Store γ
  | .reconcile ns name now, w =>
    { w with
      store := (Reconcile mapClient lib.parseQuantity parseDuration now w.store ns name).1 }
  | .poll now, w => (processPendingRemediations lib (NewProcessor mapK8sClient api nsp) now w).1
  | .process ns name now, w =>
    match ListPendingRemediations mapK8sClient w.store nsp with
    | .error _ => w
    | .ok items =>
      match items.find? fun x => decide (x.ns = ns ∧ x.name = name) with
      | none => w
      | some r => (processRemediation lib (NewProcessor mapK8sClient api nsp) now w r).1

/-- The state after a sequence of steps. -/
def runSteps {γ : Type} (lib : WorkerLib) (api : GitHubAPI γ) (nsp : String)
    (parseDuration : String → Option Int) :
    List SystemStep → WorkerState Store γ → WorkerState Store γ
  | [], w => w
  | step :: rest, w =>
    runSteps lib api nsp parseDuration rest (step.run lib api nsp parseDuration w)

/-! ## The eviction pass of the deduplicator -/

/-- One pass of the loop body of `AlertDeduplicator.cleanup()` run when the
clock reads `now`: under the lock, `for key, lastSeen := range d.seen`, every
key whose value has `time.Since(lastSeen) > d.ttl` is deleted. The table is a
map, one value per key, which is the value `lookup` finds; all entries of a
deleted key go. The ticker that starts a pass every five minutes is not part
of the pass. -/
def cleanupPass (now : Int) (d : AlertDeduplicator) : AlertDeduplicator :=
  { d with
    seen := d.seen.filter fun e =>
      match d.seen.lookup e.1 with
      | some lastSeen => !decide (now - lastSeen > d.ttl)
      | none => true }

/-- The record with its `Spec.Strategy.Mode` replaced, to compare what the
worker selects under two modes. -/
def Remediation.withMode (mode : String) (r : Remediation) : Remediation :=
  { r with spec := { r.spec with strategy := { r.spec.strategy with mode := mode } } }

/-! ## Sample data

Concrete inputs taken from `oom_test.go`, `router_test.go` and
`remediation_controller_test.go`, and inputs for the GitOps worker, on which
the theorems below are instantiated. -/

/-- A fragment of `resource.ParseQuantity`, enough to instantiate the parameter
of `ApplyIncreaseMemory`: decimal digits, then nothing or one of the binary
suffixes `Ki`, `Mi`, `Gi`. -/
def parseBinaryQuantity (s : String) : Option Quantity :=
  let digits := s.data.takeWhile fun c => decide (48 ≤ c.toNat ∧ c.toNat ≤ 57)
  let suffix := s.data.dropWhile fun c => decide (48 ≤ c.toNat ∧ c.toNat ≤ 57)
  if digits = [] then none
  else
    match parseDigits digits 0 with
    | none => none
    | some n =>
      if suffix = [] then some (n : Int)
      else if suffix = ['K', 'i'] then some ((n : Int) * 1024)
      else if suffix = ['M', 'i'] then some ((n : Int) * Mi)
      else if suffix = ['G', 'i'] then some ((n : Int) * Gi)
      else none

/-- The Deployment of the first case of `TestApplyIncreaseMemory`, with three replicas. -/
def sampleDeployment : Deployment :=
  { name := "test-deployment"
    ns := "default"
    annotations := []
    replicas := some 3
    containers :=
      [ { name := "app"
          image := "nginx"
          limits := [(ResourceMemory, 256 * Mi)]
          requests := [(ResourceMemory, 128 * Mi)] } ] }

/-- The params of the first case of `TestApplyIncreaseMemory`. -/
def sampleParams : StrMap := [("memoryIncreasePercent", "25"), ("maxMemory", "2Gi")]

/-- A Deployment whose replica count is close to the top of `int32`. -/
def hugeDeployment : Deployment :=
  { name := "huge"
    ns := "default"
    annotations := []
    replicas := some 1500000000
    containers := [] }

/-- The alert of the first case of `TestRouteAlert`. -/
def sampleAlert : Alert :=
  { labels :=
      [ ("alertname", "KubePodOOMKilled"), ("namespace", "prod"), ("deployment", "api-service"),
        ("container", "api"), ("severity", "critical") ]
    annotations := [("description", "Pod was OOMKilled")]
    status := "firing"
    startsAt := ""
    fingerprint := "abc123" }

/-- A fragment of `time.ParseDuration`, enough to instantiate the parameter of
`Reconcile`: decimal digits followed by one of the units `h`, `m`, `s`, in
nanoseconds. -/
def parseSimpleDuration (s : String) : Option Int :=
  let digits := s.data.takeWhile fun c => decide (48 ≤ c.toNat ∧ c.toNat ≤ 57)
  let unit := s.data.dropWhile fun c => decide (48 ≤ c.toNat ∧ c.toNat ≤ 57)
  if digits = [] then none
  else
    match parseDigits digits 0 with
    | none => none
    | some n =>
      if unit = ['h'] then some ((n : Int) * 3600 * 1000000000)
      else if unit = ['m'] then some ((n : Int) * 60 * 1000000000)
      else if unit = ['s'] then some ((n : Int) * 1000000000)
      else none

/-- The Deployment of `TestRemediationReconciler_IncreaseMemory`. -/
def testApp : Deployment :=
  { name := "test-app"
    ns := "default"
    annotations := []
    replicas := some 1
    containers :=
      [ { name := "app"
          image := "nginx:latest"
          limits := [(ResourceMemory, 256 * Mi)]
          requests := [(ResourceMemory, 128 * Mi)] } ] }

/-- The Remediation of `TestRemediationReconciler_IncreaseMemory`, in phase
`Analyzing`, created at the instant 0. -/
def testOOM : Remediation :=
  { name := "test-oom"
    ns := "default"
    labels := []
    generation := 1
    creationTimestamp := 0
    spec :=
      { alert :=
          { name := "KubePodOOMKilled"
            alertID := ""
            fingerprint := "test123"
            source := "test"
            severity := "critical"
            payload := "" }
        target := { kind := "Deployment", name := "test-app", ns := "default", container := "app" }
        action :=
          { type := ActionTypeIncreaseMemory
            params := [("memoryIncreasePercent", "25"), ("maxMemory", "2Gi")] }
        strategy :=
          { mode := StrategyModeDirect, requireApproval := false, environment := "", ttl := "1h" }
        gitHub := none }
    status := { RemediationStatus.zero with phase := RemediationPhaseAnalyzing } }

/-- The record `testOOM` moved to another phase. -/
def testOOMIn (phase : String) : Remediation :=
  { testOOM with status := { testOOM.status with phase := phase } }

/-- The store of `TestRemediationReconciler_IncreaseMemory` with the record in
the given phase. -/
def testStore (phase : String) : Store :=
  { remediations := [testOOMIn phase], deployments := [testApp], statefulSets := [],
    daemonSets := [] }

/-- The record `testOOM` with an empty phase and an `AlertReceived` condition
already in its status, as after a reset of the phase by hand. -/
def resetOOM : Remediation :=
  { testOOM with
    status :=
      { RemediationStatus.zero with
        conditions :=
          [ { type := "AlertReceived"
              status := ConditionTrue
              observedGeneration := 1
              lastTransitionTime := 1
              reason := "AlertReceived"
              message := "Alert KubePodOOMKilled received from test" } ] } }

/-- The decimal digits of a natural number, padded with zeros to a width. -/
def padNat (width n : Nat) : String :=
  String.mk (List.replicate (width - (toString n).length) '0') ++ toString n

/-- The civil date and time of day that a `time.Time` shows in its zone (year,
month, day, hour, minute, second), for the proleptic Gregorian calendar. -/
def civilTime (t : Time) : Nat × Nat × Nat × Nat × Nat × Nat :=
  let wall := t.unixNano / 1000000000 + t.zoneOffset
  let days := wall / 86400
  let secs := wall % 86400
  let z := days + 719468
  let era := z / 146097
  let doe := z - era * 146097
  let yoe := (doe - doe / 1460 + doe / 36524 - doe / 146096) / 365
  let doy := doe - (365 * yoe + yoe / 4 - yoe / 100)
  let mp := (5 * doy + 2) / 153
  let d := doy - (153 * mp + 2) / 5 + 1
  let m := if mp < 10 then mp + 3 else mp - 9
  let y := yoe + era * 400 + (if m ≤ 2 then 1 else 0)
  (y.toNat, m.toNat, d.toNat, (secs / 3600).toNat, (secs % 3600 / 60).toNat, (secs % 60).toNat)

/-- The formatting `t.Format("20060102-150405")`, to instantiate the parameter
`compact`. -/
def formatCompact (t : Time) : String :=
  let c := civilTime t
  padNat 4 c.1 ++ padNat 2 c.2.1 ++ padNat 2 c.2.2.1 ++ "-" ++ padNat 2 c.2.2.2.1 ++
    padNat 2 c.2.2.2.2.1 ++ padNat 2 c.2.2.2.2.2

/-- The formatting `t.Format(time.RFC3339)`, to instantiate the parameter
`rfc3339`. -/
def formatRFC3339 (t : Time) : String :=
  let c := civilTime t
  let zone :=
    if t.zoneOffset = 0 then "Z"
    else
      (if t.zoneOffset < 0 then "-" else "+") ++ padNat 2 (t.zoneOffset.natAbs / 3600) ++ ":" ++
        padNat 2 (t.zoneOffset.natAbs % 3600 / 60)
  padNat 4 c.1 ++ "-" ++ padNat 2 c.2.1 ++ "-" ++ padNat 2 c.2.2.1 ++ "T" ++
    padNat 2 c.2.2.2.1 ++ ":" ++ padNat 2 c.2.2.2.2.1 ++ ":" ++ padNat 2 c.2.2.2.2.2 ++ zone

/-- A stand-in for `json.Marshal` of an alert, to instantiate the parameter
`marshal`: it keeps the fingerprint only. -/
def marshalFingerprint (alert : AlertPayload) : String := alert.fingerprint

/-- The instant 2024-01-01T12:00:00Z. -/
def noon : Time := { unixNano := 1704110400 * 1000000000, zoneOffset := 0 }

/-- A firing alert `KubePodOOMKilled` on the Deployment `prod/api-service`,
started at `noon`. -/
def oomAlert : AlertPayload :=
  { status := "firing"
    labels :=
      [ ("alertname", "KubePodOOMKilled"), ("namespace", "prod"), ("deployment", "api-service"),
        ("container", "api"), ("severity", "critical") ]
    annotations := []
    startsAt := noon
    endsAt := { unixNano := 0, zoneOffset := 0 }
    generatorURL := ""
    fingerprint := "abc123" }

/-- A stand-in for `json.Unmarshal`, to instantiate the parameter `unmarshal`:
every body decodes to the given payload. -/
def unmarshalAs (payload : AlertmanagerWebhookPayload) :
    String → Option AlertmanagerWebhookPayload :=
  fun _ => some payload

/-- A webhook payload that carries the given alerts. -/
def payloadOf (alerts : List AlertPayload) : AlertmanagerWebhookPayload :=
  { version := "4", receiver := "heal8s", status := "firing", groupKey := "", groupLabels := [],
    commonLabels := [], commonAnnotations := [], externalURL := "", alerts := alerts }

/-- A resolved alert whose alertname has no route. -/
def resolvedUnrouted : AlertPayload :=
  { status := "resolved"
    labels := [("alertname", "NotConfigured"), ("namespace", "prod"), ("deployment", "api-service")]
    annotations := []
    startsAt := noon
    endsAt := noon
    generatorURL := ""
    fingerprint := "def456" }

/-- The store with nothing in it. -/
def emptyStore : Store :=
  { remediations := [], deployments := [], statefulSets := [], daemonSets := [] }

/-- A firing alert with the fingerprint and start of `oomAlert` that has no
namespace label and so does not route. -/
def strayAlert : AlertPayload :=
  { oomAlert with labels := [("alertname", "KubePodOOMKilled"), ("pod", "api-service-1")] }

/-- A Deployment whose container `app` has a memory limit of 4Gi, above the
default cap of 2Gi. -/
def largeDeployment : Deployment :=
  { name := "test-app"
    ns := "default"
    annotations := []
    replicas := some 20
    containers :=
      [ { name := "app"
          image := "nginx:1.25"
          limits := [(ResourceMemory, 4 * Gi)]
          requests := [(ResourceMemory, 4 * Gi)] } ] }

/-- A Deployment whose container `app` has a memory limit of 4Ei bytes. -/
def exaDeployment : Deployment :=
  { largeDeployment with
    containers :=
      [ { name := "app"
          image := "nginx:1.25"
          limits := [(ResourceMemory, 4096 * 1024 * 1024 * Gi)]
          requests := [(ResourceMemory, 4096 * 1024 * 1024 * Gi)] } ] }

/-- The client of the store as a map whose reads of Deployments fail with an
error that is not not-found, as on a timeout of the API server. -/
def timeoutClient : Client Store :=
  { mapClient with
    getDeployment := fun _ _ _ =>
      .error { notFound := false, message := "context deadline exceeded" } }

/-- A GitHub configuration with the manifest path template of the worker. -/
def gitOpsConfig : GitHubConfig :=
  { enabled := true
    owner := "acme"
    repo := "manifests"
    baseBranch := "main"
    manifestPath := "k8s/{environment}/{namespace}/{name}.yaml"
    prTitleTemplate := ""
    prLabels := []
    autoMerge := false }

/-- A record in phase `Pending`, in GitOps mode and with `gitOpsConfig`, for
the Deployment `test-app`. -/
def gitOpsOOM (name : String) : Remediation :=
  { testOOM with
    name := name
    spec :=
      { testOOM.spec with
        strategy :=
          { mode := StrategyModeGitOps, requireApproval := true, environment := "prod",
            ttl := "24h" }
        gitHub := some gitOpsConfig }
    status := { RemediationStatus.zero with phase := RemediationPhasePending } }

/-- A remote repository: references with their SHA, files by branch and path,
and the pull requests opened. -/
structure Repository where
  refs : List (String × String)
  files : List ((String × String) × String)
  pulls : List NewPullRequest
  deriving DecidableEq, Repr

/-- A client of a `Repository`, enough to instantiate the parameter of the
worker: a reference or file is created when it is absent and updated when it is
present, and the pull requests are numbered from 1. -/
def repoAPI : GitHubAPI Repository :=
  { getRef := fun g _ _ ref =>
      match g.refs.lookup ref with
      | some sha => .ok sha
      | none => .error "Not Found"
    createRef := fun g _ _ ref sha =>
      if (g.refs.lookup ref).isSome then .error "Reference already exists"
      else .ok { g with refs := g.refs ++ [(ref, sha)] }
    updateRef := fun g _ _ ref sha =>
      if (g.refs.lookup ref).isSome then .ok { g with refs := mapSet ref sha g.refs }
      else .error "Reference does not exist"
    getContents := fun g _ _ path ref =>
      match g.files.lookup (ref, path) with
      | some content => .ok { sha := some "blob", content := .ok content }
      | none => .error ("Not Found", some 404)
    createFile := fun g _ _ path opts =>
      if (g.files.lookup (opts.branch, path)).isSome then .error "sha was not supplied"
      else .ok { g with files := g.files ++ [((opts.branch, path), opts.content)] }
    updateFile := fun g _ _ path opts =>
      if (g.files.lookup (opts.branch, path)).isSome then
        .ok { g with
              files := g.files.map fun f =>
                if f.1 = (opts.branch, path) then (f.1, opts.content) else f }
      else .error "Not Found"
    createPullRequest := fun g owner repo pr =>
      .ok ({ g with pulls := g.pulls ++ [pr] }, (g.pulls.length : Int) + 1,
        "https://github.com/" ++ owner ++ "/" ++ repo ++ "/pull/" ++
          toString (g.pulls.length + 1)) }

/-- A fragment of `fmt.Sscanf(val, "%d", &x)`: leading spaces, an optional sign
and the decimal digits that follow, when there is at least one. -/
def scanDecimal (val : String) : Option Int :=
  let rest := val.data.dropWhile fun c => decide (c = ' ')
  let negative := decide (rest.head? = some '-')
  let rest := if rest.head? = some '-' ∨ rest.head? = some '+' then rest.tail else rest
  let digits := rest.takeWhile fun c => decide (48 ≤ c.toNat ∧ c.toNat ≤ 57)
  if digits = [] then none
  else
    match parseDigits digits 0 with
    | none => none
    | some n => if negative then some (-(n : Int)) else some (n : Int)

/-- Library functions for the sample repository: the manifest `test-app.yaml`
decodes to the Deployment `testApp`, and a workload is encoded as the memory
limits of its containers. -/
def sampleLib : WorkerLib :=
  { decode := fun yamlContent =>
      if yamlContent = "kind: Deployment # test-app" then .ok (.deployment testApp)
      else .error "could not get version/kind"
    marshal := fun obj =>
      match obj.podContainers with
      | some containers =>
        .ok (String.intercalate ","
          (containers.map fun c => toString ((c.limits.lookup ResourceMemory).getD 0 / Mi) ++ "Mi"))
      | none => .error "unsupported type"
    sscanInt := scanDecimal
    parseQuantity := parseBinaryQuantity
    rfc3339 := fun t => formatRFC3339 { unixNano := t, zoneOffset := 0 }
    stamp := fun t => formatCompact { unixNano := t, zoneOffset := 0 }
    toLower := fun s => ⟨s.data.map Char.toLower⟩ }

/-- The sample repository: the branch `main` with the manifest of `test-app`
under the interpolated path of `gitOpsConfig`. -/
def sampleRepository : Repository :=
  { refs := [("refs/heads/main", "c0ffee")]
    files := [(("main", "k8s/prod/default/test-app.yaml"), "kind: Deployment # test-app")]
    pulls := [] }

/-- The processor of the sample: the store as a map, the sample repository and
all namespaces. -/
def sampleProcessor : Processor Store Repository :=
  NewProcessor mapK8sClient repoAPI ""

/-- A store with four records for `ListPendingRemediations`: pending with GitHub
enabled, pending with GitHub disabled, pending without GitHub configuration,
and `PRCreated` with GitHub enabled. -/
def mixedStore : Store :=
  { remediations :=
      [ gitOpsOOM "oom-1",
        { gitOpsOOM "oom-2" with
          spec := { (gitOpsOOM "oom-2").spec with
            gitHub := some { gitOpsConfig with enabled := false } } },
        { gitOpsOOM "oom-3" with spec := { (gitOpsOOM "oom-3").spec with gitHub := none } },
        { gitOpsOOM "oom-4" with
          status := { (gitOpsOOM "oom-4").status with phase := RemediationPhasePRCreated } },
        gitOpsOOM "oom-5" ]
    deployments := [testApp]
    statefulSets := []
    daemonSets := [] }

/-- The specification that `RouteAlert` returns for `sampleAlert` under the
default routes. -/
def routedSpec : RemediationSpec :=
  { alert :=
      { name := "KubePodOOMKilled"
        alertID := ""
        fingerprint := "abc123"
        source := "alertmanager"
        severity := "critical"
        payload := "" }
    target := { kind := "Deployment", name := "api-service", ns := "prod", container := "api" }
    action :=
      { type := ActionTypeIncreaseMemory
        params := [("memoryIncreasePercent", "25"), ("maxMemory", "2Gi")] }
    strategy :=
      { mode := StrategyModeGitOps, requireApproval := true, environment := "", ttl := "24h" }
    gitHub := none }

/-- A store whose only record carries `routedSpec` and is in phase `Pending`. -/
def routedStore : Store :=
  { emptyStore with remediations := [{ gitOpsOOM "oom-1" with spec := routedSpec }] }

/-- The configuration that `LoadConfig` returns for a file that sets nothing. -/
def defaultConfig : Config :=
  { gitHub := { appID := 0, installationID := 0, privateKeyPath := "" }
    kubernetes := { kubeconfig := "", ns := "heal8s-system" }
    processor := { pollInterval := "10s", batchSize := 10 } }

/-- A store with eleven pending records of the namespace `heal8s-system`, all
with GitHub enabled. -/
def crowdedStore : Store :=
  { emptyStore with
    remediations :=
      (List.range 11).map fun i =>
        { gitOpsOOM ("oom-" ++ toString i) with ns := "heal8s-system" } }

/-- A store with three pending records for one poll: `oom-1` with the manifest
in the repository, `oom-2` of the environment `staging` whose manifest is
missing, and `oom-3` with the action `RollbackImage`. -/
def pollStore : Store :=
  { remediations :=
      [ gitOpsOOM "oom-1",
        { gitOpsOOM "oom-2" with
          spec := { (gitOpsOOM "oom-2").spec with
            strategy := { (gitOpsOOM "oom-2").spec.strategy with environment := "staging" } } },
        { gitOpsOOM "oom-3" with
          spec := { (gitOpsOOM "oom-3").spec with
            action := { type := ActionTypeRollbackImage, params := [] } } } ]
    deployments := [testApp]
    statefulSets := []
    daemonSets := [] }

/-- A store whose only record is `oom-1` in GitOps mode with an empty status. -/
def freshStore : Store :=
  { remediations := [{ gitOpsOOM "oom-1" with status := RemediationStatus.zero }]
    deployments := [testApp]
    statefulSets := []
    daemonSets := [] }

/-- Three reconciles, a poll of the worker, and a reconcile 25 hours later. -/
def sampleSteps : List SystemStep :=
  [ .reconcile "default" "oom-1" 1, .reconcile "default" "oom-1" 2,
    .reconcile "default" "oom-1" 3, .poll (fun i => 100 + i),
    .reconcile "default" "oom-1" (25 * 3600 * 1000000000) ]

/-- The Deployment of `TestRemediationReconciler_ScaleUp` and of
`TestPatchManifest_ScaleUp`: three replicas. -/
def webApp : Deployment :=
  { name := "web-app"
    ns := "default"
    annotations := []
    replicas := some 3
    containers := [{ name := "web", image := "nginx:latest", limits := [], requests := [] }] }

/-- The Remediation of `TestRemediationReconciler_ScaleUp`, in phase `Analyzing`. -/
def testScale : Remediation :=
  { name := "test-scale"
    ns := "default"
    labels := []
    generation := 1
    creationTimestamp := 0
    spec :=
      { alert :=
          { name := "", alertID := "", fingerprint := "", source := "", severity := "",
            payload := "" }
        target := { kind := "Deployment", name := "web-app", ns := "default", container := "" }
        action :=
          { type := ActionTypeScaleUp
            params := [("scaleUpPercent", "50"), ("maxReplicas", "10")] }
        strategy :=
          { mode := StrategyModeDirect, requireApproval := false, environment := "", ttl := "" }
        gitHub := none }
    status := { RemediationStatus.zero with phase := RemediationPhaseAnalyzing } }

/-- The store of `TestRemediationReconciler_ScaleUp`. -/
def scaleStore : Store :=
  { remediations := [testScale], deployments := [webApp], statefulSets := [], daemonSets := [] }

/-- Library functions for a single manifest: `manifest` decodes to `obj`, and a
workload is encoded as its replica count followed by the memory limits of its
containers. -/
def manifestLib (manifest : String) (obj : Object) : WorkerLib :=
  { sampleLib with
    decode := fun yamlContent =>
      if yamlContent = manifest then .ok obj else .error "could not get version/kind"
    marshal := fun patched =>
      match patched with
      | .deployment d =>
        .ok ("replicas: " ++ toString (d.replicas.getD 1) ++ " memory: " ++
          String.intercalate ","
            (d.containers.map fun c =>
              toString ((c.limits.lookup ResourceMemory).getD 0 / Mi) ++ "Mi"))
      | .statefulSet d =>
        .ok ("replicas: " ++ toString (d.replicas.getD 1) ++ " memory: " ++
          String.intercalate ","
            (d.containers.map fun c =>
              toString ((c.limits.lookup ResourceMemory).getD 0 / Mi) ++ "Mi"))
      | _ => .error "unsupported type" }

/-- A Deployment with two containers of different images and the annotation
`heal8s.io/last-stable-image`. -/
def sidecarDeployment : Deployment :=
  { name := "api"
    ns := "default"
    annotations := [(lastStableImageKey, "myapp:v1")]
    replicas := some 2
    containers :=
      [ { name := "app", image := "myapp:v2", limits := [], requests := [] },
        { name := "proxy", image := "envoy:v1.30", limits := [], requests := [] } ] }

/-- A deduplicator with a TTL of one hour whose table holds the key of `abc`
started at `noon`, seen when the clock read 0. -/
def agedDedup : AlertDeduplicator :=
  { seen := [(dedupKey formatRFC3339 "abc" noon, 0)], ttl := 3600 * 1000000000 }

/-- One minute of the clock, in nanoseconds. -/
def minute : Int := 60 * 1000000000

/-- A StatefulSet with three replicas and a container limited to 256Mi. -/
def database : StatefulSet :=
  { name := "db"
    ns := "default"
    annotations := []
    replicas := some 3
    containers :=
      [ { name := "postgres"
          image := "postgres:16"
          limits := [(ResourceMemory, 256 * Mi)]
          requests := [(ResourceMemory, 128 * Mi)] } ] }

/-- A DaemonSet with a container limited to 256Mi. -/
def logAgent : DaemonSet :=
  { name := "log-agent"
    ns := "default"
    annotations := []
    containers :=
      [ { name := "agent"
          image := "fluentd:v1.16"
          limits := [(ResourceMemory, 256 * Mi)]
          requests := [(ResourceMemory, 128 * Mi)] } ] }

/-- The record `testScale` aimed at the StatefulSet `database`. -/
def scaleDatabase : Remediation :=
  { testScale with
    name := "scale-db"
    spec :=
      { testScale.spec with
        target := { kind := "StatefulSet", name := "db", ns := "default", container := "" } } }

/-- The record `testOOM` aimed at the DaemonSet `logAgent`. -/
def growAgent : Remediation :=
  { testOOM with
    name := "grow-agent"
    spec :=
      { testOOM.spec with
        target :=
          { kind := "DaemonSet", name := "log-agent", ns := "default", container := "agent" } } }

/-- A store with the two records and their targets. -/
def statefulStore : Store :=
  { remediations := [scaleDatabase, growAgent], deployments := [], statefulSets := [database],
    daemonSets := [logAgent] }

/-- A store whose only record is `oom-1` in GitOps mode and in phase
`Analyzing`, with its target `test-app`. -/
def analyzingStore : Store :=
  { remediations :=
      [ { gitOpsOOM "oom-1" with
          status := { RemediationStatus.zero with phase := RemediationPhaseAnalyzing } } ]
    deployments := [testApp]
    statefulSets := []
    daemonSets := [] }

/-- The store after the Analyzing step has run on `analyzingStore` at the
instant 1. -/
def parkedStore : Store :=
  (Reconcile mapClient parseBinaryQuantity parseSimpleDuration 1 analyzingStore "default"
    "oom-1").1

/-- The name, phase and reason of the records of a store. -/
def Store.phases (s : Store) : List (String × String × String) :=
  s.remediations.map fun r => (r.name, r.status.phase, r.status.reason)

/-- A store whose only record is `oom-1` with Strategy Direct,
requireApproval=true and GitHub enabled, in phase `Analyzing`. -/
def approvalStore : Store :=
  { remediations :=
      [ { gitOpsOOM "oom-1" with
          spec :=
            { (gitOpsOOM "oom-1").spec with
              strategy :=
                { mode := StrategyModeDirect, requireApproval := true, environment := "prod",
                  ttl := "24h" } }
          status := { RemediationStatus.zero with phase := RemediationPhaseAnalyzing } } ]
    deployments := [testApp]
    statefulSets := []
    daemonSets := [] }

/-- The record `gitOpsOOM` with the percentage written as `50abc`. -/
def trailingOOM : Remediation :=
  { gitOpsOOM "oom-1" with
    spec :=
      { (gitOpsOOM "oom-1").spec with
        action :=
          { type := ActionTypeIncreaseMemory, params := [("memoryIncreasePercent", "50abc")] } } }

/-- The record `testScale` with the cap written as `ten`. -/
def wordyScale : Remediation :=
  { testScale with
    spec :=
      { testScale.spec with
        action :=
          { type := ActionTypeScaleUp
            params := [("scaleUpPercent", "50"), ("maxReplicas", "ten")] } } }

/-- A record with the action `RollbackImage` of the default route for
`KubePodCrashLooping`, aimed at the Deployment `api`. -/
def rollbackAPI : Remediation :=
  { gitOpsOOM "crash-1" with
    spec :=
      { (gitOpsOOM "crash-1").spec with
        target := { kind := "Deployment", name := "api", ns := "default", container := "" }
        action := { type := ActionTypeRollbackImage, params := [("rollbackMaxRevisions", "5")] } } }

/-- The store of `TestRemediationReconciler_IncreaseMemory` with the record in
phase `Analyzing` and its `Attempts` at 9223372036854775807, the largest `int`. -/
def wornStore : Store :=
  { remediations :=
      [{ testOOM with status := { testOOM.status with attempts := 9223372036854775807 } }]
    deployments := [testApp]
    statefulSets := []
    daemonSets := [] }

/-- The client `repoAPI` on a connection that is lost after the manifest has
been fetched: a read of the base branch `main` goes through, and every other
`GetContents` returns a transport error with a nil response. -/
def flakyAPI : GitHubAPI Repository :=
  { repoAPI with
    getContents := fun g owner repo path ref =>
      if ref = "main" then repoAPI.getContents g owner repo path ref
      else .error ("dial tcp: i/o timeout", none) }

set_option maxRecDepth 100000

/-! ## Maps and lists -/

theorem lookup_mapSet_self {β : Type} (k : String) (v : β) (m : List (String × β)) :
    (mapSet k v m).lookup k = some v := by
  induction m with
  | nil => simp [mapSet, List.lookup]
  | cons kv rest ih =>
    obtain ⟨k0, v0⟩ := kv
    by_cases h : k0 = k
    · simp [mapSet, h, List.lookup]
    · have h2 : (k == k0) = false := by simpa using fun e => h e.symm
      simp [mapSet, h, List.lookup, h2, ih]

theorem lookup_mapSet_ne {β : Type} (k k1 : String) (v : β) (m : List (String × β)) (hne : k1 ≠ k) :
    (mapSet k v m).lookup k1 = m.lookup k1 := by
  induction m with
  | nil =>
    have h2 : (k1 == k) = false := by simpa using hne
    simp [mapSet, List.lookup, h2]
  | cons kv rest ih =>
    obtain ⟨k0, v0⟩ := kv
    by_cases h : k0 = k
    · subst h
      have h2 : (k1 == k0) = false := by simpa using hne
      simp [mapSet, List.lookup, h2]
    · by_cases h3 : k1 = k0
      · subst h3
        simp [mapSet, h, List.lookup]
      · have h4 : (k1 == k0) = false := by simpa using h3
        simp [mapSet, h, List.lookup, h4, ih]

theorem mapGet_eq_empty_iff (m : StrMap) (k : String) :
    mapGet m k = "" ↔ m.lookup k = none ∨ m.lookup k = some "" := by
  unfold mapGet
  cases h : m.lookup k with
  | none => simp
  | some v => simp

theorem updateAt_length {α : Type} (f : α → α) (i : Nat) (l : List α) :
    (updateAt f i l).length = l.length := by
  induction l generalizing i with
  | nil => cases i <;> simp [updateAt]
  | cons x xs ih => cases i <;> simp [updateAt, ih]

theorem updateAt_getElem?_self {α : Type} (f : α → α) (i : Nat) (l : List α) :
    (updateAt f i l)[i]? = (l[i]?).map f := by
  induction l generalizing i with
  | nil => cases i <;> simp [updateAt]
  | cons x xs ih => cases i <;> simp [updateAt, ih]

theorem updateAt_getElem?_ne {α : Type} (f : α → α) (i j : Nat) (l : List α) (hne : j ≠ i) :
    (updateAt f i l)[j]? = l[j]? := by
  induction l generalizing i j with
  | nil => cases i <;> simp [updateAt]
  | cons x xs ih =>
    cases i with
    | zero =>
      cases j with
      | zero => exact absurd rfl hne
      | succ j => simp [updateAt]
    | succ i =>
      cases j with
      | zero => simp [updateAt]
      | succ j =>
        have : j ≠ i := fun e => hne (by rw [e])
        simp [updateAt, ih i j this]

theorem indexOfName_some (containerName : String) (cs : List Container) (i : Nat) :
    indexOfName containerName cs = some i ↔
      (∃ c, cs[i]? = some c ∧ c.name = containerName) ∧
        ∀ j, j < i → ∀ c, cs[j]? = some c → c.name ≠ containerName := by
  induction cs generalizing i with
  | nil => simp [indexOfName]
  | cons c cs ih =>
    by_cases h : c.name = containerName
    · cases i with
      | zero => simp [indexOfName, h]
      | succ i =>
        simp only [indexOfName, h, if_true]
        constructor
        · intro e; cases e
        · rintro ⟨_, h2⟩
          exact absurd h (h2 0 (Nat.succ_pos i) c (by simp))
    · cases i with
      | zero => simp [indexOfName, h]
      | succ i =>
        simp only [indexOfName, h, if_false, Option.map_eq_some', Nat.add_right_cancel_iff,
          exists_eq_right, List.getElem?_cons_succ]
        rw [ih i]
        constructor
        · rintro ⟨h1, h2⟩
          refine ⟨h1, ?_⟩
          intro j hj c0 hc0
          cases j with
          | zero => simp at hc0; subst hc0; exact h
          | succ j => exact h2 j (Nat.lt_of_succ_lt_succ hj) c0 (by simpa using hc0)
        · rintro ⟨h1, h2⟩
          refine ⟨h1, ?_⟩
          intro j hj c0 hc0
          exact h2 (j + 1) (Nat.succ_lt_succ hj) c0 (by simpa using hc0)

theorem indexOfName_none (containerName : String) (cs : List Container) :
    indexOfName containerName cs = none ↔ ∀ c ∈ cs, c.name ≠ containerName := by
  induction cs with
  | nil => simp [indexOfName]
  | cons c cs ih =>
    by_cases h : c.name = containerName
    · simp [indexOfName, h]
    · simp [indexOfName, h, ih]

theorem selectContainer_some (containers : List Container) (containerName : String) (i : Nat) :
    selectContainer containers containerName = some i ↔
      (containerName = "" ∧ containers.length = 1 ∧ i = 0) ∨
        (¬(containerName = "" ∧ containers.length = 1) ∧
          (∃ c, containers[i]? = some c ∧ c.name = containerName) ∧
            ∀ j, j < i → ∀ c, containers[j]? = some c → c.name ≠ containerName) := by
  unfold selectContainer
  by_cases h : containerName = "" ∧ containers.length = 1
  · rw [if_pos h]
    constructor
    · intro e
      exact Or.inl ⟨h.1, h.2, (Option.some.inj e).symm⟩
    · rintro (⟨_, _, e⟩ | ⟨hn, _⟩)
      · rw [e]
      · exact absurd h hn
  · rw [if_neg h, indexOfName_some]
    constructor
    · intro e
      exact Or.inr ⟨h, e⟩
    · rintro (⟨h1, h2, _⟩ | ⟨_, e⟩)
      · exact absurd ⟨h1, h2⟩ h
      · exact e

theorem selectContainer_none (containers : List Container) (containerName : String) :
    selectContainer containers containerName = none ↔
      ¬(containerName = "" ∧ containers.length = 1) ∧ ∀ c ∈ containers, c.name ≠ containerName := by
  unfold selectContainer
  by_cases h : containerName = "" ∧ containers.length = 1
  · rw [if_pos h]
    simp [h]
  · rw [if_neg h, indexOfName_none]
    simp [h]

theorem selectContainer_getElem? (containers : List Container) (containerName : String) (i : Nat)
    (h : selectContainer containers containerName = some i) : ∃ c, containers[i]? = some c := by
  rcases (selectContainer_some containers containerName i).1 h with ⟨_, hl, hi⟩ | ⟨_, ⟨c, hc, _⟩, _⟩
  · subst hi
    match containers, hl with
    | [c], _ => exact ⟨c, rfl⟩
  · exact ⟨c, hc⟩

theorem podContainers_setContainers (obj : Object) (cs cs1 : List Container)
    (h : obj.podContainers = some cs) : (obj.setContainers cs1).podContainers = some cs1 := by
  cases obj <;> simp_all [Object.podContainers, Object.setContainers]

/-! ## binary64 rounding -/

theorem bitLenAux_spec (fuel n : Nat) (hn : n ≠ 0) (hf : n < 2 ^ fuel) :
    ∃ t, bitLenAux fuel n = t + 1 ∧ 2 ^ t ≤ n ∧ n < 2 ^ (t + 1) := by
  induction fuel generalizing n with
  | zero => simp at hf; exact absurd hf hn
  | succ fuel ih =>
    simp only [bitLenAux, hn, if_false]
    by_cases h2 : n / 2 = 0
    · have h1 : n = 1 := by omega
      subst h1
      refine ⟨0, ?_, by norm_num, by norm_num⟩
      cases fuel <;> simp [bitLenAux]
    · have hlt : n / 2 < 2 ^ fuel := by
        rw [pow_succ] at hf
        omega
      obtain ⟨t, ht, hlo, hhi⟩ := ih (n / 2) h2 hlt
      refine ⟨t + 1, by rw [ht], ?_, ?_⟩
      · rw [pow_succ]; omega
      · rw [pow_succ]; omega

theorem bitLen_spec (n : Nat) (hn : n ≠ 0) :
    ∃ t, bitLen n = t + 1 ∧ 2 ^ t ≤ n ∧ n < 2 ^ (t + 1) :=
  bitLenAux_spec n n hn (Nat.lt_two_pow n)

theorem rneDiv_spec (a b : Nat) (hb : 0 < b) :
    2 * (rneDiv a b * b) ≤ 2 * a + b ∧ 2 * a ≤ 2 * (rneDiv a b * b) + b ∧
      (b ∣ a → rneDiv a b * b = a) := by
  have hdm := Nat.div_add_mod a b
  have hr := Nat.mod_lt a hb
  have hq : b * (a / b) = a / b * b := Nat.mul_comm _ _
  have hq1 : (a / b + 1) * b = a / b * b + b := Nat.succ_mul _ _
  unfold rneDiv
  simp only
  refine ⟨?_, ?_, ?_⟩
  · split_ifs <;> omega
  · split_ifs <;> omega
  · intro hd
    have h0 : a % b = 0 := Nat.mod_eq_zero_of_dvd hd
    have : 2 * (a % b) < b := by omega
    rw [if_pos this]
    omega

theorem two_zpow_pos (k : Int) : (0 : ℚ) < (2 : ℚ) ^ k := zpow_pos (by norm_num) k

theorem two_zpow_toNat (k : Int) (hk : 0 ≤ k) : ((2 ^ k.toNat : Nat) : ℚ) = (2 : ℚ) ^ k := by
  obtain ⟨n, rfl⟩ := Int.eq_ofNat_of_zero_le hk
  simp [zpow_natCast]

theorem two_zpow_neg_toNat (k : Int) (hk : k ≤ 0) :
    ((2 ^ (-k).toNat : Nat) : ℚ) = ((2 : ℚ) ^ k)⁻¹ := by
  rw [two_zpow_toNat (-k) (by omega), zpow_neg]

/-- The pair `(A, B)` used by `round` for the shift `s` has quotient `(a/b)·2^(-s)`. -/
theorem scaled_quot (a b : Nat) (s : Int) :
    (((if 0 ≤ s then a else a * 2 ^ (-s).toNat : Nat) : ℚ) /
        ((if 0 ≤ s then b * 2 ^ s.toNat else b : Nat) : ℚ)) = (a : ℚ) / b * ((2 : ℚ) ^ s)⁻¹ := by
  by_cases hs : 0 ≤ s
  · simp only [hs, if_true, Nat.cast_mul, two_zpow_toNat s hs]
    rw [div_mul_eq_div_div, div_eq_mul_inv ((a : ℚ) / b)]
  · simp only [hs, if_false, Nat.cast_mul, two_zpow_neg_toNat s (by omega)]
    rw [mul_div_right_comm]

theorem ge_test_iff (a b : Nat) (hb : 0 < b) (k : Int) :
    (if 0 ≤ k then decide (b * 2 ^ k.toNat ≤ a) else decide (b ≤ a * 2 ^ (-k).toNat)) = true ↔
      (2 : ℚ) ^ k ≤ (a : ℚ) / b := by
  have hbq : (0 : ℚ) < b := by exact_mod_cast hb
  have h2 := two_zpow_pos k
  by_cases hk : 0 ≤ k
  · simp only [hk, if_true, decide_eq_true_eq]
    rw [le_div_iff₀ hbq, ← two_zpow_toNat k hk, mul_comm]
    exact_mod_cast Iff.rfl
  · simp only [hk, if_false, decide_eq_true_eq]
    rw [le_div_iff₀ hbq]
    have h3 := two_zpow_neg_toNat k (by omega)
    have h4 : (b ≤ a * 2 ^ (-k).toNat) ↔ ((b : ℚ) ≤ a * ((2 : ℚ) ^ k)⁻¹) := by
      rw [← h3]
      exact_mod_cast Iff.rfl
    rw [h4, ← div_eq_mul_inv, le_div_iff₀ h2, mul_comm]

theorem ilog2_spec (a b : Nat) (ha : 0 < a) (hb : 0 < b) :
    (2 : ℚ) ^ (F64.ilog2 a b) ≤ (a : ℚ) / b ∧ (a : ℚ) / b < (2 : ℚ) ^ (F64.ilog2 a b + 1) := by
  obtain ⟨ta, hta, ha1, ha2⟩ := bitLen_spec a (by omega)
  obtain ⟨tb, htb, hb1, hb2⟩ := bitLen_spec b (by omega)
  have hbq : (0 : ℚ) < b := by exact_mod_cast hb
  have haq : (0 : ℚ) < a := by exact_mod_cast ha
  have ha1q : (2 : ℚ) ^ (ta : Int) ≤ a := by rw [zpow_natCast]; exact_mod_cast ha1
  have ha2q : (a : ℚ) < (2 : ℚ) ^ ((ta : Int) + 1) := by
    have : ((ta : Int) + 1) = ((ta + 1 : Nat) : Int) := by push_cast; ring
    rw [this, zpow_natCast]; exact_mod_cast ha2
  have hb1q : (2 : ℚ) ^ (tb : Int) ≤ b := by rw [zpow_natCast]; exact_mod_cast hb1
  have hb2q : (b : ℚ) < (2 : ℚ) ^ ((tb : Int) + 1) := by
    have : ((tb : Int) + 1) = ((tb + 1 : Nat) : Int) := by push_cast; ring
    rw [this, zpow_natCast]; exact_mod_cast hb2
  have hk0 : ((bitLen a : Int) - (bitLen b : Int)) = (ta : Int) - tb := by
    rw [hta, htb]; push_cast; ring
  have two_ne : (2 : ℚ) ≠ 0 := by norm_num
  -- a/b < 2^(k0+1)
  have hup : (a : ℚ) / b < (2 : ℚ) ^ ((ta : Int) - tb + 1) := by
    rw [div_lt_iff₀ hbq]
    calc (a : ℚ) < (2 : ℚ) ^ ((ta : Int) + 1) := ha2q
      _ = (2 : ℚ) ^ ((ta : Int) - tb + 1) * (2 : ℚ) ^ (tb : Int) := by
          rw [← zpow_add₀ two_ne]; congr 1; ring
      _ ≤ (2 : ℚ) ^ ((ta : Int) - tb + 1) * b :=
          mul_le_mul_of_nonneg_left hb1q (le_of_lt (two_zpow_pos _))
  -- 2^(k0-1) < a/b
  have hlo : (2 : ℚ) ^ ((ta : Int) - tb - 1) < (a : ℚ) / b := by
    rw [lt_div_iff₀ hbq]
    calc (2 : ℚ) ^ ((ta : Int) - tb - 1) * b
        < (2 : ℚ) ^ ((ta : Int) - tb - 1) * (2 : ℚ) ^ ((tb : Int) + 1) :=
          mul_lt_mul_of_pos_left hb2q (two_zpow_pos _)
      _ = (2 : ℚ) ^ (ta : Int) := by
          rw [← zpow_add₀ two_ne]; congr 1; ring
      _ ≤ a := ha1q
  unfold F64.ilog2
  simp only [hk0]
  have hge := ge_test_iff a b hb ((ta : Int) - tb)
  by_cases hg : (if 0 ≤ (ta : Int) - tb then decide (b * 2 ^ ((ta : Int) - tb).toNat ≤ a)
      else decide (b ≤ a * 2 ^ (-((ta : Int) - tb)).toNat)) = true
  · rw [if_pos hg]
    exact ⟨hge.1 hg, hup⟩
  · rw [if_neg hg]
    refine ⟨le_of_lt hlo, ?_⟩
    have : ¬ ((2 : ℚ) ^ ((ta : Int) - tb) ≤ (a : ℚ) / b) := fun h => hg (hge.2 h)
    have h5 : ((ta : Int) - tb - 1 + 1) = (ta : Int) - tb := by ring
    rw [h5]
    exact lt_of_not_le this

theorem round_neg (neg : Bool) (a b : Nat) (e : Int) : (F64.round neg a b e).neg = neg := by
  unfold F64.round
  split_ifs <;> rfl

theorem round_zero (neg : Bool) (b : Nat) (e : Int) : (F64.round neg 0 b e).man = 0 := by
  simp [F64.round]

/-- The mantissa and exponent produced by `round` on a positive quotient: the
mantissa is the rounding of a quotient `A/B = (a/b)·2^(-s)` lying in `[2^52, 2^53)`. -/
theorem round_shape (neg : Bool) (a b : Nat) (e : Int) (ha : 0 < a) (hb : 0 < b) :
    ∃ (s : Int) (A B : Nat), 0 < B ∧
      F64.round neg a b e = ⟨neg, rneDiv A B, s + e⟩ ∧
      (A : ℚ) / B = (a : ℚ) / b * ((2 : ℚ) ^ s)⁻¹ ∧
      (2 : ℚ) ^ (52 : Int) ≤ (A : ℚ) / B ∧ (A : ℚ) / B < (2 : ℚ) ^ (53 : Int) := by
  obtain ⟨hlo, hhi⟩ := ilog2_spec a b ha hb
  have hsq := scaled_quot a b (F64.ilog2 a b - 52)
  have two_ne : (2 : ℚ) ≠ 0 := by norm_num
  have hpos := two_zpow_pos (F64.ilog2 a b - 52)
  refine ⟨F64.ilog2 a b - 52, if 0 ≤ F64.ilog2 a b - 52 then a else a * 2 ^ (-(F64.ilog2 a b - 52)).toNat,
    if 0 ≤ F64.ilog2 a b - 52 then b * 2 ^ (F64.ilog2 a b - 52).toNat else b, ?_, ?_, hsq, ?_, ?_⟩
  · split_ifs
    · exact Nat.mul_pos hb (pow_pos (by norm_num) _)
    · exact hb
  · unfold F64.round
    rw [if_neg (by omega)]
    by_cases hs : 0 ≤ F64.ilog2 a b - 52
    · simp only [hs, if_true]
    · simp only [hs, if_false]
  · rw [hsq, ← div_eq_mul_inv, le_div_iff₀ hpos, ← zpow_add₀ two_ne]
    have : (52 : Int) + (F64.ilog2 a b - 52) = F64.ilog2 a b := by ring
    rw [this]
    exact hlo
  · rw [hsq, ← div_eq_mul_inv, div_lt_iff₀ hpos, ← zpow_add₀ two_ne]
    have : (53 : Int) + (F64.ilog2 a b - 52) = F64.ilog2 a b + 1 := by ring
    rw [this]
    exact hhi

theorem rneDiv_rat (A B : Nat) (hB : 0 < B) :
    |(rneDiv A B : ℚ) - (A : ℚ) / B| ≤ 1 / 2 := by
  obtain ⟨h1, h2, _⟩ := rneDiv_spec A B hB
  have hBq : (0 : ℚ) < B := by exact_mod_cast hB
  have h1q : 2 * ((rneDiv A B : ℚ) * B) ≤ 2 * A + B := by exact_mod_cast h1
  have h2q : 2 * (A : ℚ) ≤ 2 * ((rneDiv A B : ℚ) * B) + B := by exact_mod_cast h2
  have hrw : (rneDiv A B : ℚ) - (A : ℚ) / B = ((rneDiv A B : ℚ) * B - A) / B := by
    field_simp
  rw [hrw, abs_le]
  constructor
  · rw [le_div_iff₀ hBq]
    linarith
  · rw [div_le_iff₀ hBq]
    linarith

theorem round_mag (neg : Bool) (a b : Nat) (e : Int) (hb : 0 < b) :
    |(F64.round neg a b e).mag - (a : ℚ) / b * (2 : ℚ) ^ e| ≤
        (a : ℚ) / b * (2 : ℚ) ^ e / 2 ^ 53 ∧
      ∀ n : Nat, (a : ℚ) / b * (2 : ℚ) ^ e = n → n < 2 ^ 53 →
        (F64.round neg a b e).mag = n := by
  have two_ne : (2 : ℚ) ≠ 0 := by norm_num
  rcases Nat.eq_zero_or_pos a with ha | ha
  · subst ha
    have hm : (F64.round neg 0 b e).mag = 0 := by simp [F64.mag, round_zero]
    rw [hm]
    refine ⟨by simp, ?_⟩
    intro n hn _
    simp at hn
    exact_mod_cast hn
  · obtain ⟨s, A, B, hB, hr, hq, hlo, hhi⟩ := round_shape neg a b e ha hb
    have hBq : (0 : ℚ) < B := by exact_mod_cast hB
    have hs := two_zpow_pos s
    have hse := two_zpow_pos (s + e)
    have he := two_zpow_pos e
    have hmag : (F64.round neg a b e).mag = (rneDiv A B : ℚ) * (2 : ℚ) ^ (s + e) := by
      rw [hr]; rfl
    have hx : (a : ℚ) / b * (2 : ℚ) ^ e = (A : ℚ) / B * (2 : ℚ) ^ (s + e) := by
      rw [hq, zpow_add₀ two_ne]
      field_simp
      ring
    have h52 : ((2 : ℚ) ^ (52 : Int)) = 2 ^ 52 := by norm_cast
    have h53 : ((2 : ℚ) ^ (53 : Int)) = 2 ^ 53 := by norm_cast
    rw [h52] at hlo
    rw [h53] at hhi
    have herr := rneDiv_rat A B hB
    refine ⟨?_, ?_⟩
    · rw [hmag, hx, ← sub_mul, abs_mul, abs_of_pos hse]
      have : (A : ℚ) / B * (2 : ℚ) ^ (s + e) / 2 ^ 53 = (A : ℚ) / B / 2 ^ 53 * (2 : ℚ) ^ (s + e) := by
        ring
      rw [this]
      apply mul_le_mul_of_nonneg_right _ (le_of_lt hse)
      have : (1 : ℚ) / 2 ≤ (A : ℚ) / B / 2 ^ 53 := by
        rw [le_div_iff₀ (by positivity)]
        linarith
      linarith
    · intro n hn hn53
      rw [hx] at hn
      have hn53q : (n : ℚ) < 2 ^ 53 := by exact_mod_cast hn53
      -- 2^(s+e) < 2, so s + e ≤ 0
      have hlt2 : (2 : ℚ) ^ (s + e) < (2 : ℚ) ^ (1 : Int) := by
        rw [zpow_one]
        by_contra hcon
        push_neg at hcon
        have : (2 : ℚ) ^ 52 * 2 ≤ (A : ℚ) / B * (2 : ℚ) ^ (s + e) :=
          mul_le_mul hlo hcon (by norm_num) (by linarith)
        linarith
      have hle : s + e ≤ 0 := by
        have := (zpow_lt_zpow_iff_right₀ (by norm_num : (1 : ℚ) < 2)).1 hlt2
        omega
      have hj := two_zpow_neg_toNat (s + e) hle
      -- A / B = n * 2^j
      have hAB : (A : ℚ) / B = ((n * 2 ^ (-(s + e)).toNat : Nat) : ℚ) := by
        rw [Nat.cast_mul, hj, ← hn]
        field_simp
        ring
      have hA : A = n * 2 ^ (-(s + e)).toNat * B := by
        rw [div_eq_iff (ne_of_gt hBq)] at hAB
        exact_mod_cast hAB
      have hdvd : B ∣ A := ⟨n * 2 ^ (-(s + e)).toNat, by rw [hA]; ring⟩
      have hm := (rneDiv_spec A B hB).2.2 hdvd
      have hm2 : rneDiv A B = n * 2 ^ (-(s + e)).toNat := by
        have : rneDiv A B * B = n * 2 ^ (-(s + e)).toNat * B := by rw [hm]; exact hA
        exact Nat.eq_of_mul_eq_mul_right hB this
      rw [hmag, hm2, Nat.cast_mul, hj]
      field_simp

theorem mag_nonneg (x : F64) : 0 ≤ x.mag := by
  unfold F64.mag
  exact mul_nonneg (Nat.cast_nonneg _) (le_of_lt (two_zpow_pos _))

theorem ofInt_neg (n : Int) : (F64.ofInt n).neg = decide (n < 0) := round_neg _ _ _ _

theorem ofInt_mag (n : Int) :
    |(F64.ofInt n).mag - (n.natAbs : ℚ)| ≤ (n.natAbs : ℚ) / 2 ^ 53 ∧
      (n.natAbs < 2 ^ 53 → (F64.ofInt n).mag = (n.natAbs : ℚ)) := by
  have h := round_mag (decide (n < 0)) n.natAbs 1 0 (by norm_num)
  simp only [Nat.cast_one, div_one, zpow_zero, mul_one] at h
  exact ⟨h.1, fun hn => h.2 n.natAbs rfl hn⟩

theorem mul_neg (x y : F64) : (F64.mul x y).neg = xor x.neg y.neg := round_neg _ _ _ _

theorem mul_mag (x y : F64) :
    |(F64.mul x y).mag - x.mag * y.mag| ≤ x.mag * y.mag / 2 ^ 53 ∧
      ∀ n : Nat, x.mag * y.mag = n → n < 2 ^ 53 → (F64.mul x y).mag = n := by
  have h := round_mag (xor x.neg y.neg) (x.man * y.man) 1 (x.exp + y.exp) (by norm_num)
  have hx : ((x.man * y.man : Nat) : ℚ) / (1 : Nat) * (2 : ℚ) ^ (x.exp + y.exp) = x.mag * y.mag := by
    unfold F64.mag
    rw [zpow_add₀ (by norm_num : (2 : ℚ) ≠ 0)]
    push_cast
    ring
  rw [hx] at h
  exact h

theorem div_neg (x y : F64) : (F64.div x y).neg = xor x.neg y.neg := round_neg _ _ _ _

theorem div_mag (x y : F64) (hy : 0 < y.man) :
    |(F64.div x y).mag - x.mag / y.mag| ≤ x.mag / y.mag / 2 ^ 53 ∧
      ∀ n : Nat, x.mag / y.mag = n → n < 2 ^ 53 → (F64.div x y).mag = n := by
  have h := round_mag (xor x.neg y.neg) x.man y.man (x.exp - y.exp) hy
  have hyq : (y.man : ℚ) ≠ 0 := by exact_mod_cast (ne_of_gt hy)
  have hx : (x.man : ℚ) / y.man * (2 : ℚ) ^ (x.exp - y.exp) = x.mag / y.mag := by
    unfold F64.mag
    rw [zpow_sub₀ (by norm_num : (2 : ℚ) ≠ 0)]
    have := ne_of_gt (two_zpow_pos y.exp)
    field_simp
  rw [hx] at h
  exact h

theorem add_nonneg_spec (x y : F64) (hx : x.neg = false) (hy : y.neg = false) :
    (F64.add x y).neg = false ∧
      |(F64.add x y).mag - (x.mag + y.mag)| ≤ (x.mag + y.mag) / 2 ^ 53 := by
  have two_ne : (2 : ℚ) ≠ 0 := by norm_num
  have hsx : x.sman = (x.man : Int) := by simp [F64.sman, hx]
  have hsy : y.sman = (y.man : Int) := by simp [F64.sman, hy]
  have hM : x.sman * 2 ^ (x.exp - min x.exp y.exp).toNat + y.sman * 2 ^ (y.exp - min x.exp y.exp).toNat
      = ((x.man * 2 ^ (x.exp - min x.exp y.exp).toNat
          + y.man * 2 ^ (y.exp - min x.exp y.exp).toNat : Nat) : Int) := by
    rw [hsx, hsy]; push_cast; ring
  unfold F64.add
  simp only [hM, Int.natAbs_ofNat, hx, hy, Bool.and_self]
  constructor
  · rw [round_neg]
    split_ifs
    · rfl
    · simp
      positivity
  · have h := (round_mag (if ((x.man * 2 ^ (x.exp - min x.exp y.exp).toNat
          + y.man * 2 ^ (y.exp - min x.exp y.exp).toNat : Nat) : Int) = 0 then false
        else decide (((x.man * 2 ^ (x.exp - min x.exp y.exp).toNat
          + y.man * 2 ^ (y.exp - min x.exp y.exp).toNat : Nat) : Int) < 0))
      (x.man * 2 ^ (x.exp - min x.exp y.exp).toNat + y.man * 2 ^ (y.exp - min x.exp y.exp).toNat)
      1 (min x.exp y.exp) (by norm_num)).1
    have hval : ((x.man * 2 ^ (x.exp - min x.exp y.exp).toNat
          + y.man * 2 ^ (y.exp - min x.exp y.exp).toNat : Nat) : ℚ) / (1 : Nat)
          * (2 : ℚ) ^ (min x.exp y.exp) = x.mag + y.mag := by
      unfold F64.mag
      have e1 : x.exp = (x.exp - min x.exp y.exp) + min x.exp y.exp := by ring
      have e2 : y.exp = (y.exp - min x.exp y.exp) + min x.exp y.exp := by ring
      have h1 := two_zpow_toNat (x.exp - min x.exp y.exp) (by omega)
      have h2 := two_zpow_toNat (y.exp - min x.exp y.exp) (by omega)
      push_cast at h1 h2 ⊢
      rw [h1, h2]
      conv_rhs => rw [e1, e2]
      rw [zpow_add₀ two_ne, zpow_add₀ two_ne]
      simp only [div_one]
      have e3 : x.exp - min x.exp y.exp + min x.exp y.exp - min (x.exp - min x.exp y.exp + min x.exp y.exp) (y.exp - min x.exp y.exp + min x.exp y.exp) = x.exp - min x.exp y.exp := by
        simp
      ring_nf
    rw [hval] at h
    exact h

theorem trunc_nonneg_spec (x : F64) (hx : x.neg = false) :
    0 ≤ x.trunc ∧ (x.trunc : ℚ) ≤ x.mag ∧ x.mag < (x.trunc : ℚ) + 1 := by
  by_cases he : 0 ≤ x.exp
  · have ht : x.trunc = ((x.man * 2 ^ x.exp.toNat : Nat) : Int) := by
      simp [F64.trunc, hx, he]
    have hm : x.mag = ((x.man * 2 ^ x.exp.toNat : Nat) : ℚ) := by
      unfold F64.mag
      rw [Nat.cast_mul, two_zpow_toNat x.exp he]
    rw [ht, hm]
    refine ⟨Int.natCast_nonneg _, ?_, ?_⟩
    · exact le_of_eq (by push_cast; rfl)
    · push_cast
      linarith
  · have ht : x.trunc = ((x.man / 2 ^ (-x.exp).toNat : Nat) : Int) := by
      simp [F64.trunc, hx, he]
    have hj := two_zpow_neg_toNat x.exp (by omega)
    have hpos : (0 : ℚ) < ((2 ^ (-x.exp).toNat : Nat) : ℚ) := by
      exact_mod_cast pow_pos (by norm_num : 0 < 2) _
    have hm : x.mag = (x.man : ℚ) / ((2 ^ (-x.exp).toNat : Nat) : ℚ) := by
      unfold F64.mag
      rw [hj, div_eq_mul_inv, inv_inv]
    have hdm := Nat.div_add_mod x.man (2 ^ (-x.exp).toNat)
    have hmod := Nat.mod_lt x.man (pow_pos (by norm_num : 0 < 2) (-x.exp).toNat)
    have h1 : x.man / 2 ^ (-x.exp).toNat * 2 ^ (-x.exp).toNat ≤ x.man := Nat.div_mul_le_self _ _
    have h2 : x.man < (x.man / 2 ^ (-x.exp).toNat + 1) * 2 ^ (-x.exp).toNat := by
      rw [Nat.add_mul, Nat.one_mul, Nat.mul_comm]
      omega
    have h1q : ((x.man / 2 ^ (-x.exp).toNat : Nat) : ℚ) * ((2 ^ (-x.exp).toNat : Nat) : ℚ)
        ≤ (x.man : ℚ) := by exact_mod_cast h1
    have h2q : (x.man : ℚ) < (((x.man / 2 ^ (-x.exp).toNat : Nat) : ℚ) + 1)
        * ((2 ^ (-x.exp).toNat : Nat) : ℚ) := by exact_mod_cast h2
    rw [ht, hm]
    refine ⟨Int.natCast_nonneg _, ?_, ?_⟩
    · rw [Int.cast_natCast, le_div_iff₀ hpos]
      exact h1q
    · rw [Int.cast_natCast, div_lt_iff₀ hpos]
      exact h2q

theorem trunc_neg_spec (x : F64) (hx : x.neg = true) : x.trunc ≤ 0 := by
  unfold F64.trunc
  simp only [hx, if_true]
  omega

theorem man_pos_of_mag_ne_zero (x : F64) (h : x.mag ≠ 0) : 0 < x.man := by
  rcases Nat.eq_zero_or_pos x.man with h0 | h0
  · exact absurd (by simp [F64.mag, h0]) h
  · exact h0

theorem trunc_of_man_zero (x : F64) (h : x.man = 0) : x.trunc = 0 := by
  unfold F64.trunc
  simp only [h]
  split_ifs <;> simp

/-- Relative error bounds as a two-sided product bound. -/
theorem bounds_of_abs (v x u : ℚ) (h : |v - x| ≤ x * u) : x * (1 - u) ≤ v ∧ v ≤ x * (1 + u) := by
  rw [abs_le] at h
  constructor <;> linarith [h.1, h.2]

/-- Five roundings of relative error `u` on `c·(1 + p/100)`. -/
theorem product_chain (c p vp vq vM vc vP u : ℚ) (hu : 0 ≤ u) (hu1 : u ≤ 1) (hc : 0 ≤ c)
    (hp : 0 ≤ p)
    (h1 : |vp - p| ≤ p * u) (h2 : |vq - vp / 100| ≤ vp / 100 * u)
    (h3 : |vM - (1 + vq)| ≤ (1 + vq) * u) (h4 : |vc - c| ≤ c * u)
    (h5 : |vP - vc * vM| ≤ vc * vM * u) :
    c * (1 + p / 100) * (1 - u) ^ 5 ≤ vP ∧ vP ≤ c * (1 + p / 100) * (1 + u) ^ 5 := by
  obtain ⟨l1, u1⟩ := bounds_of_abs _ _ _ h1
  obtain ⟨l2, u2⟩ := bounds_of_abs _ _ _ h2
  obtain ⟨l3, u3⟩ := bounds_of_abs _ _ _ h3
  obtain ⟨l4, u4⟩ := bounds_of_abs _ _ _ h4
  obtain ⟨l5, u5⟩ := bounds_of_abs _ _ _ h5
  have a0 : 0 ≤ 1 - u := by linarith
  have a1 : 0 ≤ 1 + u := by linarith
  have vp0 : 0 ≤ vp := le_trans (mul_nonneg hp a0) l1
  have vq0 : 0 ≤ vq := le_trans (mul_nonneg (div_nonneg vp0 (by norm_num)) a0) l2
  have vM0 : 0 ≤ vM := le_trans (mul_nonneg (by linarith) a0) l3
  have vc0 : 0 ≤ vc := le_trans (mul_nonneg hc a0) l4
  -- upper bounds
  have uq : vq ≤ p / 100 * (1 + u) ^ 2 := by
    calc vq ≤ vp / 100 * (1 + u) := u2
      _ ≤ (p * (1 + u)) / 100 * (1 + u) := by gcongr
      _ = p / 100 * (1 + u) ^ 2 := by ring
  have one_le : (1 : ℚ) ≤ (1 + u) ^ 2 := by nlinarith
  have uM : vM ≤ (1 + p / 100) * (1 + u) ^ 3 := by
    calc vM ≤ (1 + vq) * (1 + u) := u3
      _ ≤ (1 + p / 100 * (1 + u) ^ 2) * (1 + u) := by gcongr
      _ ≤ ((1 + u) ^ 2 + p / 100 * (1 + u) ^ 2) * (1 + u) := by gcongr
      _ = (1 + p / 100) * (1 + u) ^ 3 := by ring
  have uP : vP ≤ c * (1 + p / 100) * (1 + u) ^ 5 := by
    calc vP ≤ vc * vM * (1 + u) := u5
      _ ≤ (c * (1 + u)) * ((1 + p / 100) * (1 + u) ^ 3) * (1 + u) := by gcongr
      _ = c * (1 + p / 100) * (1 + u) ^ 5 := by ring
  -- lower bounds
  have lq : p / 100 * (1 - u) ^ 2 ≤ vq := by
    calc p / 100 * (1 - u) ^ 2 = (p * (1 - u)) / 100 * (1 - u) := by ring
      _ ≤ vp / 100 * (1 - u) := by gcongr
      _ ≤ vq := l2
  have le_one : (1 - u) ^ 2 ≤ (1 : ℚ) := by nlinarith
  have lM : (1 + p / 100) * (1 - u) ^ 3 ≤ vM := by
    calc (1 + p / 100) * (1 - u) ^ 3 = ((1 - u) ^ 2 + p / 100 * (1 - u) ^ 2) * (1 - u) := by ring
      _ ≤ (1 + p / 100 * (1 - u) ^ 2) * (1 - u) := by gcongr
      _ ≤ (1 + vq) * (1 - u) := by gcongr
      _ ≤ vM := l3
  have lP : c * (1 + p / 100) * (1 - u) ^ 5 ≤ vP := by
    calc c * (1 + p / 100) * (1 - u) ^ 5
        = (c * (1 - u)) * ((1 + p / 100) * (1 - u) ^ 3) * (1 - u) := by ring
      _ ≤ vc * vM * (1 - u) := by
          have hA : 0 ≤ (1 + p / 100) * (1 - u) ^ 3 := by positivity
          gcongr
      _ ≤ vP := l5
  exact ⟨lP, uP⟩

theorem ofInt_nonneg_spec (n : Int) (hn : 0 ≤ n) :
    (F64.ofInt n).neg = false ∧ |(F64.ofInt n).mag - (n : ℚ)| ≤ (n : ℚ) * (1 / 2 ^ 53) ∧
      (n < 2 ^ 53 → (F64.ofInt n).mag = (n : ℚ)) := by
  have hcast : ((n.natAbs : Nat) : ℚ) = (n : ℚ) := by
    have : ((n.natAbs : Int) : ℚ) = (n : ℚ) := by rw [Int.natAbs_of_nonneg hn]
    rw [← this, Int.cast_natCast]
  obtain ⟨h1, h2⟩ := ofInt_mag n
  rw [hcast] at h1 h2
  refine ⟨by rw [ofInt_neg]; simp; omega, by rw [mul_one_div]; exact h1, fun h => h2 (by omega)⟩

theorem memoryProduct_spec (c p : Int) (hc : 0 ≤ c) (hp : 0 ≤ p)
    (hx : c * (100 + p) ≤ 100 * 2 ^ 50) :
    (memoryProduct c p).neg = false ∧
      |(memoryProduct c p).mag - (c : ℚ) * (1 + (p : ℚ) / 100)| < 1 := by
  obtain ⟨n1, _, e1⟩ := ofInt_nonneg_spec 1 (by norm_num)
  obtain ⟨n100, _, e100⟩ := ofInt_nonneg_spec 100 (by norm_num)
  obtain ⟨np, hvp, _⟩ := ofInt_nonneg_spec p hp
  obtain ⟨nc, hvc, _⟩ := ofInt_nonneg_spec c hc
  have m1 : (F64.ofInt 1).mag = 1 := by simpa using e1 (by norm_num)
  have m100 : (F64.ofInt 100).mag = 100 := by simpa using e100 (by norm_num)
  have pos100 : 0 < (F64.ofInt 100).man := man_pos_of_mag_ne_zero _ (by rw [m100]; norm_num)
  have hq := (div_mag (F64.ofInt p) (F64.ofInt 100) pos100).1
  have nq : (F64.div (F64.ofInt p) (F64.ofInt 100)).neg = false := by
    rw [div_neg, np, n100]; rfl
  obtain ⟨nM, hM⟩ := add_nonneg_spec (F64.ofInt 1) (F64.div (F64.ofInt p) (F64.ofInt 100)) n1 nq
  have hP := (mul_mag (F64.ofInt c)
    (F64.add (F64.ofInt 1) (F64.div (F64.ofInt p) (F64.ofInt 100)))).1
  have nP : (memoryProduct c p).neg = false := by
    unfold memoryProduct
    rw [mul_neg, nc, nM]; rfl
  refine ⟨nP, ?_⟩
  rw [m100] at hq
  rw [m1] at hM
  have hcq : (0 : ℚ) ≤ c := by exact_mod_cast hc
  have hpq : (0 : ℚ) ≤ p := by exact_mod_cast hp
  obtain ⟨lo, hi⟩ := product_chain (c : ℚ) (p : ℚ) _ _ _ _ (memoryProduct c p).mag (1 / 2 ^ 53)
    (by norm_num) (by norm_num) hcq hpq hvp (by rw [mul_one_div]; exact hq)
    (by rw [mul_one_div]; exact hM) hvc (by rw [mul_one_div]; exact hP)
  have hxq : (c : ℚ) * (100 + p) ≤ 100 * 2 ^ 50 := by exact_mod_cast hx
  have hx0 : 0 ≤ (c : ℚ) * (1 + (p : ℚ) / 100) := by positivity
  have hx50 : (c : ℚ) * (1 + (p : ℚ) / 100) ≤ 2 ^ 50 := by
    have : (c : ℚ) * (1 + (p : ℚ) / 100) = (c : ℚ) * (100 + p) / 100 := by ring
    rw [this, div_le_iff₀ (by norm_num)]
    linarith
  have hU : (1 + (1 : ℚ) / 2 ^ 53) ^ 5 ≤ 1 + 6 / 2 ^ 53 := by norm_num
  have hL : 1 - 6 / 2 ^ 53 ≤ (1 - (1 : ℚ) / 2 ^ 53) ^ 5 := by norm_num
  have hi2 := le_trans hi (mul_le_mul_of_nonneg_left hU hx0)
  have lo2 := le_trans (mul_le_mul_of_nonneg_left hL hx0) lo
  rw [abs_lt]
  constructor
  · have : (c : ℚ) * (1 + (p : ℚ) / 100) * (6 / 2 ^ 53) ≤ 2 ^ 50 * (6 / 2 ^ 53) :=
      mul_le_mul_of_nonneg_right hx50 (by norm_num)
    norm_num at this ⊢
    linarith
  · have : (c : ℚ) * (1 + (p : ℚ) / 100) * (6 / 2 ^ 53) ≤ 2 ^ 50 * (6 / 2 ^ 53) :=
      mul_le_mul_of_nonneg_right hx50 (by norm_num)
    norm_num at this ⊢
    linarith

theorem add_mixed_spec (x y : F64) (hx : x.neg = false) (hy : y.neg = true)
    (hle : y.mag ≤ x.mag) :
    (F64.add x y).neg = false ∧
      |(F64.add x y).mag - (x.mag - y.mag)| ≤ (x.mag - y.mag) / 2 ^ 53 := by
  have two_ne : (2 : ℚ) ≠ 0 := by norm_num
  have hsx : x.sman = (x.man : Int) := by simp [F64.sman, hx]
  have hsy : y.sman = -(y.man : Int) := by simp [F64.sman, hy]
  have hpe := two_zpow_pos (min x.exp y.exp)
  have h1 := two_zpow_toNat (x.exp - min x.exp y.exp) (by omega)
  have h2 := two_zpow_toNat (y.exp - min x.exp y.exp) (by omega)
  -- the two magnitudes on the common exponent
  have hxm : x.mag = ((x.man * 2 ^ (x.exp - min x.exp y.exp).toNat : Nat) : ℚ)
      * (2 : ℚ) ^ (min x.exp y.exp) := by
    unfold F64.mag
    rw [Nat.cast_mul, h1, mul_assoc, ← zpow_add₀ two_ne]
    congr 2
    ring
  have hym : y.mag = ((y.man * 2 ^ (y.exp - min x.exp y.exp).toNat : Nat) : ℚ)
      * (2 : ℚ) ^ (min x.exp y.exp) := by
    unfold F64.mag
    rw [Nat.cast_mul, h2, mul_assoc, ← zpow_add₀ two_ne]
    congr 2
    ring
  have hnat : y.man * 2 ^ (y.exp - min x.exp y.exp).toNat
      ≤ x.man * 2 ^ (x.exp - min x.exp y.exp).toNat := by
    rw [hxm, hym] at hle
    have := le_of_mul_le_mul_right hle hpe
    exact_mod_cast this
  obtain ⟨D, hD⟩ : ∃ D : Nat, x.man * 2 ^ (x.exp - min x.exp y.exp).toNat
      = y.man * 2 ^ (y.exp - min x.exp y.exp).toNat + D := ⟨_, (Nat.add_sub_cancel' hnat).symm⟩
  have hM : x.sman * 2 ^ (x.exp - min x.exp y.exp).toNat
      + y.sman * 2 ^ (y.exp - min x.exp y.exp).toNat = (D : Int) := by
    rw [hsx, hsy]
    have : ((x.man * 2 ^ (x.exp - min x.exp y.exp).toNat : Nat) : Int)
        = ((y.man * 2 ^ (y.exp - min x.exp y.exp).toNat + D : Nat) : Int) := by rw [hD]
    push_cast at this
    linarith
  have hval : (D : ℚ) / (1 : Nat) * (2 : ℚ) ^ (min x.exp y.exp) = x.mag - y.mag := by
    rw [hxm, hym, hD]
    push_cast
    ring
  unfold F64.add
  simp only [hM, Int.natAbs_ofNat, hx, hy, Bool.false_and]
  constructor
  · rw [round_neg]
    split_ifs
    · rfl
    · simp
  · have h := (round_mag (if (D : Int) = 0 then false else decide ((D : Int) < 0)) D 1
      (min x.exp y.exp) (by norm_num)).1
    rw [hval] at h
    exact h

/-- Roundings of relative error `u` on `c·(1 - y)`, for `0 ≤ y ≤ 1`. -/
theorem product_chain_neg (c y vq vM vc vP u : ℚ) (hu : 0 ≤ u) (hu1 : u ≤ 1 / 8) (hc : 0 ≤ c)
    (hy0 : 0 ≤ y) (hy1 : y ≤ 1) (hq1 : vq ≤ 1)
    (h2 : |vq - y| ≤ y * u)
    (h3 : |vM - (1 - vq)| ≤ (1 - vq) * u) (h4 : |vc - c| ≤ c * u)
    (h5 : |vP - vc * vM| ≤ vc * vM * u) :
    c * (1 - y) - 7 * (c * u) ≤ vP ∧ vP ≤ c * (1 - y) + 7 * (c * u) := by
  obtain ⟨l2, u2⟩ := bounds_of_abs _ _ _ h2
  obtain ⟨l3, u3⟩ := bounds_of_abs _ _ _ h3
  obtain ⟨l4, u4⟩ := bounds_of_abs _ _ _ h4
  obtain ⟨l5, u5⟩ := bounds_of_abs _ _ _ h5
  have a0 : 0 ≤ 1 - u := by linarith
  have d0 : 0 ≤ 1 - vq := by linarith
  have vM0 : 0 ≤ vM := le_trans (mul_nonneg d0 a0) l3
  have vc0 : 0 ≤ vc := le_trans (mul_nonneg hc a0) l4
  have w0 : 0 ≤ c * u := mul_nonneg hc hu
  have hyu : y * u ≤ u := mul_le_of_le_one_left hu hy1
  have hyu0 : 0 ≤ y * u := mul_nonneg hy0 hu
  have huu : u * u ≤ u / 8 := by
    have := mul_le_mul_of_nonneg_left hu1 hu
    linarith
  have huu0 : 0 ≤ u * u := mul_nonneg hu hu
  -- the difference 1 - vq is within u of 1 - y
  have dU : 1 - vq ≤ (1 - y) + u := by linarith
  have dL : (1 - y) - u ≤ 1 - vq := by linarith
  have hdu : (1 - vq) * u ≤ 2 * u := by
    have : (1 - vq) * u ≤ ((1 - y) + u) * u := mul_le_mul_of_nonneg_right dU hu
    have e : ((1 - y) + u) * u = u - y * u + u * u := by ring
    linarith
  have hdu0 : 0 ≤ (1 - vq) * u := mul_nonneg d0 hu
  -- the multiplier is within 3u of 1 - y
  have uM : vM ≤ (1 - y) + 3 * u := by linarith
  have lM : (1 - y) - 3 * u ≤ vM := by linarith
  -- the product before its rounding
  have hcx : c * (1 - y) ≤ c := by
    have := mul_le_of_le_one_right hc (by linarith : 1 - y ≤ 1)
    linarith
  have hcx0 : 0 ≤ c * (1 - y) := mul_nonneg hc (by linarith)
  have hwy : (c * u) * (1 - y) ≤ c * u := mul_le_of_le_one_right w0 (by linarith)
  have hwy0 : 0 ≤ (c * u) * (1 - y) := mul_nonneg w0 (by linarith)
  have hwu : (c * u) * u ≤ (c * u) / 8 := by
    have := mul_le_mul_of_nonneg_left hu1 w0
    linarith
  have hwu0 : 0 ≤ (c * u) * u := mul_nonneg w0 hu
  have hprodU : vc * vM ≤ c * (1 - y) + 5 * (c * u) := by
    have h : vc * vM ≤ (c * (1 + u)) * ((1 - y) + 3 * u) :=
      mul_le_mul u4 uM vM0 (mul_nonneg hc (by linarith))
    have e : (c * (1 + u)) * ((1 - y) + 3 * u)
        = c * (1 - y) + 3 * (c * u) + (c * u) * (1 - y) + 3 * ((c * u) * u) := by ring
    linarith
  have hprod0 : 0 ≤ vc * vM := mul_nonneg vc0 vM0
  have hprodL : c * (1 - y) - 5 * (c * u) ≤ vc * vM := by
    rcases le_or_lt 0 ((1 - y) - 3 * u) with h | h
    · have h6 : (c * (1 - u)) * ((1 - y) - 3 * u) ≤ vc * vM := mul_le_mul l4 lM h vc0
      have e : (c * (1 - u)) * ((1 - y) - 3 * u)
          = c * (1 - y) - 3 * (c * u) - (c * u) * (1 - y) + 3 * ((c * u) * u) := by ring
      linarith
    · have h7 : c * ((1 - y) - 3 * u) ≤ 0 :=
        mul_nonpos_of_nonneg_of_nonpos hc (le_of_lt h)
      have e : c * ((1 - y) - 3 * u) = c * (1 - y) - 3 * (c * u) := by ring
      linarith
  have hpu : vc * vM * u ≤ 2 * (c * u) := by
    have h : vc * vM * u ≤ (c * (1 - y) + 5 * (c * u)) * u := mul_le_mul_of_nonneg_right hprodU hu
    have e : (c * (1 - y) + 5 * (c * u)) * u = (c * u) * (1 - y) + 5 * ((c * u) * u) := by ring
    linarith
  have hpu0 : 0 ≤ vc * vM * u := mul_nonneg hprod0 hu
  constructor
  · linarith
  · linarith

theorem memoryProduct_spec_neg (c p : Int) (hc : 0 ≤ c) (hp1 : -100 ≤ p) (hp2 : p < 0)
    (hc50 : c ≤ 2 ^ 50) :
    (memoryProduct c p).neg = false ∧
      |(memoryProduct c p).mag - (c : ℚ) * (1 + (p : ℚ) / 100)| < 1 := by
  obtain ⟨n1, _, e1⟩ := ofInt_nonneg_spec 1 (by norm_num)
  obtain ⟨n100, _, e100⟩ := ofInt_nonneg_spec 100 (by norm_num)
  obtain ⟨nc, hvc, _⟩ := ofInt_nonneg_spec c hc
  have m1 : (F64.ofInt 1).mag = 1 := by simpa using e1 (by norm_num)
  have m100 : (F64.ofInt 100).mag = 100 := by simpa using e100 (by norm_num)
  have pos100 : 0 < (F64.ofInt 100).man := man_pos_of_mag_ne_zero _ (by rw [m100]; norm_num)
  -- the percentage is negative and exactly represented
  have ha : p.natAbs ≤ 100 := by omega
  have hacast : ((p.natAbs : Nat) : ℚ) = -(p : ℚ) := by
    have : ((p.natAbs : Int) : ℚ) = ((-p : Int) : ℚ) := by
      rw [Int.ofNat_natAbs_of_nonpos (le_of_lt hp2)]
    rw [Int.cast_natCast, Int.cast_neg] at this
    exact this
  have np : (F64.ofInt p).neg = true := by rw [ofInt_neg]; simpa using hp2
  have mp : (F64.ofInt p).mag = -(p : ℚ) := by rw [(ofInt_mag p).2 (by omega), hacast]
  obtain ⟨hq, hqexact⟩ := div_mag (F64.ofInt p) (F64.ofInt 100) pos100
  rw [mp, m100] at hq hqexact
  have nq : (F64.div (F64.ofInt p) (F64.ofInt 100)).neg = true := by
    rw [div_neg, np, n100]; rfl
  have hy0 : (0 : ℚ) ≤ -(p : ℚ) / 100 := by
    have : (p : ℚ) < 0 := by exact_mod_cast hp2
    apply div_nonneg <;> linarith
  have hy1 : -(p : ℚ) / 100 ≤ 1 := by
    have : (-100 : ℚ) ≤ p := by exact_mod_cast hp1
    rw [div_le_iff₀ (by norm_num)]
    linarith
  have hq1 : (F64.div (F64.ofInt p) (F64.ofInt 100)).mag ≤ 1 := by
    rcases eq_or_lt_of_le hp1 with h100 | h100
    · -- percent = -100: the quotient is exactly one
      have := hqexact 1 (by rw [← h100]; norm_num) (by norm_num)
      rw [this]
      norm_num
    · have hp99 : (p : ℚ) ≥ -99 := by
        have : -99 ≤ p := by omega
        exact_mod_cast this
      rw [abs_le] at hq
      have h99 : -(p : ℚ) / 100 ≤ 99 / 100 := by
        rw [div_le_div_iff_of_pos_right (by norm_num)]
        linarith
      have hsm : -(p : ℚ) / 100 / 2 ^ 53 ≤ 1 / 100 := by
        rw [div_le_iff₀ (by norm_num)]
        have : (1 : ℚ) / 100 * 2 ^ 53 ≥ 1 := by norm_num
        linarith
      linarith [hq.2]
  obtain ⟨nM, hM⟩ := add_mixed_spec (F64.ofInt 1) (F64.div (F64.ofInt p) (F64.ofInt 100)) n1 nq
    (by rw [m1]; exact hq1)
  rw [m1] at hM
  have hP := (mul_mag (F64.ofInt c)
    (F64.add (F64.ofInt 1) (F64.div (F64.ofInt p) (F64.ofInt 100)))).1
  have nP : (memoryProduct c p).neg = false := by
    unfold memoryProduct
    rw [mul_neg, nc, nM]; rfl
  refine ⟨nP, ?_⟩
  have hcq : (0 : ℚ) ≤ c := by exact_mod_cast hc
  have hc50q : (c : ℚ) ≤ 2 ^ 50 := by exact_mod_cast hc50
  obtain ⟨lo, hi⟩ := product_chain_neg (c : ℚ) (-(p : ℚ) / 100) _ _ _ (memoryProduct c p).mag
    (1 / 2 ^ 53) (by norm_num) (by norm_num) hcq hy0 hy1 hq1
    (by rw [mul_one_div]; exact hq) (by rw [mul_one_div]; exact hM) hvc
    (by rw [mul_one_div]; exact hP)
  have hxe : (c : ℚ) * (1 - -(p : ℚ) / 100) = (c : ℚ) * (1 + (p : ℚ) / 100) := by ring
  rw [hxe] at lo hi
  have hcu : 7 * ((c : ℚ) * (1 / 2 ^ 53)) ≤ 7 / 8 := by
    have : (c : ℚ) * (1 / 2 ^ 53) ≤ 2 ^ 50 * (1 / 2 ^ 53) :=
      mul_le_mul_of_nonneg_right hc50q (by norm_num)
    norm_num at this ⊢
    linarith
  rw [abs_lt]
  constructor <;> linarith

theorem memoryProduct_spec_all (c p : Int) (hc : 0 ≤ c) (hp : -100 ≤ p) (hc50 : c ≤ 2 ^ 50)
    (hx : c * (100 + p) ≤ 100 * 2 ^ 50) :
    (memoryProduct c p).neg = false ∧
      |(memoryProduct c p).mag - (c : ℚ) * (1 + (p : ℚ) / 100)| < 1 := by
  rcases lt_or_le p 0 with h | h
  · exact memoryProduct_spec_neg c p hc hp h hc50
  · exact memoryProduct_spec c p hc h hx

theorem wrapInt64_of_range (x : Int) (h1 : -2 ^ 63 ≤ x) (h2 : x < 2 ^ 63) : wrapInt64 x = x := by
  unfold wrapInt64
  omega

theorem wrapInt32_of_range (x : Int) (h1 : -2 ^ 31 ≤ x) (h2 : x < 2 ^ 31) : wrapInt32 x = x := by
  unfold wrapInt32
  omega

theorem roundUp64Mi_spec (n : Int) :
    roundTo ∣ roundUp64Mi n ∧ n ≤ roundUp64Mi n ∧ roundUp64Mi n < n + roundTo := by
  unfold roundUp64Mi ceilDiv roundTo
  refine ⟨Dvd.intro_left _ rfl, ?_, ?_⟩ <;> omega

theorem memoryProduct_trunc (c p : Int) (hc : 0 ≤ c) (hp : -100 ≤ p) (hc50 : c ≤ 2 ^ 50)
    (hx : c * (100 + p) ≤ 100 * 2 ^ 50) :
    0 ≤ (memoryProduct c p).trunc ∧
      100 * (memoryProduct c p).trunc < c * (100 + p) + 100 ∧
      c * (100 + p) < 100 * (memoryProduct c p).trunc + 200 := by
  obtain ⟨hneg, herr⟩ := memoryProduct_spec_all c p hc hp hc50 hx
  obtain ⟨t0, t1, t2⟩ := trunc_nonneg_spec (memoryProduct c p) hneg
  rw [abs_lt] at herr
  have hxe : (c : ℚ) * (1 + (p : ℚ) / 100) = ((c * (100 + p) : Int) : ℚ) / 100 := by
    push_cast; ring
  rw [hxe] at herr
  refine ⟨t0, ?_, ?_⟩
  · have : (((memoryProduct c p).trunc : Int) : ℚ) < ((c * (100 + p) : Int) : ℚ) / 100 + 1 := by
      linarith [herr.2]
    have h2 : ((100 * (memoryProduct c p).trunc : Int) : ℚ) < ((c * (100 + p) + 100 : Int) : ℚ) := by
      push_cast
      push_cast at this
      linarith
    exact_mod_cast h2
  · have : ((c * (100 + p) : Int) : ℚ) / 100 - 1 < (((memoryProduct c p).trunc : Int) : ℚ) + 1 := by
      linarith [herr.1]
    have h2 : ((c * (100 + p) : Int) : ℚ) < ((100 * (memoryProduct c p).trunc + 200 : Int) : ℚ) := by
      push_cast
      push_cast at this
      linarith
    exact_mod_cast h2

theorem CalculateMemoryIncrease_eq (c p m : Int) (hc : 0 ≤ c) (hp : -100 ≤ p)
    (hc50 : c ≤ 2 ^ 50) (hx : c * (100 + p) ≤ 100 * 2 ^ 50) :
    CalculateMemoryIncrease c p m = min (roundUp64Mi (memoryProduct c p).trunc) m := by
  obtain ⟨t0, t1, t2⟩ := memoryProduct_trunc c p hc hp hc50 hx
  have hT : F64.toInt64 (memoryProduct c p) = (memoryProduct c p).trunc := by
    unfold F64.toInt64
    simp only
    rw [if_pos]
    constructor <;> omega
  have hbody : CalculateMemoryIncrease c p m =
      (if wrapInt64 (Int.tdiv (wrapInt64 (wrapInt64 (F64.toInt64 (memoryProduct c p) + roundTo) - 1))
            roundTo * roundTo) > m then m
        else wrapInt64 (Int.tdiv (wrapInt64 (wrapInt64 (F64.toInt64 (memoryProduct c p) + roundTo) - 1))
            roundTo * roundTo)) := rfl
  rw [hbody, hT]
  generalize (memoryProduct c p).trunc = T at t0 t1 t2 ⊢
  have hT50 : T ≤ 2 ^ 50 := by omega
  have w1 : wrapInt64 (T + roundTo) = T + roundTo := by
    apply wrapInt64_of_range <;> unfold roundTo <;> omega
  have w2 : wrapInt64 (T + roundTo - 1) = T + roundTo - 1 := by
    apply wrapInt64_of_range <;> unfold roundTo <;> omega
  have hd : Int.tdiv (T + roundTo - 1) roundTo = (T + roundTo - 1) / roundTo :=
    Int.tdiv_eq_ediv (by unfold roundTo; omega) (by unfold roundTo; omega)
  have hr : (T + roundTo - 1) / roundTo * roundTo = roundUp64Mi T := by
    unfold roundUp64Mi ceilDiv roundTo
    omega
  have hR := roundUp64Mi_spec T
  have w3 : wrapInt64 (roundUp64Mi T) = roundUp64Mi T := by
    apply wrapInt64_of_range
    · omega
    · have := hR.2.2
      unfold roundTo at this
      omega
  rw [w1, w2, hd, hr, w3]
  rcases le_or_lt (roundUp64Mi T) m with h | h
  · rw [min_eq_left h, if_neg (not_lt.2 h)]
  · rw [min_eq_right (le_of_lt h), if_pos h]

theorem ofInt_zero_man : (F64.ofInt 0).man = 0 := by
  unfold F64.ofInt
  exact round_zero _ _ _

theorem mul_man_zero (x y : F64) (h : x.man = 0 ∨ y.man = 0) : (F64.mul x y).man = 0 := by
  unfold F64.mul
  have : x.man * y.man = 0 := by rcases h with h | h <;> simp [h]
  rw [this]
  exact round_zero _ _ _

theorem div_man_zero (x y : F64) (h : x.man = 0) : (F64.div x y).man = 0 := by
  unfold F64.div
  rw [h]
  exact round_zero _ _ _

theorem ofInt_exact (n : Int) (hn : n.natAbs < 2 ^ 53) : (F64.ofInt n).mag = (n.natAbs : ℚ) :=
  (ofInt_mag n).2 hn

/-- Truncation of the rounded quotient of an integer below `2^53` by 100 is
the integer quotient. -/
theorem trunc_div_hundred (x : F64) (N : Nat) (hx : x.neg = false) (hmag : x.mag = (N : ℚ))
    (hN : N < 100 * 2 ^ 31) :
    (F64.div x (F64.ofInt 100)).trunc = ((N / 100 : Nat) : Int) := by
  have m100 : (F64.ofInt 100).mag = 100 := by
    have := ofInt_exact 100 (by norm_num)
    simpa using this
  have n100 : (F64.ofInt 100).neg = false := by rw [ofInt_neg]; rfl
  have pos100 : 0 < (F64.ofInt 100).man := man_pos_of_mag_ne_zero _ (by rw [m100]; norm_num)
  obtain ⟨herr, hexact⟩ := div_mag x (F64.ofInt 100) pos100
  rw [hmag, m100] at herr hexact
  have hneg : (F64.div x (F64.ofInt 100)).neg = false := by rw [div_neg, hx, n100]; rfl
  obtain ⟨t0, t1, t2⟩ := trunc_nonneg_spec _ hneg
  obtain ⟨k, hk⟩ : ∃ k : Nat, k = N / 100 := ⟨_, rfl⟩
  obtain ⟨j, hj⟩ : ∃ j : Nat, j = N % 100 := ⟨_, rfl⟩
  have hdm : N = 100 * k + j := by omega
  have hmod : j < 100 := by omega
  rw [← hk]
  have hNq : (N : ℚ) = 100 * (k : ℚ) + (j : ℚ) := by exact_mod_cast hdm
  have hN31 : (N : ℚ) < 100 * 2 ^ 31 := by exact_mod_cast hN
  generalize (F64.div x (F64.ofInt 100)).trunc = t at t0 t1 t2 ⊢
  generalize (F64.div x (F64.ofInt 100)).mag = v at herr hexact t1 t2
  have hkey : (k : ℚ) ≤ v ∧ v < (k : ℚ) + 1 := by
    rcases Nat.eq_zero_or_pos j with hj0 | hj0
    · have hq : (N : ℚ) / 100 = (k : ℚ) := by
        rw [hNq, hj0]; push_cast; ring
      have := hexact k hq (by omega)
      rw [this]
      constructor <;> linarith
    · have hj1 : (1 : ℚ) ≤ (j : ℚ) := by exact_mod_cast hj0
      have hj2 : (j : ℚ) ≤ 99 := by
        have : j ≤ 99 := by omega
        exact_mod_cast this
      rw [abs_le] at herr
      have hsmall : (N : ℚ) / 100 / 2 ^ 53 < 1 / 100 := by
        rw [div_lt_iff₀ (by norm_num), div_lt_iff₀ (by norm_num)]
        norm_num
        linarith
      have hq : (N : ℚ) / 100 = (k : ℚ) + (j : ℚ) / 100 := by
        rw [hNq]; ring
      constructor
      · linarith [herr.1]
      · linarith [herr.2]
  have h1 : t < (k : Int) + 1 := by
    have : (t : ℚ) < ((k : Int) : ℚ) + 1 := by
      rw [Int.cast_natCast]; linarith [hkey.2]
    exact_mod_cast this
  have h2 : (k : Int) < t + 1 := by
    have : ((k : Int) : ℚ) < (t : ℚ) + 1 := by
      rw [Int.cast_natCast]; linarith [hkey.1]
    exact_mod_cast this
  omega

theorem toInt32_of_nonpos_trunc (x : F64) (h : x.trunc ≤ 0) : F64.toInt32 x < 1 := by
  unfold F64.toInt32
  simp only
  split_ifs <;> omega

/-- The increase computed by `CalculateScaleUp` and `ApplyScaleUp`: at least one,
otherwise the integer quotient, as long as the quotient stays inside `int32`. -/
theorem scaleIncrease_spec (c p : Int) (hc1 : -2 ^ 31 ≤ c) (hc2 : c < 2 ^ 31)
    (hcp : c * p < 100 * 2 ^ 31) :
    (if F64.toInt32 (F64.div (F64.mul (F64.ofInt c) (F64.ofInt p)) (F64.ofInt 100)) < 1 then 1
      else F64.toInt32 (F64.div (F64.mul (F64.ofInt c) (F64.ofInt p)) (F64.ofInt 100))) =
      max 1 (c * p / 100) := by
  rcases lt_trichotomy (c * p) 0 with hneg | hzero | hpos
  · -- negative product: the quotient is negative
    have hx : (F64.div (F64.mul (F64.ofInt c) (F64.ofInt p)) (F64.ofInt 100)).neg = true := by
      rw [div_neg, mul_neg, ofInt_neg, ofInt_neg, ofInt_neg]
      have h100 : decide ((100 : Int) < 0) = false := by decide
      rw [h100, Bool.xor_false]
      rcases lt_or_le c 0 with hc | hc
      · have hp : ¬ p < 0 := by
          intro hp
          have := mul_pos_of_neg_of_neg hc hp
          omega
        simp [hc, hp]
      · have hp : p < 0 := by
          by_contra hp
          have := mul_nonneg hc (not_lt.1 hp)
          omega
        have hc' : ¬ c < 0 := not_lt.2 hc
        simp [hc', hp]
    have ht := toInt32_of_nonpos_trunc _ (trunc_neg_spec _ hx)
    rw [if_pos ht]
    generalize c * p = X at hneg
    omega
  · -- zero product
    have hman : (F64.mul (F64.ofInt c) (F64.ofInt p)).man = 0 := by
      apply mul_man_zero
      rcases mul_eq_zero.1 hzero with h | h
      · left; rw [h]; exact ofInt_zero_man
      · right; rw [h]; exact ofInt_zero_man
    have ht : (F64.div (F64.mul (F64.ofInt c) (F64.ofInt p)) (F64.ofInt 100)).trunc = 0 :=
      trunc_of_man_zero _ (div_man_zero _ _ hman)
    have h32 := toInt32_of_nonpos_trunc _ (le_of_eq ht)
    rw [if_pos h32, hzero]
    norm_num
  · -- positive product: every step before the division is exact
    have hc0 : c ≠ 0 := by rintro rfl; simp at hpos
    have hp0 : p ≠ 0 := by rintro rfl; simp at hpos
    have hN : (c * p).natAbs = c.natAbs * p.natAbs := Int.natAbs_mul c p
    have hNval : ((c.natAbs * p.natAbs : Nat) : Int) = c * p := by
      rw [← hN]; exact Int.natAbs_of_nonneg (le_of_lt hpos)
    have hNlt : c.natAbs * p.natAbs < 100 * 2 ^ 31 := by omega
    have hc1' : 1 ≤ c.natAbs := Nat.one_le_iff_ne_zero.2 (Int.natAbs_ne_zero.2 hc0)
    have hp1' : 1 ≤ p.natAbs := Nat.one_le_iff_ne_zero.2 (Int.natAbs_ne_zero.2 hp0)
    have hcabs : c.natAbs < 2 ^ 53 := by omega
    have hpabs : p.natAbs < 2 ^ 53 := by
      have : p.natAbs ≤ c.natAbs * p.natAbs := Nat.le_mul_of_pos_left _ hc1'
      omega
    have mc := ofInt_exact c hcabs
    have mp := ofInt_exact p hpabs
    have hmul := (mul_mag (F64.ofInt c) (F64.ofInt p)).2 (c.natAbs * p.natAbs)
      (by rw [mc, mp]; push_cast; ring) (by omega)
    have hxneg : (F64.mul (F64.ofInt c) (F64.ofInt p)).neg = false := by
      rw [mul_neg, ofInt_neg, ofInt_neg]
      rcases lt_or_le c 0 with hc | hc
      · have hp : p < 0 := by
          by_contra hp
          have := mul_nonpos_of_nonpos_of_nonneg (le_of_lt hc) (not_lt.1 hp)
          omega
        simp [hc, hp]
      · have hp : ¬ p < 0 := by
          intro hp
          have := mul_nonpos_of_nonneg_of_nonpos hc (le_of_lt hp)
          omega
        have hc' : ¬ c < 0 := not_lt.2 hc
        simp [hc', hp]
    have ht := trunc_div_hundred _ (c.natAbs * p.natAbs) hxneg hmul hNlt
    have hquot : ((c.natAbs * p.natAbs / 100 : Nat) : Int) = c * p / 100 := by
      rw [← hNval]; norm_cast
    have h32 : F64.toInt32 (F64.div (F64.mul (F64.ofInt c) (F64.ofInt p)) (F64.ofInt 100)) =
        c * p / 100 := by
      unfold F64.toInt32
      simp only
      rw [ht, hquot]
      generalize c * p = X at hcp hpos
      rw [if_pos]
      constructor <;> omega
    rw [h32]
    generalize c * p = X at hcp hpos
    rcases lt_or_le (X / 100) 1 with h | h
    · rw [if_pos h, max_eq_left (le_of_lt h)]
    · rw [if_neg (not_lt.2 h), max_eq_right h]

theorem CalculateScaleUp_eq (c p m : Int) (hc1 : -2 ^ 31 ≤ c) (hc2 : c < 2 ^ 31)
    (hcp : c * p < 100 * 2 ^ 31) (hsum : c + max 1 (c * p / 100) < 2 ^ 31) :
    CalculateScaleUp c p m = min (c + max 1 (c * p / 100)) m := by
  have hinc := scaleIncrease_spec c p hc1 hc2 hcp
  unfold CalculateScaleUp
  simp only
  rw [hinc]
  have hge : 1 ≤ max 1 (c * p / 100) := le_max_left _ _
  rw [wrapInt32_of_range _ (by omega) hsum]
  rcases le_or_lt (c + max 1 (c * p / 100)) m with h | h
  · rw [min_eq_left h, if_neg (not_lt.2 h)]
  · rw [min_eq_right (le_of_lt h), if_pos h]

theorem scaledReplicas_eq_CalculateScaleUp (r : Option Int) (p m : Int) :
    scaledReplicas r p m = CalculateScaleUp (r.getD 1) p m := by
  cases r <;> rfl

/-! ## `CalculateMemoryIncrease` -/

/-- The four cases of `TestCalculateMemoryIncrease`. -/
theorem CalculateMemoryIncrease_tests :
    CalculateMemoryIncrease (256 * Mi) 25 (2 * Gi) = 320 * Mi ∧
    CalculateMemoryIncrease (128 * Mi) 50 (2 * Gi) = 192 * Mi ∧
    CalculateMemoryIncrease (1800 * Mi) 25 (2 * Gi) = 2 * Gi ∧
    CalculateMemoryIncrease (100 * Mi) 10 (2 * Gi) = 128 * Mi := by
  decide

/-- C1, counterexample. At 66444420 bytes and 1 percent the exact product is
67108864.2 bytes: its ceiling rounds up to 128Mi, while the code truncates it
to 67108864 and returns 64Mi. -/
theorem CalculateMemoryIncrease_not_ceiling :
    CalculateMemoryIncrease 66444420 1 (2 * Gi) = 64 * Mi ∧
    specMemoryIncrease 66444420 1 (2 * Gi) = 128 * Mi := by
  decide

/-- The rounding of `float64` can also lose a whole byte: at 3267909900 bytes
and 15 percent the exact product is the integer 3758096385, the `float64`
product lies just below it, and the result is 3584Mi instead of 3648Mi. -/
theorem CalculateMemoryIncrease_float_loss :
    CalculateMemoryIncrease 3267909900 15 (8 * Gi) = 3584 * Mi ∧
    specMemoryIncrease 3267909900 15 (8 * Gi) = 3648 * Mi ∧
    specNewBytes 3267909900 15 = 3758096385 ∧
    (memoryProduct 3267909900 15).trunc = 3758096384 := by
  decide

/-- C1, amended. For `0 ≤ current ≤ 2^50` bytes and `percent ≥ -100` with
`current × (1 + percent/100) ≤ 2^50`, `CalculateMemoryIncrease` equals
`min(R, max)` where `R` is the least multiple of 64Mi not below `T`, and `T`
is the `float64` product `current × (1 + percent/100)` truncated toward zero;
`T` lies strictly between `x - 2` and `x + 1` for the exact product `x`, so
that `R` is the rounded ceiling of the specification or 64Mi less. -/
theorem CalculateMemoryIncrease_truncates (current percent max : Int) (hc : 0 ≤ current)
    (hp : -100 ≤ percent) (hc50 : current ≤ 2 ^ 50)
    (hx : current * (100 + percent) ≤ 100 * 2 ^ 50) :
    CalculateMemoryIncrease current percent max =
      min (roundUp64Mi (memoryProduct current percent).trunc) max ∧
    (100 * (memoryProduct current percent).trunc < current * (100 + percent) + 100 ∧
      current * (100 + percent) < 100 * (memoryProduct current percent).trunc + 200) ∧
    (roundTo ∣ roundUp64Mi (memoryProduct current percent).trunc ∧
      (memoryProduct current percent).trunc ≤ roundUp64Mi (memoryProduct current percent).trunc ∧
      roundUp64Mi (memoryProduct current percent).trunc <
        (memoryProduct current percent).trunc + roundTo) ∧
    (roundUp64Mi (memoryProduct current percent).trunc =
        roundUp64Mi (specNewBytes current percent) ∨
      roundUp64Mi (memoryProduct current percent).trunc =
        roundUp64Mi (specNewBytes current percent) - roundTo) := by
  obtain ⟨t0, t1, t2⟩ := memoryProduct_trunc current percent hc hp hc50 hx
  refine ⟨CalculateMemoryIncrease_eq current percent max hc hp hc50 hx, ⟨t1, t2⟩,
    roundUp64Mi_spec _, ?_⟩
  generalize (memoryProduct current percent).trunc = T at t0 t1 t2 ⊢
  unfold specNewBytes
  generalize current * (100 + percent) = X at t1 t2 ⊢
  unfold roundUp64Mi ceilDiv roundTo
  omega

/-- C1, amended, at 256Mi, 25 percent and a cap of 2Gi. -/
theorem CalculateMemoryIncrease_truncates_witness :
    ((0 : Int) ≤ 256 * Mi ∧ (-100 : Int) ≤ 25 ∧ 256 * Mi ≤ 2 ^ 50 ∧
      256 * Mi * (100 + 25) ≤ 100 * 2 ^ 50) ∧
    (CalculateMemoryIncrease (256 * Mi) 25 (2 * Gi) =
      min (roundUp64Mi (memoryProduct (256 * Mi) 25).trunc) (2 * Gi) ∧
    (100 * (memoryProduct (256 * Mi) 25).trunc < 256 * Mi * (100 + 25) + 100 ∧
      256 * Mi * (100 + 25) < 100 * (memoryProduct (256 * Mi) 25).trunc + 200) ∧
    (roundTo ∣ roundUp64Mi (memoryProduct (256 * Mi) 25).trunc ∧
      (memoryProduct (256 * Mi) 25).trunc ≤ roundUp64Mi (memoryProduct (256 * Mi) 25).trunc ∧
      roundUp64Mi (memoryProduct (256 * Mi) 25).trunc <
        (memoryProduct (256 * Mi) 25).trunc + roundTo) ∧
    (roundUp64Mi (memoryProduct (256 * Mi) 25).trunc = roundUp64Mi (specNewBytes (256 * Mi) 25) ∨
      roundUp64Mi (memoryProduct (256 * Mi) 25).trunc =
        roundUp64Mi (specNewBytes (256 * Mi) 25) - roundTo)) :=
  ⟨by decide,
    CalculateMemoryIncrease_truncates (256 * Mi) 25 (2 * Gi) (by decide) (by decide) (by decide)
      (by decide)⟩

/-! ## `ApplyIncreaseMemory` -/

/-- C2. When `ApplyIncreaseMemory` succeeds on a workload, the selected
container gets `limits.memory` and `requests.memory` both equal to
`CalculateMemoryIncrease c p m`, with `c` its prior memory limit (256Mi when
zero or unset), `p` the parsed `memoryIncreasePercent` (25 when absent or
rejected by `Atoi`) and `m` the parsed `maxMemory` (2Gi when absent or rejected
by `ParseQuantity`); its name, image and other resource entries, every other
container and the rest of the object are unchanged. -/
theorem ApplyIncreaseMemory_sets_memory (parseQuantity : String → Option Quantity) (obj : Object)
    (containerName : String) (params : StrMap)
    (hok : (ApplyIncreaseMemory parseQuantity obj containerName params).2 = none) :
    ∃ containers i container containers1 container1,
      obj.podContainers = some containers ∧
      selectContainer containers containerName = some i ∧
      containers[i]? = some container ∧
      (ApplyIncreaseMemory parseQuantity obj containerName params).1 = obj.setContainers containers1 ∧
      (ApplyIncreaseMemory parseQuantity obj containerName params).1.podContainers = some containers1 ∧
      containers1.length = containers.length ∧
      (∀ j, j ≠ i → containers1[j]? = containers[j]?) ∧
      containers1[i]? = some container1 ∧
      container1.name = container.name ∧
      container1.image = container.image ∧
      (∀ k, k ≠ ResourceMemory → container1.limits.lookup k = container.limits.lookup k) ∧
      (∀ k, k ≠ ResourceMemory → container1.requests.lookup k = container.requests.lookup k) ∧
      container1.limits.lookup ResourceMemory =
        some (CalculateMemoryIncrease
          (if (container.limits.lookup ResourceMemory).getD 0 = 0 then 256 * Mi
            else (container.limits.lookup ResourceMemory).getD 0)
          (((params.lookup "memoryIncreasePercent").bind Atoi).getD 25)
          (((params.lookup "maxMemory").bind parseQuantity).getD (2 * Gi))) ∧
      container1.requests.lookup ResourceMemory = container1.limits.lookup ResourceMemory := by
  have hp : (match params.lookup "memoryIncreasePercent" with
      | some p => (match Atoi p with
        | some val => val
        | none => 25)
      | none => (25 : Int)) = ((params.lookup "memoryIncreasePercent").bind Atoi).getD 25 := by
    cases params.lookup "memoryIncreasePercent" with
    | none => rfl
    | some p => cases h : Atoi p <;> simp [h]
  have hm : (match params.lookup "maxMemory" with
      | some m => (match parseQuantity m with
        | some parsed => parsed
        | none => 2 * Gi)
      | none => 2 * Gi) = ((params.lookup "maxMemory").bind parseQuantity).getD (2 * Gi) := by
    cases params.lookup "maxMemory" with
    | none => rfl
    | some m => cases h : parseQuantity m <;> simp [h]
  unfold ApplyIncreaseMemory at hok ⊢
  simp only [hp, hm] at hok ⊢
  cases hc : obj.podContainers with
  | none => simp [hc] at hok
  | some containers =>
    cases hs : selectContainer containers containerName with
    | none => simp [hc, hs] at hok
    | some i =>
      obtain ⟨container, hget⟩ := selectContainer_getElem? containers containerName i hs
      simp only [hc, hs]
      refine ⟨containers, i, container, _,
        increaseContainerMemory (((params.lookup "memoryIncreasePercent").bind Atoi).getD 25)
          (((params.lookup "maxMemory").bind parseQuantity).getD (2 * Gi)) container,
        rfl, hs, hget, rfl,
        podContainers_setContainers obj containers _ hc, updateAt_length _ _ _,
        fun j hj => updateAt_getElem?_ne _ _ _ _ hj, ?_, rfl, rfl, ?_, ?_, ?_, ?_⟩
      · rw [updateAt_getElem?_self, hget, Option.map_some']
      · intro k hk
        exact lookup_mapSet_ne _ _ _ _ hk
      · intro k hk
        exact lookup_mapSet_ne _ _ _ _ hk
      · unfold increaseContainerMemory
        rw [lookup_mapSet_self]
        rfl
      · unfold increaseContainerMemory
        rw [lookup_mapSet_self, lookup_mapSet_self]

/-- C2 on the first case of `TestApplyIncreaseMemory`: the container `app`
with limit 256Mi, 25 percent and cap 2Gi gets limit and request 320Mi. -/
theorem ApplyIncreaseMemory_sets_memory_witness :
    (ApplyIncreaseMemory parseBinaryQuantity (.deployment sampleDeployment) "app" sampleParams).2
        = none ∧
    (ApplyIncreaseMemory parseBinaryQuantity (.deployment sampleDeployment) "app" sampleParams).1 =
      .deployment { sampleDeployment with
        containers :=
          [ { name := "app"
              image := "nginx"
              limits := [(ResourceMemory, 320 * Mi)]
              requests := [(ResourceMemory, 320 * Mi)] } ] } ∧
    ∃ containers i container containers1 container1,
      (Object.deployment sampleDeployment).podContainers = some containers ∧
      selectContainer containers "app" = some i ∧
      containers[i]? = some container ∧
      (ApplyIncreaseMemory parseBinaryQuantity (.deployment sampleDeployment) "app"
          sampleParams).1 = (Object.deployment sampleDeployment).setContainers containers1 ∧
      (ApplyIncreaseMemory parseBinaryQuantity (.deployment sampleDeployment) "app"
          sampleParams).1.podContainers = some containers1 ∧
      containers1.length = containers.length ∧
      (∀ j, j ≠ i → containers1[j]? = containers[j]?) ∧
      containers1[i]? = some container1 ∧
      container1.name = container.name ∧
      container1.image = container.image ∧
      (∀ k, k ≠ ResourceMemory → container1.limits.lookup k = container.limits.lookup k) ∧
      (∀ k, k ≠ ResourceMemory → container1.requests.lookup k = container.requests.lookup k) ∧
      container1.limits.lookup ResourceMemory =
        some (CalculateMemoryIncrease
          (if (container.limits.lookup ResourceMemory).getD 0 = 0 then 256 * Mi
            else (container.limits.lookup ResourceMemory).getD 0)
          (((sampleParams.lookup "memoryIncreasePercent").bind Atoi).getD 25)
          (((sampleParams.lookup "maxMemory").bind parseBinaryQuantity).getD (2 * Gi))) ∧
      container1.requests.lookup ResourceMemory = container1.limits.lookup ResourceMemory :=
  ⟨by decide, by decide,
    ApplyIncreaseMemory_sets_memory parseBinaryQuantity (.deployment sampleDeployment) "app"
      sampleParams (by decide)⟩

theorem ApplyIncreaseMemory_snd_eq_none_iff (parseQuantity : String → Option Quantity)
    (obj : Object) (containerName : String) (params : StrMap) :
    (ApplyIncreaseMemory parseQuantity obj containerName params).2 = none ↔
      ∃ containers i, obj.podContainers = some containers ∧
        selectContainer containers containerName = some i := by
  unfold ApplyIncreaseMemory
  cases hc : obj.podContainers with
  | none => simp
  | some containers =>
    cases hs : selectContainer containers containerName with
    | none => simp [hs]
    | some i => simp [hs]

/-- C3. `ApplyIncreaseMemory` returns an error exactly when the object is not
a Deployment, StatefulSet or DaemonSet, or no container is selected: the
container name is not (empty with exactly one container) and no container
carries that name. The error does not depend on the params; on an error the
object is unchanged; without an error the patched container is the only one
(empty name, one container) or else the first one with that name. -/
theorem ApplyIncreaseMemory_error_iff (parseQuantity : String → Option Quantity) (obj : Object)
    (containerName : String) (params : StrMap) :
    ((ApplyIncreaseMemory parseQuantity obj containerName params).2 ≠ none ↔
      ((∀ d, obj ≠ .deployment d) ∧ (∀ s, obj ≠ .statefulSet s) ∧ (∀ d, obj ≠ .daemonSet d)) ∨
        ∃ containers, obj.podContainers = some containers ∧
          ¬(containerName = "" ∧ containers.length = 1) ∧
          ∀ c ∈ containers, c.name ≠ containerName) ∧
    (∀ params1 : StrMap,
      (ApplyIncreaseMemory parseQuantity obj containerName params1).2 ≠ none ↔
        (ApplyIncreaseMemory parseQuantity obj containerName params).2 ≠ none) ∧
    ((ApplyIncreaseMemory parseQuantity obj containerName params).2 ≠ none →
      (ApplyIncreaseMemory parseQuantity obj containerName params).1 = obj) ∧
    ((ApplyIncreaseMemory parseQuantity obj containerName params).2 = none →
      ∃ containers i increasePercent maxMemory,
        obj.podContainers = some containers ∧
        (ApplyIncreaseMemory parseQuantity obj containerName params).1 =
          obj.setContainers
            (updateAt (increaseContainerMemory increasePercent maxMemory) i containers) ∧
        ((containerName = "" ∧ containers.length = 1 ∧ i = 0) ∨
          (¬(containerName = "" ∧ containers.length = 1) ∧
            (∃ c, containers[i]? = some c ∧ c.name = containerName) ∧
              ∀ j, j < i → ∀ c, containers[j]? = some c → c.name ≠ containerName))) := by
  have key : ∀ ps : StrMap, ((ApplyIncreaseMemory parseQuantity obj containerName ps).2 ≠ none ↔
      ((∀ d, obj ≠ .deployment d) ∧ (∀ s, obj ≠ .statefulSet s) ∧ (∀ d, obj ≠ .daemonSet d)) ∨
        ∃ containers, obj.podContainers = some containers ∧
          ¬(containerName = "" ∧ containers.length = 1) ∧
          ∀ c ∈ containers, c.name ≠ containerName) := by
    intro ps
    rw [Ne, ApplyIncreaseMemory_snd_eq_none_iff]
    constructor
    · intro h
      cases hc : obj.podContainers with
      | none =>
        left
        cases obj <;> simp_all [Object.podContainers]
      | some cs =>
        right
        refine ⟨cs, rfl, (selectContainer_none cs containerName).1 ?_⟩
        cases hs : selectContainer cs containerName with
        | none => rfl
        | some i => exact absurd ⟨cs, i, hc, hs⟩ h
    · rintro (⟨h1, h2, h3⟩ | ⟨cs, hc, hsel⟩) ⟨cs1, i, hc1, hs1⟩
      · cases obj with
        | deployment d => exact h1 d rfl
        | statefulSet d => exact h2 d rfl
        | daemonSet d => exact h3 d rfl
        | other t => simp [Object.podContainers] at hc1
      · rw [hc] at hc1
        cases hc1
        rw [(selectContainer_none cs containerName).2 hsel] at hs1
        cases hs1
  refine ⟨key params, fun ps => (key ps).trans (key params).symm, ?_, ?_⟩
  · unfold ApplyIncreaseMemory
    cases hc : obj.podContainers with
    | none => simp
    | some containers =>
      cases hs : selectContainer containers containerName with
      | none => simp [hs]
      | some i => simp [hs]
  · intro hok
    obtain ⟨containers, i, hc, hs⟩ :=
      (ApplyIncreaseMemory_snd_eq_none_iff parseQuantity obj containerName params).1 hok
    have hsel := (selectContainer_some containers containerName i).1 hs
    unfold ApplyIncreaseMemory
    simp only [hc, hs]
    exact ⟨containers, i, _, _, rfl, rfl, hsel⟩

/-! ## `ApplyScaleUp` -/

/-- C4, counterexample. With 1500000000 replicas and the default 50 percent the
sum `current + increase` leaves `int32`: the replica count becomes negative
instead of the cap 10. -/
theorem ApplyScaleUp_overflow :
    ApplyScaleUp (.deployment hugeDeployment) [] =
      (.deployment { hugeDeployment with replicas := some (-2044967296) }, none) ∧
    min ((1500000000 : Int) + max 1 (1500000000 * 50 / 100)) 10 = 10 := by
  decide

/-- C4, amended. On a Deployment or StatefulSet `ApplyScaleUp` succeeds and sets
the replicas to `CalculateScaleUp c p m`, leaving every other field as it was,
where `c` is the current count (1 when unset), `p` is `scaleUpPercent`
(50 when absent or rejected by `Atoi`) and `m` is `maxReplicas` converted to
`int32` (10 when absent or rejected); on every other kind, DaemonSet included,
it returns an error and leaves the object unchanged. Whenever `c` is an
`int32`, `c × p < 100 × 2^31` and `c + max(1, ⌊c × p / 100⌋) < 2^31`, that value
is `min(c + max(1, ⌊c × p / 100⌋), m)`. -/
theorem ApplyScaleUp_spec (obj : Object) (params : StrMap) :
    (∀ d, obj = .deployment d →
      ApplyScaleUp obj params =
        (.deployment { d with replicas := some (CalculateScaleUp (d.replicas.getD 1)
            (((params.lookup "scaleUpPercent").bind Atoi).getD 50)
            (((params.lookup "maxReplicas").bind fun m => (Atoi m).map wrapInt32).getD 10)) },
          none)) ∧
    (∀ s, obj = .statefulSet s →
      ApplyScaleUp obj params =
        (.statefulSet { s with replicas := some (CalculateScaleUp (s.replicas.getD 1)
            (((params.lookup "scaleUpPercent").bind Atoi).getD 50)
            (((params.lookup "maxReplicas").bind fun m => (Atoi m).map wrapInt32).getD 10)) },
          none)) ∧
    ((∀ d, obj ≠ .deployment d) → (∀ s, obj ≠ .statefulSet s) →
      (ApplyScaleUp obj params).2 ≠ none ∧ (ApplyScaleUp obj params).1 = obj) ∧
    (∀ c p m : Int, -2 ^ 31 ≤ c → c < 2 ^ 31 → c * p < 100 * 2 ^ 31 →
      c + max 1 (c * p / 100) < 2 ^ 31 →
      CalculateScaleUp c p m = min (c + max 1 (c * p / 100)) m) := by
  have hp : (match params.lookup "scaleUpPercent" with
      | some p => (match Atoi p with
        | some val => val
        | none => 50)
      | none => (50 : Int)) = ((params.lookup "scaleUpPercent").bind Atoi).getD 50 := by
    cases params.lookup "scaleUpPercent" with
    | none => rfl
    | some p => cases h : Atoi p <;> simp [h]
  have hm : (match params.lookup "maxReplicas" with
      | some m => (match Atoi m with
        | some val => wrapInt32 val
        | none => 10)
      | none => (10 : Int)) =
        ((params.lookup "maxReplicas").bind fun m => (Atoi m).map wrapInt32).getD 10 := by
    cases params.lookup "maxReplicas" with
    | none => rfl
    | some m => cases h : Atoi m <;> simp [h]
  refine ⟨?_, ?_, ?_, fun c p m h1 h2 h3 h4 => CalculateScaleUp_eq c p m h1 h2 h3 h4⟩
  · intro d hd
    subst hd
    simp only [ApplyScaleUp, hp, hm, scaledReplicas_eq_CalculateScaleUp]
  · intro d hd
    subst hd
    simp only [ApplyScaleUp, hp, hm, scaledReplicas_eq_CalculateScaleUp]
  · intro h1 h2
    cases obj with
    | deployment d => exact absurd rfl (h1 d)
    | statefulSet d => exact absurd rfl (h2 d)
    | daemonSet d => simp [ApplyScaleUp]
    | other t => simp [ApplyScaleUp]

/-- C4, amended, on the sample Deployment: three replicas at the default 50
percent and cap 10 become `min(3 + max(1, ⌊150/100⌋), 10) = 4`. -/
theorem ApplyScaleUp_spec_witness :
    ApplyScaleUp (.deployment sampleDeployment) [] =
      (.deployment { sampleDeployment with replicas := some 4 }, none) ∧
    CalculateScaleUp 3 50 10 = min (3 + max 1 (3 * 50 / 100)) 10 ∧
    (ApplyScaleUp (.daemonSet ⟨"ds", "default", [], []⟩) []).2 ≠ none := by
  have h := ApplyScaleUp_spec (.deployment sampleDeployment) []
  have hd := ApplyScaleUp_spec (.daemonSet ⟨"ds", "default", [], []⟩) []
  refine ⟨?_, h.2.2.2 3 50 10 (by decide) (by decide) (by decide) (by decide), ?_⟩
  · rw [h.1 sampleDeployment rfl]
    decide
  · exact (hd.2.2.1 (fun d => by simp) (fun s => by simp)).1

/-! ## `ApplyRollbackImage` -/

theorem rollbackLoop_image (lastStableImage : String) (containers : List Container)
    (annotations : StrMap) :
    ∀ c ∈ (rollbackLoop lastStableImage containers annotations).1, c.image = lastStableImage := by
  induction containers generalizing annotations with
  | nil => simp [rollbackLoop]
  | cons c cs ih =>
    intro c1 hc1
    simp only [rollbackLoop, List.mem_cons] at hc1
    rcases hc1 with h | h
    · rw [h]
    · exact ih _ c1 h

theorem rollbackLoop_length (lastStableImage : String) (containers : List Container)
    (annotations : StrMap) :
    (rollbackLoop lastStableImage containers annotations).1.length = containers.length := by
  induction containers generalizing annotations with
  | nil => simp [rollbackLoop]
  | cons c cs ih => simp [rollbackLoop, ih]

/-- C5. `ApplyRollbackImage` succeeds exactly when the object is a Deployment
whose annotation `heal8s.io/last-stable-image` is present and non-empty; on
success the object is still a Deployment with as many containers, each with
that annotation's value as image; on failure the object is unchanged. -/
theorem ApplyRollbackImage_success_iff (obj : Object) (params : StrMap) :
    ((ApplyRollbackImage obj params).2 = none ↔
      ∃ d v, obj = .deployment d ∧ d.annotations.lookup lastStableImageKey = some v ∧ v ≠ "") ∧
    ((ApplyRollbackImage obj params).2 = none →
      ∃ d v d1, obj = .deployment d ∧ d.annotations.lookup lastStableImageKey = some v ∧
        (ApplyRollbackImage obj params).1 = .deployment d1 ∧
        d1.containers.length = d.containers.length ∧
        ∀ c ∈ d1.containers, c.image = v) ∧
    ((ApplyRollbackImage obj params).2 ≠ none → (ApplyRollbackImage obj params).1 = obj) := by
  cases obj with
  | statefulSet s => simp [ApplyRollbackImage]
  | daemonSet s => simp [ApplyRollbackImage]
  | other t => simp [ApplyRollbackImage]
  | deployment d =>
    cases hl : d.annotations.lookup lastStableImageKey with
    | none =>
      have hg : mapGet d.annotations lastStableImageKey = "" := by simp [mapGet, hl]
      simp [ApplyRollbackImage, rollbackDeployment, hg, hl]
    | some v =>
      have hg : mapGet d.annotations lastStableImageKey = v := by simp [mapGet, hl]
      by_cases hv : v = ""
      · subst hv
        simp [ApplyRollbackImage, rollbackDeployment, hg, hl]
      · refine ⟨?_, ?_, ?_⟩
        · simp [ApplyRollbackImage, rollbackDeployment, hg, hl, hv]
        · intro _
          refine ⟨d, v,
            { d with
              containers := (rollbackLoop v d.containers d.annotations).1
              annotations := (rollbackLoop v d.containers d.annotations).2 },
            rfl, hl, ?_, ?_, ?_⟩
          · simp only [ApplyRollbackImage, rollbackDeployment, hg, hv, if_false]
          · exact rollbackLoop_length v d.containers d.annotations
          · exact rollbackLoop_image v d.containers d.annotations
        · simp [ApplyRollbackImage, rollbackDeployment, hg, hv]

/-! ## The alert router -/

/-- C8. For an alert with a non-empty namespace label, `extractTargetFromAlert`
follows the precedence deployment > statefulset > pod: a non-empty deployment
label gives kind Deployment with that name; otherwise a non-empty statefulset
label gives kind StatefulSet with that name; otherwise a non-empty pod label
gives kind Deployment named by the pod label unchanged; namespace and container
are the labels of those names (the container empty when absent). -/
theorem extractTargetFromAlert_precedence (alert : Alert)
    (hns : mapGet alert.labels "namespace" ≠ "") :
    (mapGet alert.labels "deployment" ≠ "" →
      extractTargetFromAlert alert =
        .ok { kind := "Deployment", name := mapGet alert.labels "deployment",
              ns := mapGet alert.labels "namespace",
              container := mapGet alert.labels "container" }) ∧
    (mapGet alert.labels "deployment" = "" → mapGet alert.labels "statefulset" ≠ "" →
      extractTargetFromAlert alert =
        .ok { kind := "StatefulSet", name := mapGet alert.labels "statefulset",
              ns := mapGet alert.labels "namespace",
              container := mapGet alert.labels "container" }) ∧
    (mapGet alert.labels "deployment" = "" → mapGet alert.labels "statefulset" = "" →
      mapGet alert.labels "pod" ≠ "" →
      extractTargetFromAlert alert =
        .ok { kind := "Deployment", name := mapGet alert.labels "pod",
              ns := mapGet alert.labels "namespace",
              container := mapGet alert.labels "container" }) ∧
    (alert.labels.lookup "container" = none →
      ∀ target, extractTargetFromAlert alert = .ok target → target.container = "") := by
  refine ⟨?_, ?_, ?_, ?_⟩
  · intro hd
    simp [extractTargetFromAlert, hns, hd]
  · intro hd hs
    simp [extractTargetFromAlert, hns, hd, hs]
  · intro hd hs hp
    simp [extractTargetFromAlert, hns, hd, hs, hp, extractDeploymentNameFromPod]
  · intro hc target
    have hc1 : mapGet alert.labels "container" = "" := by simp [mapGet, hc]
    unfold extractTargetFromAlert
    simp only [hns, if_false, hc1]
    split_ifs <;> intro h
    · cases h; rfl
    · cases h; rfl
    · cases h; rfl
    · cases h

/-- C8 on the alert of `TestRouteAlert`: the deployment label wins. -/
theorem extractTargetFromAlert_precedence_witness :
    mapGet sampleAlert.labels "namespace" ≠ "" ∧
    extractTargetFromAlert sampleAlert =
      .ok { kind := "Deployment", name := "api-service", ns := "prod", container := "api" } :=
  ⟨by decide,
    ((extractTargetFromAlert_precedence sampleAlert (by decide)).1 (by decide)).trans rfl⟩

theorem extractTargetFromAlert_error_iff (alert : Alert) :
    (extractTargetFromAlert alert = .error "alert has no namespace label" ↔
      mapGet alert.labels "namespace" = "") ∧
    (extractTargetFromAlert alert =
        .error "cannot determine target resource from alert labels" ↔
      mapGet alert.labels "namespace" ≠ "" ∧ mapGet alert.labels "deployment" = "" ∧
        mapGet alert.labels "statefulset" = "" ∧ mapGet alert.labels "pod" = "") ∧
    ((∃ target, extractTargetFromAlert alert = .ok target) ↔
      mapGet alert.labels "namespace" ≠ "" ∧
        ¬(mapGet alert.labels "deployment" = "" ∧ mapGet alert.labels "statefulset" = "" ∧
          mapGet alert.labels "pod" = "")) := by
  unfold extractTargetFromAlert
  by_cases hns : mapGet alert.labels "namespace" = ""
  · simp [hns]
  · by_cases hd : mapGet alert.labels "deployment" = ""
    · by_cases hs : mapGet alert.labels "statefulset" = ""
      · by_cases hp : mapGet alert.labels "pod" = ""
        · simp [hns, hd, hs, hp]
        · simp [hns, hd, hs, hp]
      · simp [hns, hd, hs]
    · simp [hns, hd]

theorem noRoute_message_ne (alertname : String) :
    "no route configured for alert: " ++ alertname ≠ "alert has no alertname label" ∧
    "no route configured for alert: " ++ alertname ≠
      "failed to extract target from alert: " ++ "alert has no namespace label" ∧
    "no route configured for alert: " ++ alertname ≠
      "failed to extract target from alert: " ++
        "cannot determine target resource from alert labels" := by
  refine ⟨?_, ?_, ?_⟩ <;>
  · intro h
    have h1 := congrArg String.data h
    simp [String.data_append] at h1

/-- C7. `RouteAlert` fails exactly when the alertname label is missing or
empty, or the alertname has no entry in the routing table, or the namespace
label is missing or empty, or none of the labels deployment, statefulset, pod
is non-empty. The four conditions are tested in that order, each yields its
own error, the four errors are pairwise distinct, and in every other case a
spec is returned. A label reads as empty exactly when it is missing or empty. -/
theorem RouteAlert_error_iff (alert : Alert) (config : RouterConfig) :
    (mapGet alert.labels "alertname" = "" →
      RouteAlert alert config = .error "alert has no alertname label") ∧
    (mapGet alert.labels "alertname" ≠ "" →
      config.routes.lookup (mapGet alert.labels "alertname") = none →
      RouteAlert alert config =
        .error ("no route configured for alert: " ++ mapGet alert.labels "alertname")) ∧
    (mapGet alert.labels "alertname" ≠ "" →
      config.routes.lookup (mapGet alert.labels "alertname") ≠ none →
      mapGet alert.labels "namespace" = "" →
      RouteAlert alert config =
        .error ("failed to extract target from alert: " ++ "alert has no namespace label")) ∧
    (mapGet alert.labels "alertname" ≠ "" →
      config.routes.lookup (mapGet alert.labels "alertname") ≠ none →
      mapGet alert.labels "namespace" ≠ "" →
      (mapGet alert.labels "deployment" = "" ∧ mapGet alert.labels "statefulset" = "" ∧
        mapGet alert.labels "pod" = "") →
      RouteAlert alert config =
        .error ("failed to extract target from alert: " ++
          "cannot determine target resource from alert labels")) ∧
    ((∃ err, RouteAlert alert config = .error err) ↔
      mapGet alert.labels "alertname" = "" ∨
      config.routes.lookup (mapGet alert.labels "alertname") = none ∨
      mapGet alert.labels "namespace" = "" ∨
      (mapGet alert.labels "deployment" = "" ∧ mapGet alert.labels "statefulset" = "" ∧
        mapGet alert.labels "pod" = "")) ∧
    ((∃ spec, RouteAlert alert config = .ok spec) ↔
      ¬(mapGet alert.labels "alertname" = "" ∨
        config.routes.lookup (mapGet alert.labels "alertname") = none ∨
        mapGet alert.labels "namespace" = "" ∨
        (mapGet alert.labels "deployment" = "" ∧ mapGet alert.labels "statefulset" = "" ∧
          mapGet alert.labels "pod" = ""))) ∧
    ("alert has no alertname label" ≠
        "no route configured for alert: " ++ mapGet alert.labels "alertname" ∧
      "alert has no alertname label" ≠
        "failed to extract target from alert: " ++ "alert has no namespace label" ∧
      "alert has no alertname label" ≠
        "failed to extract target from alert: " ++
          "cannot determine target resource from alert labels" ∧
      "no route configured for alert: " ++ mapGet alert.labels "alertname" ≠
        "failed to extract target from alert: " ++ "alert has no namespace label" ∧
      "no route configured for alert: " ++ mapGet alert.labels "alertname" ≠
        "failed to extract target from alert: " ++
          "cannot determine target resource from alert labels" ∧
      "failed to extract target from alert: " ++ "alert has no namespace label" ≠
        "failed to extract target from alert: " ++
          "cannot determine target resource from alert labels") ∧
    (∀ k, mapGet alert.labels k = "" ↔
      alert.labels.lookup k = none ∨ alert.labels.lookup k = some "") := by
  obtain ⟨hE1, hE2, hE3⟩ := extractTargetFromAlert_error_iff alert
  obtain ⟨hm1, hm2, hm3⟩ := noRoute_message_ne (mapGet alert.labels "alertname")
  have c1 : mapGet alert.labels "alertname" = "" →
      RouteAlert alert config = .error "alert has no alertname label" := by
    intro h
    simp [RouteAlert, h]
  have c2 : mapGet alert.labels "alertname" ≠ "" →
      config.routes.lookup (mapGet alert.labels "alertname") = none →
      RouteAlert alert config =
        .error ("no route configured for alert: " ++ mapGet alert.labels "alertname") := by
    intro h1 h2
    simp [RouteAlert, h1, h2]
  have c3 : mapGet alert.labels "alertname" ≠ "" →
      config.routes.lookup (mapGet alert.labels "alertname") ≠ none →
      mapGet alert.labels "namespace" = "" →
      RouteAlert alert config =
        .error ("failed to extract target from alert: " ++ "alert has no namespace label") := by
    intro h1 h2 h3
    obtain ⟨route, hr⟩ := Option.ne_none_iff_exists'.1 h2
    have := hE1.2 h3
    simp only [RouteAlert, h1, hr, this, if_false]
  have c4 : mapGet alert.labels "alertname" ≠ "" →
      config.routes.lookup (mapGet alert.labels "alertname") ≠ none →
      mapGet alert.labels "namespace" ≠ "" →
      (mapGet alert.labels "deployment" = "" ∧ mapGet alert.labels "statefulset" = "" ∧
        mapGet alert.labels "pod" = "") →
      RouteAlert alert config =
        .error ("failed to extract target from alert: " ++
          "cannot determine target resource from alert labels") := by
    intro h1 h2 h3 h4
    obtain ⟨route, hr⟩ := Option.ne_none_iff_exists'.1 h2
    have := hE2.2 ⟨h3, h4⟩
    simp only [RouteAlert, h1, hr, this, if_false]
  have c5 : ¬(mapGet alert.labels "alertname" = "" ∨
        config.routes.lookup (mapGet alert.labels "alertname") = none ∨
        mapGet alert.labels "namespace" = "" ∨
        (mapGet alert.labels "deployment" = "" ∧ mapGet alert.labels "statefulset" = "" ∧
          mapGet alert.labels "pod" = "")) →
      ∃ spec, RouteAlert alert config = .ok spec := by
    intro h
    simp only [not_or] at h
    obtain ⟨h1, h2, h3, h4⟩ := h
    obtain ⟨route, hr⟩ := Option.ne_none_iff_exists'.1 h2
    obtain ⟨target, ht⟩ := hE3.2 ⟨h3, h4⟩
    simp only [RouteAlert, h1, hr, ht, if_false]
    exact ⟨_, rfl⟩
  have c6 : (mapGet alert.labels "alertname" = "" ∨
        config.routes.lookup (mapGet alert.labels "alertname") = none ∨
        mapGet alert.labels "namespace" = "" ∨
        (mapGet alert.labels "deployment" = "" ∧ mapGet alert.labels "statefulset" = "" ∧
          mapGet alert.labels "pod" = "")) →
      ∃ err, RouteAlert alert config = .error err := by
    intro h
    by_cases h1 : mapGet alert.labels "alertname" = ""
    · exact ⟨_, c1 h1⟩
    · by_cases h2 : config.routes.lookup (mapGet alert.labels "alertname") = none
      · exact ⟨_, c2 h1 h2⟩
      · by_cases h3 : mapGet alert.labels "namespace" = ""
        · exact ⟨_, c3 h1 h2 h3⟩
        · rcases h with h | h | h | h
          · exact absurd h h1
          · exact absurd h h2
          · exact absurd h h3
          · exact ⟨_, c4 h1 h2 h3 h⟩
  refine ⟨c1, c2, c3, c4, ⟨?_, c6⟩, ⟨?_, c5⟩, ?_, fun k => mapGet_eq_empty_iff alert.labels k⟩
  · rintro ⟨err, he⟩
    by_contra hn
    obtain ⟨spec, hs⟩ := c5 hn
    rw [hs] at he
    cases he
  · rintro ⟨spec, hs⟩ hn
    obtain ⟨err, he⟩ := c6 hn
    rw [hs] at he
    cases he
  · exact ⟨hm1.symm, by decide, by decide, hm2, hm3, by decide⟩

theorem extractTargetFromAlert_ns (alert : Alert) (target : TargetResource)
    (ht : extractTargetFromAlert alert = .ok target) :
    target.ns = mapGet alert.labels "namespace" := by
  unfold extractTargetFromAlert at ht
  simp only at ht
  split_ifs at ht <;> cases ht <;> rfl

theorem RouteAlert_of_route (alert : Alert) (config : RouterConfig) (route : RouteConfig)
    (target : TargetResource) (hname : mapGet alert.labels "alertname" ≠ "")
    (hroute : config.routes.lookup (mapGet alert.labels "alertname") = some route)
    (ht : extractTargetFromAlert alert = .ok target) :
    RouteAlert alert config =
      .ok
        { alert :=
            { name := mapGet alert.labels "alertname"
              alertID := ""
              fingerprint := alert.fingerprint
              source := "alertmanager"
              severity := mapGet alert.labels "severity"
              payload := "" }
          target := target
          action := { type := route.actionType, params := route.params }
          strategy :=
            { mode := "GitOps"
              requireApproval := true
              environment := mapGet alert.labels "environment"
              ttl := "24h" }
          gitHub := none } := by
  simp only [RouteAlert, hname, hroute, ht, if_false, StrategyModeGitOps]

/-- C6. With the default router configuration and an alert whose target
labels are valid, `RouteAlert` returns: for `KubePodOOMKilled` and
`ContainerOOMKilled` the action IncreaseMemory with memoryIncreasePercent=25
and maxMemory=2Gi; for `KubeHpaMaxedOut` the action ScaleUp with
scaleUpPercent=50 and maxReplicas=10; for `KubePodCrashLooping` the action
RollbackImage with rollbackMaxRevisions=5; each time with `Alert.Name` the
alertname, the extracted target (its namespace the namespace label) and the
strategy GitOps, requireApproval, environment label, TTL 24h. -/
theorem RouteAlert_default (alert : Alert) (target : TargetResource)
    (ht : extractTargetFromAlert alert = .ok target) :
    target.ns = mapGet alert.labels "namespace" ∧
    (∀ (actionType : String) (params : StrMap),
      ((mapGet alert.labels "alertname" = "KubePodOOMKilled" ∨
          mapGet alert.labels "alertname" = "ContainerOOMKilled") ∧
          actionType = "IncreaseMemory" ∧
          params = [("memoryIncreasePercent", "25"), ("maxMemory", "2Gi")]) ∨
        (mapGet alert.labels "alertname" = "KubeHpaMaxedOut" ∧
          actionType = "ScaleUp" ∧
          params = [("scaleUpPercent", "50"), ("maxReplicas", "10")]) ∨
        (mapGet alert.labels "alertname" = "KubePodCrashLooping" ∧
          actionType = "RollbackImage" ∧
          params = [("rollbackMaxRevisions", "5")]) →
      RouteAlert alert DefaultRouterConfig =
        .ok
          { alert :=
              { name := mapGet alert.labels "alertname"
                alertID := ""
                fingerprint := alert.fingerprint
                source := "alertmanager"
                severity := mapGet alert.labels "severity"
                payload := "" }
            target := target
            action := { type := actionType, params := params }
            strategy :=
              { mode := "GitOps"
                requireApproval := true
                environment := mapGet alert.labels "environment"
                ttl := "24h" }
            gitHub := none }) := by
  refine ⟨extractTargetFromAlert_ns alert target ht, ?_⟩
  intro actionType params h
  rcases h with ⟨h | h, ha, hp⟩ | ⟨h, ha, hp⟩ | ⟨h, ha, hp⟩
  · subst ha hp
    have hne : mapGet alert.labels "alertname" ≠ "" := by rw [h]; decide
    exact RouteAlert_of_route alert DefaultRouterConfig _ target hne (by rw [h]; rfl) ht
  · subst ha hp
    have hne : mapGet alert.labels "alertname" ≠ "" := by rw [h]; decide
    exact RouteAlert_of_route alert DefaultRouterConfig _ target hne (by rw [h]; rfl) ht
  · subst ha hp
    have hne : mapGet alert.labels "alertname" ≠ "" := by rw [h]; decide
    exact RouteAlert_of_route alert DefaultRouterConfig _ target hne (by rw [h]; rfl) ht
  · subst ha hp
    have hne : mapGet alert.labels "alertname" ≠ "" := by rw [h]; decide
    exact RouteAlert_of_route alert DefaultRouterConfig _ target hne (by rw [h]; rfl) ht

/-- C6 on the alert of `TestRouteAlert`. -/
theorem RouteAlert_default_witness :
    extractTargetFromAlert sampleAlert =
      .ok { kind := "Deployment", name := "api-service", ns := "prod", container := "api" } ∧
    RouteAlert sampleAlert DefaultRouterConfig =
      .ok
        { alert :=
            { name := "KubePodOOMKilled"
              alertID := ""
              fingerprint := "abc123"
              source := "alertmanager"
              severity := "critical"
              payload := "" }
          target := { kind := "Deployment", name := "api-service", ns := "prod", container := "api" }
          action :=
            { type := "IncreaseMemory"
              params := [("memoryIncreasePercent", "25"), ("maxMemory", "2Gi")] }
          strategy :=
            { mode := "GitOps", requireApproval := true, environment := "", ttl := "24h" }
          gitHub := none } :=
  ⟨rfl,
    ((RouteAlert_default sampleAlert
        { kind := "Deployment", name := "api-service", ns := "prod", container := "api" }
        rfl).2 "IncreaseMemory" [("memoryIncreasePercent", "25"), ("maxMemory", "2Gi")]
        (Or.inl ⟨Or.inl (by decide), rfl, rfl⟩)).trans rfl⟩

/-! ## The deduplicator and the webhook handler -/

theorem ShouldProcess_of_absent (rfc3339 : Time → String) (d : AlertDeduplicator)
    (fingerprint : String) (startsAt : Time) (now : Int)
    (hl : d.seen.lookup (fingerprint ++ ":" ++ rfc3339 startsAt) = none) :
    d.ShouldProcess rfc3339 fingerprint startsAt now =
      ({ d with seen := mapSet (fingerprint ++ ":" ++ rfc3339 startsAt) now d.seen }, true) := by
  simp only [AlertDeduplicator.ShouldProcess, dedupKey, hl]

theorem ShouldProcess_of_recent (rfc3339 : Time → String) (d : AlertDeduplicator)
    (fingerprint : String) (startsAt : Time) (now lastSeen : Int)
    (hl : d.seen.lookup (fingerprint ++ ":" ++ rfc3339 startsAt) = some lastSeen)
    (hlt : now - lastSeen < d.ttl) :
    d.ShouldProcess rfc3339 fingerprint startsAt now = (d, false) := by
  simp only [AlertDeduplicator.ShouldProcess, dedupKey, hl, hlt, if_true]

theorem ShouldProcess_of_stale (rfc3339 : Time → String) (d : AlertDeduplicator)
    (fingerprint : String) (startsAt : Time) (now lastSeen : Int)
    (hl : d.seen.lookup (fingerprint ++ ":" ++ rfc3339 startsAt) = some lastSeen)
    (hlt : ¬ now - lastSeen < d.ttl) :
    d.ShouldProcess rfc3339 fingerprint startsAt now =
      ({ d with seen := mapSet (fingerprint ++ ":" ++ rfc3339 startsAt) now d.seen }, true) := by
  simp only [AlertDeduplicator.ShouldProcess, dedupKey, hl, hlt, if_false]

/-- C9. With the table and the clock explicit, `ShouldProcess(fingerprint,
startsAt)` at time `now` returns false exactly when the key
`fingerprint ":" RFC3339(startsAt)` is in the table with `now - lastSeen < TTL`;
when it returns true the table afterwards maps the key to `now` and every other
key as before; when it returns false the deduplicator is unchanged; the TTL
never changes. -/
theorem ShouldProcess_spec (rfc3339 : Time → String) (d : AlertDeduplicator)
    (fingerprint : String) (startsAt : Time) (now : Int) :
    ((d.ShouldProcess rfc3339 fingerprint startsAt now).2 = false ↔
      ∃ lastSeen, d.seen.lookup (fingerprint ++ ":" ++ rfc3339 startsAt) = some lastSeen ∧
        now - lastSeen < d.ttl) ∧
    ((d.ShouldProcess rfc3339 fingerprint startsAt now).2 = true →
      (d.ShouldProcess rfc3339 fingerprint startsAt now).1.seen.lookup
          (fingerprint ++ ":" ++ rfc3339 startsAt) = some now ∧
      ∀ k, k ≠ fingerprint ++ ":" ++ rfc3339 startsAt →
        (d.ShouldProcess rfc3339 fingerprint startsAt now).1.seen.lookup k = d.seen.lookup k) ∧
    ((d.ShouldProcess rfc3339 fingerprint startsAt now).2 = false →
      (d.ShouldProcess rfc3339 fingerprint startsAt now).1 = d) ∧
    (d.ShouldProcess rfc3339 fingerprint startsAt now).1.ttl = d.ttl := by
  cases hl : d.seen.lookup (fingerprint ++ ":" ++ rfc3339 startsAt) with
  | none =>
    rw [ShouldProcess_of_absent rfc3339 d fingerprint startsAt now hl]
    refine ⟨?_, ?_, ?_, ?_⟩
    · simp
    · intro _
      exact ⟨lookup_mapSet_self _ _ _, fun k hk => lookup_mapSet_ne _ _ _ _ hk⟩
    · simp
    · rfl
  | some lastSeen =>
    by_cases hlt : now - lastSeen < d.ttl
    · rw [ShouldProcess_of_recent rfc3339 d fingerprint startsAt now lastSeen hl hlt]
      refine ⟨?_, ?_, ?_, ?_⟩
      · simp [hlt]
      · simp
      · simp
      · rfl
    · rw [ShouldProcess_of_stale rfc3339 d fingerprint startsAt now lastSeen hl hlt]
      refine ⟨?_, ?_, ?_, ?_⟩
      · simp [hlt]
      · intro _
        exact ⟨lookup_mapSet_self _ _ _, fun k hk => lookup_mapSet_ne _ _ _ _ hk⟩
      · simp
      · rfl

/-- C10. `HandleWebhook` answers 405 exactly when the method is not POST;
for a POST it answers 400 exactly when the body cannot be read or does not
unmarshal into the payload; for every other request it answers 200 with body
`OK`, whatever the alerts of the payload are and whatever the handler state. -/
theorem HandleWebhook_response (rfc3339 : Time → String)
    (unmarshal : String → Option AlertmanagerWebhookPayload)
    (h : AlertmanagerHandler) (now : Int) (r : Request) :
    ((HandleWebhook rfc3339 unmarshal h now r).2.status = 405 ↔ r.method ≠ "POST") ∧
    (r.method = "POST" →
      ((HandleWebhook rfc3339 unmarshal h now r).2.status = 400 ↔
        r.body = none ∨ ∃ body, r.body = some body ∧ unmarshal body = none)) ∧
    (r.method = "POST" → ∀ body payload, r.body = some body → unmarshal body = some payload →
      (HandleWebhook rfc3339 unmarshal h now r).2 = { status := 200, body := "OK" }) ∧
    ((HandleWebhook rfc3339 unmarshal h now r).2.status = 405 ∨
      (HandleWebhook rfc3339 unmarshal h now r).2.status = 400 ∨
      (HandleWebhook rfc3339 unmarshal h now r).2 = { status := 200, body := "OK" }) := by
  unfold HandleWebhook
  by_cases hm : r.method = "POST"
  · cases hb : r.body with
    | none => simp [hm, httpError]
    | some body =>
      cases hu : unmarshal body with
      | none =>
        simp only [hm, hu, httpError, ne_eq, not_true_eq_false, if_false]
        refine ⟨by simp, fun _ => by simp [hu], ?_, by simp⟩
        intro _ body1 payload hb1 hu1
        cases hb1
        rw [hu] at hu1
        cases hu1
      | some payload => simp [hm, hu]
  · simp [hm, httpError]

/-! ## The store as a map -/

theorem find?_replaceFirst_self {α : Type} (p : α → Bool) (x y : α) (l : List α)
    (hx : p x = true) (hl : l.find? p = some y) : (replaceFirst p x l).find? p = some x := by
  induction l with
  | nil => simp at hl
  | cons z zs ih =>
    unfold replaceFirst
    by_cases hz : p z = true
    · simp [hz, hx]
    · simp only [hz, Bool.false_eq_true, if_false]
      rw [List.find?_cons_of_neg _ hz] at hl ⊢
      exact ih hl

theorem find?_replaceFirst_other {α : Type} (p q : α → Bool) (x : α) (l : List α)
    (hx : q x = false) (hpq : ∀ z, p z = true → q z = false) :
    (replaceFirst p x l).find? q = l.find? q := by
  induction l with
  | nil => rfl
  | cons z zs ih =>
    unfold replaceFirst
    by_cases hz : p z = true
    · simp [hz, hx, hpq z hz]
    · simp only [hz, Bool.false_eq_true, if_false]
      by_cases hq : q z = true
      · simp [hq]
      · rw [List.find?_cons_of_neg _ hq, List.find?_cons_of_neg _ hq]
        exact ih

theorem map_replaceFirst {α β : Type} (f : α → β) (p : α → Bool) (x y : α) (l : List α)
    (hl : l.find? p = some y) (hf : f x = f y) : (replaceFirst p x l).map f = l.map f := by
  induction l with
  | nil => rfl
  | cons z zs ih =>
    unfold replaceFirst
    by_cases hz : p z = true
    · rw [List.find?_cons_of_pos _ hz] at hl
      cases hl
      simp [hz, hf]
    · rw [List.find?_cons_of_neg _ hz] at hl
      simp only [hz, Bool.false_eq_true, if_false, List.map_cons]
      rw [ih hl]

theorem any_of_find? {α : Type} (p : α → Bool) (y : α) (l : List α)
    (hl : l.find? p = some y) : l.any p = true := by
  rw [List.any_eq_true]
  exact ⟨y, List.mem_of_find?_eq_some hl, List.find?_some hl⟩

theorem any_eq_find?_isSome {α : Type} (p : α → Bool) (l : List α) :
    l.any p = (l.find? p).isSome := by
  induction l with
  | nil => rfl
  | cons x xs ih => by_cases hx : p x = true <;> simp [List.find?_cons, hx, ih]

theorem find?_eq_none_of_any {α : Type} (p : α → Bool) (l : List α)
    (hl : l.any p = false) : l.find? p = none := by
  rw [List.find?_eq_none]
  intro x hx hp
  have : l.any p = true := List.any_eq_true.2 ⟨x, hx, hp⟩
  rw [hl] at this
  cases this

theorem mapClient_getRemediation_eq (s : Store) (ns name : String) :
    mapClient.getRemediation s ns name =
      match s.remediations.find? fun r => decide (r.ns = ns ∧ r.name = name) with
      | some r => .ok r
      | none => .error (errNotFound name) := rfl

theorem mapClient_getRemediation_find (s : Store) (ns name : String) (r : Remediation)
    (hget : mapClient.getRemediation s ns name = .ok r) :
    s.remediations.find? (fun x => decide (x.ns = ns ∧ x.name = name)) = some r := by
  rw [mapClient_getRemediation_eq] at hget
  cases hf : s.remediations.find? fun r => decide (r.ns = ns ∧ r.name = name) with
  | none => rw [hf] at hget; cases hget
  | some x => rw [hf] at hget; cases hget; rfl

theorem mapClient_getRemediation_key (s : Store) (ns name : String) (r : Remediation)
    (hget : mapClient.getRemediation s ns name = .ok r) : r.ns = ns ∧ r.name = name := by
  have h := List.find?_some (mapClient_getRemediation_find s ns name r hget)
  simpa using h

theorem mapClient_getDeployment_eq (s : Store) (ns name : String) :
    mapClient.getDeployment s ns name =
      match s.deployments.find? fun r => decide (r.ns = ns ∧ r.name = name) with
      | some r => .ok r
      | none => .error (errNotFound name) := rfl

theorem mapClient_getDeployment_find (s : Store) (ns name : String) (d : Deployment)
    (hget : mapClient.getDeployment s ns name = .ok d) :
    s.deployments.find? (fun x => decide (x.ns = ns ∧ x.name = name)) = some d := by
  rw [mapClient_getDeployment_eq] at hget
  cases hf : s.deployments.find? fun r => decide (r.ns = ns ∧ r.name = name) with
  | none => rw [hf] at hget; cases hget
  | some x => rw [hf] at hget; cases hget; rfl

theorem mapClient_getDeployment_key (s : Store) (ns name : String) (d : Deployment)
    (hget : mapClient.getDeployment s ns name = .ok d) : d.ns = ns ∧ d.name = name := by
  have h := List.find?_some (mapClient_getDeployment_find s ns name d hget)
  simpa using h

/-- A status write through the map client, on a record that a read has just
returned: the write goes through, the stored record takes the written status and
keeps everything else, and nothing else in the store changes. -/
theorem mapClient_updateStatus_spec (s : Store) (ns name : String) (r r1 : Remediation)
    (hget : mapClient.getRemediation s ns name = .ok r) (hns : r1.ns = ns)
    (hname : r1.name = name) :
    ∃ s1, mapClient.updateStatus s r1 = .ok s1 ∧
      mapClient.getRemediation s1 ns name = .ok { r with status := r1.status } ∧
      (∀ ns1 name1, (ns1, name1) ≠ (ns, name) →
        mapClient.getRemediation s1 ns1 name1 = mapClient.getRemediation s ns1 name1) ∧
      s1.deployments = s.deployments ∧ s1.statefulSets = s.statefulSets ∧
      s1.daemonSets = s.daemonSets ∧
      s1.remediations.map (fun x => { x with status := RemediationStatus.zero }) =
        s.remediations.map (fun x => { x with status := RemediationStatus.zero }) := by
  have hf := mapClient_getRemediation_find s ns name r hget
  have hk := mapClient_getRemediation_key s ns name r hget
  subst hns hname
  refine ⟨{ s with
            remediations :=
              replaceFirst (fun x => decide (x.ns = r1.ns ∧ x.name = r1.name))
                { r with status := r1.status } s.remediations }, ?_, ?_, ?_, rfl, rfl, rfl, ?_⟩
  · show (match s.remediations.find? fun x => decide (x.ns = r1.ns ∧ x.name = r1.name) with
      | some stored =>
        (.ok { s with
              remediations :=
                replaceFirst (fun x => decide (x.ns = r1.ns ∧ x.name = r1.name))
                  { stored with status := r1.status } s.remediations } : Except StoreError Store)
      | none => .error (errNotFound r1.name)) = _
    rw [hf]
  · rw [mapClient_getRemediation_eq]
    simp only []
    rw [find?_replaceFirst_self _ _ r _ (by simpa using hk) hf]
  · intro ns1 name1 hne
    rw [mapClient_getRemediation_eq, mapClient_getRemediation_eq]
    simp only []
    rw [find?_replaceFirst_other]
    · simp only [decide_eq_false_iff_not, not_and]
      intro h1 h2
      exact hne (by rw [← h1, ← h2, hk.1, hk.2])
    · intro z hz
      simp only [decide_eq_true_eq] at hz
      simp only [decide_eq_false_iff_not, not_and]
      intro h1 h2
      exact hne (by rw [← h1, ← h2, hz.1, hz.2])
  · exact map_replaceFirst _ _ _ r _ hf rfl

/-! ## The intake of alerts -/

theorem RouteAlert_target (alert : Alert) (config : RouterConfig) (spec : RemediationSpec)
    (h : RouteAlert alert config = .ok spec) :
    extractTargetFromAlert alert = .ok spec.target := by
  unfold RouteAlert at h
  simp only [] at h
  split_ifs at h with h1
  cases hl : config.routes.lookup (mapGet alert.labels "alertname") with
  | none => rw [hl] at h; cases h
  | some route =>
    rw [hl] at h
    cases ht : extractTargetFromAlert alert with
    | error e => rw [ht] at h; cases h
    | ok target =>
      rw [ht] at h
      simp only [Except.ok.injEq] at h
      rw [← h]

theorem newRemediation_of_route (rfc3339 compact : Time → String)
    (marshal : AlertPayload → String) (routerConfig : RouterConfig) (alert : AlertPayload)
    (spec : RemediationSpec)
    (hroute : RouteAlert
      { labels := alert.labels
        annotations := alert.annotations
        status := alert.status
        startsAt := rfc3339 alert.startsAt
        fingerprint := alert.fingerprint } routerConfig = .ok spec) :
    newRemediation rfc3339 compact marshal routerConfig alert =
      .ok
        { name := remediationName compact alert
          ns := spec.target.ns
          labels :=
            [ ("k8s-healer.io/alert", mapGet alert.labels "alertname"),
              ("k8s-healer.io/target", spec.target.name),
              ("k8s-healer.io/fingerprint", alert.fingerprint) ]
          generation := 0
          creationTimestamp := 0
          spec :=
            { spec with
              alert :=
                { spec.alert with
                  payload := marshal alert
                  alertID :=
                    alert.fingerprint ++ "-" ++
                      toString (alert.startsAt.unixNano / 1000000000) } }
          status := RemediationStatus.zero } := by
  unfold newRemediation
  simp only []
  rw [hroute]

theorem newRemediation_name (rfc3339 compact : Time → String)
    (marshal : AlertPayload → String) (routerConfig : RouterConfig) (alert : AlertPayload)
    (remediation : Remediation)
    (h : newRemediation rfc3339 compact marshal routerConfig alert = .ok remediation) :
    remediation.name = remediationName compact alert := by
  unfold newRemediation at h
  simp only [] at h
  split at h
  · cases h
  · simp only [Except.ok.injEq] at h
    rw [← h]

theorem newRemediation_error (rfc3339 compact : Time → String)
    (marshal : AlertPayload → String) (routerConfig : RouterConfig) (alert : AlertPayload)
    (err : String)
    (hroute : RouteAlert
      { labels := alert.labels
        annotations := alert.annotations
        status := alert.status
        startsAt := rfc3339 alert.startsAt
        fingerprint := alert.fingerprint } routerConfig = .error err) :
    newRemediation rfc3339 compact marshal routerConfig alert = .error err := by
  unfold newRemediation
  simp only []
  rw [hroute]

/-- The object that `processAlert` creates in the map store when no record of
that name is held in the namespace. -/
theorem processAlert_creates (rfc3339 compact : Time → String)
    (marshal : AlertPayload → String) (h : AlertmanagerHandler) (alert : AlertPayload)
    (w : IntakeState Store) (remediation : Remediation)
    (hnew : newRemediation rfc3339 compact marshal h.routerConfig alert = .ok remediation)
    (habsent : ∀ r, mapClient.getRemediation w.store remediation.ns remediation.name ≠ .ok r) :
    (processAlert mapClient rfc3339 compact marshal h alert w).store =
      { w.store with remediations := w.store.remediations ++ [remediation] } := by
  unfold processAlert
  rw [hnew]
  simp only []
  cases hg : mapClient.getRemediation w.store remediation.ns remediation.name with
  | ok r => exact absurd hg (habsent r)
  | error e =>
    simp only []
    have hfind : w.store.remediations.find?
        (fun x => decide (x.ns = remediation.ns ∧ x.name = remediation.name)) = none := by
      rw [mapClient_getRemediation_eq] at hg
      cases hf : w.store.remediations.find?
          (fun x => decide (x.ns = remediation.ns ∧ x.name = remediation.name)) with
      | none => rfl
      | some x => rw [hf] at hg; cases hg
    have hany : (w.store.remediations.any
        fun x => decide (x.ns = remediation.ns ∧ x.name = remediation.name)) = false := by
      rw [any_eq_find?_isSome, hfind]
      rfl
    have hc : mapClient.createRemediation w.store remediation =
        .ok { w.store with remediations := w.store.remediations ++ [remediation] } := by
      show (if (w.store.remediations.any
          fun x => decide (x.ns = remediation.ns ∧ x.name = remediation.name)) = true then
          (.error (errAlreadyExists remediation.name) : Except StoreError Store)
        else .ok { w.store with remediations := w.store.remediations ++ [remediation] }) = _
      rw [hany]
      rfl
    rw [hc]

/-- C12. For every alert that routes successfully, the Remediation that
`processAlert` builds is named "rem-" + alertname + "-" + startsAt in the layout
`20060102-150405`, so that two alerts with the same alertname and startsAt get
the same name whatever else they carry; it is placed in the namespace of the
routed target, which is labels["namespace"]; its labels are exactly
k8s-healer.io/alert = alertname, k8s-healer.io/target = target name and
k8s-healer.io/fingerprint = fingerprint; and it is the object that `processAlert`
adds to the map store when no record of that name is held in the namespace. -/
theorem processAlert_builds (rfc3339 compact : Time → String)
    (marshal : AlertPayload → String) (routerConfig : RouterConfig) (alert : AlertPayload)
    (spec : RemediationSpec)
    (hroute : RouteAlert
      { labels := alert.labels
        annotations := alert.annotations
        status := alert.status
        startsAt := rfc3339 alert.startsAt
        fingerprint := alert.fingerprint } routerConfig = .ok spec) :
    ∃ remediation,
      newRemediation rfc3339 compact marshal routerConfig alert = .ok remediation ∧
      remediation.name =
        "rem-" ++ mapGet alert.labels "alertname" ++ "-" ++ compact alert.startsAt ∧
      (∀ (rfc3339a : Time → String) (marshala : AlertPayload → String)
          (routerConfiga : RouterConfig) (alerta : AlertPayload) (remediationa : Remediation),
        mapGet alerta.labels "alertname" = mapGet alert.labels "alertname" →
        alerta.startsAt = alert.startsAt →
        newRemediation rfc3339a compact marshala routerConfiga alerta = .ok remediationa →
        remediationa.name = remediation.name) ∧
      remediation.ns = spec.target.ns ∧
      remediation.ns = mapGet alert.labels "namespace" ∧
      remediation.labels =
        [ ("k8s-healer.io/alert", mapGet alert.labels "alertname"),
          ("k8s-healer.io/target", spec.target.name),
          ("k8s-healer.io/fingerprint", alert.fingerprint) ] ∧
      remediation.spec.target = spec.target ∧
      remediation.spec.action = spec.action ∧
      remediation.spec.strategy = spec.strategy ∧
      ∀ (h : AlertmanagerHandler) (w : IntakeState Store), h.routerConfig = routerConfig →
        (∀ r, mapClient.getRemediation w.store remediation.ns remediation.name ≠ .ok r) →
        (processAlert mapClient rfc3339 compact marshal h alert w).store =
          { w.store with remediations := w.store.remediations ++ [remediation] } := by
  have hnew := newRemediation_of_route rfc3339 compact marshal routerConfig alert spec hroute
  refine ⟨_, hnew, rfl, ?_, rfl, ?_, rfl, rfl, rfl, rfl, ?_⟩
  · intro rfc3339a marshala routerConfiga alerta remediationa hname hstart hnewa
    rw [newRemediation_name rfc3339a compact marshala routerConfiga alerta remediationa hnewa]
    simp only [remediationName, hname, hstart]
  · exact extractTargetFromAlert_ns _ _ (RouteAlert_target _ _ _ hroute)
  · intro h w hcfg habsent
    exact processAlert_creates rfc3339 compact marshal h alert w _ (by rw [hcfg]; exact hnew)
      habsent

/-- C12 on a `KubePodOOMKilled` alert started at 2024-01-01T12:00:00Z. -/
theorem processAlert_builds_witness :
    ∃ remediation,
      newRemediation formatRFC3339 formatCompact marshalFingerprint DefaultRouterConfig
        oomAlert = .ok remediation ∧
      remediation.name = "rem-KubePodOOMKilled-20240101-120000" ∧
      remediation.ns = "prod" ∧
      remediation.labels =
        [ ("k8s-healer.io/alert", "KubePodOOMKilled"), ("k8s-healer.io/target", "api-service"),
          ("k8s-healer.io/fingerprint", "abc123") ] := by
  obtain ⟨remediation, h1, h2, _, _, h5, h6, _⟩ :=
    processAlert_builds formatRFC3339 formatCompact marshalFingerprint DefaultRouterConfig
      oomAlert
      { alert :=
          { name := "KubePodOOMKilled"
            alertID := ""
            fingerprint := "abc123"
            source := "alertmanager"
            severity := "critical"
            payload := "" }
        target := { kind := "Deployment", name := "api-service", ns := "prod", container := "api" }
        action :=
          { type := "IncreaseMemory"
            params := [("memoryIncreasePercent", "25"), ("maxMemory", "2Gi")] }
        strategy :=
          { mode := "GitOps", requireApproval := true, environment := "", ttl := "24h" }
        gitHub := none } rfl
  exact ⟨remediation, h1, h2.trans (by decide), h5.trans (by decide), h6⟩

theorem handleAlerts_notFiring (rfc3339 : Time → String) (now : Int) (alert : AlertPayload)
    (rest : List AlertPayload) (h : AlertmanagerHandler) (hs : alert.status ≠ "firing") :
    handleAlerts rfc3339 now (alert :: rest) h =
      handleAlerts rfc3339 now rest
        { h with
          alertsReceived :=
            h.alertsReceived ++
              [(mapGet alert.labels "alertname", mapGet alert.labels "severity")]
          alertsSkipped :=
            h.alertsSkipped ++ [(mapGet alert.labels "alertname", "not-firing")] } := by
  rw [handleAlerts]
  simp only [hs, ne_eq, not_false_eq_true, if_true]

theorem handleAlerts_duplicate (rfc3339 : Time → String) (now : Int) (alert : AlertPayload)
    (rest : List AlertPayload) (h : AlertmanagerHandler) (hs : alert.status = "firing")
    (hd : (h.dedup.ShouldProcess rfc3339 alert.fingerprint alert.startsAt now).2 = false) :
    handleAlerts rfc3339 now (alert :: rest) h =
      handleAlerts rfc3339 now rest
        { h with
          dedup := (h.dedup.ShouldProcess rfc3339 alert.fingerprint alert.startsAt now).1
          alertsReceived :=
            h.alertsReceived ++
              [(mapGet alert.labels "alertname", mapGet alert.labels "severity")]
          alertsSkipped :=
            h.alertsSkipped ++ [(mapGet alert.labels "alertname", "duplicate")] } := by
  rw [handleAlerts]
  simp only [hs, ne_eq, not_true_eq_false, if_false, hd, if_true]

theorem handleAlerts_accepted (rfc3339 : Time → String) (now : Int) (alert : AlertPayload)
    (rest : List AlertPayload) (h : AlertmanagerHandler) (hs : alert.status = "firing")
    (hd : (h.dedup.ShouldProcess rfc3339 alert.fingerprint alert.startsAt now).2 = true) :
    handleAlerts rfc3339 now (alert :: rest) h =
      handleAlerts rfc3339 now rest
        { h with
          dedup := (h.dedup.ShouldProcess rfc3339 alert.fingerprint alert.startsAt now).1
          alertsReceived :=
            h.alertsReceived ++
              [(mapGet alert.labels "alertname", mapGet alert.labels "severity")]
          dispatched := h.dispatched ++ [alert] } := by
  rw [handleAlerts]
  simp only [hs, ne_eq, not_true_eq_false, if_false, hd, Bool.true_eq_false]

theorem handleAlerts_nil (rfc3339 : Time → String) (now : Int) (h : AlertmanagerHandler) :
    handleAlerts rfc3339 now [] h = h := by
  rw [handleAlerts]

/-- The loop over the alerts, one alert at a time. -/
theorem handleAlerts_cons (rfc3339 : Time → String) (now : Int) (alert : AlertPayload)
    (rest : List AlertPayload) (h : AlertmanagerHandler) :
    handleAlerts rfc3339 now (alert :: rest) h =
      handleAlerts rfc3339 now rest (handleAlerts rfc3339 now [alert] h) := by
  by_cases hs : alert.status = "firing"
  · cases hd : (h.dedup.ShouldProcess rfc3339 alert.fingerprint alert.startsAt now).2 with
    | false =>
      rw [handleAlerts_duplicate rfc3339 now alert rest h hs hd,
        handleAlerts_duplicate rfc3339 now alert [] h hs hd, handleAlerts_nil]
    | true =>
      rw [handleAlerts_accepted rfc3339 now alert rest h hs hd,
        handleAlerts_accepted rfc3339 now alert [] h hs hd, handleAlerts_nil]
  · rw [handleAlerts_notFiring rfc3339 now alert rest h hs,
      handleAlerts_notFiring rfc3339 now alert [] h hs, handleAlerts_nil]

theorem handleAlerts_append (rfc3339 : Time → String) (now : Int)
    (xs ys : List AlertPayload) (h : AlertmanagerHandler) :
    handleAlerts rfc3339 now (xs ++ ys) h =
      handleAlerts rfc3339 now ys (handleAlerts rfc3339 now xs h) := by
  induction xs generalizing h with
  | nil => rw [List.nil_append, handleAlerts_nil]
  | cons x xs ih =>
    rw [List.cons_append, handleAlerts_cons, ih, handleAlerts_cons rfc3339 now x xs]

theorem handleAlerts_single_routerConfig (rfc3339 : Time → String) (now : Int)
    (alert : AlertPayload) (h : AlertmanagerHandler) :
    (handleAlerts rfc3339 now [alert] h).routerConfig = h.routerConfig ∧
    (handleAlerts rfc3339 now [alert] h).alertsReceived =
      h.alertsReceived ++ [(mapGet alert.labels "alertname", mapGet alert.labels "severity")] := by
  by_cases hs : alert.status = "firing"
  · cases hd : (h.dedup.ShouldProcess rfc3339 alert.fingerprint alert.startsAt now).2 with
    | false =>
      rw [handleAlerts_duplicate rfc3339 now alert [] h hs hd, handleAlerts_nil]
      exact ⟨rfl, rfl⟩
    | true =>
      rw [handleAlerts_accepted rfc3339 now alert [] h hs hd, handleAlerts_nil]
      exact ⟨rfl, rfl⟩
  · rw [handleAlerts_notFiring rfc3339 now alert [] h hs, handleAlerts_nil]
    exact ⟨rfl, rfl⟩

theorem handleAlerts_received (rfc3339 : Time → String) (now : Int)
    (alerts : List AlertPayload) (h : AlertmanagerHandler) :
    (handleAlerts rfc3339 now alerts h).routerConfig = h.routerConfig ∧
    (handleAlerts rfc3339 now alerts h).alertsReceived =
      h.alertsReceived ++
        alerts.map fun a => (mapGet a.labels "alertname", mapGet a.labels "severity") := by
  induction alerts generalizing h with
  | nil => rw [handleAlerts_nil]; simp
  | cons x xs ih =>
    rw [handleAlerts_cons]
    obtain ⟨h1, h2⟩ := handleAlerts_single_routerConfig rfc3339 now x h
    obtain ⟨h3, h4⟩ := ih (handleAlerts rfc3339 now [x] h)
    rw [h3, h4, h1, h2]
    simp

/-- An alert that does not route leaves `processAlert` without a call to the
client: the state is handed back as it was. -/
theorem processAlert_unrouted {σ : Type} (c : Client σ) (rfc3339 compact : Time → String)
    (marshal : AlertPayload → String) (h : AlertmanagerHandler) (alert : AlertPayload)
    (w : IntakeState σ) (err : String)
    (hroute : RouteAlert
      { labels := alert.labels
        annotations := alert.annotations
        status := alert.status
        startsAt := rfc3339 alert.startsAt
        fingerprint := alert.fingerprint } h.routerConfig = .error err) :
    processAlert c rfc3339 compact marshal h alert w = w := by
  unfold processAlert
  rw [newRemediation_error rfc3339 compact marshal h.routerConfig alert err hroute]

theorem ShouldProcess_rejected (rfc3339 : Time → String) (d : AlertDeduplicator)
    (fingerprint : String) (startsAt : Time) (now : Int)
    (h : (d.ShouldProcess rfc3339 fingerprint startsAt now).2 = false) :
    (d.ShouldProcess rfc3339 fingerprint startsAt now).1 = d := by
  cases hl : d.seen.lookup (fingerprint ++ ":" ++ rfc3339 startsAt) with
  | none =>
    rw [ShouldProcess_of_absent rfc3339 d fingerprint startsAt now hl] at h
    cases h
  | some lastSeen =>
    by_cases hlt : now - lastSeen < d.ttl
    · rw [ShouldProcess_of_recent rfc3339 d fingerprint startsAt now lastSeen hl hlt]
    · rw [ShouldProcess_of_stale rfc3339 d fingerprint startsAt now lastSeen hl hlt] at h
      cases h

/-- The checks of the status and of the deduplicator come before routing: a
resolved alert whose alertname has no route increments `alertsSkipped` (with
the reason not-firing) as well as `alertsReceived`, as every alert that is not
firing does. -/
theorem HandleWebhook_unrouted_skipped :
    mapGet resolvedUnrouted.labels "alertname" = "NotConfigured" ∧
    NewAlertmanagerHandler.routerConfig.routes.lookup "NotConfigured" = none ∧
    (HandleWebhook formatRFC3339 (unmarshalAs (payloadOf [resolvedUnrouted]))
        NewAlertmanagerHandler 0 { method := "POST", body := some "" }).1.alertsReceived =
      [("NotConfigured", "")] ∧
    (HandleWebhook formatRFC3339 (unmarshalAs (payloadOf [resolvedUnrouted]))
        NewAlertmanagerHandler 0 { method := "POST", body := some "" }).1.alertsSkipped =
      [("NotConfigured", "not-firing")] := by
  decide

/-- C11. For every parsed payload `HandleWebhook` runs the alerts in
order, and the handler state moves for each alert as follows. `alertsReceived`
gets one increment (alertname, severity) for every alert. An alert whose status
is not "firing" gets one increment of `alertsSkipped` with the reason not-firing
and is not dispatched. A firing alert that the deduplicator rejects gets one
increment of `alertsSkipped` with the reason duplicate and is not dispatched. A
firing alert that the deduplicator accepts is dispatched and `alertsSkipped` is
left alone. A dispatched alert that does not route (for one, an alertname with
no route) has thus incremented `alertsReceived` and not `alertsSkipped`, and
`processAlert` hands back the store as it was, whatever the client: no
Remediation is created. -/
theorem HandleWebhook_counters (rfc3339 : Time → String)
    (unmarshal : String → Option AlertmanagerWebhookPayload) (h : AlertmanagerHandler)
    (now : Int) (r : Request) (body : String) (payload : AlertmanagerWebhookPayload)
    (hm : r.method = "POST") (hb : r.body = some body) (hu : unmarshal body = some payload) :
    (HandleWebhook rfc3339 unmarshal h now r).1.alertsReceived =
      h.alertsReceived ++
        payload.alerts.map (fun a => (mapGet a.labels "alertname", mapGet a.labels "severity")) ∧
    (∀ pre alert post, payload.alerts = pre ++ alert :: post →
      (HandleWebhook rfc3339 unmarshal h now r).1 =
        handleAlerts rfc3339 now post
          (handleAlerts rfc3339 now [alert] (handleAlerts rfc3339 now pre h))) ∧
    (∀ (g : AlertmanagerHandler) (alert : AlertPayload),
      (handleAlerts rfc3339 now [alert] g).alertsReceived =
        g.alertsReceived ++
          [(mapGet alert.labels "alertname", mapGet alert.labels "severity")] ∧
      (handleAlerts rfc3339 now [alert] g).routerConfig = g.routerConfig ∧
      (alert.status ≠ "firing" →
        (handleAlerts rfc3339 now [alert] g).dispatched = g.dispatched ∧
        (handleAlerts rfc3339 now [alert] g).alertsSkipped =
          g.alertsSkipped ++ [(mapGet alert.labels "alertname", "not-firing")] ∧
        (handleAlerts rfc3339 now [alert] g).dedup = g.dedup) ∧
      (alert.status = "firing" →
        (g.dedup.ShouldProcess rfc3339 alert.fingerprint alert.startsAt now).2 = false →
        (handleAlerts rfc3339 now [alert] g).dispatched = g.dispatched ∧
        (handleAlerts rfc3339 now [alert] g).alertsSkipped =
          g.alertsSkipped ++ [(mapGet alert.labels "alertname", "duplicate")] ∧
        (handleAlerts rfc3339 now [alert] g).dedup = g.dedup) ∧
      (alert.status = "firing" →
        (g.dedup.ShouldProcess rfc3339 alert.fingerprint alert.startsAt now).2 = true →
        (handleAlerts rfc3339 now [alert] g).dispatched = g.dispatched ++ [alert] ∧
        (handleAlerts rfc3339 now [alert] g).alertsSkipped = g.alertsSkipped ∧
        (handleAlerts rfc3339 now [alert] g).dedup =
          (g.dedup.ShouldProcess rfc3339 alert.fingerprint alert.startsAt now).1 ∧
        ∀ {σ : Type} (c : Client σ) (compact : Time → String)
            (marshal : AlertPayload → String) (w : IntakeState σ) (err : String),
          RouteAlert
              { labels := alert.labels
                annotations := alert.annotations
                status := alert.status
                startsAt := rfc3339 alert.startsAt
                fingerprint := alert.fingerprint } g.routerConfig = .error err →
          processAlert c rfc3339 compact marshal (handleAlerts rfc3339 now [alert] g) alert w =
            w)) := by
  have hH : (HandleWebhook rfc3339 unmarshal h now r).1 =
      handleAlerts rfc3339 now payload.alerts h := by
    unfold HandleWebhook
    simp only [hm, hb, hu, ne_eq, not_true_eq_false, if_false]
  refine ⟨?_, ?_, ?_⟩
  · rw [hH]
    exact (handleAlerts_received rfc3339 now payload.alerts h).2
  · intro pre alert post hsplit
    rw [hH, hsplit, handleAlerts_append, handleAlerts_cons]
  · intro g alert
    obtain ⟨h1, h2⟩ := handleAlerts_single_routerConfig rfc3339 now alert g
    refine ⟨h2, h1, ?_, ?_, ?_⟩
    · intro hs
      rw [handleAlerts_notFiring rfc3339 now alert [] g hs, handleAlerts_nil]
      exact ⟨rfl, rfl, rfl⟩
    · intro hs hd
      rw [handleAlerts_duplicate rfc3339 now alert [] g hs hd, handleAlerts_nil]
      refine ⟨rfl, rfl, ?_⟩
      exact ShouldProcess_rejected rfc3339 g.dedup alert.fingerprint alert.startsAt now hd
    · intro hs hd
      refine ⟨?_, ?_, ?_, ?_⟩
      · rw [handleAlerts_accepted rfc3339 now alert [] g hs hd, handleAlerts_nil]
      · rw [handleAlerts_accepted rfc3339 now alert [] g hs hd, handleAlerts_nil]
      · rw [handleAlerts_accepted rfc3339 now alert [] g hs hd, handleAlerts_nil]
      · intro σ c compact marshal w err hroute
        exact processAlert_unrouted c rfc3339 compact marshal _ alert w err
          (by rw [h1]; exact hroute)

/-- C11 on a payload of three alerts: a firing one, a resolved one
without a route, and the firing one again. -/
theorem HandleWebhook_counters_witness :
    (HandleWebhook formatRFC3339 (unmarshalAs (payloadOf [oomAlert, resolvedUnrouted, oomAlert]))
        NewAlertmanagerHandler 0 { method := "POST", body := some "" }).1.alertsReceived =
      [("KubePodOOMKilled", "critical"), ("NotConfigured", ""),
        ("KubePodOOMKilled", "critical")] ∧
    (HandleWebhook formatRFC3339 (unmarshalAs (payloadOf [oomAlert, resolvedUnrouted, oomAlert]))
        NewAlertmanagerHandler 0 { method := "POST", body := some "" }).1.alertsSkipped =
      [("NotConfigured", "not-firing"), ("KubePodOOMKilled", "duplicate")] ∧
    (HandleWebhook formatRFC3339 (unmarshalAs (payloadOf [oomAlert, resolvedUnrouted, oomAlert]))
        NewAlertmanagerHandler 0 { method := "POST", body := some "" }).1.dispatched =
      [oomAlert] :=
  ⟨(HandleWebhook_counters formatRFC3339
      (unmarshalAs (payloadOf [oomAlert, resolvedUnrouted, oomAlert])) NewAlertmanagerHandler 0
      { method := "POST", body := some "" } ""
      (payloadOf [oomAlert, resolvedUnrouted, oomAlert]) rfl rfl rfl).1.trans (by decide),
    by decide, by decide⟩

/-! ## Handling a payload twice -/

theorem handleAlerts_ttl (rfc3339 : Time → String) (now : Int) (alerts : List AlertPayload)
    (h : AlertmanagerHandler) :
    (handleAlerts rfc3339 now alerts h).dedup.ttl = h.dedup.ttl := by
  induction alerts generalizing h with
  | nil => rw [handleAlerts_nil]
  | cons a rest ih =>
    by_cases hs : a.status = "firing"
    · cases hl : h.dedup.seen.lookup (a.fingerprint ++ ":" ++ rfc3339 a.startsAt) with
      | none =>
        have e := ShouldProcess_of_absent rfc3339 h.dedup a.fingerprint a.startsAt now hl
        rw [handleAlerts_accepted rfc3339 now a rest h hs (by rw [e]), ih, e]
      | some lastSeen =>
        by_cases hlt : now - lastSeen < h.dedup.ttl
        · have e := ShouldProcess_of_recent rfc3339 h.dedup a.fingerprint a.startsAt now lastSeen
            hl hlt
          rw [handleAlerts_duplicate rfc3339 now a rest h hs (by rw [e]), ih, e]
        · have e := ShouldProcess_of_stale rfc3339 h.dedup a.fingerprint a.startsAt now lastSeen
            hl hlt
          rw [handleAlerts_accepted rfc3339 now a rest h hs (by rw [e]), ih, e]
    · rw [handleAlerts_notFiring rfc3339 now a rest h hs, ih]

/-- A second pass over the same alerts, at a time at which the entries of the
first pass are still fresh: every firing alert is rejected. -/
theorem handleAlerts_all_recent (rfc3339 : Time → String) (t1 t2 : Int)
    (alerts : List AlertPayload) (g : AlertmanagerHandler) (hc : t2 - t1 < g.dedup.ttl)
    (hseen : ∀ a ∈ alerts, a.status = "firing" →
      g.dedup.seen.lookup (a.fingerprint ++ ":" ++ rfc3339 a.startsAt) = some t1) :
    (handleAlerts rfc3339 t2 alerts g).dispatched = g.dispatched := by
  induction alerts generalizing g with
  | nil => rw [handleAlerts_nil]
  | cons a rest ih =>
    by_cases hs : a.status = "firing"
    · have hl := hseen a (List.mem_cons_self _ _) hs
      have e := ShouldProcess_of_recent rfc3339 g.dedup a.fingerprint a.startsAt t2 t1 hl hc
      rw [handleAlerts_duplicate rfc3339 t2 a rest g hs (by rw [e]), e]
      exact ih _ hc fun b hb hbs => hseen b (List.mem_cons_of_mem _ hb) hbs
    · rw [handleAlerts_notFiring rfc3339 t2 a rest g hs]
      exact ih _ hc fun b hb hbs => hseen b (List.mem_cons_of_mem _ hb) hbs

/-- A pass at the time `t1`, seen on a set `S` of keys that holds the keys of
the alerts and on which every entry of the table is `t1`: the entries stay,
every entry on `S` is `t1` afterwards, and every firing alert of the pass has
one. -/
theorem handleAlerts_table (rfc3339 : Time → String) (t1 : Int) (S : String → Prop)
    (alerts : List AlertPayload) (h : AlertmanagerHandler)
    (hS : ∀ a ∈ alerts, a.status = "firing" → S (a.fingerprint ++ ":" ++ rfc3339 a.startsAt))
    (hv : ∀ k, S k → ∀ v, h.dedup.seen.lookup k = some v → v = t1) :
    (∀ k, S k → ∀ v, (handleAlerts rfc3339 t1 alerts h).dedup.seen.lookup k = some v → v = t1) ∧
    (∀ k, h.dedup.seen.lookup k = some t1 →
      (handleAlerts rfc3339 t1 alerts h).dedup.seen.lookup k = some t1) ∧
    (∀ a ∈ alerts, a.status = "firing" →
      (handleAlerts rfc3339 t1 alerts h).dedup.seen.lookup
        (a.fingerprint ++ ":" ++ rfc3339 a.startsAt) = some t1) := by
  induction alerts generalizing h with
  | nil =>
    rw [handleAlerts_nil]
    exact ⟨hv, fun _ hk => hk, fun a ha => absurd ha (List.not_mem_nil a)⟩
  | cons a rest ih =>
    have hSrest : ∀ b ∈ rest, b.status = "firing" →
        S (b.fingerprint ++ ":" ++ rfc3339 b.startsAt) :=
      fun b hb => hS b (List.mem_cons_of_mem _ hb)
    by_cases hs : a.status = "firing"
    · have hSa := hS a (List.mem_cons_self _ _) hs
      -- the table after the alert `a`: its key maps to `t1`
      have key : ∃ g : AlertmanagerHandler,
          handleAlerts rfc3339 t1 (a :: rest) h = handleAlerts rfc3339 t1 rest g ∧
          (∀ k, S k → ∀ v, g.dedup.seen.lookup k = some v → v = t1) ∧
          (∀ k, h.dedup.seen.lookup k = some t1 → g.dedup.seen.lookup k = some t1) ∧
          g.dedup.seen.lookup (a.fingerprint ++ ":" ++ rfc3339 a.startsAt) = some t1 := by
        have hset : ∀ k, S k → ∀ v,
            (mapSet (a.fingerprint ++ ":" ++ rfc3339 a.startsAt) t1 h.dedup.seen).lookup k =
              some v → v = t1 := by
          intro k hSk v hk
          by_cases hkk : k = a.fingerprint ++ ":" ++ rfc3339 a.startsAt
          · rw [hkk, lookup_mapSet_self] at hk
            cases hk
            rfl
          · rw [lookup_mapSet_ne _ _ _ _ hkk] at hk
            exact hv k hSk v hk
        have hmono : ∀ k, h.dedup.seen.lookup k = some t1 →
            (mapSet (a.fingerprint ++ ":" ++ rfc3339 a.startsAt) t1 h.dedup.seen).lookup k =
              some t1 := by
          intro k hk
          by_cases hkk : k = a.fingerprint ++ ":" ++ rfc3339 a.startsAt
          · rw [hkk, lookup_mapSet_self]
          · rw [lookup_mapSet_ne _ _ _ _ hkk]
            exact hk
        cases hl : h.dedup.seen.lookup (a.fingerprint ++ ":" ++ rfc3339 a.startsAt) with
        | none =>
          have e := ShouldProcess_of_absent rfc3339 h.dedup a.fingerprint a.startsAt t1 hl
          refine ⟨_, handleAlerts_accepted rfc3339 t1 a rest h hs (by rw [e]), ?_, ?_, ?_⟩
          · rw [e]; exact hset
          · rw [e]; exact hmono
          · rw [e]; exact lookup_mapSet_self _ _ _
        | some lastSeen =>
          by_cases hlt : t1 - lastSeen < h.dedup.ttl
          · have e := ShouldProcess_of_recent rfc3339 h.dedup a.fingerprint a.startsAt t1
              lastSeen hl hlt
            refine ⟨_, handleAlerts_duplicate rfc3339 t1 a rest h hs (by rw [e]), ?_, ?_, ?_⟩
            · rw [e]; exact hv
            · rw [e]; exact fun _ hk => hk
            · rw [e, hl, hv _ hSa _ hl]
          · have e := ShouldProcess_of_stale rfc3339 h.dedup a.fingerprint a.startsAt t1
              lastSeen hl hlt
            refine ⟨_, handleAlerts_accepted rfc3339 t1 a rest h hs (by rw [e]), ?_, ?_, ?_⟩
            · rw [e]; exact hset
            · rw [e]; exact hmono
            · rw [e]; exact lookup_mapSet_self _ _ _
      obtain ⟨g, hg, hgv, hgm, hgk⟩ := key
      obtain ⟨i1, i2, i3⟩ := ih g hSrest hgv
      rw [hg]
      refine ⟨i1, fun k hk => i2 k (hgm k hk), ?_⟩
      intro b hb hbs
      rcases List.mem_cons.1 hb with hba | hb
      · rw [hba]
        exact i2 _ hgk
      · exact i3 b hb hbs
    · rw [handleAlerts_notFiring rfc3339 t1 a rest h hs]
      obtain ⟨i1, i2, i3⟩ := ih
        { h with
          alertsReceived :=
            h.alertsReceived ++ [(mapGet a.labels "alertname", mapGet a.labels "severity")]
          alertsSkipped := h.alertsSkipped ++ [(mapGet a.labels "alertname", "not-firing")] }
        hSrest hv
      refine ⟨i1, i2, ?_⟩
      intro b hb hbs
      rcases List.mem_cons.1 hb with hba | hb
      · rw [hba] at hbs
        exact absurd hbs hs
      · exact i3 b hb hbs

/-- Two passes over the same alerts, the second at a time `t2` at which the
entries made at `t1` have gone stale, from tables that agree on a set `S` of
keys that holds the keys of the alerts, in this sense: a key is either new to
the first table and absent from or stale in the second, or has been set by both
passes. The two passes dispatch the same alerts. -/
theorem handleAlerts_simulation (rfc3339 : Time → String) (t1 t2 : Int) (S : String → Prop)
    (alerts : List AlertPayload) (g1 g2 : AlertmanagerHandler)
    (hS : ∀ a ∈ alerts, a.status = "firing" → S (a.fingerprint ++ ":" ++ rfc3339 a.startsAt))
    (httl : g2.dedup.ttl = g1.dedup.ttl) (hc : ¬ t2 - t1 < g1.dedup.ttl)
    (hR : ∀ k, S k →
      (g1.dedup.seen.lookup k = none ∧
        (g2.dedup.seen.lookup k = none ∨ g2.dedup.seen.lookup k = some t1)) ∨
      (g1.dedup.seen.lookup k = some t1 ∧ g2.dedup.seen.lookup k = some t2)) :
    ∃ D, (handleAlerts rfc3339 t1 alerts g1).dispatched = g1.dispatched ++ D ∧
      (handleAlerts rfc3339 t2 alerts g2).dispatched = g2.dispatched ++ D := by
  induction alerts generalizing g1 g2 with
  | nil => exact ⟨[], by rw [handleAlerts_nil, List.append_nil],
      by rw [handleAlerts_nil, List.append_nil]⟩
  | cons a rest ih =>
    have hSrest : ∀ b ∈ rest, b.status = "firing" →
        S (b.fingerprint ++ ":" ++ rfc3339 b.startsAt) :=
      fun b hb => hS b (List.mem_cons_of_mem _ hb)
    by_cases hs : a.status = "firing"
    · -- both passes accept: the key is set in both tables
      have accept : ∀ (e1 : g1.dedup.ShouldProcess rfc3339 a.fingerprint a.startsAt t1 =
            ({ g1.dedup with
                seen := mapSet (a.fingerprint ++ ":" ++ rfc3339 a.startsAt) t1 g1.dedup.seen },
              true))
          (e2 : g2.dedup.ShouldProcess rfc3339 a.fingerprint a.startsAt t2 =
            ({ g2.dedup with
                seen := mapSet (a.fingerprint ++ ":" ++ rfc3339 a.startsAt) t2 g2.dedup.seen },
              true)),
          ∃ D, (handleAlerts rfc3339 t1 (a :: rest) g1).dispatched = g1.dispatched ++ D ∧
            (handleAlerts rfc3339 t2 (a :: rest) g2).dispatched = g2.dispatched ++ D := by
        intro e1 e2
        rw [handleAlerts_accepted rfc3339 t1 a rest g1 hs (by rw [e1]),
          handleAlerts_accepted rfc3339 t2 a rest g2 hs (by rw [e2]), e1, e2]
        obtain ⟨D, d1, d2⟩ := ih
          { g1 with
            dedup :=
              { g1.dedup with
                seen := mapSet (a.fingerprint ++ ":" ++ rfc3339 a.startsAt) t1 g1.dedup.seen }
            alertsReceived :=
              g1.alertsReceived ++ [(mapGet a.labels "alertname", mapGet a.labels "severity")]
            dispatched := g1.dispatched ++ [a] }
          { g2 with
            dedup :=
              { g2.dedup with
                seen := mapSet (a.fingerprint ++ ":" ++ rfc3339 a.startsAt) t2 g2.dedup.seen }
            alertsReceived :=
              g2.alertsReceived ++ [(mapGet a.labels "alertname", mapGet a.labels "severity")]
            dispatched := g2.dispatched ++ [a] }
          hSrest httl hc
          (by
            intro k hSk
            by_cases hk : k = a.fingerprint ++ ":" ++ rfc3339 a.startsAt
            · right
              rw [hk]
              exact ⟨lookup_mapSet_self _ _ _, lookup_mapSet_self _ _ _⟩
            · show ((mapSet _ t1 g1.dedup.seen).lookup k = none ∧
                  ((mapSet _ t2 g2.dedup.seen).lookup k = none ∨
                    (mapSet _ t2 g2.dedup.seen).lookup k = some t1)) ∨
                ((mapSet _ t1 g1.dedup.seen).lookup k = some t1 ∧
                  (mapSet _ t2 g2.dedup.seen).lookup k = some t2)
              rw [lookup_mapSet_ne _ _ _ _ hk, lookup_mapSet_ne _ _ _ _ hk]
              exact hR k hSk)
        exact ⟨a :: D, by rw [d1, List.append_assoc]; rfl, by rw [d2, List.append_assoc]; rfl⟩
      rcases hR (a.fingerprint ++ ":" ++ rfc3339 a.startsAt)
          (hS a (List.mem_cons_self _ _) hs) with ⟨h1, h2⟩ | ⟨h1, h2⟩
      · -- a key new to the first pass
        have e1 := ShouldProcess_of_absent rfc3339 g1.dedup a.fingerprint a.startsAt t1 h1
        rcases h2 with h2 | h2
        · exact accept e1
            (ShouldProcess_of_absent rfc3339 g2.dedup a.fingerprint a.startsAt t2 h2)
        · exact accept e1
            (ShouldProcess_of_stale rfc3339 g2.dedup a.fingerprint a.startsAt t2 t1 h2
              (by rw [httl]; exact hc))
      · -- a key set by both passes
        by_cases hz : (0 : Int) < g1.dedup.ttl
        · have e1 := ShouldProcess_of_recent rfc3339 g1.dedup a.fingerprint a.startsAt t1 t1 h1
            (by rw [sub_self]; exact hz)
          have e2 := ShouldProcess_of_recent rfc3339 g2.dedup a.fingerprint a.startsAt t2 t2 h2
            (by rw [sub_self, httl]; exact hz)
          rw [handleAlerts_duplicate rfc3339 t1 a rest g1 hs (by rw [e1]),
            handleAlerts_duplicate rfc3339 t2 a rest g2 hs (by rw [e2]), e1, e2]
          exact ih _ _ hSrest httl hc hR
        · exact accept
            (ShouldProcess_of_stale rfc3339 g1.dedup a.fingerprint a.startsAt t1 t1 h1
              (by rw [sub_self]; exact hz))
            (ShouldProcess_of_stale rfc3339 g2.dedup a.fingerprint a.startsAt t2 t2 h2
              (by rw [sub_self, httl]; exact hz))
    · rw [handleAlerts_notFiring rfc3339 t1 a rest g1 hs,
        handleAlerts_notFiring rfc3339 t2 a rest g2 hs]
      exact ih _ _ hSrest httl hc hR

/-- A pass only adds to the list of dispatched alerts. -/
theorem handleAlerts_dispatched (rfc3339 : Time → String) (now : Int)
    (alerts : List AlertPayload) (h : AlertmanagerHandler) :
    ∃ D, (handleAlerts rfc3339 now alerts h).dispatched = h.dispatched ++ D := by
  induction alerts generalizing h with
  | nil => exact ⟨[], by rw [handleAlerts_nil, List.append_nil]⟩
  | cons a rest ih =>
    by_cases hs : a.status = "firing"
    · cases hd : (h.dedup.ShouldProcess rfc3339 a.fingerprint a.startsAt now).2 with
      | false =>
        rw [handleAlerts_duplicate rfc3339 now a rest h hs hd]
        exact ih _
      | true =>
        rw [handleAlerts_accepted rfc3339 now a rest h hs hd]
        obtain ⟨D, hD⟩ := ih
          { h with
            dedup := (h.dedup.ShouldProcess rfc3339 a.fingerprint a.startsAt now).1
            alertsReceived :=
              h.alertsReceived ++ [(mapGet a.labels "alertname", mapGet a.labels "severity")]
            dispatched := h.dispatched ++ [a] }
        exact ⟨a :: D, by rw [hD, List.append_assoc]; rfl⟩
    · rw [handleAlerts_notFiring rfc3339 now a rest h hs]
      exact ih _

/-- Two passes over the same alerts from a table that has none of their keys:
the second pass dispatches the alerts of the first pass again, or none. -/
theorem handleAlerts_twice (rfc3339 : Time → String) (t1 t2 : Int)
    (alerts : List AlertPayload) (h : AlertmanagerHandler)
    (hnew : ∀ a ∈ alerts, a.status = "firing" →
      h.dedup.seen.lookup (a.fingerprint ++ ":" ++ rfc3339 a.startsAt) = none) :
    ∃ D, (handleAlerts rfc3339 t1 alerts h).dispatched = h.dispatched ++ D ∧
      ((handleAlerts rfc3339 t2 alerts (handleAlerts rfc3339 t1 alerts h)).dispatched =
          (handleAlerts rfc3339 t1 alerts h).dispatched ++ D ∨
        (handleAlerts rfc3339 t2 alerts (handleAlerts rfc3339 t1 alerts h)).dispatched =
          (handleAlerts rfc3339 t1 alerts h).dispatched) := by
  have hv : ∀ k, h.dedup.seen.lookup k = none → ∀ v, h.dedup.seen.lookup k = some v → v = t1 := by
    intro k hk v hkv
    rw [hk] at hkv
    cases hkv
  obtain ⟨f1, _, f3⟩ :=
    handleAlerts_table rfc3339 t1 (fun k => h.dedup.seen.lookup k = none) alerts h hnew hv
  have httl := handleAlerts_ttl rfc3339 t1 alerts h
  by_cases hc : t2 - t1 < h.dedup.ttl
  · obtain ⟨D, hD⟩ := handleAlerts_dispatched rfc3339 t1 alerts h
    exact ⟨D, hD, Or.inr (handleAlerts_all_recent rfc3339 t1 t2 alerts _ (by rw [httl]; exact hc) f3)⟩
  · obtain ⟨D, d1, d2⟩ := handleAlerts_simulation rfc3339 t1 t2
      (fun k => h.dedup.seen.lookup k = none) alerts h
      (handleAlerts rfc3339 t1 alerts h) hnew httl hc
      (by
        intro k hk
        left
        refine ⟨hk, ?_⟩
        cases hl : (handleAlerts rfc3339 t1 alerts h).dedup.seen.lookup k with
        | none => exact Or.inl rfl
        | some v => exact Or.inr (by rw [f1 k hk v hl]))
    exact ⟨D, d1, Or.inl d2⟩

theorem processAlert_congr {σ : Type} (c : Client σ) (rfc3339 compact : Time → String)
    (marshal : AlertPayload → String) (h g : AlertmanagerHandler)
    (hcfg : g.routerConfig = h.routerConfig) (alert : AlertPayload) (w : IntakeState σ) :
    processAlert c rfc3339 compact marshal g alert w =
      processAlert c rfc3339 compact marshal h alert w := by
  unfold processAlert
  rw [hcfg]

theorem processAlerts_congr {σ : Type} (c : Client σ) (rfc3339 compact : Time → String)
    (marshal : AlertPayload → String) (h g : AlertmanagerHandler)
    (hcfg : g.routerConfig = h.routerConfig) (alerts : List AlertPayload) (w : IntakeState σ) :
    processAlerts c rfc3339 compact marshal g alerts w =
      processAlerts c rfc3339 compact marshal h alerts w := by
  induction alerts generalizing w with
  | nil => rfl
  | cons a rest ih =>
    rw [processAlerts, processAlerts, processAlert_congr c rfc3339 compact marshal h g hcfg, ih]

/-- A record that is held stays held when the store takes more records. -/
theorem mapClient_getRemediation_append (s : Store) (added : List Remediation)
    (ns name : String) (r : Remediation) (hget : mapClient.getRemediation s ns name = .ok r) :
    mapClient.getRemediation { s with remediations := s.remediations ++ added } ns name =
      .ok r := by
  have hf := mapClient_getRemediation_find s ns name r hget
  rw [mapClient_getRemediation_eq]
  simp only []
  rw [List.find?_append, hf]
  rfl

/-- What `processAlert` does in the map store: nothing when the alert does not
route or a record of its name is held; otherwise the new record is added. -/
theorem processAlert_mapClient (rfc3339 compact : Time → String)
    (marshal : AlertPayload → String) (h : AlertmanagerHandler) (alert : AlertPayload)
    (w : IntakeState Store) :
    ((∀ remediation,
          newRemediation rfc3339 compact marshal h.routerConfig alert = .ok remediation →
          ∃ r, mapClient.getRemediation w.store remediation.ns remediation.name = .ok r) ∧
        processAlert mapClient rfc3339 compact marshal h alert w = w) ∨
      ∃ remediation,
        newRemediation rfc3339 compact marshal h.routerConfig alert = .ok remediation ∧
        (∀ r, mapClient.getRemediation w.store remediation.ns remediation.name ≠ .ok r) ∧
        processAlert mapClient rfc3339 compact marshal h alert w =
          { store := { w.store with remediations := w.store.remediations ++ [remediation] }
            remediationsCreated :=
              w.remediationsCreated ++
                [(remediation.spec.action.type, remediation.spec.target.kind,
                  remediation.spec.strategy.mode)] } := by
  cases hnew : newRemediation rfc3339 compact marshal h.routerConfig alert with
  | error err =>
    left
    refine ⟨fun _ hh => (by cases hh), ?_⟩
    unfold processAlert
    rw [hnew]
  | ok remediation =>
    cases hg : mapClient.getRemediation w.store remediation.ns remediation.name with
    | ok r =>
      left
      refine ⟨fun rem hh => (by cases hh; exact ⟨r, hg⟩), ?_⟩
      unfold processAlert
      rw [hnew]
      simp only []
      rw [hg]
    | error e =>
      right
      have habsent : ∀ r,
          mapClient.getRemediation w.store remediation.ns remediation.name ≠ .ok r := by
        intro r hr
        rw [hg] at hr
        cases hr
      have hstore := processAlert_creates rfc3339 compact marshal h alert w remediation hnew
        habsent
      refine ⟨remediation, rfl, habsent, ?_⟩
      unfold processAlert at hstore ⊢
      rw [hnew] at hstore ⊢
      simp only [] at hstore ⊢
      rw [hg] at hstore ⊢
      simp only [] at hstore ⊢
      cases hc : mapClient.createRemediation w.store remediation with
      | error e2 =>
        rw [hc] at hstore
        simp only [] at hstore
        exfalso
        have := congrArg (fun s => s.remediations.length) hstore
        simp at this
      | ok s1 =>
        rw [hc] at hstore
        simp only [] at hstore ⊢
        rw [hstore]

/-- After `processAlert` the record of the alert is held, and records that were
held stay held. -/
theorem processAlert_held (rfc3339 compact : Time → String)
    (marshal : AlertPayload → String) (h : AlertmanagerHandler) (alert : AlertPayload)
    (w : IntakeState Store) :
    (∀ remediation,
      newRemediation rfc3339 compact marshal h.routerConfig alert = .ok remediation →
      ∃ r, mapClient.getRemediation
        (processAlert mapClient rfc3339 compact marshal h alert w).store remediation.ns
        remediation.name = .ok r) ∧
    (∀ ns name r, mapClient.getRemediation w.store ns name = .ok r →
      mapClient.getRemediation (processAlert mapClient rfc3339 compact marshal h alert w).store
        ns name = .ok r) := by
  rcases processAlert_mapClient rfc3339 compact marshal h alert w with
    ⟨hheld, heq⟩ | ⟨remediation, hnew, habsent, heq⟩
  · rw [heq]
    exact ⟨hheld, fun _ _ _ hg => hg⟩
  · rw [heq]
    refine ⟨?_, ?_⟩
    · intro rem hrem
      rw [hnew] at hrem
      cases hrem
      refine ⟨remediation, ?_⟩
      rw [mapClient_getRemediation_eq]
      simp only []
      have hnone : w.store.remediations.find?
          (fun x => decide (x.ns = remediation.ns ∧ x.name = remediation.name)) = none := by
        cases hf : w.store.remediations.find?
            (fun x => decide (x.ns = remediation.ns ∧ x.name = remediation.name)) with
        | none => rfl
        | some x =>
          exfalso
          apply habsent x
          rw [mapClient_getRemediation_eq, hf]
      rw [List.find?_append, hnone]
      simp
    · intro ns name r hg
      exact mapClient_getRemediation_append w.store [remediation] ns name r hg

/-- Running the goroutines on alerts whose records are all held changes nothing. -/
theorem processAlerts_of_held (rfc3339 compact : Time → String)
    (marshal : AlertPayload → String) (h : AlertmanagerHandler) (alerts : List AlertPayload)
    (w : IntakeState Store)
    (hheld : ∀ a ∈ alerts, ∀ remediation,
      newRemediation rfc3339 compact marshal h.routerConfig a = .ok remediation →
      ∃ r, mapClient.getRemediation w.store remediation.ns remediation.name = .ok r) :
    processAlerts mapClient rfc3339 compact marshal h alerts w = w := by
  induction alerts with
  | nil => rfl
  | cons a rest ih =>
    have ha : processAlert mapClient rfc3339 compact marshal h a w = w := by
      rcases processAlert_mapClient rfc3339 compact marshal h a w with
        ⟨_, heq⟩ | ⟨remediation, hnew, habsent, _⟩
      · exact heq
      · obtain ⟨r, hr⟩ := hheld a (List.mem_cons_self _ _) remediation hnew
        exact absurd hr (habsent r)
    rw [processAlerts, ha]
    exact ih fun b hb => hheld b (List.mem_cons_of_mem _ hb)

/-- After the goroutines have run, the record of every alert they were started
for is held, records that were held are still held, and the store has only
taken more Remediation records. -/
theorem processAlerts_held (rfc3339 compact : Time → String)
    (marshal : AlertPayload → String) (h : AlertmanagerHandler) (alerts : List AlertPayload)
    (w : IntakeState Store) :
    (∀ a ∈ alerts, ∀ remediation,
      newRemediation rfc3339 compact marshal h.routerConfig a = .ok remediation →
      ∃ r, mapClient.getRemediation
        (processAlerts mapClient rfc3339 compact marshal h alerts w).store remediation.ns
        remediation.name = .ok r) ∧
    (∀ ns name r, mapClient.getRemediation w.store ns name = .ok r →
      mapClient.getRemediation (processAlerts mapClient rfc3339 compact marshal h alerts w).store
        ns name = .ok r) ∧
    ∃ added,
      (processAlerts mapClient rfc3339 compact marshal h alerts w).store =
        { w.store with remediations := w.store.remediations ++ added } := by
  induction alerts generalizing w with
  | nil => exact ⟨fun a ha => absurd ha (List.not_mem_nil a), fun _ _ _ hg => hg, [], by simp [processAlerts]⟩
  | cons a rest ih =>
    obtain ⟨p1, p2⟩ := processAlert_held rfc3339 compact marshal h a w
    obtain ⟨i1, i2, added, i3⟩ := ih (processAlert mapClient rfc3339 compact marshal h a w)
    rw [processAlerts]
    refine ⟨?_, fun ns name r hg => i2 ns name r (p2 ns name r hg), ?_⟩
    · intro b hb remediation hnew
      rcases List.mem_cons.1 hb with hba | hb
      · rw [hba] at hnew
        obtain ⟨r, hr⟩ := p1 remediation hnew
        exact ⟨r, i2 _ _ r hr⟩
      · exact i1 b hb remediation hnew
    · rcases processAlert_mapClient rfc3339 compact marshal h a w with
        ⟨_, heq⟩ | ⟨remediation, _, _, heq⟩
      · refine ⟨added, ?_⟩
        rw [i3, heq]
      · refine ⟨remediation :: added, ?_⟩
        rw [i3, heq]
        simp

theorem HandleWebhook_alerts (rfc3339 : Time → String)
    (unmarshal : String → Option AlertmanagerWebhookPayload) (r : Request) :
    ∃ alerts,
      (alerts = [] ∨
        ∃ body payload, r.body = some body ∧ unmarshal body = some payload ∧
          alerts = payload.alerts) ∧
      ∀ (h : AlertmanagerHandler) (now : Int),
        (HandleWebhook rfc3339 unmarshal h now r).1 = handleAlerts rfc3339 now alerts h := by
  by_cases hm : r.method = "POST"
  · cases hb : r.body with
    | none =>
      refine ⟨[], Or.inl rfl, fun h now => ?_⟩
      unfold HandleWebhook
      simp only [hm, hb, ne_eq, not_true_eq_false, if_false]
      rw [handleAlerts_nil]
    | some body =>
      cases hu : unmarshal body with
      | none =>
        refine ⟨[], Or.inl rfl, fun h now => ?_⟩
        unfold HandleWebhook
        simp only [hm, hb, hu, ne_eq, not_true_eq_false, if_false]
        rw [handleAlerts_nil]
      | some payload =>
        refine ⟨payload.alerts, Or.inr ⟨body, payload, rfl, hu, rfl⟩, fun h now => ?_⟩
        unfold HandleWebhook
        simp only [hm, hb, hu, ne_eq, not_true_eq_false, if_false]
  · refine ⟨[], Or.inl rfl, fun h now => ?_⟩
    unfold HandleWebhook
    simp only [hm, ne_eq, not_false_eq_true, if_true]
    rw [handleAlerts_nil]

/-- C13, counterexample. From a new handler and an empty store: a
firing alert that does not route is handled at time 0 and leaves its
deduplication key behind; a payload with a routable alert of the same
fingerprint and start is handled ten minutes later, is skipped as a duplicate
and creates nothing; the same payload handled again after two hours creates a
Remediation. And `processAlert` invoked twice for an alert that does not route
creates no record. -/
theorem HandleWebhookAndProcess_second_creates :
    (HandleWebhookAndProcess mapClient formatRFC3339 formatCompact marshalFingerprint
        (unmarshalAs (payloadOf [oomAlert]))
        (HandleWebhookAndProcess mapClient formatRFC3339 formatCompact marshalFingerprint
          (unmarshalAs (payloadOf [strayAlert])) NewAlertmanagerHandler
          { store := emptyStore, remediationsCreated := [] } 0
          { method := "POST", body := some "" }).1.1
        (HandleWebhookAndProcess mapClient formatRFC3339 formatCompact marshalFingerprint
          (unmarshalAs (payloadOf [strayAlert])) NewAlertmanagerHandler
          { store := emptyStore, remediationsCreated := [] } 0
          { method := "POST", body := some "" }).1.2
        (600 * 1000000000) { method := "POST", body := some "" }).1.2.store.remediations = [] ∧
    ((HandleWebhookAndProcess mapClient formatRFC3339 formatCompact marshalFingerprint
        (unmarshalAs (payloadOf [oomAlert]))
        (HandleWebhookAndProcess mapClient formatRFC3339 formatCompact marshalFingerprint
          (unmarshalAs (payloadOf [oomAlert]))
          (HandleWebhookAndProcess mapClient formatRFC3339 formatCompact marshalFingerprint
            (unmarshalAs (payloadOf [strayAlert])) NewAlertmanagerHandler
            { store := emptyStore, remediationsCreated := [] } 0
            { method := "POST", body := some "" }).1.1
          (HandleWebhookAndProcess mapClient formatRFC3339 formatCompact marshalFingerprint
            (unmarshalAs (payloadOf [strayAlert])) NewAlertmanagerHandler
            { store := emptyStore, remediationsCreated := [] } 0
            { method := "POST", body := some "" }).1.2
          (600 * 1000000000) { method := "POST", body := some "" }).1.1
        (HandleWebhookAndProcess mapClient formatRFC3339 formatCompact marshalFingerprint
          (unmarshalAs (payloadOf [oomAlert]))
          (HandleWebhookAndProcess mapClient formatRFC3339 formatCompact marshalFingerprint
            (unmarshalAs (payloadOf [strayAlert])) NewAlertmanagerHandler
            { store := emptyStore, remediationsCreated := [] } 0
            { method := "POST", body := some "" }).1.1
          (HandleWebhookAndProcess mapClient formatRFC3339 formatCompact marshalFingerprint
            (unmarshalAs (payloadOf [strayAlert])) NewAlertmanagerHandler
            { store := emptyStore, remediationsCreated := [] } 0
            { method := "POST", body := some "" }).1.2
          (600 * 1000000000) { method := "POST", body := some "" }).1.2
        (7200 * 1000000000)
        { method := "POST", body := some "" }).1.2.store.remediations.map
          fun x => (x.ns, x.name)) =
      [("prod", "rem-KubePodOOMKilled-20240101-120000")] ∧
    (processAlert mapClient formatRFC3339 formatCompact marshalFingerprint NewAlertmanagerHandler
        strayAlert
        (processAlert mapClient formatRFC3339 formatCompact marshalFingerprint
          NewAlertmanagerHandler strayAlert
          { store := emptyStore, remediationsCreated := [] })).store.remediations = [] := by
  decide

/-- C13, amended. With the store a map keyed by (namespace, name) and a handler
whose deduplicator table has no entry for a firing alert of the payload (as for
every payload at a handler made by `NewAlertmanagerHandler`): a request handled
to the end and then handled a second time, at any two times, leaves the store
and the counter of created Remediations after the second run as they were after
the first; the first run only adds records, so every record held before is
still held unchanged. And `processAlert` invoked twice for the same alert does
what one invocation does, which creates at most one record: exactly one when the
alert routes and no record of its name is held in the namespace, none
otherwise. -/
theorem HandleWebhookAndProcess_twice (rfc3339 compact : Time → String)
    (marshal : AlertPayload → String) (unmarshal : String → Option AlertmanagerWebhookPayload)
    (h : AlertmanagerHandler) (w : IntakeState Store) (t1 t2 : Int) (r : Request)
    (hnew : ∀ body payload, r.body = some body → unmarshal body = some payload →
      ∀ a ∈ payload.alerts, a.status = "firing" →
        h.dedup.seen.lookup (a.fingerprint ++ ":" ++ rfc3339 a.startsAt) = none) :
    (HandleWebhookAndProcess mapClient rfc3339 compact marshal unmarshal
        (HandleWebhookAndProcess mapClient rfc3339 compact marshal unmarshal h w t1 r).1.1
        (HandleWebhookAndProcess mapClient rfc3339 compact marshal unmarshal h w t1 r).1.2
        t2 r).1.2 =
      (HandleWebhookAndProcess mapClient rfc3339 compact marshal unmarshal h w t1 r).1.2 ∧
    (∃ added,
      (HandleWebhookAndProcess mapClient rfc3339 compact marshal unmarshal h w t1 r).1.2.store =
        { w.store with remediations := w.store.remediations ++ added }) ∧
    (∀ ns name rec, mapClient.getRemediation w.store ns name = .ok rec →
      mapClient.getRemediation
        (HandleWebhookAndProcess mapClient rfc3339 compact marshal unmarshal h w t1 r).1.2.store
        ns name = .ok rec) ∧
    ∀ (g : AlertmanagerHandler) (alert : AlertPayload) (v : IntakeState Store),
      processAlert mapClient rfc3339 compact marshal g alert
          (processAlert mapClient rfc3339 compact marshal g alert v) =
        processAlert mapClient rfc3339 compact marshal g alert v ∧
      (processAlert mapClient rfc3339 compact marshal g alert v = v ∨
        ∃ remediation,
          newRemediation rfc3339 compact marshal g.routerConfig alert = .ok remediation ∧
          (∀ rec, mapClient.getRemediation v.store remediation.ns remediation.name ≠ .ok rec) ∧
          (processAlert mapClient rfc3339 compact marshal g alert v).store =
            { v.store with remediations := v.store.remediations ++ [remediation] }) := by
  obtain ⟨alerts, hsrc, hal⟩ := HandleWebhook_alerts rfc3339 unmarshal r
  have hnewa : ∀ a ∈ alerts, a.status = "firing" →
      h.dedup.seen.lookup (a.fingerprint ++ ":" ++ rfc3339 a.startsAt) = none := by
    rcases hsrc with he | ⟨body, payload, hb, hu, he⟩
    · rw [he]
      exact fun a ha => absurd ha (List.not_mem_nil a)
    · rw [he]
      exact hnew body payload hb hu
  obtain ⟨D, hD1, hD2⟩ := handleAlerts_twice rfc3339 t1 t2 alerts h hnewa
  have hcfg1 := (handleAlerts_received rfc3339 t1 alerts h).1
  have hcfg2 := (handleAlerts_received rfc3339 t2 alerts (handleAlerts rfc3339 t1 alerts h)).1
  have hfirst :
      (HandleWebhookAndProcess mapClient rfc3339 compact marshal unmarshal h w t1 r).1 =
        (handleAlerts rfc3339 t1 alerts h,
          processAlerts mapClient rfc3339 compact marshal (handleAlerts rfc3339 t1 alerts h) D
            w) := by
    unfold HandleWebhookAndProcess
    simp only []
    rw [hal h t1, hD1, List.drop_left]
  obtain ⟨k1, k2, k3⟩ :=
    processAlerts_held rfc3339 compact marshal (handleAlerts rfc3339 t1 alerts h) D w
  refine ⟨?_, ?_, ?_, ?_⟩
  · rw [hfirst]
    unfold HandleWebhookAndProcess
    simp only []
    rw [hal _ t2]
    rcases hD2 with hD2 | hD2
    · rw [hD2, List.drop_left,
        processAlerts_congr mapClient rfc3339 compact marshal (handleAlerts rfc3339 t1 alerts h)
          _ hcfg2]
      exact processAlerts_of_held rfc3339 compact marshal _ D _ k1
    · rw [hD2, List.drop_length]
      rfl
  · rw [hfirst]
    exact k3
  · intro ns name rec hg
    rw [hfirst]
    exact k2 ns name rec hg
  · intro g alert v
    obtain ⟨p1, _⟩ := processAlert_held rfc3339 compact marshal g alert v
    refine ⟨?_, ?_⟩
    · rcases processAlert_mapClient rfc3339 compact marshal g alert
          (processAlert mapClient rfc3339 compact marshal g alert v) with
        ⟨_, heq⟩ | ⟨remediation, hnew, habsent, _⟩
      · exact heq
      · obtain ⟨rec, hrec⟩ := p1 remediation hnew
        exact absurd hrec (habsent rec)
    · rcases processAlert_mapClient rfc3339 compact marshal g alert v with
        ⟨_, heq⟩ | ⟨remediation, hnew, habsent, heq⟩
      · exact Or.inl heq
      · exact Or.inr ⟨remediation, hnew, habsent, by rw [heq]⟩

/-- C13, amended, on a payload with one routable alert, handled at time 0 and
again two hours later. -/
theorem HandleWebhookAndProcess_twice_witness :
    (HandleWebhookAndProcess mapClient formatRFC3339 formatCompact marshalFingerprint
        (unmarshalAs (payloadOf [oomAlert]))
        (HandleWebhookAndProcess mapClient formatRFC3339 formatCompact marshalFingerprint
          (unmarshalAs (payloadOf [oomAlert])) NewAlertmanagerHandler
          { store := emptyStore, remediationsCreated := [] } 0
          { method := "POST", body := some "" }).1.1
        (HandleWebhookAndProcess mapClient formatRFC3339 formatCompact marshalFingerprint
          (unmarshalAs (payloadOf [oomAlert])) NewAlertmanagerHandler
          { store := emptyStore, remediationsCreated := [] } 0
          { method := "POST", body := some "" }).1.2
        (7200 * 1000000000) { method := "POST", body := some "" }).1.2 =
      (HandleWebhookAndProcess mapClient formatRFC3339 formatCompact marshalFingerprint
        (unmarshalAs (payloadOf [oomAlert])) NewAlertmanagerHandler
        { store := emptyStore, remediationsCreated := [] } 0
        { method := "POST", body := some "" }).1.2 ∧
    ((HandleWebhookAndProcess mapClient formatRFC3339 formatCompact marshalFingerprint
        (unmarshalAs (payloadOf [oomAlert])) NewAlertmanagerHandler
        { store := emptyStore, remediationsCreated := [] } 0
        { method := "POST", body := some "" }).1.2.store.remediations.map
          fun x => (x.ns, x.name)) =
      [("prod", "rem-KubePodOOMKilled-20240101-120000")] :=
  ⟨(HandleWebhookAndProcess_twice formatRFC3339 formatCompact marshalFingerprint
      (unmarshalAs (payloadOf [oomAlert])) NewAlertmanagerHandler
      { store := emptyStore, remediationsCreated := [] } 0 (7200 * 1000000000)
      { method := "POST", body := some "" } (fun _ _ _ _ _ _ _ => rfl)).1,
    by decide⟩

/-! ## The reconciler -/

/-- A write of a Deployment through the map client, on a key that a read has
just found: the write goes through, the key then holds the written object, and
nothing else in the store changes. -/
theorem mapClient_update_deployment_spec (s : Store) (ns name : String) (d d1 : Deployment)
    (hget : mapClient.getDeployment s ns name = .ok d) (hns : d1.ns = ns)
    (hname : d1.name = name) :
    ∃ s1, mapClient.update s (.deployment d1) = .ok s1 ∧
      mapClient.getDeployment s1 ns name = .ok d1 ∧
      (∀ ns1 name1, (ns1, name1) ≠ (ns, name) →
        mapClient.getDeployment s1 ns1 name1 = mapClient.getDeployment s ns1 name1) ∧
      s1.remediations = s.remediations ∧ s1.statefulSets = s.statefulSets ∧
      s1.daemonSets = s.daemonSets := by
  have hf := mapClient_getDeployment_find s ns name d hget
  subst hns hname
  refine ⟨{ s with
            deployments :=
              replaceFirst (fun x => decide (x.ns = d1.ns ∧ x.name = d1.name)) d1
                s.deployments }, ?_, ?_, ?_, rfl, rfl, rfl⟩
  · show (if s.deployments.any fun x => decide (x.ns = d1.ns ∧ x.name = d1.name) then
        (.ok { s with
              deployments :=
                replaceFirst (fun x => decide (x.ns = d1.ns ∧ x.name = d1.name)) d1
                  s.deployments } : Except StoreError Store)
      else .error (errNotFound d1.name)) = _
    rw [any_of_find? _ _ _ hf]
    rfl
  · rw [mapClient_getDeployment_eq]
    simp only []
    rw [find?_replaceFirst_self _ _ d _ (by simp) hf]
  · intro ns1 name1 hne
    rw [mapClient_getDeployment_eq, mapClient_getDeployment_eq]
    simp only []
    rw [find?_replaceFirst_other]
    · simp only [decide_eq_false_iff_not, not_and]
      intro h1 h2
      exact hne (by rw [← h1, ← h2])
    · intro z hz
      simp only [decide_eq_true_eq] at hz
      simp only [decide_eq_false_iff_not, not_and]
      intro h1 h2
      exact hne (by rw [← h1, ← h2, hz.1, hz.2])

/-- The patch engine keeps a Deployment a Deployment of the same name and
namespace. -/
theorem applyAction_deployment (parseQuantity : String → Option Quantity) (d : Deployment)
    (remediation : Remediation) (obj : Object)
    (h : applyAction parseQuantity (.deployment d) remediation = some (obj, none)) :
    ∃ d1, obj = .deployment d1 ∧ d1.ns = d.ns ∧ d1.name = d.name := by
  unfold applyAction at h
  simp only [] at h
  split_ifs at h with h1 h2 h3
  · unfold ApplyIncreaseMemory at h
    simp only [Object.podContainers] at h
    cases hs : selectContainer d.containers remediation.spec.target.container with
    | none => rw [hs] at h; simp at h
    | some i =>
      rw [hs] at h
      simp only [Object.setContainers, Option.some.injEq, Prod.mk.injEq, and_true] at h
      exact ⟨_, h.symm, rfl, rfl⟩
  · unfold ApplyScaleUp at h
    simp only [Option.some.injEq, Prod.mk.injEq, and_true] at h
    exact ⟨_, h.symm, rfl, rfl⟩
  · unfold ApplyRollbackImage at h
    simp only [Option.some.injEq, Prod.mk.injEq] at h
    obtain ⟨h4, h5⟩ := h
    refine ⟨_, h4.symm, ?_, ?_⟩
    · unfold rollbackDeployment
      simp only []
      split_ifs <;> rfl
    · unfold rollbackDeployment
      simp only []
      split_ifs <;> rfl

/-- The status that `updateStatusToFailed` writes. -/
theorem updateStatusToFailed_mapClient (now : Int) (s : Store) (ns name : String)
    (r rm : Remediation) (reason : String)
    (hget : mapClient.getRemediation s ns name = .ok r) (hns : rm.ns = ns)
    (hname : rm.name = name) :
    ∃ s1, updateStatusToFailed mapClient now s rm reason = (s1, Result.empty, none) ∧
      mapClient.getRemediation s1 ns name =
        .ok { r with
              status :=
                { rm.status with
                  phase := RemediationPhaseFailed
                  reason := reason
                  lastUpdateTime := some now
                  resolvedAt := some now
                  conditions :=
                    SetStatusCondition rm.status.conditions
                      { type := "Failed"
                        status := ConditionTrue
                        observedGeneration := rm.generation
                        lastTransitionTime := now
                        reason := "RemediationFailed"
                        message := reason } } } ∧
      (∀ ns1 name1, (ns1, name1) ≠ (ns, name) →
        mapClient.getRemediation s1 ns1 name1 = mapClient.getRemediation s ns1 name1) ∧
      s1.deployments = s.deployments ∧ s1.statefulSets = s.statefulSets ∧
      s1.daemonSets = s.daemonSets ∧
      s1.remediations.map (fun x => { x with status := RemediationStatus.zero }) =
        s.remediations.map (fun x => { x with status := RemediationStatus.zero }) := by
  obtain ⟨s1, hw, h1, h2, h3, h4, h5, h6⟩ :=
    mapClient_updateStatus_spec s ns name r
      { rm with
        status :=
          { rm.status with
            phase := RemediationPhaseFailed
            reason := reason
            lastUpdateTime := some now
            resolvedAt := some now
            conditions :=
              SetStatusCondition rm.status.conditions
                { type := "Failed"
                  status := ConditionTrue
                  observedGeneration := rm.generation
                  lastTransitionTime := now
                  reason := "RemediationFailed"
                  message := reason } } } hget hns hname
  refine ⟨s1, ?_, h1, h2, h3, h4, h5, h6⟩
  unfold updateStatusToFailed
  simp only []
  rw [hw]

/-- The status that `updateStatusToExpired` writes. -/
theorem updateStatusToExpired_mapClient (now : Int) (s : Store) (ns name : String)
    (r rm : Remediation) (reason : String)
    (hget : mapClient.getRemediation s ns name = .ok r) (hns : rm.ns = ns)
    (hname : rm.name = name) :
    ∃ s1, updateStatusToExpired mapClient now s rm reason = (s1, Result.empty, none) ∧
      mapClient.getRemediation s1 ns name =
        .ok { r with
              status :=
                { rm.status with
                  phase := RemediationPhaseExpired
                  reason := reason
                  lastUpdateTime := some now
                  resolvedAt := some now } } ∧
      (∀ ns1 name1, (ns1, name1) ≠ (ns, name) →
        mapClient.getRemediation s1 ns1 name1 = mapClient.getRemediation s ns1 name1) ∧
      s1.deployments = s.deployments ∧ s1.statefulSets = s.statefulSets ∧
      s1.daemonSets = s.daemonSets ∧
      s1.remediations.map (fun x => { x with status := RemediationStatus.zero }) =
        s.remediations.map (fun x => { x with status := RemediationStatus.zero }) := by
  obtain ⟨s1, hw, h1, h2, h3, h4, h5, h6⟩ :=
    mapClient_updateStatus_spec s ns name r
      { rm with
        status :=
          { rm.status with
            phase := RemediationPhaseExpired
            reason := reason
            lastUpdateTime := some now
            resolvedAt := some now } } hget hns hname
  refine ⟨s1, ?_, h1, h2, h3, h4, h5, h6⟩
  unfold updateStatusToExpired
  simp only []
  rw [hw]

/-- The dispatch of `Reconcile` on the phase of the record it has read. -/
theorem Reconcile_of_get {σ : Type} (c : Client σ) (parseQuantity : String → Option Quantity)
    (parseDuration : String → Option Int) (now : Int) (s : σ) (ns name : String)
    (r : Remediation) (hget : c.getRemediation s ns name = .ok r) :
    Reconcile c parseQuantity parseDuration now s ns name =
      if r.status.phase = "" then handleNewRemediation c now s r
      else if r.status.phase = RemediationPhasePending then handlePendingRemediation c now s r
      else if r.status.phase = RemediationPhaseAnalyzing then
        handleAnalyzingRemediation c parseQuantity now s r
      else if r.status.phase = RemediationPhaseApplying then handleApplyingRemediation s r
      else if r.status.phase = RemediationPhaseSucceeded ∨
          r.status.phase = RemediationPhaseFailed ∨
          r.status.phase = RemediationPhaseExpired then (s, Result.empty, none)
      else if r.status.phase = RemediationPhasePRCreated then
        handlePRCreated c parseDuration now s r
      else (s, Result.empty, none) := by
  unfold Reconcile
  rw [hget]

/-- C14. For every client and every store in which the requested record is in
phase `Succeeded`, `Failed` or `Expired`, `Reconcile` hands back the store it was
given, whatever the write calls of the client would do, and returns the empty
result with no error: the step makes no status write and no target write and
leaves the record as it was. -/
theorem Reconcile_terminal {σ : Type} (c : Client σ) (parseQuantity : String → Option Quantity)
    (parseDuration : String → Option Int) (now : Int) (s : σ) (ns name : String)
    (remediation : Remediation) (hget : c.getRemediation s ns name = .ok remediation)
    (hphase : remediation.status.phase = RemediationPhaseSucceeded ∨
      remediation.status.phase = RemediationPhaseFailed ∨
      remediation.status.phase = RemediationPhaseExpired) :
    Reconcile c parseQuantity parseDuration now s ns name = (s, Result.empty, none) ∧
    c.getRemediation (Reconcile c parseQuantity parseDuration now s ns name).1 ns name =
      .ok remediation := by
  have h : Reconcile c parseQuantity parseDuration now s ns name = (s, Result.empty, none) := by
    unfold Reconcile
    rw [hget]
    rcases hphase with h | h | h <;>
      simp [h, RemediationPhaseSucceeded, RemediationPhaseFailed, RemediationPhaseExpired,
        RemediationPhasePending, RemediationPhaseAnalyzing, RemediationPhaseApplying]
  exact ⟨h, by rw [h]; exact hget⟩

/-- C14 on the record of the controller test, moved to phase `Failed`. -/
theorem Reconcile_terminal_witness :
    mapClient.getRemediation (testStore RemediationPhaseFailed) "default" "test-oom" =
      .ok (testOOMIn RemediationPhaseFailed) ∧
    (testOOMIn RemediationPhaseFailed).status.phase = RemediationPhaseFailed ∧
    Reconcile mapClient parseBinaryQuantity parseSimpleDuration 7200000000000
        (testStore RemediationPhaseFailed) "default" "test-oom" =
      (testStore RemediationPhaseFailed, Result.empty, none) :=
  ⟨rfl, rfl,
    (Reconcile_terminal mapClient parseBinaryQuantity parseSimpleDuration 7200000000000
      (testStore RemediationPhaseFailed) "default" "test-oom" (testOOMIn RemediationPhaseFailed)
      rfl (Or.inr (Or.inl rfl))).1⟩

theorem hasTarget_deployment (s : Store) (ns name : String) :
    (s.hasTarget "Deployment" ns name = true ↔ ∃ d, mapClient.getDeployment s ns name = .ok d) ∧
    (s.hasTarget "Deployment" ns name = false ↔
      mapClient.getDeployment s ns name = .error (errNotFound name)) := by
  have hh : s.hasTarget "Deployment" ns name =
      (s.deployments.find? fun d => decide (d.ns = ns ∧ d.name = name)).isSome := by
    simp only [Store.hasTarget, String.reduceEq, if_false, if_true]
    exact any_eq_find?_isSome _ _
  have hg : mapClient.getDeployment s ns name =
      match s.deployments.find? fun d => decide (d.ns = ns ∧ d.name = name) with
      | some d => .ok d
      | none => .error (errNotFound name) := rfl
  rw [hh, hg]
  cases s.deployments.find? fun d => decide (d.ns = ns ∧ d.name = name) with
  | none => simp
  | some d => simp

theorem hasTarget_statefulSet (s : Store) (ns name : String) :
    (s.hasTarget "StatefulSet" ns name = true ↔ ∃ d, mapClient.getStatefulSet s ns name = .ok d) ∧
    (s.hasTarget "StatefulSet" ns name = false ↔
      mapClient.getStatefulSet s ns name = .error (errNotFound name)) := by
  have hh : s.hasTarget "StatefulSet" ns name =
      (s.statefulSets.find? fun d => decide (d.ns = ns ∧ d.name = name)).isSome := by
    simp only [Store.hasTarget, String.reduceEq, if_false, if_true]
    exact any_eq_find?_isSome _ _
  have hg : mapClient.getStatefulSet s ns name =
      match s.statefulSets.find? fun d => decide (d.ns = ns ∧ d.name = name) with
      | some d => .ok d
      | none => .error (errNotFound name) := rfl
  rw [hh, hg]
  cases s.statefulSets.find? fun d => decide (d.ns = ns ∧ d.name = name) with
  | none => simp
  | some d => simp

theorem hasTarget_daemonSet (s : Store) (ns name : String) :
    (s.hasTarget "DaemonSet" ns name = true ↔ ∃ d, mapClient.getDaemonSet s ns name = .ok d) ∧
    (s.hasTarget "DaemonSet" ns name = false ↔
      mapClient.getDaemonSet s ns name = .error (errNotFound name)) := by
  have hh : s.hasTarget "DaemonSet" ns name =
      (s.daemonSets.find? fun d => decide (d.ns = ns ∧ d.name = name)).isSome := by
    simp only [Store.hasTarget, String.reduceEq, if_false, if_true]
    exact any_eq_find?_isSome _ _
  have hg : mapClient.getDaemonSet s ns name =
      match s.daemonSets.find? fun d => decide (d.ns = ns ∧ d.name = name) with
      | some d => .ok d
      | none => .error (errNotFound name) := rfl
  rw [hh, hg]
  cases s.daemonSets.find? fun d => decide (d.ns = ns ∧ d.name = name) with
  | none => simp
  | some d => simp

/-- The outcome of `handlePendingRemediation` in the map store, by whether the
target is held. -/
theorem handlePendingRemediation_mapClient (now : Int) (s : Store) (r : Remediation) :
    handlePendingRemediation mapClient now s r =
      if s.hasTarget r.spec.target.kind r.spec.target.ns r.spec.target.name = true then
        match mapClient.updateStatus s
            { r with
              status :=
                { r.status with
                  phase := RemediationPhaseAnalyzing
                  reason := "Analyzing target resource and calculating remediation"
                  lastUpdateTime := some now } } with
        | .error err => (s, Result.empty, some err)
        | .ok s1 => (s1, { requeue := true, requeueAfter := 0 }, none)
      else
        updateStatusToFailed mapClient now s r
          (if r.spec.target.kind = "Deployment" ∨ r.spec.target.kind = "StatefulSet" ∨
              r.spec.target.kind = "DaemonSet" then
            "Target resource not found: " ++ r.spec.target.ns ++ "/" ++ r.spec.target.name
          else "Unsupported target kind: " ++ r.spec.target.kind) := by
  unfold handlePendingRemediation
  simp only []
  by_cases h1 : r.spec.target.kind = "Deployment"
  · have ht := hasTarget_deployment s r.spec.target.ns r.spec.target.name
    rw [h1]
    simp only [if_true, true_or]
    cases hb : s.hasTarget "Deployment" r.spec.target.ns r.spec.target.name with
    | true =>
      obtain ⟨d, hd⟩ := ht.1.1 hb
      rw [hd, if_pos rfl]
      simp only []
      generalize mapClient.updateStatus s _ = w
      cases w <;> rfl
    | false =>
      rw [ht.2.1 hb]
      simp [errNotFound]
  · by_cases h2 : r.spec.target.kind = "StatefulSet"
    · have ht := hasTarget_statefulSet s r.spec.target.ns r.spec.target.name
      rw [h2]
      simp only [String.reduceEq, if_false, if_true, true_or, or_true]
      cases hb : s.hasTarget "StatefulSet" r.spec.target.ns r.spec.target.name with
      | true =>
        obtain ⟨d, hd⟩ := ht.1.1 hb
        rw [hd, if_pos rfl]
        simp only []
        generalize mapClient.updateStatus s _ = w
        cases w <;> rfl
      | false =>
        rw [ht.2.1 hb]
        simp [errNotFound]
    · by_cases h3 : r.spec.target.kind = "DaemonSet"
      · have ht := hasTarget_daemonSet s r.spec.target.ns r.spec.target.name
        rw [h3]
        simp only [String.reduceEq, if_false, if_true, true_or, or_true]
        cases hb : s.hasTarget "DaemonSet" r.spec.target.ns r.spec.target.name with
        | true =>
          obtain ⟨d, hd⟩ := ht.1.1 hb
          rw [hd, if_pos rfl]
          simp only []
          generalize mapClient.updateStatus s _ = w
          cases w <;> rfl
        | false =>
          rw [ht.2.1 hb]
          simp [errNotFound]
      · simp [h1, h2, h3, Store.hasTarget]

/-- C16. Reconciling a record in phase `Pending` in the map store. When the store
holds no workload of the target's kind under the target's (namespace, name),
which includes every kind other than Deployment, StatefulSet and DaemonSet, the
record becomes `Failed` with the reason "Unsupported target kind: <kind>" for
another kind and "Target resource not found: <namespace>/<name>" for an absent
target; when the target is held the record becomes `Analyzing` and an immediate
requeue is requested. No error is returned and no workload is modified. -/
theorem Reconcile_pending (parseQuantity : String → Option Quantity)
    (parseDuration : String → Option Int) (now : Int) (s : Store) (ns name : String)
    (r : Remediation) (hget : mapClient.getRemediation s ns name = .ok r)
    (hphase : r.status.phase = RemediationPhasePending) :
    ∃ s1 result, Reconcile mapClient parseQuantity parseDuration now s ns name =
        (s1, result, none) ∧
      s1.deployments = s.deployments ∧ s1.statefulSets = s.statefulSets ∧
      s1.daemonSets = s.daemonSets ∧
      (s.hasTarget r.spec.target.kind r.spec.target.ns r.spec.target.name = false →
        result = { requeue := false, requeueAfter := 0 } ∧
        mapClient.getRemediation s1 ns name =
          .ok { r with
                status :=
                  { r.status with
                    phase := RemediationPhaseFailed
                    reason :=
                      if r.spec.target.kind = "Deployment" ∨ r.spec.target.kind = "StatefulSet" ∨
                          r.spec.target.kind = "DaemonSet" then
                        "Target resource not found: " ++ r.spec.target.ns ++ "/" ++
                          r.spec.target.name
                      else "Unsupported target kind: " ++ r.spec.target.kind
                    lastUpdateTime := some now
                    resolvedAt := some now
                    conditions :=
                      SetStatusCondition r.status.conditions
                        { type := "Failed"
                          status := ConditionTrue
                          observedGeneration := r.generation
                          lastTransitionTime := now
                          reason := "RemediationFailed"
                          message :=
                            if r.spec.target.kind = "Deployment" ∨
                                r.spec.target.kind = "StatefulSet" ∨
                                r.spec.target.kind = "DaemonSet" then
                              "Target resource not found: " ++ r.spec.target.ns ++ "/" ++
                                r.spec.target.name
                            else "Unsupported target kind: " ++ r.spec.target.kind } } }) ∧
      (s.hasTarget r.spec.target.kind r.spec.target.ns r.spec.target.name = true →
        result = { requeue := true, requeueAfter := 0 } ∧
        mapClient.getRemediation s1 ns name =
          .ok { r with
                status :=
                  { r.status with
                    phase := RemediationPhaseAnalyzing
                    reason := "Analyzing target resource and calculating remediation"
                    lastUpdateTime := some now } }) := by
  have hk := mapClient_getRemediation_key s ns name r hget
  rw [Reconcile_of_get mapClient parseQuantity parseDuration now s ns name r hget]
  simp only [hphase, RemediationPhasePending, String.reduceEq, if_false, if_true]
  rw [handlePendingRemediation_mapClient]
  cases hb : s.hasTarget r.spec.target.kind r.spec.target.ns r.spec.target.name with
  | true =>
    obtain ⟨s1, hw, h1, _, h3, h4, h5, _⟩ :=
      mapClient_updateStatus_spec s ns name r
        { r with
          status :=
            { r.status with
              phase := RemediationPhaseAnalyzing
              reason := "Analyzing target resource and calculating remediation"
              lastUpdateTime := some now } } hget hk.1 hk.2
    rw [if_pos rfl, hw]
    refine ⟨s1, _, rfl, h3, h4, h5, ?_, ?_⟩
    · intro h; cases h
    · intro _; exact ⟨rfl, h1⟩
  | false =>
    obtain ⟨s1, hw, h1, _, h3, h4, h5, _⟩ :=
      updateStatusToFailed_mapClient now s ns name r r
        (if r.spec.target.kind = "Deployment" ∨ r.spec.target.kind = "StatefulSet" ∨
            r.spec.target.kind = "DaemonSet" then
          "Target resource not found: " ++ r.spec.target.ns ++ "/" ++ r.spec.target.name
        else "Unsupported target kind: " ++ r.spec.target.kind) hget hk.1 hk.2
    rw [if_neg (by simp), hw]
    refine ⟨s1, _, rfl, h3, h4, h5, ?_, ?_⟩
    · intro _; exact ⟨rfl, h1⟩
    · intro h; cases h

/-- C16 on the store of the controller test, with the record in phase
`Pending`: the target is held and the record becomes `Analyzing`. -/
theorem Reconcile_pending_witness :
    ∃ s1 result, Reconcile mapClient parseBinaryQuantity parseSimpleDuration 5
        (testStore RemediationPhasePending) "default" "test-oom" = (s1, result, none) ∧
      s1.deployments = [testApp] ∧ s1.statefulSets = [] ∧ s1.daemonSets = [] ∧
      result = { requeue := true, requeueAfter := 0 } ∧
      mapClient.getRemediation s1 "default" "test-oom" =
        .ok { testOOM with
              status :=
                { testOOM.status with
                  phase := RemediationPhaseAnalyzing
                  reason := "Analyzing target resource and calculating remediation"
                  lastUpdateTime := some 5 } } := by
  obtain ⟨s1, result, h1, h2, h3, h4, _, h6⟩ :=
    Reconcile_pending parseBinaryQuantity parseSimpleDuration 5
      (testStore RemediationPhasePending) "default" "test-oom"
      (testOOMIn RemediationPhasePending) rfl rfl
  exact ⟨s1, result, h1, h2, h3, h4, (h6 (by decide)).1, (h6 (by decide)).2⟩

theorem mapClient_getRemediation_congr (s t : Store) (h : t.remediations = s.remediations)
    (ns name : String) : mapClient.getRemediation t ns name = mapClient.getRemediation s ns name := by
  rw [mapClient_getRemediation_eq, mapClient_getRemediation_eq, h]

theorem mapClient_getDeployment_congr (s t : Store) (h : t.deployments = s.deployments)
    (ns name : String) : mapClient.getDeployment t ns name = mapClient.getDeployment s ns name := by
  rw [mapClient_getDeployment_eq, mapClient_getDeployment_eq, h]

/-- The Direct path in the map store when the target is a held Deployment and
the patch engine succeeds: the three writes go through. -/
theorem handleDirectRemediation_mapClient_ok (parseQuantity : String → Option Quantity)
    (now : Int) (s : Store) (ns name : String) (r : Remediation) (d d1 : Deployment)
    (hget : mapClient.getRemediation s ns name = .ok r)
    (hkind : r.spec.target.kind = "Deployment")
    (hd : mapClient.getDeployment s r.spec.target.ns r.spec.target.name = .ok d)
    (happ : applyAction parseQuantity (.deployment d) r = some (.deployment d1, none)) :
    ∃ s3, handleDirectRemediation mapClient parseQuantity now s r = (s3, Result.empty, none) ∧
      mapClient.getRemediation s3 ns name =
        .ok { r with
              status :=
                { r.status with
                  phase := RemediationPhaseSucceeded
                  reason := "Remediation applied successfully"
                  appliedAt := some now
                  resolvedAt := some now
                  lastUpdateTime := some now
                  attempts := wrapInt64 (r.status.attempts + 1)
                  conditions :=
                    SetStatusCondition r.status.conditions
                      { type := "Applied"
                        status := ConditionTrue
                        observedGeneration := r.generation
                        lastTransitionTime := now
                        reason := "RemediationApplied"
                        message := "Remediation applied directly to cluster" } } } ∧
      mapClient.getDeployment s3 r.spec.target.ns r.spec.target.name = .ok d1 ∧
      (∀ ns1 name1, (ns1, name1) ≠ (ns, name) →
        mapClient.getRemediation s3 ns1 name1 = mapClient.getRemediation s ns1 name1) ∧
      (∀ ns1 name1, (ns1, name1) ≠ (r.spec.target.ns, r.spec.target.name) →
        mapClient.getDeployment s3 ns1 name1 = mapClient.getDeployment s ns1 name1) ∧
      s3.statefulSets = s.statefulSets ∧ s3.daemonSets = s.daemonSets ∧
      s3.remediations.map (fun x => { x with status := RemediationStatus.zero }) =
        s.remediations.map (fun x => { x with status := RemediationStatus.zero }) := by
  have hk := mapClient_getRemediation_key s ns name r hget
  obtain ⟨d2, hobj, hdns, hdname⟩ :=
    applyAction_deployment parseQuantity d r (.deployment d1) happ
  cases hobj
  have hdk := mapClient_getDeployment_key s _ _ d hd
  -- the write of phase Applying
  obtain ⟨s1, hw1, a1, a2, a3, a4, a5, a6⟩ :=
    mapClient_updateStatus_spec s ns name r
      { r with
        status :=
          { r.status with
            phase := RemediationPhaseApplying
            reason := "Applying remediation directly to cluster"
            lastUpdateTime := some now
            attempts := wrapInt64 (r.status.attempts + 1) } } hget hk.1 hk.2
  -- the write of the patched Deployment
  have hd1 : mapClient.getDeployment s1 r.spec.target.ns r.spec.target.name = .ok d :=
    (mapClient_getDeployment_congr s s1 a3 _ _).trans hd
  obtain ⟨s2, hw2, b1, b2, b3, b4, b5⟩ :=
    mapClient_update_deployment_spec s1 _ _ d d1 hd1 (hdns.trans hdk.1) (hdname.trans hdk.2)
  -- the write of phase Succeeded
  have hg2 := (mapClient_getRemediation_congr s1 s2 b3 ns name).trans a1
  obtain ⟨s3, hw3, c1, c2, c3, c4, c5, c6⟩ :=
    mapClient_updateStatus_spec s2 ns name _
      { r with
        status :=
          { r.status with
            phase := RemediationPhaseSucceeded
            reason := "Remediation applied successfully"
            appliedAt := some now
            resolvedAt := some now
            lastUpdateTime := some now
            attempts := wrapInt64 (r.status.attempts + 1)
            conditions :=
              SetStatusCondition r.status.conditions
                { type := "Applied"
                  status := ConditionTrue
                  observedGeneration := r.generation
                  lastTransitionTime := now
                  reason := "RemediationApplied"
                  message := "Remediation applied directly to cluster" } } } hg2 hk.1 hk.2
  refine ⟨s3, ?_, c1, ?_, ?_, ?_, ?_, ?_, ?_⟩
  · unfold handleDirectRemediation
    simp only [hkind, ne_eq, not_true_eq_false, if_false]
    rw [hd]
    simp only []
    rw [happ]
    simp only []
    rw [hw1]
    simp only []
    rw [hw2]
    simp only []
    rw [hw3]
  · exact (mapClient_getDeployment_congr s2 s3 c3 _ _).trans b1
  · intro ns1 name1 hne
    rw [c2 ns1 name1 hne, mapClient_getRemediation_congr s1 s2 b3, a2 ns1 name1 hne]
  · intro ns1 name1 hne
    rw [mapClient_getDeployment_congr s2 s3 c3, b2 ns1 name1 hne,
      mapClient_getDeployment_congr s s1 a3]
  · rw [c4, b4, a4]
  · rw [c5, b5, a5]
  · rw [c6, b3, a6]

/-- The Direct path in the map store in every other case: the step is one call
of `updateStatusToFailed`. -/
theorem handleDirectRemediation_mapClient_fail (parseQuantity : String → Option Quantity)
    (now : Int) (s : Store) (r : Remediation)
    (h : ¬ (r.spec.target.kind = "Deployment" ∧
      ∃ d obj, mapClient.getDeployment s r.spec.target.ns r.spec.target.name = .ok d ∧
        applyAction parseQuantity (.deployment d) r = some (obj, none))) :
    ∃ reason, handleDirectRemediation mapClient parseQuantity now s r =
      updateStatusToFailed mapClient now s r reason := by
  unfold handleDirectRemediation
  simp only []
  by_cases hkind : r.spec.target.kind = "Deployment"
  · simp only [hkind, ne_eq, not_true_eq_false, if_false]
    cases hd : mapClient.getDeployment s r.spec.target.ns r.spec.target.name with
    | error err => exact ⟨_, rfl⟩
    | ok d =>
      simp only []
      cases happ : applyAction parseQuantity (.deployment d) r with
      | none => exact ⟨_, rfl⟩
      | some p =>
        obtain ⟨obj, e⟩ := p
        cases e with
        | some err => exact ⟨_, rfl⟩
        | none => exact absurd ⟨hkind, d, obj, hd, happ⟩ h
  · rw [if_pos hkind]
    exact ⟨_, rfl⟩

theorem SetStatusCondition_mem (cs : List Condition) (c : Condition) :
    ∃ x ∈ SetStatusCondition cs c, x.type = c.type ∧ x.status = c.status ∧
      x.reason = c.reason ∧ x.message = c.message ∧
      x.observedGeneration = c.observedGeneration := by
  induction cs with
  | nil => exact ⟨c, by simp [SetStatusCondition], rfl, rfl, rfl, rfl, rfl⟩
  | cons y ys ih =>
    unfold SetStatusCondition
    by_cases hy : y.type = c.type
    · rw [if_pos hy]
      exact ⟨_, List.mem_cons_self _ _, hy, rfl, rfl, rfl, rfl⟩
    · rw [if_neg hy]
      obtain ⟨x, hx, h⟩ := ih
      exact ⟨x, List.mem_cons_of_mem _ hx, h⟩

theorem SetStatusCondition_append (cs : List Condition) (c : Condition)
    (h : ∀ x ∈ cs, x.type ≠ c.type) : SetStatusCondition cs c = cs ++ [c] := by
  induction cs with
  | nil => rfl
  | cons y ys ih =>
    unfold SetStatusCondition
    rw [if_neg (h y (List.mem_cons_self _ _)), ih fun x hx => h x (List.mem_cons_of_mem _ hx)]
    rfl

theorem SetStatusCondition_length (cs : List Condition) (c : Condition)
    (x : Condition) (hx : x ∈ cs) (h : x.type = c.type) :
    (SetStatusCondition cs c).length = cs.length := by
  induction cs with
  | nil => cases hx
  | cons y ys ih =>
    unfold SetStatusCondition
    by_cases hy : y.type = c.type
    · rw [if_pos hy]
      rfl
    · rw [if_neg hy]
      rcases List.mem_cons.1 hx with hxy | hxy
      · exact absurd (hxy ▸ h) hy
      · simp [ih hxy]

/-- C17 (counterexample). On the store of the controller test with `Attempts`
at 9223372036854775807, the largest `int`, one `Reconcile` ends in `Succeeded`
with `Attempts` at -9223372036854775808: the increment wraps, and the counter
is not the former value plus one. -/
theorem Reconcile_direct_attempts_wrap :
    (wornStore.remediations.map fun r => (r.status.phase, r.status.attempts)) =
      [(RemediationPhaseAnalyzing, 9223372036854775807)] ∧
    ((Reconcile mapClient parseBinaryQuantity parseSimpleDuration 5 wornStore "default"
        "test-oom").1.remediations.map fun r => (r.status.phase, r.status.attempts)) =
      [(RemediationPhaseSucceeded, -9223372036854775808)] ∧
    (-9223372036854775808 : Int) ≠ 9223372036854775807 + 1 := by
  refine ⟨rfl, rfl, by decide⟩

/-- C17 (amended). A record in phase `Analyzing` with strategy Direct and
requireApproval = false, whose target is a Deployment held by the map store, on
whose action the patch engine succeeds: one `Reconcile` returns no error and
leaves the record with Phase=Succeeded, AppliedAt = ResolvedAt = now, Attempts
increased by one whenever it was an `int` below 2^63 - 1, and an `Applied`
condition of status True, the Spec as it was, and the stored target equal to
the prior target with the mutation of the patch engine applied. -/
theorem Reconcile_direct_succeeds (parseQuantity : String → Option Quantity)
    (parseDuration : String → Option Int) (now : Int) (s : Store) (ns name : String)
    (r : Remediation) (d : Deployment) (obj : Object)
    (hget : mapClient.getRemediation s ns name = .ok r)
    (hphase : r.status.phase = RemediationPhaseAnalyzing)
    (hmode : r.spec.strategy.mode = StrategyModeDirect)
    (happroval : r.spec.strategy.requireApproval = false)
    (hkind : r.spec.target.kind = "Deployment")
    (hd : mapClient.getDeployment s r.spec.target.ns r.spec.target.name = .ok d)
    (happ : applyAction parseQuantity (.deployment d) r = some (obj, none)) :
    ∃ s1 r1, Reconcile mapClient parseQuantity parseDuration now s ns name =
        (s1, { requeue := false, requeueAfter := 0 }, none) ∧
      mapClient.getRemediation s1 ns name = .ok r1 ∧
      r1.spec = r.spec ∧
      r1.status.phase = RemediationPhaseSucceeded ∧
      r1.status.appliedAt = some now ∧
      r1.status.resolvedAt = some now ∧
      (-2 ^ 63 ≤ r.status.attempts → r.status.attempts < 2 ^ 63 - 1 →
        r1.status.attempts = r.status.attempts + 1) ∧
      (∃ c ∈ r1.status.conditions, c.type = "Applied" ∧ c.status = ConditionTrue) ∧
      ∃ d1, obj = .deployment d1 ∧
        mapClient.getDeployment s1 r.spec.target.ns r.spec.target.name = .ok d1 := by
  obtain ⟨d1, hobj, _, _⟩ := applyAction_deployment parseQuantity d r obj happ
  subst hobj
  obtain ⟨s3, h1, h2, h3, _⟩ :=
    handleDirectRemediation_mapClient_ok parseQuantity now s ns name r d d1 hget hkind hd happ
  refine ⟨s3, _, ?_, h2, rfl, rfl, rfl, rfl,
    fun hlo hhi => wrapInt64_of_range _ (by omega) (by omega), ?_, d1, rfl, h3⟩
  · rw [Reconcile_of_get mapClient parseQuantity parseDuration now s ns name r hget]
    simp only [hphase, RemediationPhaseAnalyzing, RemediationPhasePending, String.reduceEq,
      if_false, if_true]
    unfold handleAnalyzingRemediation
    rw [if_pos ⟨hmode, happroval⟩, h1]
    rfl
  · obtain ⟨x, hx, ht, hs, _⟩ :=
      SetStatusCondition_mem r.status.conditions
        { type := "Applied"
          status := ConditionTrue
          observedGeneration := r.generation
          lastTransitionTime := now
          reason := "RemediationApplied"
          message := "Remediation applied directly to cluster" }
    exact ⟨x, hx, ht, hs⟩

/-- C17 on `TestRemediationReconciler_IncreaseMemory`: a limit of 256Mi, 25
percent and a cap of 2Gi give a limit and a request of 320Mi. -/
theorem Reconcile_direct_succeeds_witness :
    ∃ s1 r1, Reconcile mapClient parseBinaryQuantity parseSimpleDuration 5
        (testStore RemediationPhaseAnalyzing) "default" "test-oom" =
        (s1, { requeue := false, requeueAfter := 0 }, none) ∧
      mapClient.getRemediation s1 "default" "test-oom" = .ok r1 ∧
      r1.spec = testOOM.spec ∧
      r1.status.phase = RemediationPhaseSucceeded ∧
      r1.status.appliedAt = some 5 ∧
      r1.status.resolvedAt = some 5 ∧
      r1.status.attempts = 1 ∧
      (∃ c ∈ r1.status.conditions, c.type = "Applied" ∧ c.status = ConditionTrue) ∧
      mapClient.getDeployment s1 "default" "test-app" =
        .ok { testApp with
              containers :=
                [ { name := "app"
                    image := "nginx:latest"
                    limits := [(ResourceMemory, 320 * Mi)]
                    requests := [(ResourceMemory, 320 * Mi)] } ] } := by
  obtain ⟨s1, r1, h1, h2, h3, h4, h5, h6, h7, h8, d1, h9, h10⟩ :=
    Reconcile_direct_succeeds parseBinaryQuantity parseSimpleDuration 5
      (testStore RemediationPhaseAnalyzing) "default" "test-oom" testOOM testApp
      (.deployment
        { testApp with
          containers :=
            [ { name := "app"
                image := "nginx:latest"
                limits := [(ResourceMemory, 320 * Mi)]
                requests := [(ResourceMemory, 320 * Mi)] } ] })
      rfl rfl rfl rfl rfl rfl (by decide)
  cases h9
  exact ⟨s1, r1, h1, h2, h3, h4, h5, h6, h7 (by decide) (by decide), h8, h10⟩

/-- C18. A record in phase `Analyzing` whose strategy is not (Direct without
approval): in the map store `Reconcile` writes Phase=Pending with the reason
"Waiting for GitHub App service to create PR", returns the empty result (no
immediate and no delayed requeue) and no error, and leaves every workload as it
was; and for every client the step is that one status write and nothing else, so
no target object is read or written. -/
theorem Reconcile_analyzing_waits (parseQuantity : String → Option Quantity)
    (parseDuration : String → Option Int) (now : Int) (s : Store) (ns name : String)
    (r : Remediation) (hget : mapClient.getRemediation s ns name = .ok r)
    (hphase : r.status.phase = RemediationPhaseAnalyzing)
    (hstrategy : ¬ (r.spec.strategy.mode = StrategyModeDirect ∧
      r.spec.strategy.requireApproval = false)) :
    (∃ s1, Reconcile mapClient parseQuantity parseDuration now s ns name =
        (s1, { requeue := false, requeueAfter := 0 }, none) ∧
      mapClient.getRemediation s1 ns name =
        .ok { r with
              status :=
                { r.status with
                  phase := RemediationPhasePending
                  reason := "Waiting for GitHub App service to create PR"
                  lastUpdateTime := some now } } ∧
      s1.deployments = s.deployments ∧ s1.statefulSets = s.statefulSets ∧
      s1.daemonSets = s.daemonSets) ∧
    ∀ {σ : Type} (c : Client σ) (t : σ), c.getRemediation t ns name = .ok r →
      Reconcile c parseQuantity parseDuration now t ns name =
        match c.updateStatus t
            { r with
              status :=
                { r.status with
                  phase := RemediationPhasePending
                  reason := "Waiting for GitHub App service to create PR"
                  lastUpdateTime := some now } } with
        | .error err => (t, { requeue := false, requeueAfter := 0 }, some err)
        | .ok t1 => (t1, { requeue := false, requeueAfter := 0 }, none) := by
  have hgen : ∀ {σ : Type} (c : Client σ) (t : σ), c.getRemediation t ns name = .ok r →
      Reconcile c parseQuantity parseDuration now t ns name =
        match c.updateStatus t
            { r with
              status :=
                { r.status with
                  phase := RemediationPhasePending
                  reason := "Waiting for GitHub App service to create PR"
                  lastUpdateTime := some now } } with
        | .error err => (t, { requeue := false, requeueAfter := 0 }, some err)
        | .ok t1 => (t1, { requeue := false, requeueAfter := 0 }, none) := by
    intro σ c t hg
    rw [Reconcile_of_get c parseQuantity parseDuration now t ns name r hg]
    simp only [hphase, RemediationPhaseAnalyzing, RemediationPhasePending, String.reduceEq,
      if_false, if_true]
    unfold handleAnalyzingRemediation
    rw [if_neg hstrategy]
    rfl
  refine ⟨?_, hgen⟩
  have hk := mapClient_getRemediation_key s ns name r hget
  obtain ⟨s1, hw, h1, _, h3, h4, h5, _⟩ :=
    mapClient_updateStatus_spec s ns name r
      { r with
        status :=
          { r.status with
            phase := RemediationPhasePending
            reason := "Waiting for GitHub App service to create PR"
            lastUpdateTime := some now } } hget hk.1 hk.2
  refine ⟨s1, ?_, h1, h3, h4, h5⟩
  rw [hgen mapClient s hget, hw]

/-- C18 on the record of the controller test with the strategy GitOps. -/
theorem Reconcile_analyzing_waits_witness :
    ∃ s1, Reconcile mapClient parseBinaryQuantity parseSimpleDuration 5
        { remediations := [{ testOOM with spec := { testOOM.spec with
            strategy := { testOOM.spec.strategy with mode := StrategyModeGitOps } } }]
          deployments := [testApp], statefulSets := [], daemonSets := [] }
        "default" "test-oom" = (s1, { requeue := false, requeueAfter := 0 }, none) ∧
      mapClient.getRemediation s1 "default" "test-oom" =
        .ok { testOOM with
              spec := { testOOM.spec with
                strategy := { testOOM.spec.strategy with mode := StrategyModeGitOps } }
              status :=
                { testOOM.status with
                  phase := RemediationPhasePending
                  reason := "Waiting for GitHub App service to create PR"
                  lastUpdateTime := some 5 } } ∧
      s1.deployments = [testApp] ∧ s1.statefulSets = [] ∧ s1.daemonSets = [] :=
  (Reconcile_analyzing_waits parseBinaryQuantity parseSimpleDuration 5
    { remediations := [{ testOOM with spec := { testOOM.spec with
        strategy := { testOOM.spec.strategy with mode := StrategyModeGitOps } } }]
      deployments := [testApp], statefulSets := [], daemonSets := [] }
    "default" "test-oom"
    { testOOM with spec := { testOOM.spec with
        strategy := { testOOM.spec.strategy with mode := StrategyModeGitOps } } }
    rfl rfl (by decide)).1

/-- C19. Reconciling a record in phase `PRCreated` at the instant `now` in the map
store: the record becomes `Expired` with ResolvedAt = now exactly when
Strategy.TTL is set, parses as a duration, and `now - creationTimestamp` exceeds
it; in every other case the store is left as it was and a requeue after one
minute is requested. No error is returned. -/
theorem Reconcile_prCreated (parseQuantity : String → Option Quantity)
    (parseDuration : String → Option Int) (now : Int) (s : Store) (ns name : String)
    (r : Remediation) (hget : mapClient.getRemediation s ns name = .ok r)
    (hphase : r.status.phase = RemediationPhasePRCreated) :
    ∃ s1 result, Reconcile mapClient parseQuantity parseDuration now s ns name =
        (s1, result, none) ∧
      ((∃ r1, mapClient.getRemediation s1 ns name = .ok r1 ∧
          r1.status.phase = RemediationPhaseExpired ∧ r1.status.resolvedAt = some now) ↔
        (r.spec.strategy.ttl ≠ "" ∧ ∃ ttl, parseDuration r.spec.strategy.ttl = some ttl ∧
          now - r.creationTimestamp > ttl)) ∧
      ((r.spec.strategy.ttl ≠ "" ∧ ∃ ttl, parseDuration r.spec.strategy.ttl = some ttl ∧
          now - r.creationTimestamp > ttl) →
        result = { requeue := false, requeueAfter := 0 } ∧
        mapClient.getRemediation s1 ns name =
          .ok { r with
                status :=
                  { r.status with
                    phase := RemediationPhaseExpired
                    reason := "Remediation TTL exceeded"
                    lastUpdateTime := some now
                    resolvedAt := some now } }) ∧
      (¬ (r.spec.strategy.ttl ≠ "" ∧ ∃ ttl, parseDuration r.spec.strategy.ttl = some ttl ∧
          now - r.creationTimestamp > ttl) →
        s1 = s ∧ result = { requeue := false, requeueAfter := 60 * 1000000000 }) := by
  have hk := mapClient_getRemediation_key s ns name r hget
  rw [Reconcile_of_get mapClient parseQuantity parseDuration now s ns name r hget]
  simp only [hphase, RemediationPhasePRCreated, RemediationPhasePending,
    RemediationPhaseAnalyzing, RemediationPhaseApplying, RemediationPhaseSucceeded,
    RemediationPhaseFailed, RemediationPhaseExpired, String.reduceEq, if_false, if_true,
    or_self]
  unfold handlePRCreated
  by_cases hex : r.spec.strategy.ttl ≠ "" ∧ ∃ ttl, parseDuration r.spec.strategy.ttl = some ttl ∧
      now - r.creationTimestamp > ttl
  · obtain ⟨hne, ttl, hp, hgt⟩ := hex
    obtain ⟨s1, hw, h1, _⟩ :=
      updateStatusToExpired_mapClient now s ns name r r "Remediation TTL exceeded" hget hk.1 hk.2
    have htrue : ttlExceeded parseDuration now r = true := by
      unfold ttlExceeded
      rw [if_pos hne, hp]
      exact decide_eq_true hgt
    rw [if_pos htrue, hw]
    refine ⟨s1, _, rfl, ?_, ?_, ?_⟩
    · refine ⟨fun _ => ⟨hne, ttl, hp, hgt⟩, fun _ => ⟨_, h1, rfl, rfl⟩⟩
    · intro _
      exact ⟨rfl, h1⟩
    · intro hn
      exact absurd ⟨hne, ttl, hp, hgt⟩ hn
  · have hfalse : ttlExceeded parseDuration now r = false := by
      unfold ttlExceeded
      by_cases hne : r.spec.strategy.ttl ≠ ""
      · rw [if_pos hne]
        cases hp : parseDuration r.spec.strategy.ttl with
        | none => rfl
        | some ttl =>
          simp only [decide_eq_false_iff_not]
          intro hgt
          exact hex ⟨hne, ttl, hp, hgt⟩
      · rw [if_neg hne]
    rw [hfalse, if_neg (by decide)]
    refine ⟨s, _, rfl, ?_, ?_, ?_⟩
    · refine ⟨?_, fun h => absurd h hex⟩
      rintro ⟨r1, hg1, hp1, _⟩
      rw [hget] at hg1
      cases hg1
      rw [hphase] at hp1
      exact absurd hp1 (by decide)
    · intro h
      exact absurd h hex
    · intro _
      exact ⟨rfl, rfl⟩

/-- C19 with a TTL of one hour and a record created two hours ago. -/
theorem Reconcile_prCreated_witness :
    ∃ s1 result, Reconcile mapClient parseBinaryQuantity parseSimpleDuration
        (2 * 3600 * 1000000000) (testStore RemediationPhasePRCreated) "default" "test-oom" =
        (s1, result, none) ∧
      result = { requeue := false, requeueAfter := 0 } ∧
      mapClient.getRemediation s1 "default" "test-oom" =
        .ok { testOOM with
              status :=
                { testOOM.status with
                  phase := RemediationPhaseExpired
                  reason := "Remediation TTL exceeded"
                  lastUpdateTime := some (2 * 3600 * 1000000000)
                  resolvedAt := some (2 * 3600 * 1000000000) } } := by
  obtain ⟨s1, result, h1, _, h3, _⟩ :=
    Reconcile_prCreated parseBinaryQuantity parseSimpleDuration (2 * 3600 * 1000000000)
      (testStore RemediationPhasePRCreated) "default" "test-oom"
      (testOOMIn RemediationPhasePRCreated) rfl rfl
  exact ⟨s1, result, h1,
    (h3 ⟨by decide, 3600 * 1000000000, by decide, by decide⟩).1,
    (h3 ⟨by decide, 3600 * 1000000000, by decide, by decide⟩).2⟩

/-- One step of `Reconcile` in the map store, on a record that is held: no error
is returned; the record keeps everything but its status; no other record
changes; the phase stays or moves along one of eight edges; and `Attempts` is
incremented, as a Go `int`, exactly when the step reaches the write of the
patched target. -/
theorem Reconcile_mapClient_step (parseQuantity : String → Option Quantity)
    (parseDuration : String → Option Int) (now : Int) (s : Store) (ns name : String)
    (r : Remediation) (hget : mapClient.getRemediation s ns name = .ok r) :
    ∃ s1 result st, Reconcile mapClient parseQuantity parseDuration now s ns name =
        (s1, result, none) ∧
      mapClient.getRemediation s1 ns name = .ok { r with status := st } ∧
      (∀ ns1 name1, (ns1, name1) ≠ (ns, name) →
        mapClient.getRemediation s1 ns1 name1 = mapClient.getRemediation s ns1 name1) ∧
      s1.remediations.map (fun x => { x with status := RemediationStatus.zero }) =
        s.remediations.map (fun x => { x with status := RemediationStatus.zero }) ∧
      ((st = r.status ∧ s1 = s) ∨
        (r.status.phase, st.phase) ∈
          [ ("", RemediationPhasePending),
            (RemediationPhasePending, RemediationPhaseAnalyzing),
            (RemediationPhasePending, RemediationPhaseFailed),
            (RemediationPhaseAnalyzing, RemediationPhasePending),
            (RemediationPhaseAnalyzing, RemediationPhaseApplying),
            (RemediationPhaseAnalyzing, RemediationPhaseSucceeded),
            (RemediationPhaseAnalyzing, RemediationPhaseFailed),
            (RemediationPhasePRCreated, RemediationPhaseExpired) ]) ∧
      ((r.status.phase = RemediationPhaseAnalyzing ∧
          r.spec.strategy.mode = StrategyModeDirect ∧
          r.spec.strategy.requireApproval = false ∧ r.spec.target.kind = "Deployment" ∧
          ∃ d obj, mapClient.getDeployment s r.spec.target.ns r.spec.target.name = .ok d ∧
            applyAction parseQuantity (.deployment d) r = some (obj, none)) →
        st.attempts = wrapInt64 (r.status.attempts + 1)) ∧
      (¬ (r.status.phase = RemediationPhaseAnalyzing ∧
          r.spec.strategy.mode = StrategyModeDirect ∧
          r.spec.strategy.requireApproval = false ∧ r.spec.target.kind = "Deployment" ∧
          ∃ d obj, mapClient.getDeployment s r.spec.target.ns r.spec.target.name = .ok d ∧
            applyAction parseQuantity (.deployment d) r = some (obj, none)) →
        st.attempts = r.status.attempts) := by
  have hk := mapClient_getRemediation_key s ns name r hget
  rw [Reconcile_of_get mapClient parseQuantity parseDuration now s ns name r hget]
  by_cases p0 : r.status.phase = ""
  · -- a new record
    rw [if_pos p0]
    obtain ⟨s1, hw, h1, h2, _, _, _, h6⟩ :=
      mapClient_updateStatus_spec s ns name r
        { r with
          status :=
            { r.status with
              phase := RemediationPhasePending
              reason := "Remediation created, waiting for processing"
              lastUpdateTime := some now
              conditions :=
                SetStatusCondition r.status.conditions
                  { type := "AlertReceived"
                    status := ConditionTrue
                    observedGeneration := r.generation
                    lastTransitionTime := now
                    reason := "AlertReceived"
                    message :=
                      "Alert " ++ r.spec.alert.name ++ " received from " ++
                        r.spec.alert.source } } } hget hk.1 hk.2
    have hh : handleNewRemediation mapClient now s r =
        (s1, { requeue := true, requeueAfter := 0 }, none) := by
      unfold handleNewRemediation
      simp only []
      rw [hw]
    rw [hh]
    refine ⟨s1, _, _, rfl, h1, h2, h6, Or.inr ?_, ?_, fun _ => rfl⟩
    · simp [p0]
    · intro h
      rw [p0] at h
      exact absurd h.1 (by decide)
  rw [if_neg p0]
  by_cases p1 : r.status.phase = RemediationPhasePending
  · -- Pending
    rw [if_pos p1, handlePendingRemediation_mapClient]
    cases hb : s.hasTarget r.spec.target.kind r.spec.target.ns r.spec.target.name with
    | true =>
      obtain ⟨s1, hw, h1, h2, _, _, _, h6⟩ :=
        mapClient_updateStatus_spec s ns name r
          { r with
            status :=
              { r.status with
                phase := RemediationPhaseAnalyzing
                reason := "Analyzing target resource and calculating remediation"
                lastUpdateTime := some now } } hget hk.1 hk.2
      rw [if_pos rfl, hw]
      refine ⟨s1, _, _, rfl, h1, h2, h6, Or.inr ?_, ?_, fun _ => rfl⟩
      · simp [p1]
      · intro h
        rw [p1] at h
        exact absurd h.1 (by decide)
    | false =>
      obtain ⟨s1, hw, h1, h2, _, _, _, h6⟩ :=
        updateStatusToFailed_mapClient now s ns name r r
          (if r.spec.target.kind = "Deployment" ∨ r.spec.target.kind = "StatefulSet" ∨
              r.spec.target.kind = "DaemonSet" then
            "Target resource not found: " ++ r.spec.target.ns ++ "/" ++ r.spec.target.name
          else "Unsupported target kind: " ++ r.spec.target.kind) hget hk.1 hk.2
      rw [if_neg (by simp), hw]
      refine ⟨s1, _, _, rfl, h1, h2, h6, Or.inr ?_, ?_, fun _ => rfl⟩
      · simp [p1]
      · intro h
        rw [p1] at h
        exact absurd h.1 (by decide)
  rw [if_neg p1]
  by_cases p2 : r.status.phase = RemediationPhaseAnalyzing
  · -- Analyzing
    rw [if_pos p2]
    unfold handleAnalyzingRemediation
    by_cases hdirect : r.spec.strategy.mode = StrategyModeDirect ∧
        r.spec.strategy.requireApproval = false
    · rw [if_pos hdirect]
      by_cases hatt : r.spec.target.kind = "Deployment" ∧
          ∃ d obj, mapClient.getDeployment s r.spec.target.ns r.spec.target.name = .ok d ∧
            applyAction parseQuantity (.deployment d) r = some (obj, none)
      · obtain ⟨hkind, d, obj, hd, happ⟩ := hatt
        obtain ⟨d1, hobj, _, _⟩ := applyAction_deployment parseQuantity d r obj happ
        subst hobj
        obtain ⟨s3, hw, h1, _, h2, _, _, _, h6⟩ :=
          handleDirectRemediation_mapClient_ok parseQuantity now s ns name r d d1 hget hkind hd
            happ
        rw [hw]
        refine ⟨s3, _, _, rfl, h1, h2, h6, Or.inr ?_, fun _ => rfl, ?_⟩
        · simp [p2]
        · intro h
          exact absurd ⟨p2, hdirect.1, hdirect.2, hkind, d, _, hd, happ⟩ h
      · obtain ⟨reason, hr⟩ := handleDirectRemediation_mapClient_fail parseQuantity now s r hatt
        obtain ⟨s1, hw, h1, h2, _, _, _, h6⟩ :=
          updateStatusToFailed_mapClient now s ns name r r reason hget hk.1 hk.2
        rw [hr, hw]
        refine ⟨s1, _, _, rfl, h1, h2, h6, Or.inr ?_, ?_, fun _ => rfl⟩
        · simp [p2]
        · intro h
          exact absurd ⟨h.2.2.2.1, h.2.2.2.2⟩ hatt
    · rw [if_neg hdirect]
      obtain ⟨s1, hw, h1, h2, _, _, _, h6⟩ :=
        mapClient_updateStatus_spec s ns name r
          { r with
            status :=
              { r.status with
                phase := RemediationPhasePending
                reason := "Waiting for GitHub App service to create PR"
                lastUpdateTime := some now } } hget hk.1 hk.2
      simp only []
      rw [hw]
      refine ⟨s1, _, _, rfl, h1, h2, h6, Or.inr ?_, ?_, fun _ => rfl⟩
      · simp [p2]
      · intro h
        exact absurd ⟨h.2.1, h.2.2.1⟩ hdirect
  rw [if_neg p2]
  by_cases p3 : r.status.phase = RemediationPhaseApplying
  · rw [if_pos p3]
    exact ⟨s, _, r.status, rfl, hget, fun _ _ _ => rfl, rfl, Or.inl ⟨rfl, rfl⟩,
      fun h => absurd h.1 p2, fun _ => rfl⟩
  rw [if_neg p3]
  by_cases p4 : r.status.phase = RemediationPhaseSucceeded ∨
      r.status.phase = RemediationPhaseFailed ∨ r.status.phase = RemediationPhaseExpired
  · rw [if_pos p4]
    exact ⟨s, _, r.status, rfl, hget, fun _ _ _ => rfl, rfl, Or.inl ⟨rfl, rfl⟩,
      fun h => absurd h.1 p2, fun _ => rfl⟩
  rw [if_neg p4]
  by_cases p5 : r.status.phase = RemediationPhasePRCreated
  · rw [if_pos p5]
    unfold handlePRCreated
    by_cases hexp : ttlExceeded parseDuration now r = true
    · rw [if_pos hexp]
      obtain ⟨s1, hw, h1, h2, _, _, _, h6⟩ :=
        updateStatusToExpired_mapClient now s ns name r r "Remediation TTL exceeded" hget
          hk.1 hk.2
      rw [hw]
      refine ⟨s1, _, _, rfl, h1, h2, h6, Or.inr ?_, fun h => absurd h.1 p2, fun _ => rfl⟩
      simp [p5]
    · rw [if_neg hexp]
      exact ⟨s, _, r.status, rfl, hget, fun _ _ _ => rfl, rfl, Or.inl ⟨rfl, rfl⟩,
        fun h => absurd h.1 p2, fun _ => rfl⟩
  rw [if_neg p5]
  exact ⟨s, _, r.status, rfl, hget, fun _ _ _ => rfl, rfl, Or.inl ⟨rfl, rfl⟩,
    fun h => absurd h.1 p2, fun _ => rfl⟩

/-- When the read of the record fails, `Reconcile` hands back the store it was given. -/
theorem Reconcile_of_get_error {σ : Type} (c : Client σ)
    (parseQuantity : String → Option Quantity) (parseDuration : String → Option Int)
    (now : Int) (s : σ) (ns name : String) (err : StoreError)
    (hget : c.getRemediation s ns name = .error err) :
    Reconcile c parseQuantity parseDuration now s ns name =
      (s, Result.empty, if err.notFound then none else some err) := by
  unfold Reconcile
  rw [hget]
  simp only []
  split_ifs <;> rfl

/-- C20 (counterexample). On the store of the controller test with `Attempts`
at 9223372036854775807, the step of `Reconcile` that applies the patch leaves
`Attempts` at -9223372036854775808: the counter has decreased. -/
theorem Reconcile_attempts_decreases :
    (wornStore.remediations.map fun r => r.status.attempts) = [9223372036854775807] ∧
    ((Reconcile mapClient parseBinaryQuantity parseSimpleDuration 5 wornStore "default"
        "test-oom").1.remediations.map fun r => r.status.attempts) =
      [-9223372036854775808] ∧
    (-9223372036854775808 : Int) < 9223372036854775807 := by
  refine ⟨rfl, rfl, by decide⟩

/-- C20 (amended). Across a step of `Reconcile` in the map store, for every
record held under any key: the record is still held, and whenever its
`Attempts` is an `int` below 2^63 - 1 before the step, it is not smaller after
it; it is larger by exactly one when the record is the reconciled one and the
step performs a Direct apply (phase `Analyzing`, strategy Direct without
approval, a held Deployment as target, the patch engine succeeding, so that the
patched target is written), and it is unchanged in every other step. -/
theorem Reconcile_attempts (parseQuantity : String → Option Quantity)
    (parseDuration : String → Option Int) (now : Int) (s : Store) (ns name : String)
    (ns1 name1 : String) (r : Remediation)
    (hget : mapClient.getRemediation s ns1 name1 = .ok r) :
    ∃ r1,
      mapClient.getRemediation (Reconcile mapClient parseQuantity parseDuration now s ns name).1
        ns1 name1 = .ok r1 ∧
      (-2 ^ 63 ≤ r.status.attempts → r.status.attempts < 2 ^ 63 - 1 →
        r.status.attempts ≤ r1.status.attempts) ∧
      (((ns1, name1) = (ns, name) ∧ r.status.phase = RemediationPhaseAnalyzing ∧
          r.spec.strategy.mode = StrategyModeDirect ∧
          r.spec.strategy.requireApproval = false ∧ r.spec.target.kind = "Deployment" ∧
          ∃ d obj, mapClient.getDeployment s r.spec.target.ns r.spec.target.name = .ok d ∧
            applyAction parseQuantity (.deployment d) r = some (obj, none)) →
        -2 ^ 63 ≤ r.status.attempts → r.status.attempts < 2 ^ 63 - 1 →
          r1.status.attempts = r.status.attempts + 1) ∧
      (¬ ((ns1, name1) = (ns, name) ∧ r.status.phase = RemediationPhaseAnalyzing ∧
          r.spec.strategy.mode = StrategyModeDirect ∧
          r.spec.strategy.requireApproval = false ∧ r.spec.target.kind = "Deployment" ∧
          ∃ d obj, mapClient.getDeployment s r.spec.target.ns r.spec.target.name = .ok d ∧
            applyAction parseQuantity (.deployment d) r = some (obj, none)) →
        r1.status.attempts = r.status.attempts) := by
  by_cases hkey : (ns1, name1) = (ns, name)
  · cases hkey
    obtain ⟨s1, result, st, hrec, h1, _, _, _, hup, hsame⟩ :=
      Reconcile_mapClient_step parseQuantity parseDuration now s ns name r hget
    rw [hrec]
    refine ⟨_, h1, ?_,
      fun h hlo hhi => (hup h.2).trans (wrapInt64_of_range _ (by omega) (by omega)),
      fun h => hsame fun h2 => h ⟨rfl, h2⟩⟩
    intro hlo hhi
    by_cases hatt : r.status.phase = RemediationPhaseAnalyzing ∧
        r.spec.strategy.mode = StrategyModeDirect ∧
        r.spec.strategy.requireApproval = false ∧ r.spec.target.kind = "Deployment" ∧
        ∃ d obj, mapClient.getDeployment s r.spec.target.ns r.spec.target.name = .ok d ∧
          applyAction parseQuantity (.deployment d) r = some (obj, none)
    · show r.status.attempts ≤ st.attempts
      rw [hup hatt, wrapInt64_of_range _ (by omega) (by omega)]
      omega
    · show r.status.attempts ≤ st.attempts
      rw [hsame hatt]
  · have hframe :
        mapClient.getRemediation
            (Reconcile mapClient parseQuantity parseDuration now s ns name).1 ns1 name1 =
          .ok r := by
      cases hg : mapClient.getRemediation s ns name with
      | error err =>
        rw [Reconcile_of_get_error mapClient parseQuantity parseDuration now s ns name err hg]
        exact hget
      | ok r0 =>
        obtain ⟨s1, result, st, hrec, _, h2, _⟩ :=
          Reconcile_mapClient_step parseQuantity parseDuration now s ns name r0 hg
        rw [hrec]
        exact (h2 ns1 name1 hkey).trans hget
    exact ⟨r, hframe, fun _ _ => le_refl _, fun h => absurd h.1 hkey, fun _ => rfl⟩

/-- C20 on `TestRemediationReconciler_IncreaseMemory`: `Attempts` goes from 0 to 1. -/
theorem Reconcile_attempts_witness :
    ∃ r1,
      mapClient.getRemediation
        (Reconcile mapClient parseBinaryQuantity parseSimpleDuration 5
          (testStore RemediationPhaseAnalyzing) "default" "test-oom").1
        "default" "test-oom" = .ok r1 ∧
      r1.status.attempts = 1 := by
  obtain ⟨r1, h1, _, h3, _⟩ :=
    Reconcile_attempts parseBinaryQuantity parseSimpleDuration 5
      (testStore RemediationPhaseAnalyzing) "default" "test-oom" "default" "test-oom" testOOM rfl
  exact ⟨r1, h1,
    h3 ⟨rfl, rfl, rfl, rfl, rfl, testApp, _, rfl, rfl⟩ (by decide) (by decide)⟩

/-- C15, counterexample. A record with an empty phase that already
carries an `AlertReceived` condition moves to `Pending` with that one condition
kept in place; no condition is appended. -/
theorem Reconcile_new_keeps_condition :
    resetOOM.status.phase = "" ∧
    resetOOM.status.conditions.length = 1 ∧
    ∃ s1 r1,
      Reconcile mapClient parseBinaryQuantity parseSimpleDuration 5
        { remediations := [resetOOM], deployments := [testApp], statefulSets := [],
          daemonSets := [] } "default" "test-oom" =
        (s1, { requeue := true, requeueAfter := 0 }, none) ∧
      mapClient.getRemediation s1 "default" "test-oom" = .ok r1 ∧
      r1.status.phase = RemediationPhasePending ∧
      r1.status.conditions = resetOOM.status.conditions ∧
      r1.status.conditions.length = 1 :=
  ⟨rfl, rfl, _, _, rfl, rfl, rfl, rfl, rfl⟩

/-- C15, amended. One step of `Reconcile` in the map store. Every record keeps
its Spec and metadata, and none is added or removed. For the reconciled record:
no error is returned; the phase stays, or moves along one of the edges
(empty)→Pending, Pending→Analyzing, Pending→Failed, Analyzing→Pending,
Analyzing→Applying, Analyzing→Succeeded, Analyzing→Failed, PRCreated→Expired;
from `Applying`, a terminal phase or an unknown phase the store is left as it
was; from the empty phase the record becomes `Pending`, an immediate requeue is
requested, and the `AlertReceived` condition is set with `SetStatusCondition`:
present with status True afterwards, and appended to the conditions when the
record carried none of that type; from `Applying` a requeue after 30 seconds is
requested. -/
theorem Reconcile_step (parseQuantity : String → Option Quantity)
    (parseDuration : String → Option Int) (now : Int) (s : Store) (ns name : String) :
    (Reconcile mapClient parseQuantity parseDuration now s ns name).1.remediations.map
        (fun x => { x with status := RemediationStatus.zero }) =
      s.remediations.map (fun x => { x with status := RemediationStatus.zero }) ∧
    ∀ r, mapClient.getRemediation s ns name = .ok r →
      ∃ s1 result r1, Reconcile mapClient parseQuantity parseDuration now s ns name =
          (s1, result, none) ∧
        mapClient.getRemediation s1 ns name = .ok r1 ∧
        r1.spec = r.spec ∧
        (r1.status.phase = r.status.phase ∨
          (r.status.phase, r1.status.phase) ∈
            [ ("", RemediationPhasePending),
              (RemediationPhasePending, RemediationPhaseAnalyzing),
              (RemediationPhasePending, RemediationPhaseFailed),
              (RemediationPhaseAnalyzing, RemediationPhasePending),
              (RemediationPhaseAnalyzing, RemediationPhaseApplying),
              (RemediationPhaseAnalyzing, RemediationPhaseSucceeded),
              (RemediationPhaseAnalyzing, RemediationPhaseFailed),
              (RemediationPhasePRCreated, RemediationPhaseExpired) ]) ∧
        (r.status.phase ∉
            ["", RemediationPhasePending, RemediationPhaseAnalyzing, RemediationPhasePRCreated] →
          s1 = s) ∧
        (r.status.phase = "" →
          r1.status.phase = RemediationPhasePending ∧
          result = { requeue := true, requeueAfter := 0 } ∧
          r1.status.conditions =
            SetStatusCondition r.status.conditions
              { type := "AlertReceived"
                status := ConditionTrue
                observedGeneration := r.generation
                lastTransitionTime := now
                reason := "AlertReceived"
                message :=
                  "Alert " ++ r.spec.alert.name ++ " received from " ++ r.spec.alert.source } ∧
          (∃ c ∈ r1.status.conditions, c.type = "AlertReceived" ∧ c.status = ConditionTrue) ∧
          ((∀ x ∈ r.status.conditions, x.type ≠ "AlertReceived") →
            r1.status.conditions =
              r.status.conditions ++
                [ { type := "AlertReceived"
                    status := ConditionTrue
                    observedGeneration := r.generation
                    lastTransitionTime := now
                    reason := "AlertReceived"
                    message :=
                      "Alert " ++ r.spec.alert.name ++ " received from " ++
                        r.spec.alert.source } ])) ∧
        (r.status.phase = RemediationPhaseApplying →
          result = { requeue := false, requeueAfter := 30 * 1000000000 }) := by
  constructor
  · cases hg : mapClient.getRemediation s ns name with
    | error err =>
      rw [Reconcile_of_get_error mapClient parseQuantity parseDuration now s ns name err hg]
    | ok r0 =>
      obtain ⟨s1, result, st, hrec, _, _, h3, _⟩ :=
        Reconcile_mapClient_step parseQuantity parseDuration now s ns name r0 hg
      rw [hrec]
      exact h3
  · intro r hget
    have hk := mapClient_getRemediation_key s ns name r hget
    obtain ⟨s1, result, st, hrec, h1, _, _, hedge, _, _⟩ :=
      Reconcile_mapClient_step parseQuantity parseDuration now s ns name r hget
    have hof := Reconcile_of_get mapClient parseQuantity parseDuration now s ns name r hget
    refine ⟨s1, result, _, hrec, h1, rfl, ?_, ?_, ?_, ?_⟩
    · rcases hedge with ⟨h, _⟩ | h
      · exact Or.inl (by rw [h])
      · exact Or.inr h
    · intro hnot
      simp only [List.mem_cons, List.mem_singleton, List.not_mem_nil, or_false, not_or] at hnot
      obtain ⟨q0, q1, q2, q3⟩ := hnot
      rw [hof, if_neg q0, if_neg q1, if_neg q2] at hrec
      by_cases p3 : r.status.phase = RemediationPhaseApplying
      · rw [if_pos p3] at hrec
        exact (congrArg Prod.fst hrec).symm
      · rw [if_neg p3] at hrec
        by_cases p4 : r.status.phase = RemediationPhaseSucceeded ∨
            r.status.phase = RemediationPhaseFailed ∨ r.status.phase = RemediationPhaseExpired
        · rw [if_pos p4] at hrec
          exact (congrArg Prod.fst hrec).symm
        · rw [if_neg p4, if_neg q3] at hrec
          exact (congrArg Prod.fst hrec).symm
    · intro p0
      obtain ⟨s2, hw, g1, _⟩ :=
        mapClient_updateStatus_spec s ns name r
          { r with
            status :=
              { r.status with
                phase := RemediationPhasePending
                reason := "Remediation created, waiting for processing"
                lastUpdateTime := some now
                conditions :=
                  SetStatusCondition r.status.conditions
                    { type := "AlertReceived"
                      status := ConditionTrue
                      observedGeneration := r.generation
                      lastTransitionTime := now
                      reason := "AlertReceived"
                      message :=
                        "Alert " ++ r.spec.alert.name ++ " received from " ++
                          r.spec.alert.source } } } hget hk.1 hk.2
      have hh : handleNewRemediation mapClient now s r =
          (s2, { requeue := true, requeueAfter := 0 }, none) := by
        unfold handleNewRemediation
        simp only []
        rw [hw]
      rw [hof, if_pos p0, hh] at hrec
      simp only [Prod.mk.injEq, and_true] at hrec
      obtain ⟨e1, e2⟩ := hrec
      subst e1
      rw [g1] at h1
      simp only [Except.ok.injEq, Remediation.mk.injEq, true_and] at h1
      subst h1
      refine ⟨rfl, e2.symm, rfl, ?_, ?_⟩
      · obtain ⟨x, hx, ht, hs, _⟩ :=
          SetStatusCondition_mem r.status.conditions
            { type := "AlertReceived"
              status := ConditionTrue
              observedGeneration := r.generation
              lastTransitionTime := now
              reason := "AlertReceived"
              message :=
                "Alert " ++ r.spec.alert.name ++ " received from " ++ r.spec.alert.source }
        exact ⟨x, hx, ht, hs⟩
      · intro hnone
        exact SetStatusCondition_append _ _ hnone
    · intro p3
      rw [hof, if_neg (by rw [p3]; decide), if_neg (by rw [p3]; decide),
        if_neg (by rw [p3]; decide), if_pos p3] at hrec
      exact (congrArg (fun o => o.2.1) hrec).symm

/-- C15, amended, on the record of the controller test with an empty phase and
no condition. -/
theorem Reconcile_step_witness :
    ∃ s1 result r1, Reconcile mapClient parseBinaryQuantity parseSimpleDuration 5
        (testStore "") "default" "test-oom" = (s1, result, none) ∧
      mapClient.getRemediation s1 "default" "test-oom" = .ok r1 ∧
      r1.spec = testOOM.spec ∧
      r1.status.phase = RemediationPhasePending ∧
      result = { requeue := true, requeueAfter := 0 } ∧
      r1.status.conditions =
        [ { type := "AlertReceived"
            status := ConditionTrue
            observedGeneration := 1
            lastTransitionTime := 5
            reason := "AlertReceived"
            message := "Alert KubePodOOMKilled received from test" } ] := by
  obtain ⟨s1, result, r1, h1, h2, h3, _, _, h6, _⟩ :=
    (Reconcile_step parseBinaryQuantity parseSimpleDuration 5 (testStore "") "default"
      "test-oom").2 (testOOMIn "") rfl
  obtain ⟨h7, h8, _, _, h9⟩ := h6 rfl
  exact ⟨s1, result, r1, h1, h2, h3, h7, h8, h9 (by decide)⟩

/-! ## Increases do not lower -/

/-- At zero percent the multiplier is exactly one. -/
theorem memoryProduct_zero (c : Int) :
    memoryProduct c 0 = F64.mul (F64.ofInt c) ⟨false, 2 ^ 52, -52⟩ := by
  unfold memoryProduct
  have h : F64.add (F64.ofInt 1) (F64.div (F64.ofInt 0) (F64.ofInt 100)) = ⟨false, 2 ^ 52, -52⟩ := by
    decide
  rw [h]

/-- For a percentage that is not negative the truncated `float64` product is
not below the current value. -/
theorem memoryProduct_ge (c p : Int) (hc : 0 ≤ c) (hp : 0 ≤ p) (hc50 : c ≤ 2 ^ 50)
    (hx : c * (100 + p) ≤ 100 * 2 ^ 50) : c ≤ (memoryProduct c p).trunc := by
  obtain ⟨hneg, _⟩ := memoryProduct_spec c p hc hp hx
  obtain ⟨_, _, t2⟩ := trunc_nonneg_spec (memoryProduct c p) hneg
  have hcq : (0 : ℚ) ≤ c := by exact_mod_cast hc
  have key : (c : ℚ) ≤ (memoryProduct c p).mag := by
    rcases eq_or_lt_of_le hp with h0 | hpos
    · subst h0
      obtain ⟨_, _, ec⟩ := ofInt_nonneg_spec c hc
      have mc : (F64.ofInt c).mag = (c : ℚ) := ec (by omega)
      have hone : (⟨false, 2 ^ 52, -52⟩ : F64).mag = 1 := by
        unfold F64.mag
        norm_num
      have hexact := (mul_mag (F64.ofInt c) ⟨false, 2 ^ 52, -52⟩).2 c.toNat
        (by rw [mc, hone, mul_one]
            have : ((c.toNat : Int) : ℚ) = (c : ℚ) := by rw [Int.toNat_of_nonneg hc]
            rw [← this, Int.cast_natCast])
        (by omega)
      rw [memoryProduct_zero, hexact]
      have : ((c.toNat : Int) : ℚ) = (c : ℚ) := by rw [Int.toNat_of_nonneg hc]
      rw [← this, Int.cast_natCast]
    · obtain ⟨n1, _, e1⟩ := ofInt_nonneg_spec 1 (by norm_num)
      obtain ⟨n100, _, e100⟩ := ofInt_nonneg_spec 100 (by norm_num)
      obtain ⟨np, hvp, _⟩ := ofInt_nonneg_spec p hp
      obtain ⟨nc, hvc, _⟩ := ofInt_nonneg_spec c hc
      have m1 : (F64.ofInt 1).mag = 1 := by simpa using e1 (by norm_num)
      have m100 : (F64.ofInt 100).mag = 100 := by simpa using e100 (by norm_num)
      have pos100 : 0 < (F64.ofInt 100).man := man_pos_of_mag_ne_zero _ (by rw [m100]; norm_num)
      have hq := (div_mag (F64.ofInt p) (F64.ofInt 100) pos100).1
      have nq : (F64.div (F64.ofInt p) (F64.ofInt 100)).neg = false := by
        rw [div_neg, np, n100]; rfl
      obtain ⟨nM, hM⟩ := add_nonneg_spec (F64.ofInt 1) (F64.div (F64.ofInt p) (F64.ofInt 100)) n1 nq
      have hP := (mul_mag (F64.ofInt c)
        (F64.add (F64.ofInt 1) (F64.div (F64.ofInt p) (F64.ofInt 100)))).1
      rw [m100] at hq
      rw [m1] at hM
      have hpq : (0 : ℚ) ≤ p := by exact_mod_cast hp
      obtain ⟨lo, _⟩ := product_chain (c : ℚ) (p : ℚ) _ _ _ _ (memoryProduct c p).mag (1 / 2 ^ 53)
        (by norm_num) (by norm_num) hcq hpq hvp (by rw [mul_one_div]; exact hq)
        (by rw [mul_one_div]; exact hM) hvc (by rw [mul_one_div]; exact hP)
      have hp1 : (1 : ℚ) ≤ p := by exact_mod_cast hpos
      have hL : 1 - 6 / 2 ^ 53 ≤ (1 - (1 : ℚ) / 2 ^ 53) ^ 5 := by norm_num
      have hx0 : 0 ≤ (c : ℚ) * (1 + (p : ℚ) / 100) := by positivity
      have lo2 := le_trans (mul_le_mul_of_nonneg_left hL hx0) lo
      have h101 : (c : ℚ) * ((1 + 1 / 100) * (1 - 6 / 2 ^ 53)) ≤
          (c : ℚ) * (1 + (p : ℚ) / 100) * (1 - 6 / 2 ^ 53) := by
        rw [← mul_assoc]
        apply mul_le_mul_of_nonneg_right _ (by norm_num)
        apply mul_le_mul_of_nonneg_left _ hcq
        linarith
      have hge1 : (1 : ℚ) ≤ (1 + 1 / 100) * (1 - 6 / 2 ^ 53) := by norm_num
      have := mul_le_mul_of_nonneg_left hge1 hcq
      linarith
  have : (c : ℚ) < ((memoryProduct c p).trunc : ℚ) + 1 := lt_of_le_of_lt key t2
  have h2 : ((c : Int) : ℚ) < (((memoryProduct c p).trunc + 1 : Int) : ℚ) := by
    push_cast
    exact this
  have h3 : c < (memoryProduct c p).trunc + 1 := by exact_mod_cast h2
  omega

/-- The memory limit that the selected container gets is `CalculateMemoryIncrease`
of its limit before (256Mi when zero or unset). -/
theorem increaseContainerMemory_limit (p m : Int) (container : Container) :
    ((increaseContainerMemory p m container).limits.lookup ResourceMemory).getD 0 =
      CalculateMemoryIncrease
        (if (container.limits.lookup ResourceMemory).getD 0 = 0 then 256 * Mi
          else (container.limits.lookup ResourceMemory).getD 0) p m := by
  unfold increaseContainerMemory
  rw [lookup_mapSet_self]
  rfl

/-- Within the range of exact arithmetic and for a percentage that is not
negative, the value of `CalculateMemoryIncrease` is not below a limit `l ≤ c`
exactly when the cap is not below it. -/
theorem CalculateMemoryIncrease_ge_iff (c p m l : Int) (hc : 0 ≤ c) (hp : 0 ≤ p)
    (hc50 : c ≤ 2 ^ 50) (hx : c * (100 + p) ≤ 100 * 2 ^ 50) (hl : l ≤ c) :
    l ≤ CalculateMemoryIncrease c p m ↔ l ≤ m := by
  rw [CalculateMemoryIncrease_eq c p m hc (by omega) hc50 hx]
  have h1 := memoryProduct_ge c p hc hp hc50 hx
  have h2 := (roundUp64Mi_spec (memoryProduct c p).trunc).2.1
  rw [le_min_iff]
  constructor
  · exact fun h => h.2
  · exact fun h => ⟨by omega, h⟩

/-- The value of `ApplyIncreaseMemory` once a container is selected, with the
percentage and the cap written as defaults of the parsed parameters. -/
theorem ApplyIncreaseMemory_of_select (parseQuantity : String → Option Quantity) (obj : Object)
    (containerName : String) (params : StrMap) (containers : List Container) (i : Nat)
    (hc : obj.podContainers = some containers)
    (hs : selectContainer containers containerName = some i) :
    ApplyIncreaseMemory parseQuantity obj containerName params =
      (obj.setContainers (updateAt (increaseContainerMemory
          (((params.lookup "memoryIncreasePercent").bind Atoi).getD 25)
          (((params.lookup "maxMemory").bind parseQuantity).getD (2 * Gi))) i containers),
        none) := by
  unfold ApplyIncreaseMemory
  simp only [hc, hs]
  rcases h1 : params.lookup "memoryIncreasePercent" with _ | p
  · rcases h2 : params.lookup "maxMemory" with _ | m
    · rfl
    · rcases h3 : parseQuantity m with _ | q <;> simp [h3]
  · rcases h4 : Atoi p with _ | v
    · rcases h2 : params.lookup "maxMemory" with _ | m
      · simp [h4]
      · rcases h3 : parseQuantity m with _ | q <;> simp [h3, h4]
    · rcases h2 : params.lookup "maxMemory" with _ | m
      · simp [h4]
      · rcases h3 : parseQuantity m with _ | q <;> simp [h3, h4]

/-- The shape of a successful `ApplyIncreaseMemory`: the selected container is
replaced by `increaseContainerMemory` of it, with the parsed percentage and cap. -/
theorem ApplyIncreaseMemory_ok (parseQuantity : String → Option Quantity) (obj : Object)
    (containerName : String) (params : StrMap)
    (hok : (ApplyIncreaseMemory parseQuantity obj containerName params).2 = none) :
    ∃ containers i container,
      obj.podContainers = some containers ∧
      selectContainer containers containerName = some i ∧
      containers[i]? = some container ∧
      (ApplyIncreaseMemory parseQuantity obj containerName params).1.podContainers =
        some (updateAt (increaseContainerMemory
          (((params.lookup "memoryIncreasePercent").bind Atoi).getD 25)
          (((params.lookup "maxMemory").bind parseQuantity).getD (2 * Gi))) i containers) := by
  cases hc : obj.podContainers with
  | none => simp [ApplyIncreaseMemory, hc] at hok
  | some containers =>
    cases hs : selectContainer containers containerName with
    | none => simp [ApplyIncreaseMemory, hc, hs] at hok
    | some i =>
      obtain ⟨container, hget⟩ := selectContainer_getElem? containers containerName i hs
      rw [ApplyIncreaseMemory_of_select parseQuantity obj containerName params containers i hc hs]
      exact ⟨containers, i, container, rfl, hs, hget,
        podContainers_setContainers obj containers _ hc⟩

/-- C29 (the code at the failing input). The container `app` of
`largeDeployment` has a limit of 4Gi; `ApplyIncreaseMemory` with 25 percent and the cap 2Gi succeeds and lowers
the limit to 2Gi. A negative percentage lowers it as well: 256Mi at -50 percent
becomes 128Mi. So does a product that leaves `int64`: 4Ei at 100 percent under
a cap of 8191Pi becomes negative. -/
theorem ApplyIncreaseMemory_lowers :
    ApplyIncreaseMemory parseBinaryQuantity (.deployment largeDeployment) "app" sampleParams =
      (.deployment { largeDeployment with
        containers :=
          [ { name := "app"
              image := "nginx:1.25"
              limits := [(ResourceMemory, 2 * Gi)]
              requests := [(ResourceMemory, 2 * Gi)] } ] }, none) ∧
    (2 * Gi < 4 * Gi) ∧
    ((ApplyIncreaseMemory parseBinaryQuantity (.deployment sampleDeployment) "app"
        [("memoryIncreasePercent", "-50")]).2 = none ∧
      ((ApplyIncreaseMemory parseBinaryQuantity (.deployment sampleDeployment) "app"
        [("memoryIncreasePercent", "-50")]).1.podContainers.map fun cs =>
          cs.map fun c => c.limits.lookup ResourceMemory) = some [some (128 * Mi)] ∧
      (sampleDeployment.containers.map fun c => c.limits.lookup ResourceMemory) =
        [some (256 * Mi)]) ∧
    ((ApplyIncreaseMemory (fun _ => some (8191 * 1024 * 1024 * Gi)) (.deployment exaDeployment)
        "app" [("memoryIncreasePercent", "100"), ("maxMemory", "8191Pi")]).2 = none ∧
      ((ApplyIncreaseMemory (fun _ => some (8191 * 1024 * 1024 * Gi)) (.deployment exaDeployment)
        "app" [("memoryIncreasePercent", "100"), ("maxMemory", "8191Pi")]).1.podContainers.map
          fun cs => cs.map fun c => c.limits.lookup ResourceMemory) =
        some [some (-9223372036787666944)]) := by
  decide

/-- Where `ApplyIncreaseMemory` does not lower the limit. When
`ApplyIncreaseMemory` succeeds, let `l` be the memory
limit of the selected container before the call (0 when unset), `c` the value
the code starts from (`l`, or 256Mi when `l` is 0), `p` the percentage and `m`
the cap. For `p ≥ 0`, `0 ≤ l ≤ 2^50` and `c × (100 + p) ≤ 100 × 2^50`, the new
limit is not lower than `l` exactly when the cap `m` is not lower than `l`. -/
theorem ApplyIncreaseMemory_not_lower (parseQuantity : String → Option Quantity) (obj : Object)
    (containerName : String) (params : StrMap)
    (hok : (ApplyIncreaseMemory parseQuantity obj containerName params).2 = none) :
    ∃ containers i container containers1 container1,
      obj.podContainers = some containers ∧
      selectContainer containers containerName = some i ∧
      containers[i]? = some container ∧
      (ApplyIncreaseMemory parseQuantity obj containerName params).1.podContainers =
        some containers1 ∧
      containers1[i]? = some container1 ∧
      (0 ≤ ((params.lookup "memoryIncreasePercent").bind Atoi).getD 25 →
        0 ≤ (container.limits.lookup ResourceMemory).getD 0 →
        (container.limits.lookup ResourceMemory).getD 0 ≤ 2 ^ 50 →
        (if (container.limits.lookup ResourceMemory).getD 0 = 0 then 256 * Mi
            else (container.limits.lookup ResourceMemory).getD 0) *
          (100 + ((params.lookup "memoryIncreasePercent").bind Atoi).getD 25) ≤ 100 * 2 ^ 50 →
        ((container.limits.lookup ResourceMemory).getD 0 ≤
            (container1.limits.lookup ResourceMemory).getD 0 ↔
          (container.limits.lookup ResourceMemory).getD 0 ≤
            ((params.lookup "maxMemory").bind parseQuantity).getD (2 * Gi))) := by
  obtain ⟨containers, i, container, h1, h2, h3, h4⟩ :=
    ApplyIncreaseMemory_ok parseQuantity obj containerName params hok
  refine ⟨containers, i, container, _,
    increaseContainerMemory (((params.lookup "memoryIncreasePercent").bind Atoi).getD 25)
      (((params.lookup "maxMemory").bind parseQuantity).getD (2 * Gi)) container,
    h1, h2, h3, h4, ?_, ?_⟩
  · rw [updateAt_getElem?_self, h3, Option.map_some']
  · intro hp hl0 hl50 hx
    rw [increaseContainerMemory_limit]
    generalize (container.limits.lookup ResourceMemory).getD 0 = l at hl0 hl50 hx ⊢
    by_cases hz : l = 0
    · subst hz
      rw [if_pos rfl] at hx ⊢
      exact CalculateMemoryIncrease_ge_iff _ _ _ _ (by decide) hp (by decide) hx (by decide)
    · rw [if_neg hz] at hx ⊢
      exact CalculateMemoryIncrease_ge_iff _ _ _ _ hl0 hp hl50 hx le_rfl

/-- The first case of `TestApplyIncreaseMemory`: the limit
256Mi of the container `app` is below the cap 2Gi and becomes 320Mi. -/
theorem ApplyIncreaseMemory_not_lower_witness :
    (ApplyIncreaseMemory parseBinaryQuantity (.deployment sampleDeployment) "app" sampleParams).2
        = none ∧
    ∃ containers i container containers1 container1,
      (Object.deployment sampleDeployment).podContainers = some containers ∧
      selectContainer containers "app" = some i ∧
      containers[i]? = some container ∧
      (ApplyIncreaseMemory parseBinaryQuantity (.deployment sampleDeployment) "app"
        sampleParams).1.podContainers = some containers1 ∧
      containers1[i]? = some container1 ∧
      (0 ≤ ((sampleParams.lookup "memoryIncreasePercent").bind Atoi).getD 25 →
        0 ≤ (container.limits.lookup ResourceMemory).getD 0 →
        (container.limits.lookup ResourceMemory).getD 0 ≤ 2 ^ 50 →
        (if (container.limits.lookup ResourceMemory).getD 0 = 0 then 256 * Mi
            else (container.limits.lookup ResourceMemory).getD 0) *
          (100 + ((sampleParams.lookup "memoryIncreasePercent").bind Atoi).getD 25) ≤
            100 * 2 ^ 50 →
        ((container.limits.lookup ResourceMemory).getD 0 ≤
            (container1.limits.lookup ResourceMemory).getD 0 ↔
          (container.limits.lookup ResourceMemory).getD 0 ≤
            ((sampleParams.lookup "maxMemory").bind parseBinaryQuantity).getD (2 * Gi))) :=
  ⟨by decide,
    ApplyIncreaseMemory_not_lower parseBinaryQuantity (.deployment sampleDeployment) "app"
      sampleParams (by decide)⟩

/-- Within `int32` the value of `CalculateScaleUp` is not below the current
count exactly when the cap is not below it. -/
theorem CalculateScaleUp_ge_iff (c p m : Int) (hc1 : -2 ^ 31 ≤ c) (hc2 : c < 2 ^ 31)
    (hcp : c * p < 100 * 2 ^ 31) (hsum : c + max 1 (c * p / 100) < 2 ^ 31) :
    c ≤ CalculateScaleUp c p m ↔ c ≤ m := by
  rw [CalculateScaleUp_eq c p m hc1 hc2 hcp hsum, le_min_iff]
  have hge : 1 ≤ max 1 (c * p / 100) := le_max_left _ _
  constructor
  · exact fun h => h.2
  · exact fun h => ⟨by omega, h⟩

/-- The value of `ApplyScaleUp` on a Deployment or StatefulSet, with the
percentage and the cap written as defaults of the parsed parameters. -/
theorem ApplyScaleUp_eq (obj : Object) (params : StrMap) :
    (∀ d, obj = .deployment d →
      ApplyScaleUp obj params =
        (.deployment { d with replicas := some (CalculateScaleUp (d.replicas.getD 1)
            (((params.lookup "scaleUpPercent").bind Atoi).getD 50)
            (((params.lookup "maxReplicas").bind fun m => (Atoi m).map wrapInt32).getD 10)) },
          none)) ∧
    (∀ s, obj = .statefulSet s →
      ApplyScaleUp obj params =
        (.statefulSet { s with replicas := some (CalculateScaleUp (s.replicas.getD 1)
            (((params.lookup "scaleUpPercent").bind Atoi).getD 50)
            (((params.lookup "maxReplicas").bind fun m => (Atoi m).map wrapInt32).getD 10)) },
          none)) ∧
    ((∀ d, obj ≠ .deployment d) → (∀ s, obj ≠ .statefulSet s) →
      (ApplyScaleUp obj params).2 ≠ none) := by
  refine ⟨?_, ?_, ?_⟩
  · intro d hd
    subst hd
    unfold ApplyScaleUp
    simp only [scaledReplicas_eq_CalculateScaleUp]
    rcases h1 : params.lookup "scaleUpPercent" with _ | p
    · rcases h2 : params.lookup "maxReplicas" with _ | m
      · rfl
      · rcases h3 : Atoi m with _ | q <;> simp [h3]
    · rcases h4 : Atoi p with _ | v <;> rcases h2 : params.lookup "maxReplicas" with _ | m
      · simp [h4]
      · rcases h3 : Atoi m with _ | q <;> simp [h3, h4]
      · simp [h4]
      · rcases h3 : Atoi m with _ | q <;> simp [h3, h4]
  · intro d hd
    subst hd
    unfold ApplyScaleUp
    simp only [scaledReplicas_eq_CalculateScaleUp]
    rcases h1 : params.lookup "scaleUpPercent" with _ | p
    · rcases h2 : params.lookup "maxReplicas" with _ | m
      · rfl
      · rcases h3 : Atoi m with _ | q <;> simp [h3]
    · rcases h4 : Atoi p with _ | v <;> rcases h2 : params.lookup "maxReplicas" with _ | m
      · simp [h4]
      · rcases h3 : Atoi m with _ | q <;> simp [h3, h4]
      · simp [h4]
      · rcases h3 : Atoi m with _ | q <;> simp [h3, h4]
  · intro h1 h2
    cases obj with
    | deployment d => exact absurd rfl (h1 d)
    | statefulSet d => exact absurd rfl (h2 d)
    | daemonSet d => simp [ApplyScaleUp]
    | other t => simp [ApplyScaleUp]

/-- A workload is a Deployment, a StatefulSet, or neither. -/
theorem replicasOf_cases (obj : Object) :
    (∃ d, obj = .deployment d) ∨ (∃ s, obj = .statefulSet s) ∨
      ((∀ d, obj ≠ .deployment d) ∧ (∀ s, obj ≠ .statefulSet s)) := by
  cases obj with
  | deployment d => exact Or.inl ⟨d, rfl⟩
  | statefulSet d => exact Or.inr (Or.inl ⟨d, rfl⟩)
  | daemonSet d => exact Or.inr (Or.inr ⟨fun _ h => (by cases h), fun _ h => (by cases h)⟩)
  | other t => exact Or.inr (Or.inr ⟨fun _ h => (by cases h), fun _ h => (by cases h)⟩)

/-- C30 (the code at the failing input). `largeDeployment` runs 20 replicas;
`ApplyScaleUp` with
the default cap 10 succeeds and lowers the count to 10. A sum that leaves
`int32` lowers it as well: 1500000000 replicas become a negative count. -/
theorem ApplyScaleUp_lowers :
    ApplyScaleUp (.deployment largeDeployment) [] =
      (.deployment { largeDeployment with replicas := some 10 }, none) ∧
    largeDeployment.replicas = some 20 ∧
    ApplyScaleUp (.deployment hugeDeployment) [("maxReplicas", "2000000000")] =
      (.deployment { hugeDeployment with replicas := some (-2044967296) }, none) ∧
    hugeDeployment.replicas = some 1500000000 := by
  decide

/-- Where `ApplyScaleUp` does not lower the count. When `ApplyScaleUp` succeeds
the object is a Deployment or a
StatefulSet. Let `c` be its replica count before the call (1 when unset), `p`
the percentage and `m` the cap. Whenever `c` is an `int32`, `c × p < 100 × 2^31`
and `c + max(1, ⌊c × p / 100⌋) < 2^31`, the count after the call is not lower
than `c` exactly when the cap `m` is not lower than `c`. -/
theorem ApplyScaleUp_not_lower (obj : Object) (params : StrMap)
    (hok : (ApplyScaleUp obj params).2 = none) :
    ((∃ d, obj = .deployment d) ∨ (∃ s, obj = .statefulSet s)) ∧
    (∀ d, obj = .deployment d →
      ∃ d1, (ApplyScaleUp obj params).1 = .deployment d1 ∧
        (-2 ^ 31 ≤ d.replicas.getD 1 → d.replicas.getD 1 < 2 ^ 31 →
          d.replicas.getD 1 * ((params.lookup "scaleUpPercent").bind Atoi).getD 50 < 100 * 2 ^ 31 →
          d.replicas.getD 1 +
            max 1 (d.replicas.getD 1 * ((params.lookup "scaleUpPercent").bind Atoi).getD 50 / 100)
              < 2 ^ 31 →
          (d.replicas.getD 1 ≤ d1.replicas.getD 1 ↔
            d.replicas.getD 1 ≤
              ((params.lookup "maxReplicas").bind fun m => (Atoi m).map wrapInt32).getD 10))) ∧
    (∀ s, obj = .statefulSet s →
      ∃ s1, (ApplyScaleUp obj params).1 = .statefulSet s1 ∧
        (-2 ^ 31 ≤ s.replicas.getD 1 → s.replicas.getD 1 < 2 ^ 31 →
          s.replicas.getD 1 * ((params.lookup "scaleUpPercent").bind Atoi).getD 50 < 100 * 2 ^ 31 →
          s.replicas.getD 1 +
            max 1 (s.replicas.getD 1 * ((params.lookup "scaleUpPercent").bind Atoi).getD 50 / 100)
              < 2 ^ 31 →
          (s.replicas.getD 1 ≤ s1.replicas.getD 1 ↔
            s.replicas.getD 1 ≤
              ((params.lookup "maxReplicas").bind fun m => (Atoi m).map wrapInt32).getD 10))) := by
  obtain ⟨hd, hs, hother⟩ := ApplyScaleUp_eq obj params
  refine ⟨?_, ?_, ?_⟩
  · rcases replicasOf_cases obj with h | h | h
    · exact Or.inl h
    · exact Or.inr h
    · exact absurd hok (hother h.1 h.2)
  · intro d hobj
    rw [hd d hobj]
    exact ⟨_, rfl, fun h1 h2 h3 h4 => CalculateScaleUp_ge_iff _ _ _ h1 h2 h3 h4⟩
  · intro d hobj
    rw [hs d hobj]
    exact ⟨_, rfl, fun h1 h2 h3 h4 => CalculateScaleUp_ge_iff _ _ _ h1 h2 h3 h4⟩

/-- On the sample Deployment: three replicas under the default cap
10 become four. -/
theorem ApplyScaleUp_not_lower_witness :
    (ApplyScaleUp (.deployment sampleDeployment) []).2 = none ∧
    (ApplyScaleUp (.deployment sampleDeployment) []).1 =
      .deployment { sampleDeployment with replicas := some 4 } ∧
    ((∃ d, Object.deployment sampleDeployment = .deployment d) ∨
      (∃ s, Object.deployment sampleDeployment = .statefulSet s)) :=
  ⟨by decide, by decide,
    (ApplyScaleUp_not_lower (.deployment sampleDeployment) [] (by decide)).1⟩

/-- The count of an element in a filtered list. -/
theorem count_filter_test {α : Type} [DecidableEq α] (p : α → Bool) (a : α) (l : List α) :
    (l.filter p).count a = if p a = true then l.count a else 0 := by
  by_cases h : p a = true
  · rw [if_pos h, List.count_filter h]
  · rw [if_neg h]
    exact List.count_eq_zero.2 fun hm => h (List.mem_filter.1 hm).2

/-! ## `ListPendingRemediations` -/

/-- The test of `ListPendingRemediations` on an item, as a proposition. -/
theorem pending_test_iff (item : Remediation) :
    (decide (item.status.phase = RemediationPhasePending) &&
        (match item.spec.gitHub with
          | some gitHub => gitHub.enabled
          | none => false)) = true ↔
      item.status.phase = RemediationPhasePending ∧
        ∃ gitHub, item.spec.gitHub = some gitHub ∧ gitHub.enabled = true := by
  cases h : item.spec.gitHub with
  | none => simp
  | some g => simp

/-- The value of `ListPendingRemediations` when the list call succeeds. -/
theorem ListPendingRemediations_ok {σ : Type} (c : K8sClient σ) (s : σ) (ns : String)
    (items : List Remediation) (h : c.list s ns = .ok items) :
    ListPendingRemediations c s ns =
      .ok (items.filter fun item =>
        decide (item.status.phase = RemediationPhasePending) &&
          (match item.spec.gitHub with
            | some gitHub => gitHub.enabled
            | none => false)) := by
  unfold ListPendingRemediations
  rw [h]

/-- C23. When the list call of the client returns `items`,
`ListPendingRemediations` returns the sub-list of `items`, in the original
order and with the original multiplicities, of the records whose phase is
`Pending` and whose `Spec.GitHub` is non-null with `enabled = true`: a record
with a null GitHub configuration, with `enabled = false` or in another phase is
not returned, and every other record of `items` is. -/
theorem ListPendingRemediations_spec {σ : Type} (c : K8sClient σ) (s : σ) (ns : String)
    (items : List Remediation) (h : c.list s ns = .ok items) :
    ∃ pending, ListPendingRemediations c s ns = .ok pending ∧
      pending = items.filter (fun item =>
        decide (item.status.phase = RemediationPhasePending ∧
          (item.spec.gitHub.map fun gitHub => gitHub.enabled) = some true)) ∧
      pending.Sublist items ∧
      (∀ item, item ∈ pending ↔
        item ∈ items ∧ item.status.phase = RemediationPhasePending ∧
          ∃ gitHub, item.spec.gitHub = some gitHub ∧ gitHub.enabled = true) ∧
      (∀ item, pending.count item =
        if item.status.phase = RemediationPhasePending ∧
            ∃ gitHub, item.spec.gitHub = some gitHub ∧ gitHub.enabled = true
        then items.count item else 0) := by
  refine ⟨_, ListPendingRemediations_ok c s ns items h, ?_, List.filter_sublist _, ?_, ?_⟩
  · apply List.filter_congr
    intro item _
    cases hg : item.spec.gitHub with
    | none => simp
    | some g => simp
  · intro item
    rw [List.mem_filter, pending_test_iff]
  · intro item
    rw [count_filter_test]
    by_cases hp : item.status.phase = RemediationPhasePending ∧
        ∃ gitHub, item.spec.gitHub = some gitHub ∧ gitHub.enabled = true
    · rw [if_pos hp, if_pos ((pending_test_iff item).2 hp)]
    · rw [if_neg hp, if_neg fun ht => hp ((pending_test_iff item).1 ht)]

/-- C23 on `mixedStore`: of its five records, the first and the last are
returned, in that order. -/
theorem ListPendingRemediations_spec_witness :
    mapK8sClient.list mixedStore "" = .ok mixedStore.remediations ∧
    ListPendingRemediations mapK8sClient mixedStore "" =
      .ok [gitOpsOOM "oom-1", gitOpsOOM "oom-5"] ∧
    ∃ pending, ListPendingRemediations mapK8sClient mixedStore "" = .ok pending ∧
      pending = mixedStore.remediations.filter (fun item =>
        decide (item.status.phase = RemediationPhasePending ∧
          (item.spec.gitHub.map fun gitHub => gitHub.enabled) = some true)) ∧
      pending.Sublist mixedStore.remediations ∧
      (∀ item, item ∈ pending ↔
        item ∈ mixedStore.remediations ∧ item.status.phase = RemediationPhasePending ∧
          ∃ gitHub, item.spec.gitHub = some gitHub ∧ gitHub.enabled = true) ∧
      (∀ item, pending.count item =
        if item.status.phase = RemediationPhasePending ∧
            ∃ gitHub, item.spec.gitHub = some gitHub ∧ gitHub.enabled = true
        then mixedStore.remediations.count item else 0) :=
  ⟨rfl, rfl, ListPendingRemediations_spec mapK8sClient mixedStore "" mixedStore.remediations rfl⟩

/-! ## Transient read errors -/

/-- C22, at the failing input. The record `test-oom` is in phase `Analyzing`
with the Direct strategy and its Deployment exists, but reading the Deployment
fails with a timeout, an error that is not not-found. `Reconcile` does not
return the error: it returns no error and moves the record to `Failed` with
`ResolvedAt` set. On the same store and client the record in phase `Pending`
is left as it is and the error is returned, as the claim states. -/
theorem Reconcile_direct_transient_read :
    Reconcile timeoutClient parseBinaryQuantity parseSimpleDuration 5
        (testStore RemediationPhaseAnalyzing) "default" "test-oom" =
      ({ testStore RemediationPhaseAnalyzing with
          remediations :=
            [ { testOOM with
                status :=
                  { testOOM.status with
                    phase := RemediationPhaseFailed
                    reason := "Failed to get target: context deadline exceeded"
                    resolvedAt := some 5
                    lastUpdateTime := some 5
                    conditions :=
                      [ { type := "Failed"
                          status := ConditionTrue
                          observedGeneration := 1
                          lastTransitionTime := 5
                          reason := "RemediationFailed"
                          message := "Failed to get target: context deadline exceeded" } ] } } ] },
        Result.empty, none) ∧
    Reconcile timeoutClient parseBinaryQuantity parseSimpleDuration 5
        (testStore RemediationPhasePending) "default" "test-oom" =
      (testStore RemediationPhasePending, Result.empty,
        some { notFound := false, message := "context deadline exceeded" }) := by
  constructor <;> rfl

/-- In phase `Analyzing` with the Direct strategy and a Deployment target, every
error of the read of the target, not-found or not, ends in
`updateStatusToFailed`. -/
theorem handleDirectRemediation_read_error {σ : Type} (c : Client σ)
    (parseQuantity : String → Option Quantity) (now : Int) (s : σ) (remediation : Remediation)
    (err : StoreError) (hk : remediation.spec.target.kind = "Deployment")
    (hget : c.getDeployment s remediation.spec.target.ns remediation.spec.target.name =
      .error err) :
    handleDirectRemediation c parseQuantity now s remediation =
      updateStatusToFailed c now s remediation ("Failed to get target: " ++ err.message) := by
  unfold handleDirectRemediation
  simp only [hk, hget, ne_eq, not_true_eq_false, if_false]

/-! ## Routed alerts and the GitOps worker -/

/-- Every specification that `RouteAlert` returns is in GitOps mode and has no
GitHub configuration. -/
theorem RouteAlert_gitHub_none (alert : Alert) (config : RouterConfig) (spec : RemediationSpec)
    (h : RouteAlert alert config = .ok spec) :
    spec.strategy.mode = StrategyModeGitOps ∧ spec.gitHub = none := by
  unfold RouteAlert at h
  simp only at h
  by_cases hn : mapGet alert.labels "alertname" = ""
  · rw [if_pos hn] at h
    cases h
  · rw [if_neg hn] at h
    cases hr : config.routes.lookup (mapGet alert.labels "alertname") with
    | none =>
      rw [hr] at h
      cases h
    | some route =>
      rw [hr] at h
      cases ht : extractTargetFromAlert alert with
      | error err =>
        rw [ht] at h
        cases h
      | ok target =>
        rw [ht] at h
        simp only [Except.ok.injEq] at h
        subst h
        exact ⟨rfl, rfl⟩

/-- C28, at the failing input. For the alert of `TestRouteAlert` and the default
routes, `RouteAlert` returns a specification in GitOps mode whose GitHub
sub-object is null; a pending record with that specification is not selected by
`ListPendingRemediations`, and `processRemediation` on it returns the error
`GitHub config is nil` without a status write. -/
theorem RouteAlert_gitOps_without_gitHub :
    RouteAlert sampleAlert DefaultRouterConfig = .ok routedSpec ∧
    routedSpec.strategy.mode = StrategyModeGitOps ∧
    routedSpec.gitHub = none ∧
    ListPendingRemediations mapK8sClient routedStore "" = .ok [] ∧
    (processRemediation sampleLib sampleProcessor 5
        { store := routedStore, remote := sampleRepository, log := [] }
        { gitOpsOOM "oom-1" with spec := routedSpec }).2 = some "GitHub config is nil" ∧
    (processRemediation sampleLib sampleProcessor 5
        { store := routedStore, remote := sampleRepository, log := [] }
        { gitOpsOOM "oom-1" with spec := routedSpec }).1.store = routedStore :=
  ⟨rfl, rfl, rfl, rfl, rfl, rfl⟩

/-! ## The batch size -/

/-- C26, at the failing input. The configuration loaded from a file that sets
nothing has the batch size 10, and the processor that `main` builds from it
receives the namespace only. On a store with eleven pending records one poll
invokes `processRemediation` on all eleven and moves all of them to
`PRCreated`. -/
theorem processPendingRemediations_ignores_batchSize :
    LoadConfig (.ok { gitHub := { appID := 0, installationID := 0, privateKeyPath := "" }
                      kubernetes := { kubeconfig := "", ns := "" }
                      processor := { pollInterval := "", batchSize := 0 } }) = .ok defaultConfig ∧
    defaultConfig.processor.batchSize = 10 ∧
    (processedNames
      (processPendingRemediations sampleLib (mainProcessor defaultConfig mapK8sClient repoAPI)
        (fun i => 100 + i)
        { store := crowdedStore, remote := sampleRepository, log := [] }).1.log).length = 11 ∧
    ((processPendingRemediations sampleLib (mainProcessor defaultConfig mapK8sClient repoAPI)
        (fun i => 100 + i)
        { store := crowdedStore, remote := sampleRepository, log := [] }).1.store.remediations.map
      fun r => r.status.phase) = List.replicate 11 RemediationPhasePRCreated := by
  refine ⟨rfl, rfl, ?_, ?_⟩
  · decide
  · decide

/-! ## `interpolateManifestPath` -/

/-- The scan passes over text without an opening brace when `old` starts with one. -/
theorem replaceAllFrom_plain (o new : List Char) (cs rest : List Char) (h : '{' ∉ cs) :
    replaceAllFrom ('{' :: o) new 0 (cs ++ rest) =
      cs ++ replaceAllFrom ('{' :: o) new 0 rest := by
  induction cs with
  | nil => rfl
  | cons c cs ih =>
    have hc : c ≠ '{' := fun e => h (by simp [e])
    have hcs : '{' ∉ cs := fun e => h (List.mem_cons_of_mem _ e)
    have hne : ('{' == c) = false := by
      simp only [beq_eq_false_iff_ne, ne_eq]
      exact fun e => hc e.symm
    show replaceAllFrom ('{' :: o) new 0 (c :: (cs ++ rest)) = _
    rw [replaceAllFrom]
    simp only [List.isPrefixOf, hne, Bool.false_and, Bool.false_eq_true, if_false]
    rw [ih hcs]
    rfl

/-- The scan passes over the characters that remain of a match. -/
theorem replaceAllFrom_skip (old new : List Char) (cs rest : List Char) :
    replaceAllFrom old new cs.length (cs ++ rest) = replaceAllFrom old new 0 rest := by
  induction cs with
  | nil =>
    cases rest with
    | nil => simp [replaceAllFrom]
    | cons c rest => rfl
  | cons c cs ih =>
    show replaceAllFrom old new (cs.length + 1) (c :: (cs ++ rest)) = _
    rw [replaceAllFrom]
    exact ih

/-- An occurrence of `old` at the head is replaced by `new`. -/
theorem replaceAllFrom_match (c : Char) (o new rest : List Char) :
    replaceAllFrom (c :: o) new 0 ((c :: o) ++ rest) =
      new ++ replaceAllFrom (c :: o) new 0 rest := by
  show replaceAllFrom (c :: o) new 0 (c :: (o ++ rest)) = _
  rw [replaceAllFrom]
  have hp : (c :: o).isPrefixOf (c :: (o ++ rest)) = true := by
    rw [List.isPrefixOf_iff_prefix]
    exact List.prefix_append (c :: o) rest
  rw [if_pos hp]
  have hl : (c :: o).length - 1 = o.length := by simp
  rw [hl, replaceAllFrom_skip]

/-- A placeholder other than `old` is passed over. -/
theorem replaceAllFrom_other (o new q rest : List Char) (hq : '{' ∉ q)
    (hp : ∀ rest, ('{' :: o).isPrefixOf ('{' :: (q ++ rest)) = false) :
    replaceAllFrom ('{' :: o) new 0 (('{' :: q) ++ rest) =
      ('{' :: q) ++ replaceAllFrom ('{' :: o) new 0 rest := by
  show replaceAllFrom ('{' :: o) new 0 ('{' :: (q ++ rest)) = _
  rw [replaceAllFrom, hp rest]
  simp only [Bool.false_eq_true, if_false]
  rw [replaceAllFrom_plain o new q rest hq]
  rfl

/-- The characters of a template, piece by piece. -/
theorem templateOf_cons_data (segment : PathSegment) (rest : List PathSegment) :
    (templateOf (segment :: rest)).data = segment.text.data ++ (templateOf rest).data := by
  show (segment.text ++ templateOf rest).data = _
  exact String.data_append _ _

/-- One pass of `strings.ReplaceAll` over a template replaces the pieces equal
to the placeholder `which` by the literal `value` and keeps every other piece:
literal text has no opening brace, and no other placeholder starts an
occurrence of `which`. -/
theorem replaceAllFrom_template (which : PathSegment) (o : List Char) (value : String)
    (hw : which.text.data = '{' :: o)
    (hother : ∀ seg : PathSegment, seg ≠ which → (∀ t, seg ≠ .literal t) →
      ∃ q, seg.text.data = '{' :: q ∧ '{' ∉ q ∧
        ∀ rest, ('{' :: o).isPrefixOf ('{' :: (q ++ rest)) = false)
    (segs : List PathSegment) (hlit : ∀ t, PathSegment.literal t ∈ segs → '{' ∉ t.data) :
    replaceAllFrom ('{' :: o) value.data 0 (templateOf segs).data =
      (templateOf (segs.map fun s => if s = which then .literal value else s)).data := by
  induction segs with
  | nil => rfl
  | cons seg rest ih =>
    have ih1 := ih fun t ht => hlit t (List.mem_cons_of_mem _ ht)
    rw [List.map_cons, templateOf_cons_data, templateOf_cons_data, ← ih1]
    by_cases hs : seg = which
    · rw [if_pos hs, hs, hw]
      exact replaceAllFrom_match '{' o value.data _
    · rw [if_neg hs]
      by_cases hl : ∃ t, seg = .literal t
      · obtain ⟨t, rfl⟩ := hl
        exact replaceAllFrom_plain o value.data t.data _ (hlit t (List.mem_cons_self _ _))
      · obtain ⟨q, hq, hfree, hp⟩ := hother seg hs fun t ht => hl ⟨t, ht⟩
        rw [hq]
        exact replaceAllFrom_other o value.data q _ hfree hp

/-- One call of `strings.ReplaceAll` with a placeholder on a template. -/
theorem ReplaceAll_template (which : PathSegment) (o : List Char) (value : String)
    (hw : which.text.data = '{' :: o)
    (hother : ∀ seg : PathSegment, seg ≠ which → (∀ t, seg ≠ .literal t) →
      ∃ q, seg.text.data = '{' :: q ∧ '{' ∉ q ∧
        ∀ rest, ('{' :: o).isPrefixOf ('{' :: (q ++ rest)) = false)
    (segs : List PathSegment) (hlit : ∀ t, PathSegment.literal t ∈ segs → '{' ∉ t.data) :
    ReplaceAll (templateOf segs) which.text value =
      templateOf (segs.map fun s => if s = which then .literal value else s) := by
  apply String.ext
  unfold ReplaceAll
  rw [if_neg (by rw [hw]; exact List.cons_ne_nil _ _)]
  show replaceAllFrom which.text.data value.data 0 (templateOf segs).data = _
  rw [hw]
  exact replaceAllFrom_template which o value hw hother segs hlit

theorem ReplaceAll_environment (value : String) (segs : List PathSegment)
    (hlit : ∀ t, PathSegment.literal t ∈ segs → '{' ∉ t.data) :
    ReplaceAll (templateOf segs) "{environment}" value =
      templateOf (segs.map fun s => if s = .environment then .literal value else s) := by
  refine ReplaceAll_template .environment _ value rfl ?_ segs hlit
  intro seg hs hl
  cases seg with
  | literal t => exact absurd rfl (hl t)
  | environment => exact absurd rfl hs
  | targetNamespace => exact ⟨_, rfl, by decide, fun _ => rfl⟩
  | targetName => exact ⟨_, rfl, by decide, fun _ => rfl⟩

theorem ReplaceAll_namespace (value : String) (segs : List PathSegment)
    (hlit : ∀ t, PathSegment.literal t ∈ segs → '{' ∉ t.data) :
    ReplaceAll (templateOf segs) "{namespace}" value =
      templateOf (segs.map fun s => if s = .targetNamespace then .literal value else s) := by
  refine ReplaceAll_template .targetNamespace _ value rfl ?_ segs hlit
  intro seg hs hl
  cases seg with
  | literal t => exact absurd rfl (hl t)
  | environment => exact ⟨_, rfl, by decide, fun _ => rfl⟩
  | targetNamespace => exact absurd rfl hs
  | targetName => exact ⟨_, rfl, by decide, fun _ => rfl⟩

theorem ReplaceAll_name (value : String) (segs : List PathSegment)
    (hlit : ∀ t, PathSegment.literal t ∈ segs → '{' ∉ t.data) :
    ReplaceAll (templateOf segs) "{name}" value =
      templateOf (segs.map fun s => if s = .targetName then .literal value else s) := by
  refine ReplaceAll_template .targetName _ value rfl ?_ segs hlit
  intro seg hs hl
  cases seg with
  | literal t => exact absurd rfl (hl t)
  | environment => exact ⟨_, rfl, by decide, fun _ => rfl⟩
  | targetNamespace => exact ⟨_, rfl, by decide, fun _ => rfl⟩
  | targetName => exact absurd rfl hs

/-- The literals of a template after one replacement are those before it and
the value put in. -/
theorem literal_mem_map (which : PathSegment) (value : String) (segs : List PathSegment)
    (hlit : ∀ t, PathSegment.literal t ∈ segs → '{' ∉ t.data) (hv : '{' ∉ value.data) :
    ∀ t, PathSegment.literal t ∈
      (segs.map fun s => if s = which then PathSegment.literal value else s) → '{' ∉ t.data := by
  intro t ht
  obtain ⟨s, hs, he⟩ := List.mem_map.1 ht
  by_cases hw : s = which
  · rw [if_pos hw] at he
    cases he
    exact hv
  · rw [if_neg hw] at he
    subst he
    exact hlit t hs

/-- After the three replacements a template spells the path of the
specification. -/
theorem templateOf_replaced (remediation : Remediation) (segs : List PathSegment) :
    templateOf (((segs.map fun s =>
        if s = .environment then
          PathSegment.literal remediation.spec.strategy.environment else s).map fun s =>
        if s = .targetNamespace then PathSegment.literal remediation.spec.target.ns else s).map
        fun s => if s = .targetName then PathSegment.literal remediation.spec.target.name else s) =
      specInterpolate remediation segs := by
  induction segs with
  | nil => rfl
  | cons seg rest ih =>
    cases seg with
    | literal t =>
      show t ++ templateOf _ = t ++ specInterpolate remediation rest
      rw [ih]
    | environment =>
      show remediation.spec.strategy.environment ++ templateOf _ =
        remediation.spec.strategy.environment ++ specInterpolate remediation rest
      rw [ih]
    | targetNamespace =>
      show remediation.spec.target.ns ++ templateOf _ =
        remediation.spec.target.ns ++ specInterpolate remediation rest
      rw [ih]
    | targetName =>
      show remediation.spec.target.name ++ templateOf _ =
        remediation.spec.target.name ++ specInterpolate remediation rest
      rw [ih]

/-- A string without an opening brace is left as it is by `strings.ReplaceAll`
with an `old` that starts with one. -/
theorem ReplaceAll_plain (template old new : String) (o : List Char)
    (hold : old.data = '{' :: o) (h : '{' ∉ template.data) :
    ReplaceAll template old new = template := by
  apply String.ext
  unfold ReplaceAll
  rw [if_neg (by rw [hold]; exact List.cons_ne_nil _ _)]
  show replaceAllFrom old.data new.data 0 template.data = _
  rw [hold]
  have := replaceAllFrom_plain o new.data template.data [] h
  rw [List.append_nil] at this
  rw [this]
  show template.data ++ [] = template.data
  exact List.append_nil _

/-- C27. For a template spelled by pieces that are brace-free literal text or
one of the placeholders `{environment}`, `{namespace}`, `{name}`, and for
environment, namespace and name values without brace characters,
`interpolateManifestPath` returns the template with every placeholder replaced
by `Spec.Strategy.Environment`, `Spec.Target.Namespace` and `Spec.Target.Name`
respectively and the literal text kept; a template without brace characters,
so without placeholders, is returned unchanged. -/
theorem interpolateManifestPath_spec (remediation : Remediation) :
    (∀ segs : List PathSegment,
      (∀ seg ∈ segs, seg.Admissible) →
      BraceFree remediation.spec.strategy.environment →
      BraceFree remediation.spec.target.ns →
      BraceFree remediation.spec.target.name →
      interpolateManifestPath (templateOf segs) remediation = specInterpolate remediation segs) ∧
    (∀ template : String, BraceFree template →
      interpolateManifestPath template remediation = template) := by
  have main : ∀ segs : List PathSegment,
      (∀ t, PathSegment.literal t ∈ segs → '{' ∉ t.data) →
      '{' ∉ remediation.spec.strategy.environment.data →
      '{' ∉ remediation.spec.target.ns.data →
      interpolateManifestPath (templateOf segs) remediation =
        specInterpolate remediation segs := by
    intro segs hlit he hn
    unfold interpolateManifestPath
    simp only
    have h1 := literal_mem_map .environment remediation.spec.strategy.environment segs hlit he
    have h2 := literal_mem_map .targetNamespace remediation.spec.target.ns _ h1 hn
    rw [ReplaceAll_environment _ segs hlit, ReplaceAll_namespace _ _ h1, ReplaceAll_name _ _ h2]
    exact templateOf_replaced remediation segs
  constructor
  · intro segs hlit he hn _
    exact main segs (fun t ht => (hlit (.literal t) ht).1) he.1 hn.1
  · intro template ht
    unfold interpolateManifestPath
    simp only
    rw [ReplaceAll_plain template "{environment}" _ _ rfl ht.1,
      ReplaceAll_plain template "{namespace}" _ _ rfl ht.1,
      ReplaceAll_plain template "{name}" _ _ rfl ht.1]

/-- C27 on the template of `gitOpsConfig` and the record `oom-1`: the path is
`k8s/prod/default/test-app.yaml`. -/
theorem interpolateManifestPath_spec_witness :
    templateOf [.literal "k8s/", .environment, .literal "/", .targetNamespace, .literal "/",
      .targetName, .literal ".yaml"] = gitOpsConfig.manifestPath ∧
    interpolateManifestPath gitOpsConfig.manifestPath (gitOpsOOM "oom-1") =
      "k8s/prod/default/test-app.yaml" ∧
    interpolateManifestPath (templateOf [.literal "k8s/", .environment, .literal "/",
        .targetNamespace, .literal "/", .targetName, .literal ".yaml"]) (gitOpsOOM "oom-1") =
      specInterpolate (gitOpsOOM "oom-1") [.literal "k8s/", .environment, .literal "/",
        .targetNamespace, .literal "/", .targetName, .literal ".yaml"] ∧
    interpolateManifestPath "manifests/app.yaml" (gitOpsOOM "oom-1") = "manifests/app.yaml" :=
  ⟨by decide, by decide,
    (interpolateManifestPath_spec (gitOpsOOM "oom-1")).1 _ (by decide) (by decide) (by decide)
      (by decide),
    (interpolateManifestPath_spec (gitOpsOOM "oom-1")).2 "manifests/app.yaml" (by decide)⟩

/-! ## The GitOps worker on the store as a map -/

/-- A status write of the worker through the map client, on a record that is
held: the write goes through, the stored record takes the written status and
keeps everything else, and nothing else in the store changes. -/
theorem UpdateRemediationStatus_mapClient (s : Store) (ns name : String) (r r1 : Remediation)
    (hget : mapClient.getRemediation s ns name = .ok r) (hns : r1.ns = ns)
    (hname : r1.name = name) :
    ∃ s1, UpdateRemediationStatus mapK8sClient s r1 = .ok s1 ∧
      mapClient.getRemediation s1 ns name = .ok { r with status := r1.status } ∧
      (∀ ns1 name1, (ns1, name1) ≠ (ns, name) →
        mapClient.getRemediation s1 ns1 name1 = mapClient.getRemediation s ns1 name1) ∧
      s1.deployments = s.deployments ∧ s1.statefulSets = s.statefulSets ∧
      s1.daemonSets = s.daemonSets := by
  obtain ⟨s1, hw, h1, h2, h3, h4, h5, _⟩ := mapClient_updateStatus_spec s ns name r r1 hget hns hname
  refine ⟨s1, ?_, h1, h2, h3, h4, h5⟩
  have hc : mapK8sClient.statusUpdate s r1 = mapClient.updateStatus s r1 := rfl
  unfold UpdateRemediationStatus
  rw [hc, hw]

/-- The names read off a log with one more line. -/
theorem processedNames_logged {σ γ : Type} (w : WorkerState σ γ) (message : String)
    (values : StrMap) :
    processedNames (w.logged message values).log =
      if message = "processing remediation" then
        processedNames w.log ++ [mapGet values "remediation"]
      else processedNames w.log := by
  unfold processedNames WorkerState.logged
  by_cases h : message = "processing remediation"
  · simp [List.filter_append, h]
  · simp [List.filter_append, h]

theorem updateStatusFailed_mapClient {γ : Type} (api : GitHubAPI γ) (nsp : String) (now : Int)
    (w : WorkerState Store γ) (r rm : Remediation) (reason : String)
    (hget : mapClient.getRemediation w.store rm.ns rm.name = .ok r) :
    ∃ s1, updateStatusFailed (NewProcessor mapK8sClient api nsp) now w rm reason =
        ({ w with store := s1 }, none) ∧
      mapClient.getRemediation s1 rm.ns rm.name =
        .ok { r with
              status :=
                { rm.status with
                  phase := RemediationPhaseFailed
                  reason := reason
                  lastUpdateTime := some now
                  resolvedAt := some now } } ∧
      (∀ ns1 name1, (ns1, name1) ≠ (rm.ns, rm.name) →
        mapClient.getRemediation s1 ns1 name1 = mapClient.getRemediation w.store ns1 name1) ∧
      s1.deployments = w.store.deployments ∧ s1.statefulSets = w.store.statefulSets ∧
      s1.daemonSets = w.store.daemonSets := by
  obtain ⟨s1, hw, h1, h2, h3⟩ := UpdateRemediationStatus_mapClient w.store rm.ns rm.name r
    { rm with
      status :=
        { rm.status with
          phase := RemediationPhaseFailed
          reason := reason
          lastUpdateTime := some now
          resolvedAt := some now } } hget rfl rfl
  refine ⟨s1, ?_, h1, h2, h3⟩
  unfold updateStatusFailed NewProcessor
  simp only []
  rw [hw]

theorem updateStatusPRCreated_mapClient {γ : Type} (api : GitHubAPI γ) (nsp : String)
    (now : Int) (w : WorkerState Store γ) (r rm : Remediation) (prNumber : Int) (prURL : String)
    (hget : mapClient.getRemediation w.store rm.ns rm.name = .ok r) :
    ∃ s1, updateStatusPRCreated (NewProcessor mapK8sClient api nsp) now w rm prNumber prURL =
        ({ w with store := s1 }, none) ∧
      mapClient.getRemediation s1 rm.ns rm.name =
        .ok { r with
              status :=
                { rm.status with
                  phase := RemediationPhasePRCreated
                  reason := "GitHub PR created successfully"
                  prNumber := prNumber
                  prURL := prURL
                  lastUpdateTime := some now } } ∧
      (∀ ns1 name1, (ns1, name1) ≠ (rm.ns, rm.name) →
        mapClient.getRemediation s1 ns1 name1 = mapClient.getRemediation w.store ns1 name1) ∧
      s1.deployments = w.store.deployments ∧ s1.statefulSets = w.store.statefulSets ∧
      s1.daemonSets = w.store.daemonSets := by
  obtain ⟨s1, hw, h1, h2, h3⟩ := UpdateRemediationStatus_mapClient w.store rm.ns rm.name r
    { rm with
      status :=
        { rm.status with
          phase := RemediationPhasePRCreated
          reason := "GitHub PR created successfully"
          prNumber := prNumber
          prURL := prURL
          lastUpdateTime := some now } } hget rfl rfl
  refine ⟨s1, ?_, h1, h2, h3⟩
  unfold updateStatusPRCreated NewProcessor
  simp only []
  rw [hw]

theorem logged_remote {σ γ : Type} (w : WorkerState σ γ) (message : String) (values : StrMap) :
    (w.logged message values).remote = w.remote := rfl

theorem logged_store {σ γ : Type} (w : WorkerState σ γ) (message : String) (values : StrMap) :
    (w.logged message values).store = w.store := rfl

/-- A process that has panicked runs nothing: `processRemediation` leaves the
state as it is. -/
theorem processRemediation_dead {σ γ : Type} (lib : WorkerLib) (p : Processor σ γ) (now : Int)
    (w : WorkerState σ γ) (r : Remediation) (h : w.panicked = true) :
    processRemediation lib p now w r = (w, none) := by
  unfold processRemediation
  rw [if_pos h]

/-- One call of `processRemediation` by a live process on the store as a map,
for a record that is held and has a GitHub configuration: no error is returned,
the stored record takes the status of the outcome and keeps everything else, no
other record and no workload changes, the log gains one line `processing
remediation`, and the outcome is that of the first step that fails, or of the
created pull request; or `CreatePR` panics, and the record is left as it was. -/
theorem processRemediation_mapClient {γ : Type} (lib : WorkerLib) (api : GitHubAPI γ)
    (nsp : String) (now : Int) (w : WorkerState Store γ) (r : Remediation) (g : GitHubConfig)
    (hget : mapClient.getRemediation w.store r.ns r.name = .ok r) (hg : r.spec.gitHub = some g)
    (hlive : w.panicked = false) :
    ∃ w1 st, processRemediation lib (NewProcessor mapK8sClient api nsp) now w r = (w1, none) ∧
      mapClient.getRemediation w1.store r.ns r.name = .ok { r with status := st } ∧
      (∀ ns1 name1, (ns1, name1) ≠ (r.ns, r.name) →
        mapClient.getRemediation w1.store ns1 name1 = mapClient.getRemediation w.store ns1 name1) ∧
      (w1.store.deployments = w.store.deployments ∧
        w1.store.statefulSets = w.store.statefulSets ∧
        w1.store.daemonSets = w.store.daemonSets) ∧
      processedNames w1.log = processedNames w.log ++ [r.name] ∧
      ((∃ e, fetchManifestFromGitHub (NewProcessor mapK8sClient api nsp) w.remote g.owner g.repo
            (interpolateManifestPath g.manifestPath r) g.baseBranch = .error e ∧
          w1.remote = w.remote ∧
          st = { r.status with
                 phase := RemediationPhaseFailed
                 reason := "Failed to fetch manifest: " ++ e
                 lastUpdateTime := some now
                 resolvedAt := some now } ∧
          w1.panicked = false) ∨
        (∃ m e, fetchManifestFromGitHub (NewProcessor mapK8sClient api nsp) w.remote g.owner
            g.repo (interpolateManifestPath g.manifestPath r) g.baseBranch = .ok m ∧
          PatchManifest lib m r = .error e ∧
          w1.remote = w.remote ∧
          st = { r.status with
                 phase := RemediationPhaseFailed
                 reason := "Failed to patch manifest: " ++ e
                 lastUpdateTime := some now
                 resolvedAt := some now } ∧
          w1.panicked = false) ∨
        (∃ m pm e, fetchManifestFromGitHub (NewProcessor mapK8sClient api nsp) w.remote g.owner
            g.repo (interpolateManifestPath g.manifestPath r) g.baseBranch = .ok m ∧
          PatchManifest lib m r = .ok pm ∧
          CreatePR api w.remote
            (newPRRequest lib r g (interpolateManifestPath g.manifestPath r) pm) =
              (w1.remote, some (.error e)) ∧
          st = { r.status with
                 phase := RemediationPhaseFailed
                 reason := "Failed to create PR: " ++ e
                 lastUpdateTime := some now
                 resolvedAt := some now } ∧
          w1.panicked = false) ∨
        (∃ m pm n u, fetchManifestFromGitHub (NewProcessor mapK8sClient api nsp) w.remote g.owner
            g.repo (interpolateManifestPath g.manifestPath r) g.baseBranch = .ok m ∧
          PatchManifest lib m r = .ok pm ∧
          CreatePR api w.remote
            (newPRRequest lib r g (interpolateManifestPath g.manifestPath r) pm) =
              (w1.remote, some (.ok (n, u))) ∧
          st = { r.status with
                 phase := RemediationPhasePRCreated
                 reason := "GitHub PR created successfully"
                 prNumber := n
                 prURL := u
                 lastUpdateTime := some now } ∧
          w1.panicked = false) ∨
        (∃ m pm, fetchManifestFromGitHub (NewProcessor mapK8sClient api nsp) w.remote g.owner
            g.repo (interpolateManifestPath g.manifestPath r) g.baseBranch = .ok m ∧
          PatchManifest lib m r = .ok pm ∧
          CreatePR api w.remote
            (newPRRequest lib r g (interpolateManifestPath g.manifestPath r) pm) =
              (w1.remote, none) ∧
          st = r.status ∧
          w1.panicked = true)) := by
  unfold processRemediation
  rw [if_neg (by rw [hlive]; exact Bool.false_ne_true)]
  simp only [hg, logged_remote]
  cases hf : fetchManifestFromGitHub (NewProcessor mapK8sClient api nsp) w.remote g.owner g.repo
      (interpolateManifestPath g.manifestPath r) g.baseBranch with
  | error e =>
    simp only []
    obtain ⟨s1, hw, h1, h2, h3⟩ := updateStatusFailed_mapClient api nsp now
      ((w.logged "processing remediation" [("remediation", r.name)]).logged
        "fetching manifest from GitHub"
        [("remediation", r.name), ("path", interpolateManifestPath g.manifestPath r)])
      r r ("Failed to fetch manifest: " ++ e) hget
    rw [hw]
    refine ⟨_, _, rfl, h1, h2, h3, ?_, Or.inl ⟨e, rfl, rfl, rfl, hlive⟩⟩
    simp [processedNames_logged, mapGet]
  | ok m =>
    simp only [logged_remote]
    cases hp : PatchManifest lib m r with
    | error e =>
      simp only []
      obtain ⟨s1, hw, h1, h2, h3⟩ := updateStatusFailed_mapClient api nsp now
        (((w.logged "processing remediation" [("remediation", r.name)]).logged
          "fetching manifest from GitHub"
          [("remediation", r.name), ("path", interpolateManifestPath g.manifestPath r)]).logged
          "patching manifest" [("remediation", r.name)])
        r r ("Failed to patch manifest: " ++ e) hget
      rw [hw]
      refine ⟨_, _, rfl, h1, h2, h3, ?_, Or.inr (Or.inl ⟨m, e, rfl, hp, rfl, rfl, hlive⟩)⟩
      simp [processedNames_logged, mapGet]
    | ok pm =>
      simp only [logged_remote]
      have hapi : (NewProcessor mapK8sClient api nsp).githubClient = api := rfl
      rw [hapi]
      rcases hc : CreatePR api w.remote
          (newPRRequest lib r g (interpolateManifestPath g.manifestPath r) pm) with ⟨g1, res⟩
      cases res with
      | none =>
        simp only []
        refine ⟨_, r.status, rfl, hget, fun _ _ _ => rfl, ⟨rfl, rfl, rfl⟩, ?_,
          Or.inr (Or.inr (Or.inr (Or.inr ⟨m, pm, rfl, hp, hc, rfl, rfl⟩)))⟩
        simp [processedNames_logged, mapGet]
      | some res =>
        cases res with
        | error e =>
          simp only []
          obtain ⟨s1, hw, h1, h2, h3⟩ := updateStatusFailed_mapClient api nsp now
            { ((((w.logged "processing remediation" [("remediation", r.name)]).logged
                "fetching manifest from GitHub"
                [("remediation", r.name),
                  ("path", interpolateManifestPath g.manifestPath r)]).logged
                "patching manifest" [("remediation", r.name)]).logged
                "creating GitHub PR" [("remediation", r.name)]) with remote := g1 }
            r r ("Failed to create PR: " ++ e) hget
          rw [hw]
          refine ⟨_, _, rfl, h1, h2, h3, ?_,
            Or.inr (Or.inr (Or.inl ⟨m, pm, e, rfl, hp, hc, rfl, hlive⟩))⟩
          simp [processedNames_logged, mapGet]
        | ok nu =>
          obtain ⟨n, u⟩ := nu
          simp only []
          obtain ⟨s1, hw, h1, h2, h3⟩ := updateStatusPRCreated_mapClient api nsp now
            (({ ((((w.logged "processing remediation" [("remediation", r.name)]).logged
                "fetching manifest from GitHub"
                [("remediation", r.name),
                  ("path", interpolateManifestPath g.manifestPath r)]).logged
                "patching manifest" [("remediation", r.name)]).logged
                "creating GitHub PR" [("remediation", r.name)]) with remote := g1 } :
                WorkerState Store γ).logged "PR created successfully"
              [("remediation", r.name), ("number", toString n), ("url", u)])
            r r n u hget
          rw [hw]
          refine ⟨_, _, rfl, h1, h2, h3, ?_,
            Or.inr (Or.inr (Or.inr (Or.inl ⟨m, pm, n, u, rfl, hp, hc, rfl, hlive⟩)))⟩
          simp [processedNames_logged, mapGet]

/-- A record is among the values of the map exactly when the first record of
the list under its key is the record itself. -/
theorem mem_firstOfKey (l : List Remediation) (r : Remediation) :
    r ∈ firstOfKey l ↔
      l.find? (fun x => decide (x.ns = r.ns ∧ x.name = r.name)) = some r := by
  induction l with
  | nil => simp [firstOfKey]
  | cons x xs ih =>
    unfold firstOfKey
    by_cases hx : x.ns = r.ns ∧ x.name = r.name
    · rw [List.find?_cons_of_pos _ (by simpa using hx)]
      constructor
      · intro h
        rcases List.mem_cons.1 h with h | h
        · rw [h]
        · have := (List.mem_filter.1 h).2
          simp only [Bool.not_eq_true', decide_eq_false_iff_not, not_and] at this
          exact absurd hx.2.symm (this hx.1.symm)
      · intro h
        cases h
        exact List.mem_cons_self _ _
    · rw [List.find?_cons_of_neg _ (by simpa using hx), ← ih]
      constructor
      · intro h
        rcases List.mem_cons.1 h with h | h
        · exact absurd ⟨by rw [h], by rw [h]⟩ hx
        · exact (List.mem_filter.1 h).1
      · intro h
        refine List.mem_cons_of_mem _ (List.mem_filter.2 ⟨h, ?_⟩)
        simp only [Bool.not_eq_true', decide_eq_false_iff_not, not_and]
        intro h1 h2
        exact hx ⟨h1.symm, h2.symm⟩

/-- The values of the map have pairwise different keys. -/
theorem pairwise_firstOfKey (l : List Remediation) :
    (firstOfKey l).Pairwise fun a b => (a.ns, a.name) ≠ (b.ns, b.name) := by
  induction l with
  | nil => exact List.Pairwise.nil
  | cons x xs ih =>
    unfold firstOfKey
    refine List.Pairwise.cons ?_ (ih.sublist (List.filter_sublist _))
    intro y hy
    have := (List.mem_filter.1 hy).2
    simp only [Bool.not_eq_true', decide_eq_false_iff_not, not_and] at this
    intro he
    simp only [Prod.mk.injEq] at he
    exact this he.1.symm he.2.symm

/-- The records that `ListPendingRemediations` returns on the store as a map:
pairwise different keys, and exactly the stored records of the namespace that
are pending with GitHub enabled. -/
theorem ListPendingRemediations_mapClient (s : Store) (nsp : String) :
    ∃ items, ListPendingRemediations mapK8sClient s nsp = .ok items ∧
      items.Pairwise (fun a b => (a.ns, a.name) ≠ (b.ns, b.name)) ∧
      ∀ r, r ∈ items ↔
        mapClient.getRemediation s r.ns r.name = .ok r ∧ (nsp = "" ∨ r.ns = nsp) ∧
          r.status.phase = RemediationPhasePending ∧
          ∃ g, r.spec.gitHub = some g ∧ g.enabled = true := by
  refine ⟨_, ListPendingRemediations_ok mapK8sClient s nsp _ rfl, ?_, ?_⟩
  · exact ((pairwise_firstOfKey s.remediations).sublist (List.filter_sublist _)).sublist
      (List.filter_sublist _)
  · intro r
    rw [List.mem_filter, pending_test_iff, List.mem_filter, mem_firstOfKey,
      mapClient_getRemediation_eq]
    constructor
    · rintro ⟨⟨hf, hn⟩, hp⟩
      rw [hf]
      exact ⟨rfl, by simpa using hn, hp⟩
    · rintro ⟨hf, hn, hp⟩
      refine ⟨⟨?_, by simpa using hn⟩, hp⟩
      cases hfind : s.remediations.find? fun x => decide (x.ns = r.ns ∧ x.name = r.name) with
      | none => rw [hfind] at hf; cases hf
      | some x => rw [hfind] at hf; cases hf; rfl

/-- The outcome of one call of `processRemediation` by a live process, read as
a `WorkerOutcome` at the reading `now i` of the clock: the call stores an
outcome and the process lives on, or the call panics and the record is left as
it was. -/
theorem processRemediation_outcome {γ : Type} (lib : WorkerLib) (api : GitHubAPI γ)
    (nsp : String) (now : Nat → Int) (i : Nat) (w : WorkerState Store γ) (r : Remediation)
    (g : GitHubConfig)
    (hget : mapClient.getRemediation w.store r.ns r.name = .ok r) (hg : r.spec.gitHub = some g)
    (hlive : w.panicked = false) :
    ∃ w1 st, processRemediation lib (NewProcessor mapK8sClient api nsp) (now i) w r = (w1, none) ∧
      mapClient.getRemediation w1.store r.ns r.name = .ok { r with status := st } ∧
      (∀ ns1 name1, (ns1, name1) ≠ (r.ns, r.name) →
        mapClient.getRemediation w1.store ns1 name1 = mapClient.getRemediation w.store ns1 name1) ∧
      (w1.store.deployments = w.store.deployments ∧
        w1.store.statefulSets = w.store.statefulSets ∧
        w1.store.daemonSets = w.store.daemonSets) ∧
      processedNames w1.log = processedNames w.log ++ [r.name] ∧
      ((w1.panicked = false ∧ WorkerOutcome now r.status st) ∨
        (w1.panicked = true ∧ st = r.status)) := by
  obtain ⟨w1, st, h1, h2, h3, h4, h5, h6⟩ :=
    processRemediation_mapClient lib api nsp (now i) w r g hget hg hlive
  refine ⟨w1, st, h1, h2, h3, h4, h5, ?_⟩
  rcases h6 with ⟨e, _, _, hst, hl⟩ | ⟨_, e, _, _, _, hst, hl⟩ | ⟨_, _, e, _, _, _, hst, hl⟩ |
    ⟨_, _, n, u, _, _, _, hst, hl⟩ | ⟨_, _, _, _, _, hst, hl⟩
  · exact Or.inl ⟨hl, Or.inl ⟨i, e, _, Or.inl rfl, hst⟩⟩
  · exact Or.inl ⟨hl, Or.inl ⟨i, e, _, Or.inr (Or.inl rfl), hst⟩⟩
  · exact Or.inl ⟨hl, Or.inl ⟨i, e, _, Or.inr (Or.inr rfl), hst⟩⟩
  · exact Or.inl ⟨hl, Or.inr ⟨i, n, u, hst⟩⟩
  · exact Or.inr ⟨hl, hst⟩

/-- A process that has panicked runs nothing: the loop of a poll leaves the
state as it is. -/
theorem processItems_dead {σ γ : Type} (lib : WorkerLib) (p : Processor σ γ) (now : Nat → Int)
    (items : List Remediation) :
    ∀ (i : Nat) (w : WorkerState σ γ), w.panicked = true → processItems lib p now i items w = w := by
  induction items with
  | nil =>
    intro i w _
    simp [processItems]
  | cons r rest ih =>
    intro i w h
    rw [processItems, processRemediation_dead lib p (now i) w r h]
    exact ih (i + 1) w h

/-- A process that has panicked runs nothing: a poll leaves the state as it
is. -/
theorem processPendingRemediations_dead {σ γ : Type} (lib : WorkerLib) (p : Processor σ γ)
    (now : Nat → Int) (w : WorkerState σ γ) (h : w.panicked = true) :
    processPendingRemediations lib p now w = (w, none) := by
  unfold processPendingRemediations
  rw [if_pos h]

/-- The loop of a poll of a live process on the store as a map, over records
with pairwise different keys that are held and have a GitHub configuration:
every one of them ends with a `WorkerOutcome` or as it was, no other record and
no workload changes, and the log gains the line `processing remediation` once
per record of an initial part of the list, in list order. When no call has
panicked every record ends with a `WorkerOutcome` and the initial part is the
whole list. -/
theorem processItems_mapClient {γ : Type} (lib : WorkerLib) (api : GitHubAPI γ) (nsp : String)
    (now : Nat → Int) (items : List Remediation) :
    ∀ (i : Nat) (w : WorkerState Store γ),
      items.Pairwise (fun a b => (a.ns, a.name) ≠ (b.ns, b.name)) →
      (∀ r ∈ items, mapClient.getRemediation w.store r.ns r.name = .ok r ∧
        ∃ g, r.spec.gitHub = some g) →
      w.panicked = false →
      (∀ r ∈ items, ∃ st,
        mapClient.getRemediation
          (processItems lib (NewProcessor mapK8sClient api nsp) now i items w).store
          r.ns r.name = .ok { r with status := st } ∧
        (WorkerOutcome now r.status st ∨ st = r.status) ∧
        ((processItems lib (NewProcessor mapK8sClient api nsp) now i items w).panicked = false →
          WorkerOutcome now r.status st)) ∧
      (∀ ns1 name1, (∀ r ∈ items, (ns1, name1) ≠ (r.ns, r.name)) →
        mapClient.getRemediation
          (processItems lib (NewProcessor mapK8sClient api nsp) now i items w).store
          ns1 name1 = mapClient.getRemediation w.store ns1 name1) ∧
      ((processItems lib (NewProcessor mapK8sClient api nsp) now i items w).store.deployments =
          w.store.deployments ∧
        (processItems lib (NewProcessor mapK8sClient api nsp) now i items w).store.statefulSets =
          w.store.statefulSets ∧
        (processItems lib (NewProcessor mapK8sClient api nsp) now i items w).store.daemonSets =
          w.store.daemonSets) ∧
      ∃ done rest, (items.map fun r => r.name) = done ++ rest ∧
        processedNames (processItems lib (NewProcessor mapK8sClient api nsp) now i items w).log =
          processedNames w.log ++ done ∧
        ((processItems lib (NewProcessor mapK8sClient api nsp) now i items w).panicked = false →
          rest = []) := by
  induction items with
  | nil =>
    intro i w _ _ _
    exact ⟨fun r hr => (by cases hr), fun _ _ _ => rfl, ⟨rfl, rfl, rfl⟩, [], [], rfl,
      (by simp [processItems]), fun _ => rfl⟩
  | cons r rest ih =>
    intro i w hpair hheld hlive
    obtain ⟨hget, g, hg⟩ := hheld r (List.mem_cons_self _ _)
    obtain ⟨w1, st, h1, h2, h3, h4, h5, h6⟩ :=
      processRemediation_outcome lib api nsp now i w r g hget hg hlive
    have hstep : processItems lib (NewProcessor mapK8sClient api nsp) now i (r :: rest) w =
        processItems lib (NewProcessor mapK8sClient api nsp) now (i + 1) rest w1 := by
      rw [processItems, h1]
    rw [hstep]
    have hne : ∀ x ∈ rest, (x.ns, x.name) ≠ (r.ns, r.name) := fun x hx =>
      Ne.symm ((List.pairwise_cons.1 hpair).1 x hx)
    rcases h6 with ⟨hl1, hout⟩ | ⟨hp1, hst⟩
    · obtain ⟨i1, i2, i3, done, left, i4, i5, i6⟩ := ih (i + 1) w1 (List.pairwise_cons.1 hpair).2
        (fun x hx => by
          rw [h3 x.ns x.name (hne x hx)]
          exact hheld x (List.mem_cons_of_mem _ hx)) hl1
      refine ⟨?_, ?_, ?_, r.name :: done, left, ?_, ?_, i6⟩
      · intro x hx
        rcases List.mem_cons.1 hx with hx | hx
        · subst hx
          refine ⟨st, ?_, Or.inl hout, fun _ => hout⟩
          rw [i2 x.ns x.name fun y hy => Ne.symm (hne y hy)]
          exact h2
        · exact i1 x hx
      · intro ns1 name1 hk
        rw [i2 ns1 name1 fun y hy => hk y (List.mem_cons_of_mem _ hy)]
        exact h3 ns1 name1 (hk r (List.mem_cons_self _ _))
      · exact ⟨i3.1.trans h4.1, i3.2.1.trans h4.2.1, i3.2.2.trans h4.2.2⟩
      · rw [List.map_cons, i4]
        rfl
      · rw [i5, h5]
        simp
    · rw [processItems_dead lib (NewProcessor mapK8sClient api nsp) now rest (i + 1) w1 hp1]
      refine ⟨?_, fun ns1 name1 hk => h3 ns1 name1 (hk r (List.mem_cons_self _ _)), h4,
        [r.name], rest.map fun x : Remediation => x.name, rfl, h5,
        fun h => absurd (hp1.symm.trans h) (by decide)⟩
      intro x hx
      rcases List.mem_cons.1 hx with hx | hx
      · subst hx
        exact ⟨st, h2, Or.inr hst, fun h => absurd (hp1.symm.trans h) (by decide)⟩
      · refine ⟨x.status, ?_, Or.inr rfl, fun h => absurd (hp1.symm.trans h) (by decide)⟩
        rw [h3 x.ns x.name (hne x hx)]
        exact (hheld x (List.mem_cons_of_mem _ hx)).1

/-- One poll on the store as a map: it returns no error; every record that
`ListPendingRemediations` selects ends with a `WorkerOutcome` or as it was; no
other record and no workload changes; the log gains the line `processing
remediation` once per record of an initial part of the selection, in list
order; and with nothing selected the state is left as it was. When no call has
panicked every selected record ends with a `WorkerOutcome` and the initial part
is the whole selection. -/
theorem processPendingRemediations_mapClient {γ : Type} (lib : WorkerLib) (api : GitHubAPI γ)
    (nsp : String) (now : Nat → Int) (w : WorkerState Store γ) :
    ∃ items w1, ListPendingRemediations mapK8sClient w.store nsp = .ok items ∧
      processPendingRemediations lib (NewProcessor mapK8sClient api nsp) now w = (w1, none) ∧
      (∀ r ∈ items, ∃ st,
        mapClient.getRemediation w1.store r.ns r.name = .ok { r with status := st } ∧
        (WorkerOutcome now r.status st ∨ st = r.status) ∧
        (w1.panicked = false → WorkerOutcome now r.status st)) ∧
      (∀ ns1 name1, (∀ r ∈ items, (ns1, name1) ≠ (r.ns, r.name)) →
        mapClient.getRemediation w1.store ns1 name1 = mapClient.getRemediation w.store ns1 name1) ∧
      (w1.store.deployments = w.store.deployments ∧
        w1.store.statefulSets = w.store.statefulSets ∧
        w1.store.daemonSets = w.store.daemonSets) ∧
      (∃ done rest, (items.map fun r => r.name) = done ++ rest ∧
        processedNames w1.log = processedNames w.log ++ done ∧
        (w1.panicked = false → rest = [])) ∧
      (items = [] → w1 = w) := by
  obtain ⟨items, hlist, hpair, hmem⟩ := ListPendingRemediations_mapClient w.store nsp
  have hk : (NewProcessor mapK8sClient api nsp).k8sClient = mapK8sClient := rfl
  have hn : (NewProcessor mapK8sClient api nsp).ns = nsp := rfl
  by_cases hw : w.panicked = true
  · rw [processPendingRemediations_dead lib _ now w hw]
    refine ⟨items, w, hlist, rfl, fun r hr => ?_, fun _ _ _ => rfl, ⟨rfl, rfl, rfl⟩,
      ⟨[], items.map fun r : Remediation => r.name, rfl, (by simp),
        fun h => absurd (hw.symm.trans h) (by decide)⟩, fun _ => rfl⟩
    exact ⟨r.status, ((hmem r).1 hr).1, Or.inr rfl,
      fun h => absurd (hw.symm.trans h) (by decide)⟩
  have hlive : w.panicked = false := by
    cases hp : w.panicked with
    | true => exact absurd hp hw
    | false => rfl
  unfold processPendingRemediations
  rw [if_neg hw, hk, hn, hlist]
  simp only []
  by_cases h0 : items.length = 0
  · rw [if_pos h0]
    have hnil : items = [] := List.length_eq_zero.1 h0
    subst hnil
    exact ⟨[], w, rfl, rfl, fun r hr => (by cases hr), fun _ _ _ => rfl, ⟨rfl, rfl, rfl⟩,
      ⟨[], [], rfl, (by simp), fun _ => rfl⟩, fun _ => rfl⟩
  · rw [if_neg h0]
    obtain ⟨i1, i2, i3, done, left, i4, i5, i6⟩ :=
      processItems_mapClient lib api nsp now items 0
        (w.logged "found pending remediations" [("count", toString items.length)]) hpair
        (fun r hr => by
          obtain ⟨hget, _, _, g, hg, _⟩ := (hmem r).1 hr
          exact ⟨hget, g, hg⟩) hlive
    refine ⟨items, _, rfl, rfl, i1, i2, i3, ⟨done, left, i4, ?_, i6⟩,
      fun h => absurd (by rw [h]; rfl) h0⟩
    rw [i5, processedNames_logged]
    simp

/-- A failure of the decoder is a failure of `PatchManifest`. -/
theorem PatchManifest_decode_error (lib : WorkerLib) (m e : String) (r : Remediation)
    (h : lib.decode m = .error e) :
    PatchManifest lib m r = .error ("failed to decode YAML: " ++ e) := by
  unfold PatchManifest
  rw [h]

/-- The fields that a `WorkerOutcome` leaves as they were. -/
theorem WorkerOutcome_untouched (now : Nat → Int) (before after : RemediationStatus)
    (h : WorkerOutcome now before after) :
    after.attempts = before.attempts ∧ after.appliedAt = before.appliedAt ∧
      after.conditions = before.conditions ∧ after.commitSHA = before.commitSHA ∧
      (after.phase = RemediationPhaseFailed ∨ after.phase = RemediationPhasePRCreated) := by
  rcases h with ⟨_, _, _, _, h⟩ | ⟨_, _, _, h⟩
  · rw [h]
    exact ⟨rfl, rfl, rfl, rfl, Or.inl rfl⟩
  · rw [h]
    exact ⟨rfl, rfl, rfl, rfl, Or.inr rfl⟩

/-- The outcomes of a poll in which no call panics. On the store as a map, one
poll whose list call returns `items` returns no error; when it ends without a
panic it has invoked `processRemediation` on every record of `items`, each
exactly once and in list order (the lines `processing remediation` of the
log), and every such record ends with the status of a `WorkerOutcome`, `Failed`
with a reason naming the failed step and `ResolvedAt` set or `PRCreated` with
`PRNumber`, `PRURL` and `LastUpdateTime`, and keeps its `Attempts`, `AppliedAt`,
`Conditions` and everything outside the status. One call of
`processRemediation` on a held record with a GitHub configuration that ends
without a panic returns no error and stores the outcome of the first failing
step: the fetch of the manifest, `PatchManifest` (which fails when the decoder
fails), or `CreatePR`; when none fails it stores `PRCreated` with the number
and URL that `CreatePR` returned. -/
theorem processPendingRemediations_outcomes {γ : Type} (lib : WorkerLib) (api : GitHubAPI γ)
    (nsp : String) (now : Nat → Int) (w : WorkerState Store γ) (items : List Remediation)
    (hlist : ListPendingRemediations mapK8sClient w.store nsp = .ok items)
    (w0 : WorkerState Store γ) (t : Int) (r : Remediation) (g : GitHubConfig)
    (hget : mapClient.getRemediation w0.store r.ns r.name = .ok r)
    (hg : r.spec.gitHub = some g) :
    (∃ w1, processPendingRemediations lib (NewProcessor mapK8sClient api nsp) now w = (w1, none) ∧
      (w1.panicked = false →
        processedNames w1.log = processedNames w.log ++ (items.map fun x => x.name) ∧
        ∀ x ∈ items, ∃ st,
          mapClient.getRemediation w1.store x.ns x.name = .ok { x with status := st } ∧
          WorkerOutcome now x.status st ∧
          st.attempts = x.status.attempts ∧ st.appliedAt = x.status.appliedAt ∧
          st.conditions = x.status.conditions)) ∧
    ((processRemediation lib (NewProcessor mapK8sClient api nsp) t w0 r).1.panicked = false →
      ∃ w1 st, processRemediation lib (NewProcessor mapK8sClient api nsp) t w0 r = (w1, none) ∧
      mapClient.getRemediation w1.store r.ns r.name = .ok { r with status := st } ∧
      ((∃ e, fetchManifestFromGitHub (NewProcessor mapK8sClient api nsp) w0.remote g.owner g.repo
            (interpolateManifestPath g.manifestPath r) g.baseBranch = .error e ∧
          w1.remote = w0.remote ∧
          st = { r.status with
                 phase := RemediationPhaseFailed
                 reason := "Failed to fetch manifest: " ++ e
                 lastUpdateTime := some t
                 resolvedAt := some t }) ∨
        (∃ m e, fetchManifestFromGitHub (NewProcessor mapK8sClient api nsp) w0.remote g.owner
            g.repo (interpolateManifestPath g.manifestPath r) g.baseBranch = .ok m ∧
          PatchManifest lib m r = .error e ∧
          w1.remote = w0.remote ∧
          st = { r.status with
                 phase := RemediationPhaseFailed
                 reason := "Failed to patch manifest: " ++ e
                 lastUpdateTime := some t
                 resolvedAt := some t }) ∨
        (∃ m pm e, fetchManifestFromGitHub (NewProcessor mapK8sClient api nsp) w0.remote g.owner
            g.repo (interpolateManifestPath g.manifestPath r) g.baseBranch = .ok m ∧
          PatchManifest lib m r = .ok pm ∧
          CreatePR api w0.remote
            (newPRRequest lib r g (interpolateManifestPath g.manifestPath r) pm) =
              (w1.remote, some (.error e)) ∧
          st = { r.status with
                 phase := RemediationPhaseFailed
                 reason := "Failed to create PR: " ++ e
                 lastUpdateTime := some t
                 resolvedAt := some t }) ∨
        (∃ m pm n u, fetchManifestFromGitHub (NewProcessor mapK8sClient api nsp) w0.remote g.owner
            g.repo (interpolateManifestPath g.manifestPath r) g.baseBranch = .ok m ∧
          PatchManifest lib m r = .ok pm ∧
          CreatePR api w0.remote
            (newPRRequest lib r g (interpolateManifestPath g.manifestPath r) pm) =
              (w1.remote, some (.ok (n, u))) ∧
          st = { r.status with
                 phase := RemediationPhasePRCreated
                 reason := "GitHub PR created successfully"
                 prNumber := n
                 prURL := u
                 lastUpdateTime := some t }))) ∧
    (∀ m e, lib.decode m = .error e →
      PatchManifest lib m r = .error ("failed to decode YAML: " ++ e)) := by
  refine ⟨?_, ?_, fun m e h => PatchManifest_decode_error lib m e r h⟩
  · obtain ⟨items1, w1, h1, h2, h3, _, _, ⟨done, left, h6, h7, h8⟩, _⟩ :=
      processPendingRemediations_mapClient lib api nsp now w
    rw [hlist] at h1
    simp only [Except.ok.injEq] at h1
    subst h1
    refine ⟨w1, h2, fun hfin => ⟨?_, fun x hx => ?_⟩⟩
    · rw [h7, h6, h8 hfin, List.append_nil]
    · obtain ⟨st, hst, _, hout⟩ := h3 x hx
      obtain ⟨u1, u2, u3, _⟩ := WorkerOutcome_untouched now x.status st (hout hfin)
      exact ⟨st, hst, hout hfin, u1, u2, u3⟩
  · intro hfin
    have hlive : w0.panicked = false := by
      cases hp : w0.panicked with
      | false => rfl
      | true =>
        rw [processRemediation_dead lib _ t w0 r hp] at hfin
        exact absurd (hp.symm.trans hfin) (by decide)
    obtain ⟨w1, st, h1, h2, _, _, _, h6⟩ :=
      processRemediation_mapClient lib api nsp t w0 r g hget hg hlive
    rw [h1] at hfin
    refine ⟨w1, st, h1, h2, ?_⟩
    rcases h6 with ⟨e, a1, a2, a3, _⟩ | ⟨m, e, a1, a2, a3, a4, _⟩ | ⟨m, pm, e, a1, a2, a3, a4, _⟩ |
      ⟨m, pm, n, u, a1, a2, a3, a4, _⟩ | ⟨_, _, _, _, _, _, hp⟩
    · exact Or.inl ⟨e, a1, a2, a3⟩
    · exact Or.inr (Or.inl ⟨m, e, a1, a2, a3, a4⟩)
    · exact Or.inr (Or.inr (Or.inl ⟨m, pm, e, a1, a2, a3, a4⟩))
    · exact Or.inr (Or.inr (Or.inr ⟨m, pm, n, u, a1, a2, a3, a4⟩))
    · exact absurd (hp.symm.trans hfin) (by decide)

/-- The outcomes on `pollStore` and the sample repository, where no call
panics: the poll returns no error and processes the three records in order;
`oom-1` ends in `PRCreated` with pull request 1, `oom-2` in `Failed` at the
fetch and `oom-3` in `Failed` at the patch. -/
theorem processPendingRemediations_outcomes_witness :
    ListPendingRemediations mapK8sClient pollStore "" = .ok pollStore.remediations ∧
    mapClient.getRemediation pollStore (gitOpsOOM "oom-1").ns (gitOpsOOM "oom-1").name =
      .ok (gitOpsOOM "oom-1") ∧
    (∃ w1, processPendingRemediations sampleLib (NewProcessor mapK8sClient repoAPI "")
          (fun i => 100 + i) { store := pollStore, remote := sampleRepository, log := [] } =
        (w1, none) ∧
      processedNames w1.log = ["oom-1", "oom-2", "oom-3"]) ∧
    ((processPendingRemediations sampleLib (NewProcessor mapK8sClient repoAPI "")
        (fun i => 100 + i)
        { store := pollStore, remote := sampleRepository, log := [] }).1.store.remediations.map
      fun x => (x.status.phase, x.status.reason, x.status.prNumber, x.status.resolvedAt,
        x.status.lastUpdateTime)) =
      [ (RemediationPhasePRCreated, "GitHub PR created successfully", 1, none, some 100),
        (RemediationPhaseFailed, "Failed to fetch manifest: Not Found", 0, some 101, some 101),
        (RemediationPhaseFailed,
          "Failed to patch manifest: unsupported action type: RollbackImage", 0, some 102,
          some 102) ] := by
  refine ⟨rfl, rfl, ?_, by decide⟩
  obtain ⟨w1, h1, h2⟩ :=
    (processPendingRemediations_outcomes sampleLib repoAPI "" (fun i => 100 + i)
      { store := pollStore, remote := sampleRepository, log := [] } pollStore.remediations rfl
      { store := pollStore, remote := sampleRepository, log := [] } 100 (gitOpsOOM "oom-1")
      gitOpsConfig rfl rfl).1
  have hw : w1.panicked = false := by
    have e : (processPendingRemediations sampleLib (NewProcessor mapK8sClient repoAPI "")
        (fun i => 100 + i)
        { store := pollStore, remote := sampleRepository, log := [] }).1 = w1 := by
      rw [h1]
    rw [← e]
    rfl
  exact ⟨w1, h1, (h2 hw).1⟩

/-! ## A transport failure while the pull request is created -/

/-- C24 (the code at the failing input). On `pollStore`, with the connection to
GitHub lost after the manifest of `oom-1` has been fetched, `CreatePR` panics at
the test of the response of `GetContents`: the poll ends there, with the
process; `processRemediation` was invoked on `oom-1` only, and the store is as
it was, so `oom-1` is neither `Failed` nor `PRCreated` and `oom-2` and `oom-3`
were not processed. The branch of the pull request has been created. -/
theorem processPendingRemediations_panics :
    ListPendingRemediations mapK8sClient pollStore "" = .ok pollStore.remediations ∧
    (pollStore.remediations.map fun x => (x.name, x.status.phase, x.status.resolvedAt)) =
      [ ("oom-1", RemediationPhasePending, none), ("oom-2", RemediationPhasePending, none),
        ("oom-3", RemediationPhasePending, none) ] ∧
    (CreatePR flakyAPI sampleRepository
      (newPRRequest sampleLib (gitOpsOOM "oom-1") gitOpsConfig
        "k8s/prod/default/test-app.yaml" "320Mi")).2 = none ∧
    (processPendingRemediations sampleLib (NewProcessor mapK8sClient flakyAPI "")
      (fun i => 100 + i)
      { store := pollStore, remote := sampleRepository, log := [] }).1.panicked = true ∧
    (processPendingRemediations sampleLib (NewProcessor mapK8sClient flakyAPI "")
      (fun i => 100 + i)
      { store := pollStore, remote := sampleRepository, log := [] }).1.store = pollStore ∧
    processedNames
      (processPendingRemediations sampleLib (NewProcessor mapK8sClient flakyAPI "")
        (fun i => 100 + i)
        { store := pollStore, remote := sampleRepository, log := [] }).1.log = ["oom-1"] ∧
    (processPendingRemediations sampleLib (NewProcessor mapK8sClient flakyAPI "")
      (fun i => 100 + i)
      { store := pollStore, remote := sampleRepository, log := [] }).1.remote.refs.length = 2 := by
  refine ⟨rfl, rfl, rfl, rfl, rfl, rfl, rfl⟩

/-! ## A second poll -/

/-- A record that is held in a phase other than `Pending` is not selected by a
poll and is left as it is; the poll invokes `processRemediation` on an initial
part of its selection, the whole of it when no call panics. -/
theorem processPendingRemediations_skips {γ : Type} (lib : WorkerLib) (api : GitHubAPI γ)
    (nsp : String) (now : Nat → Int) (w : WorkerState Store γ) (ns name : String)
    (r1 : Remediation) (hget : mapClient.getRemediation w.store ns name = .ok r1)
    (hp : r1.status.phase ≠ RemediationPhasePending) :
    ∃ items w2, ListPendingRemediations mapK8sClient w.store nsp = .ok items ∧
      processPendingRemediations lib (NewProcessor mapK8sClient api nsp) now w = (w2, none) ∧
      (∀ x ∈ items, (x.ns, x.name) ≠ (ns, name)) ∧
      (∃ done rest, (items.map fun x => x.name) = done ++ rest ∧
        processedNames w2.log = processedNames w.log ++ done ∧
        (w2.panicked = false → rest = [])) ∧
      mapClient.getRemediation w2.store ns name = .ok r1 := by
  obtain ⟨items, w2, h1, h2, _, h4, _, h6, _⟩ :=
    processPendingRemediations_mapClient lib api nsp now w
  obtain ⟨items1, e1, _, hmem⟩ := ListPendingRemediations_mapClient w.store nsp
  rw [h1] at e1
  simp only [Except.ok.injEq] at e1
  subst e1
  have hnot : ∀ x ∈ items, (x.ns, x.name) ≠ (ns, name) := by
    intro x hx he
    obtain ⟨hgx, _, hpx, _⟩ := (hmem x).1 hx
    simp only [Prod.mk.injEq] at he
    rw [he.1, he.2, hget] at hgx
    simp only [Except.ok.injEq] at hgx
    rw [hgx] at hp
    exact hp hpx
  refine ⟨items, w2, h1, h2, hnot, h6, ?_⟩
  rw [h4 ns name fun x hx => Ne.symm (hnot x hx)]
  exact hget

/-- After a poll that ends without a panic nothing is selected, and a poll that
follows a poll leaves the state as it is. -/
theorem processPendingRemediations_twice {γ : Type} (lib : WorkerLib) (api : GitHubAPI γ)
    (nsp : String) (now now2 : Nat → Int) (w : WorkerState Store γ) :
    ((processPendingRemediations lib (NewProcessor mapK8sClient api nsp) now w).1.panicked =
        false →
      ListPendingRemediations mapK8sClient
          (processPendingRemediations lib (NewProcessor mapK8sClient api nsp) now w).1.store nsp =
        .ok []) ∧
    processPendingRemediations lib (NewProcessor mapK8sClient api nsp) now2
        (processPendingRemediations lib (NewProcessor mapK8sClient api nsp) now w).1 =
      ((processPendingRemediations lib (NewProcessor mapK8sClient api nsp) now w).1, none) := by
  obtain ⟨items, w1, h1, h2, h3, h4, _, _, _⟩ :=
    processPendingRemediations_mapClient lib api nsp now w
  obtain ⟨items0, e0, _, hmem⟩ := ListPendingRemediations_mapClient w.store nsp
  rw [h1] at e0
  simp only [Except.ok.injEq] at e0
  subst e0
  rw [h2]
  simp only []
  obtain ⟨items2, w2, g1, g2, _, _, _, _, g7⟩ :=
    processPendingRemediations_mapClient lib api nsp now2 w1
  obtain ⟨items3, e3, _, hmem2⟩ := ListPendingRemediations_mapClient w1.store nsp
  rw [g1] at e3
  simp only [Except.ok.injEq] at e3
  subst e3
  have hnil : w1.panicked = false → items2 = [] := by
    intro hfin
    apply List.eq_nil_iff_forall_not_mem.2
    intro x hx
    obtain ⟨hgx, hnx, hpx, hex⟩ := (hmem2 x).1 hx
    by_cases hin : ∃ r ∈ items, (r.ns, r.name) = (x.ns, x.name)
    · obtain ⟨r, hr, hk⟩ := hin
      obtain ⟨st, hst, _, hout⟩ := h3 r hr
      simp only [Prod.mk.injEq] at hk
      rw [hk.1, hk.2, hgx] at hst
      simp only [Except.ok.injEq] at hst
      obtain ⟨_, _, _, _, hph⟩ := WorkerOutcome_untouched now r.status st (hout hfin)
      have hxp : x.status.phase = st.phase := by rw [hst]
      rw [hxp] at hpx
      rcases hph with h | h
      · rw [h] at hpx
        exact absurd hpx (by decide)
      · rw [h] at hpx
        exact absurd hpx (by decide)
    · have hframe := h4 x.ns x.name fun r hr he => hin ⟨r, hr, he.symm⟩
      rw [hframe] at hgx
      have hx0 : x ∈ items := (hmem x).2 ⟨hgx, hnx, hpx, hex⟩
      exact hin ⟨x, hx0, rfl⟩
  refine ⟨fun hfin => ?_, ?_⟩
  · rw [hnil hfin] at g1
    exact g1
  · cases hp : w1.panicked with
    | true => exact processPendingRemediations_dead lib _ now2 w1 hp
    | false => rw [g2, g7 (hnil hp)]

/-- C25. On the store as a map, once `processRemediation` has finished on a held
record with a GitHub configuration (it has not panicked, and its status write
succeeds), the stored phase is `PRCreated` or `Failed`;
`ListPendingRemediations` no longer selects the record, and a following poll
invokes `processRemediation` only on records it selects, on all of them when it
ends without a panic, and leaves the record as it is. After a poll that has
finished nothing is selected, and a poll that directly follows a poll leaves
store, repository and log unchanged. -/
theorem processRemediation_idempotent {γ : Type} (lib : WorkerLib) (api : GitHubAPI γ)
    (nsp : String) (t : Int) (now now2 : Nat → Int) (w : WorkerState Store γ) (r : Remediation)
    (g : GitHubConfig)
    (hget : mapClient.getRemediation w.store r.ns r.name = .ok r)
    (hg : r.spec.gitHub = some g) :
    ((processRemediation lib (NewProcessor mapK8sClient api nsp) t w r).1.panicked = false →
      ∃ w1 r1, processRemediation lib (NewProcessor mapK8sClient api nsp) t w r = (w1, none) ∧
      mapClient.getRemediation w1.store r.ns r.name = .ok r1 ∧
      (r1.status.phase = RemediationPhasePRCreated ∨ r1.status.phase = RemediationPhaseFailed) ∧
      ∃ items w2, ListPendingRemediations mapK8sClient w1.store nsp = .ok items ∧
        processPendingRemediations lib (NewProcessor mapK8sClient api nsp) now2 w1 = (w2, none) ∧
        (∀ x ∈ items, (x.ns, x.name) ≠ (r.ns, r.name)) ∧
        (∃ done rest, (items.map fun x => x.name) = done ++ rest ∧
          processedNames w2.log = processedNames w1.log ++ done) ∧
        (w2.panicked = false →
          processedNames w2.log = processedNames w1.log ++ (items.map fun x => x.name)) ∧
        mapClient.getRemediation w2.store r.ns r.name = .ok r1) ∧
    (((processPendingRemediations lib (NewProcessor mapK8sClient api nsp) now w).1.panicked =
        false →
      ListPendingRemediations mapK8sClient
          (processPendingRemediations lib (NewProcessor mapK8sClient api nsp) now w).1.store nsp =
        .ok []) ∧
    processPendingRemediations lib (NewProcessor mapK8sClient api nsp) now2
        (processPendingRemediations lib (NewProcessor mapK8sClient api nsp) now w).1 =
      ((processPendingRemediations lib (NewProcessor mapK8sClient api nsp) now w).1, none)) := by
  refine ⟨?_, processPendingRemediations_twice lib api nsp now now2 w⟩
  intro hfin
  have hlive : w.panicked = false := by
    cases hp : w.panicked with
    | false => rfl
    | true =>
      rw [processRemediation_dead lib _ t w r hp] at hfin
      exact absurd (hp.symm.trans hfin) (by decide)
  obtain ⟨w1, st, h1, h2, _, _, _, h6⟩ := processRemediation_outcome lib api nsp (fun _ => t) 0
    w r g hget hg hlive
  have h1t : processRemediation lib (NewProcessor mapK8sClient api nsp) t w r = (w1, none) := h1
  rw [h1t] at hfin
  rcases h6 with ⟨_, hout⟩ | ⟨hp1, _⟩
  · obtain ⟨_, _, _, _, hph⟩ := WorkerOutcome_untouched _ r.status st hout
    have hp : ({ r with status := st } : Remediation).status.phase ≠ RemediationPhasePending := by
      show st.phase ≠ RemediationPhasePending
      rcases hph with h | h <;> rw [h] <;> decide
    obtain ⟨items, w2, g1, g2, g3, ⟨done, left, g4, g5, g6⟩, g7⟩ :=
      processPendingRemediations_skips lib api nsp now2 w1 r.ns r.name _ h2 hp
    refine ⟨w1, _, h1t, h2, hph.symm, items, w2, g1, g2, g3, ⟨done, left, g4, g5⟩, ?_, g7⟩
    intro hfin2
    rw [g5, g4, g6 hfin2, List.append_nil]
  · exact absurd (hp1.symm.trans hfin) (by decide)

/-- C25 on `pollStore`: after `processRemediation` on `oom-1` a poll selects the
two other records only, and a second poll after a poll changes nothing. -/
theorem processRemediation_idempotent_witness :
    mapClient.getRemediation pollStore (gitOpsOOM "oom-1").ns (gitOpsOOM "oom-1").name =
      .ok (gitOpsOOM "oom-1") ∧
    (gitOpsOOM "oom-1").spec.gitHub = some gitOpsConfig ∧
    (processedNames
      (processPendingRemediations sampleLib (NewProcessor mapK8sClient repoAPI "")
        (fun i => 200 + i)
        (processRemediation sampleLib (NewProcessor mapK8sClient repoAPI "") 100
          { store := pollStore, remote := sampleRepository, log := [] }
          (gitOpsOOM "oom-1")).1).1.log = ["oom-1", "oom-2", "oom-3"]) ∧
    processPendingRemediations sampleLib (NewProcessor mapK8sClient repoAPI "")
        (fun i => 200 + i)
        (processPendingRemediations sampleLib (NewProcessor mapK8sClient repoAPI "")
          (fun i => 100 + i) { store := pollStore, remote := sampleRepository, log := [] }).1 =
      ((processPendingRemediations sampleLib (NewProcessor mapK8sClient repoAPI "")
          (fun i => 100 + i) { store := pollStore, remote := sampleRepository, log := [] }).1,
        none) :=
  ⟨rfl, rfl, by decide,
    (processRemediation_idempotent sampleLib repoAPI "" 100 (fun i => 100 + i)
      (fun i => 200 + i) { store := pollStore, remote := sampleRepository, log := [] }
      (gitOpsOOM "oom-1") gitOpsConfig rfl rfl).2.2⟩

/-! ## The time stamps of a record -/

/-- The invariant of the time stamps is kept by a `StatusStep`, and a
`ResolvedAt` that is set is left as it is. -/
theorem TimesInvariant_step (a b : RemediationStatus) (hinv : TimesInvariant a)
    (hstep : StatusStep a b) :
    TimesInvariant b ∧ (∀ t, a.resolvedAt = some t → b.resolvedAt = some t) ∧
      (a.resolvedAt ≠ b.resolvedAt → a.resolvedAt = none) := by
  rcases hstep with h | ⟨hnt, h⟩
  · subst h
    exact ⟨hinv, fun _ ht => ht, fun h => absurd rfl h⟩
  · have hres : a.resolvedAt = none := by
      cases hr : a.resolvedAt with
      | none => rfl
      | some t => exact absurd (hinv.1.1 (by rw [hr]; rfl)) hnt
    have happ : a.appliedAt = none := by
      cases hr : a.appliedAt with
      | none => rfl
      | some t =>
        rcases hinv.2 (by rw [hr]; rfl) with h1 | h1
        · exact absurd (Or.inl h1) hnt
        · exact absurd (Or.inr (Or.inl h1)) hnt
    refine ⟨?_, fun t ht => (by rw [hres] at ht; cases ht), fun _ => hres⟩
    rcases h with ⟨hb, h1, h2⟩ | ⟨hb, ⟨t, h1⟩, h2⟩ | ⟨hb, t, h1, h2⟩
    · refine ⟨?_, ?_⟩
      · rw [h1, hres]
        exact ⟨fun h => (by cases h), fun h => absurd h hb⟩
      · rw [h2, happ]
        exact fun h => (by cases h)
    · refine ⟨?_, ?_⟩
      · rw [h1]
        refine ⟨fun _ => ?_, fun _ => rfl⟩
        rcases hb with hb | hb
        · exact Or.inr (Or.inl hb)
        · exact Or.inr (Or.inr hb)
      · rw [h2, happ]
        exact fun h => (by cases h)
    · refine ⟨?_, fun _ => Or.inl hb⟩
      rw [h1]
      exact ⟨fun _ => Or.inl hb, fun _ => rfl⟩

/-- The outcome of the worker on a pending record is a `StatusStep`. -/
theorem StatusStep_of_outcome (now : Nat → Int) (a b : RemediationStatus)
    (hp : a.phase = RemediationPhasePending) (h : WorkerOutcome now a b) : StatusStep a b := by
  have hnt : ¬ terminalPhase a.phase := by
    rw [hp]
    decide
  rcases h with ⟨j, _, _, _, h⟩ | ⟨_, _, _, h⟩
  · rw [h]
    exact Or.inr ⟨hnt, Or.inr (Or.inl ⟨Or.inl rfl, ⟨now j, rfl⟩, rfl⟩)⟩
  · rw [h]
    refine Or.inr ⟨hnt, Or.inl ⟨?_, rfl, rfl⟩⟩
    show ¬ terminalPhase RemediationPhasePRCreated
    decide

/-- One step of `Reconcile` in the map store, on a record that is held, as a
`StatusStep`: no error is returned, the record keeps everything but its status,
and no other record changes. -/
theorem Reconcile_mapClient_times (parseQuantity : String → Option Quantity)
    (parseDuration : String → Option Int) (now : Int) (s : Store) (ns name : String)
    (r : Remediation) (hget : mapClient.getRemediation s ns name = .ok r) :
    ∃ s1 result st, Reconcile mapClient parseQuantity parseDuration now s ns name =
        (s1, result, none) ∧
      mapClient.getRemediation s1 ns name = .ok { r with status := st } ∧
      (∀ ns1 name1, (ns1, name1) ≠ (ns, name) →
        mapClient.getRemediation s1 ns1 name1 = mapClient.getRemediation s ns1 name1) ∧
      StatusStep r.status st := by
  have hk := mapClient_getRemediation_key s ns name r hget
  rw [Reconcile_of_get mapClient parseQuantity parseDuration now s ns name r hget]
  by_cases p0 : r.status.phase = ""
  · rw [if_pos p0]
    obtain ⟨s1, hw, h1, h2, _⟩ :=
      mapClient_updateStatus_spec s ns name r
        { r with
          status :=
            { r.status with
              phase := RemediationPhasePending
              reason := "Remediation created, waiting for processing"
              lastUpdateTime := some now
              conditions :=
                SetStatusCondition r.status.conditions
                  { type := "AlertReceived"
                    status := ConditionTrue
                    observedGeneration := r.generation
                    lastTransitionTime := now
                    reason := "AlertReceived"
                    message :=
                      "Alert " ++ r.spec.alert.name ++ " received from " ++
                        r.spec.alert.source } } } hget hk.1 hk.2
    have hh : handleNewRemediation mapClient now s r =
        (s1, { requeue := true, requeueAfter := 0 }, none) := by
      unfold handleNewRemediation
      simp only []
      rw [hw]
    rw [hh]
    refine ⟨s1, _, _, rfl, h1, h2, Or.inr ⟨by rw [p0]; decide, Or.inl ⟨?_, rfl, rfl⟩⟩⟩
    show ¬ terminalPhase RemediationPhasePending
    decide
  rw [if_neg p0]
  by_cases p1 : r.status.phase = RemediationPhasePending
  · rw [if_pos p1, handlePendingRemediation_mapClient]
    cases hb : s.hasTarget r.spec.target.kind r.spec.target.ns r.spec.target.name with
    | true =>
      obtain ⟨s1, hw, h1, h2, _⟩ :=
        mapClient_updateStatus_spec s ns name r
          { r with
            status :=
              { r.status with
                phase := RemediationPhaseAnalyzing
                reason := "Analyzing target resource and calculating remediation"
                lastUpdateTime := some now } } hget hk.1 hk.2
      rw [if_pos rfl, hw]
      refine ⟨s1, _, _, rfl, h1, h2, Or.inr ⟨by rw [p1]; decide, Or.inl ⟨?_, rfl, rfl⟩⟩⟩
      show ¬ terminalPhase RemediationPhaseAnalyzing
      decide
    | false =>
      obtain ⟨s1, hw, h1, h2, _⟩ :=
        updateStatusToFailed_mapClient now s ns name r r
          (if r.spec.target.kind = "Deployment" ∨ r.spec.target.kind = "StatefulSet" ∨
              r.spec.target.kind = "DaemonSet" then
            "Target resource not found: " ++ r.spec.target.ns ++ "/" ++ r.spec.target.name
          else "Unsupported target kind: " ++ r.spec.target.kind) hget hk.1 hk.2
      rw [if_neg (by simp), hw]
      exact ⟨s1, _, _, rfl, h1, h2,
        Or.inr ⟨by rw [p1]; decide, Or.inr (Or.inl ⟨Or.inl rfl, ⟨now, rfl⟩, rfl⟩)⟩⟩
  rw [if_neg p1]
  by_cases p2 : r.status.phase = RemediationPhaseAnalyzing
  · rw [if_pos p2]
    have hnt : ¬ terminalPhase r.status.phase := by rw [p2]; decide
    unfold handleAnalyzingRemediation
    by_cases hdirect : r.spec.strategy.mode = StrategyModeDirect ∧
        r.spec.strategy.requireApproval = false
    · rw [if_pos hdirect]
      by_cases hatt : r.spec.target.kind = "Deployment" ∧
          ∃ d obj, mapClient.getDeployment s r.spec.target.ns r.spec.target.name = .ok d ∧
            applyAction parseQuantity (.deployment d) r = some (obj, none)
      · obtain ⟨hkind, d, obj, hd, happ⟩ := hatt
        obtain ⟨d1, hobj, _, _⟩ := applyAction_deployment parseQuantity d r obj happ
        subst hobj
        obtain ⟨s3, hw, h1, _, h2, _⟩ :=
          handleDirectRemediation_mapClient_ok parseQuantity now s ns name r d d1 hget hkind hd
            happ
        rw [hw]
        exact ⟨s3, _, _, rfl, h1, h2, Or.inr ⟨hnt, Or.inr (Or.inr ⟨rfl, now, rfl, rfl⟩)⟩⟩
      · obtain ⟨reason, hr⟩ := handleDirectRemediation_mapClient_fail parseQuantity now s r hatt
        obtain ⟨s1, hw, h1, h2, _⟩ :=
          updateStatusToFailed_mapClient now s ns name r r reason hget hk.1 hk.2
        rw [hr, hw]
        exact ⟨s1, _, _, rfl, h1, h2,
          Or.inr ⟨hnt, Or.inr (Or.inl ⟨Or.inl rfl, ⟨now, rfl⟩, rfl⟩)⟩⟩
    · rw [if_neg hdirect]
      obtain ⟨s1, hw, h1, h2, _⟩ :=
        mapClient_updateStatus_spec s ns name r
          { r with
            status :=
              { r.status with
                phase := RemediationPhasePending
                reason := "Waiting for GitHub App service to create PR"
                lastUpdateTime := some now } } hget hk.1 hk.2
      simp only []
      rw [hw]
      refine ⟨s1, _, _, rfl, h1, h2, Or.inr ⟨hnt, Or.inl ⟨?_, rfl, rfl⟩⟩⟩
      show ¬ terminalPhase RemediationPhasePending
      decide
  rw [if_neg p2]
  by_cases p3 : r.status.phase = RemediationPhaseApplying
  · rw [if_pos p3]
    exact ⟨s, _, r.status, rfl, hget, fun _ _ _ => rfl, Or.inl rfl⟩
  rw [if_neg p3]
  by_cases p4 : r.status.phase = RemediationPhaseSucceeded ∨
      r.status.phase = RemediationPhaseFailed ∨ r.status.phase = RemediationPhaseExpired
  · rw [if_pos p4]
    exact ⟨s, _, r.status, rfl, hget, fun _ _ _ => rfl, Or.inl rfl⟩
  rw [if_neg p4]
  by_cases p5 : r.status.phase = RemediationPhasePRCreated
  · rw [if_pos p5]
    unfold handlePRCreated
    by_cases hexp : ttlExceeded parseDuration now r = true
    · rw [if_pos hexp]
      obtain ⟨s1, hw, h1, h2, _⟩ :=
        updateStatusToExpired_mapClient now s ns name r r "Remediation TTL exceeded" hget
          hk.1 hk.2
      rw [hw]
      exact ⟨s1, _, _, rfl, h1, h2,
        Or.inr ⟨p4, Or.inr (Or.inl ⟨Or.inr rfl, ⟨now, rfl⟩, rfl⟩)⟩⟩
    · rw [if_neg hexp]
      exact ⟨s, _, r.status, rfl, hget, fun _ _ _ => rfl, Or.inl rfl⟩
  rw [if_neg p5]
  exact ⟨s, _, r.status, rfl, hget, fun _ _ _ => rfl, Or.inl rfl⟩

/-- A record of the store that is not the one a worker call processes. -/
theorem processRemediation_held {γ : Type} (lib : WorkerLib) (api : GitHubAPI γ) (nsp : String)
    (now : Int) (w : WorkerState Store γ) (x : Remediation)
    (hx : mapClient.getRemediation w.store x.ns x.name = .ok x ∧
      x.status.phase = RemediationPhasePending ∧ ∃ g, x.spec.gitHub = some g)
    (ns name : String) (r : Remediation)
    (hget : mapClient.getRemediation w.store ns name = .ok r) :
    ∃ st, mapClient.getRemediation
        (processRemediation lib (NewProcessor mapK8sClient api nsp) now w x).1.store ns name =
          .ok { r with status := st } ∧
      StatusStep r.status st := by
  obtain ⟨hgx, hpx, g, hg⟩ := hx
  cases hw : w.panicked with
  | true =>
    rw [processRemediation_dead lib _ now w x hw]
    exact ⟨r.status, hget, Or.inl rfl⟩
  | false =>
    obtain ⟨w1, st, h1, h2, h3, _, _, h6⟩ :=
      processRemediation_outcome lib api nsp (fun _ => now) 0 w x g hgx hg hw
    rw [h1]
    by_cases hk : (ns, name) = (x.ns, x.name)
    · simp only [Prod.mk.injEq] at hk
      rw [hk.1, hk.2] at hget ⊢
      rw [hgx] at hget
      simp only [Except.ok.injEq] at hget
      subst hget
      rcases h6 with ⟨_, hout⟩ | ⟨_, hst⟩
      · exact ⟨st, h2, StatusStep_of_outcome _ _ _ hpx hout⟩
      · exact ⟨st, h2, Or.inl hst⟩
    · exact ⟨r.status, by rw [h3 ns name hk]; exact hget, Or.inl rfl⟩

/-- Across a step of the system every record that is held stays held, keeps
everything but its status, and its status makes a `StatusStep`. -/
theorem SystemStep_run_held {γ : Type} (lib : WorkerLib) (api : GitHubAPI γ) (nsp : String)
    (parseDuration : String → Option Int) (step : SystemStep) (w : WorkerState Store γ)
    (ns name : String) (r : Remediation)
    (hget : mapClient.getRemediation w.store ns name = .ok r) :
    ∃ st, mapClient.getRemediation (step.run lib api nsp parseDuration w).store ns name =
        .ok { r with status := st } ∧
      StatusStep r.status st := by
  cases step with
  | reconcile ns0 name0 now =>
    show ∃ st, mapClient.getRemediation
      (Reconcile mapClient lib.parseQuantity parseDuration now w.store ns0 name0).1 ns name =
        .ok { r with status := st } ∧ StatusStep r.status st
    by_cases hk : (ns, name) = (ns0, name0)
    · simp only [Prod.mk.injEq] at hk
      rw [← hk.1, ← hk.2]
      obtain ⟨s1, result, st, h1, h2, _, h4⟩ :=
        Reconcile_mapClient_times lib.parseQuantity parseDuration now w.store ns name r hget
      rw [h1]
      exact ⟨st, h2, h4⟩
    · cases h0 : mapClient.getRemediation w.store ns0 name0 with
      | error err =>
        rw [Reconcile_of_get_error mapClient lib.parseQuantity parseDuration now w.store ns0
          name0 err h0]
        exact ⟨r.status, hget, Or.inl rfl⟩
      | ok r0 =>
        obtain ⟨s1, result, st, h1, _, h3, _⟩ :=
          Reconcile_mapClient_times lib.parseQuantity parseDuration now w.store ns0 name0 r0 h0
        rw [h1]
        exact ⟨r.status, by rw [h3 ns name hk]; exact hget, Or.inl rfl⟩
  | poll now =>
    show ∃ st, mapClient.getRemediation
      (processPendingRemediations lib (NewProcessor mapK8sClient api nsp) now w).1.store ns name =
        .ok { r with status := st } ∧ StatusStep r.status st
    obtain ⟨items, w1, h1, h2, h3, h4, _⟩ :=
      processPendingRemediations_mapClient lib api nsp now w
    obtain ⟨items0, e0, _, hmem⟩ := ListPendingRemediations_mapClient w.store nsp
    rw [h1] at e0
    simp only [Except.ok.injEq] at e0
    subst e0
    rw [h2]
    by_cases hin : ∃ x ∈ items, (x.ns, x.name) = (ns, name)
    · obtain ⟨x, hx, hk⟩ := hin
      obtain ⟨hgx, _, hpx, _⟩ := (hmem x).1 hx
      obtain ⟨st, hst, hout, _⟩ := h3 x hx
      simp only [Prod.mk.injEq] at hk
      obtain ⟨rfl, rfl⟩ := hk
      rw [hget] at hgx
      simp only [Except.ok.injEq] at hgx
      subst hgx
      rcases hout with hout | hsame
      · exact ⟨st, hst, StatusStep_of_outcome _ _ _ hpx hout⟩
      · exact ⟨st, hst, Or.inl hsame⟩
    · refine ⟨r.status, ?_, Or.inl rfl⟩
      rw [h4 ns name fun x hx he => hin ⟨x, hx, he.symm⟩]
      exact hget
  | process ns0 name0 now =>
    obtain ⟨items, e0, _, hmem⟩ := ListPendingRemediations_mapClient w.store nsp
    show ∃ st, mapClient.getRemediation
      (match ListPendingRemediations mapK8sClient w.store nsp with
        | .error _ => w
        | .ok items =>
          match items.find? fun x : Remediation => decide (x.ns = ns0 ∧ x.name = name0) with
          | none => w
          | some r => (processRemediation lib (NewProcessor mapK8sClient api nsp) now w r).1).store
        ns name = .ok { r with status := st } ∧ StatusStep r.status st
    rw [e0]
    simp only []
    cases hf : items.find? fun x => decide (x.ns = ns0 ∧ x.name = name0) with
    | none => exact ⟨r.status, hget, Or.inl rfl⟩
    | some x =>
      simp only []
      obtain ⟨hgx, _, hpx, g, hg, _⟩ := (hmem x).1 (List.mem_of_find?_eq_some hf)
      exact processRemediation_held lib api nsp now w x ⟨hgx, hpx, g, hg⟩ ns name r hget

/-- Across a sequence of steps a record that is held with the invariant of the
time stamps stays held with it, keeps everything but its status, and keeps a
`ResolvedAt` that is set. -/
theorem runSteps_held {γ : Type} (lib : WorkerLib) (api : GitHubAPI γ) (nsp : String)
    (parseDuration : String → Option Int) (steps : List SystemStep) :
    ∀ (w : WorkerState Store γ) (ns name : String) (r : Remediation),
      mapClient.getRemediation w.store ns name = .ok r → TimesInvariant r.status →
      ∃ st, mapClient.getRemediation (runSteps lib api nsp parseDuration steps w).store ns name =
          .ok { r with status := st } ∧
        TimesInvariant st ∧ (∀ t, r.status.resolvedAt = some t → st.resolvedAt = some t) := by
  induction steps with
  | nil =>
    intro w ns name r hget hinv
    exact ⟨r.status, hget, hinv, fun _ h => h⟩
  | cons step rest ih =>
    intro w ns name r hget hinv
    obtain ⟨st, h1, h2⟩ := SystemStep_run_held lib api nsp parseDuration step w ns name r hget
    obtain ⟨i1, i2, _⟩ := TimesInvariant_step r.status st hinv h2
    obtain ⟨st2, j1, j2, j3⟩ := ih _ ns name _ h1 i1
    exact ⟨st2, j1, j2, fun t ht => j3 t (i2 t ht)⟩

theorem runSteps_append {γ : Type} (lib : WorkerLib) (api : GitHubAPI γ) (nsp : String)
    (parseDuration : String → Option Int) (steps steps2 : List SystemStep) :
    ∀ w : WorkerState Store γ,
      runSteps lib api nsp parseDuration (steps ++ steps2) w =
        runSteps lib api nsp parseDuration steps2 (runSteps lib api nsp parseDuration steps w) := by
  induction steps with
  | nil => intro w; rfl
  | cons step rest ih =>
    intro w
    show runSteps lib api nsp parseDuration (rest ++ steps2) _ = _
    rw [ih]
    rfl

theorem TimesInvariant_zero : TimesInvariant RemediationStatus.zero := by
  unfold TimesInvariant
  refine ⟨⟨fun h => (by cases h), fun h => absurd h (by decide)⟩, fun h => (by cases h)⟩

/-- C21. On the store as a map, start from a record that is held with an empty
status and run any sequence of steps, each a call of `Reconcile` for any key, a
poll of the worker, or the worker processing one record that
`ListPendingRemediations` selects; the steps run one after the other. After the
sequence the record is still held and has kept everything but its status;
`ResolvedAt` is set if and only if the phase is `Succeeded`, `Failed` or
`Expired`; `AppliedAt` is set only when the phase is `Succeeded` or `Failed`;
and after any further sequence of steps a `ResolvedAt` that was set has the same
value, so that it is written once. -/
theorem runSteps_times {γ : Type} (lib : WorkerLib) (api : GitHubAPI γ) (nsp : String)
    (parseDuration : String → Option Int) (steps steps2 : List SystemStep)
    (w : WorkerState Store γ) (ns name : String) (r : Remediation)
    (hget : mapClient.getRemediation w.store ns name = .ok r)
    (hzero : r.status = RemediationStatus.zero) :
    ∃ st st2,
      mapClient.getRemediation (runSteps lib api nsp parseDuration steps w).store ns name =
        .ok { r with status := st } ∧
      mapClient.getRemediation
          (runSteps lib api nsp parseDuration (steps ++ steps2) w).store ns name =
        .ok { r with status := st2 } ∧
      (st.resolvedAt.isSome ↔
        st.phase = RemediationPhaseSucceeded ∨ st.phase = RemediationPhaseFailed ∨
          st.phase = RemediationPhaseExpired) ∧
      (st.appliedAt.isSome →
        st.phase = RemediationPhaseSucceeded ∨ st.phase = RemediationPhaseFailed) ∧
      (∀ t, st.resolvedAt = some t → st2.resolvedAt = some t) := by
  have hinv : TimesInvariant r.status := by
    rw [hzero]
    exact TimesInvariant_zero
  obtain ⟨st, h1, h2, _⟩ := runSteps_held lib api nsp parseDuration steps w ns name r hget hinv
  obtain ⟨st2, g1, _, g3⟩ := runSteps_held lib api nsp parseDuration steps2 _ ns name _ h1 h2
  refine ⟨st, st2, h1, ?_, h2.1, h2.2, g3⟩
  rw [runSteps_append]
  exact g1

/-- C21 on `freshStore`: after the five steps of `sampleSteps` the record is
`Expired` with `ResolvedAt` set, and a further reconcile and poll leave the
stamp as it is. -/
theorem runSteps_times_witness :
    mapClient.getRemediation freshStore "default" "oom-1" =
      .ok { gitOpsOOM "oom-1" with status := RemediationStatus.zero } ∧
    ((runSteps sampleLib repoAPI "" parseSimpleDuration sampleSteps
        { store := freshStore, remote := sampleRepository, log := [] }).store.remediations.map
      fun x => (x.status.phase, x.status.resolvedAt, x.status.appliedAt)) =
      [(RemediationPhaseExpired, some (25 * 3600 * 1000000000), none)] ∧
    ∃ st st2,
      mapClient.getRemediation (runSteps sampleLib repoAPI "" parseSimpleDuration sampleSteps
          { store := freshStore, remote := sampleRepository, log := [] }).store
          "default" "oom-1" =
        .ok { ({ gitOpsOOM "oom-1" with status := RemediationStatus.zero } : Remediation) with
              status := st } ∧
      mapClient.getRemediation
          (runSteps sampleLib repoAPI "" parseSimpleDuration
            (sampleSteps ++ [.reconcile "default" "oom-1" (26 * 3600 * 1000000000),
              .poll (fun i => 200 + i)])
            { store := freshStore, remote := sampleRepository, log := [] }).store
          "default" "oom-1" =
        .ok { ({ gitOpsOOM "oom-1" with status := RemediationStatus.zero } : Remediation) with
              status := st2 } ∧
      (st.resolvedAt.isSome ↔
        st.phase = RemediationPhaseSucceeded ∨ st.phase = RemediationPhaseFailed ∨
          st.phase = RemediationPhaseExpired) ∧
      (st.appliedAt.isSome →
        st.phase = RemediationPhaseSucceeded ∨ st.phase = RemediationPhaseFailed) ∧
      (∀ t, st.resolvedAt = some t → st2.resolvedAt = some t) :=
  ⟨rfl, by decide,
    runSteps_times sampleLib repoAPI "" parseSimpleDuration sampleSteps
      [.reconcile "default" "oom-1" (26 * 3600 * 1000000000), .poll (fun i => 200 + i)]
      { store := freshStore, remote := sampleRepository, log := [] } "default" "oom-1"
      { gitOpsOOM "oom-1" with status := RemediationStatus.zero } rfl rfl⟩

/-! ## The patcher of the GitOps worker -/

/-- The value of `patchScaleUp` on a Deployment or StatefulSet, with the
percentage and the cap written as defaults of the scanned parameters: a
`maxReplicas` that is present and not scanned gives the cap 0. -/
theorem patchScaleUp_eq (lib : WorkerLib) (obj : Object) (r : Remediation) :
    (∀ d, obj = .deployment d →
      patchScaleUp lib obj r =
        (.deployment { d with replicas := some (CalculateScaleUp (d.replicas.getD 1)
            (((r.spec.action.params.lookup "scaleUpPercent").bind lib.sscanInt).getD 50)
            (((r.spec.action.params.lookup "maxReplicas").map fun val =>
              wrapInt32 ((lib.sscanInt val).getD 0)).getD 10)) },
          none)) ∧
    (∀ s, obj = .statefulSet s →
      patchScaleUp lib obj r =
        (.statefulSet { s with replicas := some (CalculateScaleUp (s.replicas.getD 1)
            (((r.spec.action.params.lookup "scaleUpPercent").bind lib.sscanInt).getD 50)
            (((r.spec.action.params.lookup "maxReplicas").map fun val =>
              wrapInt32 ((lib.sscanInt val).getD 0)).getD 10)) },
          none)) ∧
    ((∀ d, obj ≠ .deployment d) → (∀ s, obj ≠ .statefulSet s) →
      patchScaleUp lib obj r = (obj, some ("unsupported object type for scale: " ++ obj.typeName))) := by
  refine ⟨?_, ?_, ?_⟩
  · intro d hd
    subst hd
    unfold patchScaleUp
    simp only [scaledReplicas_eq_CalculateScaleUp]
    rcases h1 : r.spec.action.params.lookup "scaleUpPercent" with _ | p
    · rcases h2 : r.spec.action.params.lookup "maxReplicas" with _ | m
      · rfl
      · rcases h3 : lib.sscanInt m with _ | q <;> simp [h3]
    · rcases h4 : lib.sscanInt p with _ | v <;>
        rcases h2 : r.spec.action.params.lookup "maxReplicas" with _ | m
      · simp [h4]
      · rcases h3 : lib.sscanInt m with _ | q <;> simp [h3, h4]
      · simp [h4]
      · rcases h3 : lib.sscanInt m with _ | q <;> simp [h3, h4]
  · intro d hd
    subst hd
    unfold patchScaleUp
    simp only [scaledReplicas_eq_CalculateScaleUp]
    rcases h1 : r.spec.action.params.lookup "scaleUpPercent" with _ | p
    · rcases h2 : r.spec.action.params.lookup "maxReplicas" with _ | m
      · rfl
      · rcases h3 : lib.sscanInt m with _ | q <;> simp [h3]
    · rcases h4 : lib.sscanInt p with _ | v <;>
        rcases h2 : r.spec.action.params.lookup "maxReplicas" with _ | m
      · simp [h4]
      · rcases h3 : lib.sscanInt m with _ | q <;> simp [h3, h4]
      · simp [h4]
      · rcases h3 : lib.sscanInt m with _ | q <;> simp [h3, h4]
  · intro h1 h2
    cases obj with
    | deployment d => exact absurd rfl (h1 d)
    | statefulSet d => exact absurd rfl (h2 d)
    | daemonSet d => rfl
    | other t => rfl

/-- The value of `PatchManifest` for the action `ScaleUp` on a manifest that
decodes. -/
theorem PatchManifest_scaleUp (lib : WorkerLib) (yamlContent : String) (r : Remediation)
    (obj : Object) (hd : lib.decode yamlContent = .ok obj)
    (ht : r.spec.action.type = ActionTypeScaleUp) :
    PatchManifest lib yamlContent r =
      match patchScaleUp lib obj r with
      | (_, some err) => .error ("failed to patch scale: " ++ err)
      | (obj1, none) =>
        match lib.marshal obj1 with
        | .error err => .error ("failed to encode YAML: " ++ err)
        | .ok patchedYAML => .ok patchedYAML := by
  unfold PatchManifest
  rw [hd]
  simp only [ht]
  rw [if_neg (show ¬ ActionTypeScaleUp = ActionTypeIncreaseMemory by decide), if_pos trivial]
  rcases patchScaleUp lib obj r with ⟨obj1, _ | err⟩
  · simp only []
  · rfl

/-- The value of `PatchManifest` for the action `IncreaseMemory` on a manifest
that decodes. -/
theorem PatchManifest_increaseMemory (lib : WorkerLib) (yamlContent : String) (r : Remediation)
    (obj : Object) (hd : lib.decode yamlContent = .ok obj)
    (ht : r.spec.action.type = ActionTypeIncreaseMemory) :
    PatchManifest lib yamlContent r =
      match patchIncreaseMemory lib obj r with
      | (_, some err) => .error ("failed to patch memory: " ++ err)
      | (obj1, none) =>
        match lib.marshal obj1 with
        | .error err => .error ("failed to encode YAML: " ++ err)
        | .ok patchedYAML => .ok patchedYAML := by
  unfold PatchManifest
  rw [hd]
  simp only [ht]
  rw [if_pos trivial]
  rcases patchIncreaseMemory lib obj r with ⟨obj1, _ | err⟩
  · simp only []
  · rfl

/-- The Direct path of `Reconcile` on the store as a map, for a record in phase
`Analyzing` whose target Deployment is held and patched without error: no error
is returned, the record ends in `Succeeded` and the stored Deployment is the
patched one. -/
theorem Reconcile_direct_deployment (parseQuantity : String → Option Quantity)
    (parseDuration : String → Option Int) (now : Int) (s : Store) (ns name : String)
    (r : Remediation) (d d1 : Deployment)
    (hget : mapClient.getRemediation s ns name = .ok r)
    (hphase : r.status.phase = RemediationPhaseAnalyzing)
    (hmode : r.spec.strategy.mode = StrategyModeDirect)
    (happroval : r.spec.strategy.requireApproval = false)
    (hkind : r.spec.target.kind = "Deployment")
    (hd : mapClient.getDeployment s r.spec.target.ns r.spec.target.name = .ok d)
    (happ : applyAction parseQuantity (.deployment d) r = some (.deployment d1, none)) :
    ∃ s1 r1, Reconcile mapClient parseQuantity parseDuration now s ns name =
        (s1, { requeue := false, requeueAfter := 0 }, none) ∧
      mapClient.getRemediation s1 ns name = .ok r1 ∧
      r1.status.phase = RemediationPhaseSucceeded ∧
      mapClient.getDeployment s1 r.spec.target.ns r.spec.target.name = .ok d1 := by
  obtain ⟨s3, h1, h2, h3, _⟩ :=
    handleDirectRemediation_mapClient_ok parseQuantity now s ns name r d d1 hget hkind hd happ
  refine ⟨s3, _, ?_, h2, rfl, h3⟩
  rw [Reconcile_of_get mapClient parseQuantity parseDuration now s ns name r hget]
  simp only [hphase, RemediationPhaseAnalyzing, RemediationPhasePending, String.reduceEq,
    if_false, if_true]
  unfold handleAnalyzingRemediation
  rw [if_pos ⟨hmode, happroval⟩, h1]
  rfl

/-! ## Three replicas at 50 percent -/

/-- C31, counterexample. On the Deployment of the two tests, three replicas, with
`scaleUpPercent=50` and `maxReplicas=10`, `ApplyScaleUp` sets four replicas, the
Direct path of `Reconcile` stores a Deployment with four replicas, and
`PatchManifest` encodes a Deployment with four replicas: none of them gives
five. -/
theorem ScaleUp_three_not_five :
    ApplyScaleUp (.deployment webApp) [("scaleUpPercent", "50"), ("maxReplicas", "10")] =
      (.deployment { webApp with replicas := some 4 }, none) ∧
    (Reconcile mapClient parseBinaryQuantity parseSimpleDuration 5 scaleStore "default"
        "test-scale").1.deployments = [{ webApp with replicas := some 4 }] ∧
    PatchManifest (manifestLib "web-app.yaml" (.deployment webApp)) "web-app.yaml" testScale =
      .ok "replicas: 4 memory: 0Mi" ∧
    ({ webApp with replicas := some 4 } : Deployment) ≠ { webApp with replicas := some 5 } := by
  refine ⟨by decide, by decide, rfl, by decide⟩

/-- C31, amended. With `scaleUpPercent=50` and `maxReplicas=10` a workload with
three replicas gets four (3 + ⌊1.5⌋): `ApplyScaleUp` sets four on a Deployment
and on a StatefulSet; the Direct path of `Reconcile` stores the Deployment with
four replicas; and `PatchManifest`, when `Sscanf` scans the two parameters as 50
and 10, hands the Deployment with four replicas to the encoder. -/
theorem ScaleUp_three_yields_four (params : StrMap)
    (hp : params.lookup "scaleUpPercent" = some "50")
    (hm : params.lookup "maxReplicas" = some "10") :
    (∀ d : Deployment, d.replicas = some 3 →
      ApplyScaleUp (.deployment d) params = (.deployment { d with replicas := some 4 }, none)) ∧
    (∀ d : StatefulSet, d.replicas = some 3 →
      ApplyScaleUp (.statefulSet d) params = (.statefulSet { d with replicas := some 4 }, none)) ∧
    (∀ (parseQuantity : String → Option Quantity) (parseDuration : String → Option Int)
        (now : Int) (s : Store) (ns name : String) (r : Remediation) (d : Deployment),
      mapClient.getRemediation s ns name = .ok r →
      r.status.phase = RemediationPhaseAnalyzing →
      r.spec.strategy.mode = StrategyModeDirect →
      r.spec.strategy.requireApproval = false →
      r.spec.target.kind = "Deployment" →
      r.spec.action = { type := ActionTypeScaleUp, params := params } →
      mapClient.getDeployment s r.spec.target.ns r.spec.target.name = .ok d →
      d.replicas = some 3 →
      ∃ s1 r1, Reconcile mapClient parseQuantity parseDuration now s ns name =
          (s1, { requeue := false, requeueAfter := 0 }, none) ∧
        mapClient.getRemediation s1 ns name = .ok r1 ∧
        r1.status.phase = RemediationPhaseSucceeded ∧
        mapClient.getDeployment s1 r.spec.target.ns r.spec.target.name =
          .ok { d with replicas := some 4 }) ∧
    (∀ (lib : WorkerLib) (yamlContent : String) (r : Remediation) (d : Deployment),
      lib.sscanInt "50" = some 50 → lib.sscanInt "10" = some 10 →
      lib.decode yamlContent = .ok (.deployment d) →
      r.spec.action = { type := ActionTypeScaleUp, params := params } →
      d.replicas = some 3 →
      patchScaleUp lib (.deployment d) r = (.deployment { d with replicas := some 4 }, none) ∧
      PatchManifest lib yamlContent r =
        (lib.marshal (.deployment { d with replicas := some 4 })).mapError
          fun err => "failed to encode YAML: " ++ err) := by
  have hA : ∀ obj : Object, (∀ d, obj = .deployment d →
      ApplyScaleUp obj params =
        (.deployment { d with replicas := some (CalculateScaleUp (d.replicas.getD 1) 50 10) },
          none)) ∧
      (∀ d, obj = .statefulSet d →
        ApplyScaleUp obj params =
          (.statefulSet { d with replicas := some (CalculateScaleUp (d.replicas.getD 1) 50 10) },
            none)) := by
    intro obj
    obtain ⟨h1, h2, _⟩ := ApplyScaleUp_eq obj params
    rw [hp, hm] at h1 h2
    exact ⟨h1, h2⟩
  have hc : CalculateScaleUp 3 50 10 = 4 := by decide
  refine ⟨?_, ?_, ?_, ?_⟩
  · intro d hd
    rw [(hA _).1 d rfl, hd]
    show _ = (Object.deployment { d with replicas := some 4 }, none)
    rw [← hc]
    rfl
  · intro d hd
    rw [(hA _).2 d rfl, hd]
    show _ = (Object.statefulSet { d with replicas := some 4 }, none)
    rw [← hc]
    rfl
  · intro parseQuantity parseDuration now s ns name r d hget hphase hmode happ hkind hact hgd hd
    refine Reconcile_direct_deployment parseQuantity parseDuration now s ns name r d _ hget
      hphase hmode happ hkind hgd ?_
    unfold applyAction
    simp only [hact]
    rw [if_pos trivial, (hA _).1 d rfl, hd]
    show some (Object.deployment { d with replicas := some (CalculateScaleUp 3 50 10) }, none) = _
    rw [hc]
  · intro lib yamlContent r d h50 h10 hdec hact hd
    have hpatch : patchScaleUp lib (.deployment d) r =
        (.deployment { d with replicas := some 4 }, none) := by
      rw [(patchScaleUp_eq lib _ r).1 d rfl, hact]
      simp only [hp, hm, Option.bind, h50, h10, Option.map, Option.getD, hd]
      rw [← hc]
      rfl
    refine ⟨hpatch, ?_⟩
    rw [PatchManifest_scaleUp lib yamlContent r _ hdec (by rw [hact]), hpatch]
    simp only []
    cases lib.marshal (.deployment { d with replicas := some 4 }) <;> rfl

/-- C31, amended, on the inputs of the two tests: the Deployment `web-app` with
three replicas gets four through `ApplyScaleUp`, through `Reconcile` and through
`PatchManifest`. -/
theorem ScaleUp_three_yields_four_witness :
    testScale.spec.action.params.lookup "scaleUpPercent" = some "50" ∧
    testScale.spec.action.params.lookup "maxReplicas" = some "10" ∧
    ApplyScaleUp (.deployment webApp) testScale.spec.action.params =
      (.deployment { webApp with replicas := some 4 }, none) ∧
    (patchScaleUp (manifestLib "web-app.yaml" (.deployment webApp)) (.deployment webApp)
        testScale = (.deployment { webApp with replicas := some 4 }, none) ∧
      PatchManifest (manifestLib "web-app.yaml" (.deployment webApp)) "web-app.yaml" testScale =
        ((manifestLib "web-app.yaml" (.deployment webApp)).marshal
          (.deployment { webApp with replicas := some 4 })).mapError
          fun err => "failed to encode YAML: " ++ err) :=
  ⟨rfl, rfl, (ScaleUp_three_yields_four testScale.spec.action.params rfl rfl).1 webApp rfl,
    (ScaleUp_three_yields_four testScale.spec.action.params rfl rfl).2.2.2
      (manifestLib "web-app.yaml" (.deployment webApp)) "web-app.yaml" testScale webApp
      (by decide) (by decide) rfl rfl rfl⟩

/-! ## The attempted image -/

/-- The annotation `heal8s.io/attempted-image` after the loop of the rollback:
the image that the last container had, or the value before when there is no
container. -/
theorem rollbackLoop_attempted (lastStableImage : String) (containers : List Container) :
    ∀ annotations : StrMap,
      (rollbackLoop lastStableImage containers annotations).2.lookup attemptedImageKey =
        match containers.getLast? with
        | some container => some container.image
        | none => annotations.lookup attemptedImageKey := by
  induction containers with
  | nil => intro annotations; rfl
  | cons c rest ih =>
    intro annotations
    show (rollbackLoop lastStableImage rest
      (mapSet attemptedImageKey c.image annotations)).2.lookup attemptedImageKey = _
    rw [ih]
    cases rest with
    | nil =>
      show (mapSet attemptedImageKey c.image annotations).lookup attemptedImageKey = some c.image
      exact lookup_mapSet_self _ _ _
    | cons c2 rest2 =>
      obtain ⟨x, hx⟩ : ∃ x, (c2 :: rest2).getLast? = some x :=
        ⟨_, List.getLast?_eq_getLast _ (List.cons_ne_nil _ _)⟩
      rw [List.getLast?_cons_cons, hx]

/-- C32, at the failing input. `sidecarDeployment` has the containers `app` with
image `myapp:v2` and `proxy` with image `envoy:v1.30`; `ApplyRollbackImage`
succeeds, sets both images to `myapp:v1` and leaves the annotation
`heal8s.io/attempted-image` at `envoy:v1.30`: the image `myapp:v2` that `app`
had is held by no annotation. -/
theorem ApplyRollbackImage_attempted_overwritten :
    ApplyRollbackImage (.deployment sidecarDeployment) [] =
      (.deployment
        { sidecarDeployment with
          annotations := [(lastStableImageKey, "myapp:v1"), (attemptedImageKey, "envoy:v1.30")]
          containers :=
            [ { name := "app", image := "myapp:v1", limits := [], requests := [] },
              { name := "proxy", image := "myapp:v1", limits := [], requests := [] } ] }, none) ∧
    (sidecarDeployment.containers.map fun c => c.image) = ["myapp:v2", "envoy:v1.30"] ∧
    "myapp:v2" ∉
      ([(lastStableImageKey, "myapp:v1"), (attemptedImageKey, "envoy:v1.30")].map
        fun e : String × String => e.2) := by
  refine ⟨by decide, by decide, by decide⟩

/-! ## The window of the deduplicator -/

/-- C33 (counterexample). On a table that saw the key when the clock read 0,
with a TTL of one hour, a call at minute 59 returns false and leaves the table
as it was, and a call at minute 61, two minutes later, returns true: the
window runs from the last call that returned true, not from the last call. -/
theorem ShouldProcess_two_minutes_apart :
    agedDedup.ttl = 60 * minute ∧
    (agedDedup.ShouldProcess formatRFC3339 "abc" noon (59 * minute)).2 = false ∧
    (agedDedup.ShouldProcess formatRFC3339 "abc" noon (59 * minute)).1 = agedDedup ∧
    61 * minute - 59 * minute < agedDedup.ttl ∧
    (((agedDedup.ShouldProcess formatRFC3339 "abc" noon (59 * minute)).1).ShouldProcess
      formatRFC3339 "abc" noon (61 * minute)).2 = true := by
  refine ⟨by decide, ?_, ?_, by decide, ?_⟩ <;> rfl

/-- C33 (amended). Two calls of `ShouldProcess` with the same fingerprint and
start, the second less than the TTL after the first: when the first call
returns true the second returns false; when the first returns false the table
is unchanged and the second returns false exactly when it is made less than
the TTL after the instant the table holds for the key; and when the table has
no entry for the key, as in the deduplicator of a new handler, the first call
returns true and the second false. -/
theorem ShouldProcess_second_call (rfc3339 : Time → String) (d : AlertDeduplicator)
    (fingerprint : String) (startsAt : Time) (t1 t2 : Int) (h : t2 - t1 < d.ttl) :
    ((d.ShouldProcess rfc3339 fingerprint startsAt t1).2 = true →
      ((d.ShouldProcess rfc3339 fingerprint startsAt t1).1.ShouldProcess rfc3339 fingerprint
        startsAt t2).2 = false) ∧
    ((d.ShouldProcess rfc3339 fingerprint startsAt t1).2 = false →
      (d.ShouldProcess rfc3339 fingerprint startsAt t1).1 = d ∧
      (((d.ShouldProcess rfc3339 fingerprint startsAt t1).1.ShouldProcess rfc3339 fingerprint
          startsAt t2).2 = false ↔
        ∃ lastSeen, d.seen.lookup (dedupKey rfc3339 fingerprint startsAt) = some lastSeen ∧
          t2 - lastSeen < d.ttl)) ∧
    (d.seen.lookup (dedupKey rfc3339 fingerprint startsAt) = none →
      (d.ShouldProcess rfc3339 fingerprint startsAt t1).2 = true ∧
      ((d.ShouldProcess rfc3339 fingerprint startsAt t1).1.ShouldProcess rfc3339 fingerprint
        startsAt t2).2 = false) ∧
    (NewAlertmanagerHandler.dedup.seen.lookup (dedupKey rfc3339 fingerprint startsAt) = none ∧
      NewAlertmanagerHandler.dedup.ttl = 3600 * 1000000000) := by
  have hacc : ∀ d1 : AlertDeduplicator, d1.ttl = d.ttl →
      d1.seen.lookup (fingerprint ++ ":" ++ rfc3339 startsAt) = some t1 →
      (d1.ShouldProcess rfc3339 fingerprint startsAt t2).2 = false := by
    intro d1 ht hl
    rw [ShouldProcess_of_recent rfc3339 d1 fingerprint startsAt t2 t1 hl (by rw [ht]; exact h)]
  have hrej : ∀ lastSeen, d.seen.lookup (fingerprint ++ ":" ++ rfc3339 startsAt) = some lastSeen →
      ((d.ShouldProcess rfc3339 fingerprint startsAt t2).2 = false ↔ t2 - lastSeen < d.ttl) := by
    intro lastSeen hl
    by_cases h2 : t2 - lastSeen < d.ttl
    · rw [ShouldProcess_of_recent rfc3339 d fingerprint startsAt t2 lastSeen hl h2]
      simp [h2]
    · rw [ShouldProcess_of_stale rfc3339 d fingerprint startsAt t2 lastSeen hl h2]
      simp [h2]
  have hnone : d.seen.lookup (fingerprint ++ ":" ++ rfc3339 startsAt) = none →
      (d.ShouldProcess rfc3339 fingerprint startsAt t1).2 = true ∧
      ((d.ShouldProcess rfc3339 fingerprint startsAt t1).1.ShouldProcess rfc3339 fingerprint
        startsAt t2).2 = false := by
    intro hl
    rw [ShouldProcess_of_absent rfc3339 d fingerprint startsAt t1 hl]
    exact ⟨rfl, hacc _ rfl (lookup_mapSet_self _ _ _)⟩
  refine ⟨?_, ?_, hnone, rfl, rfl⟩
  · intro h1
    rcases hl : d.seen.lookup (fingerprint ++ ":" ++ rfc3339 startsAt) with _ | lastSeen
    · exact (hnone hl).2
    · by_cases h2 : t1 - lastSeen < d.ttl
      · rw [ShouldProcess_of_recent rfc3339 d fingerprint startsAt t1 lastSeen hl h2] at h1
        cases h1
      · rw [ShouldProcess_of_stale rfc3339 d fingerprint startsAt t1 lastSeen hl h2]
        exact hacc _ rfl (lookup_mapSet_self _ _ _)
  · intro h1
    have hd := ShouldProcess_rejected rfc3339 d fingerprint startsAt t1 h1
    refine ⟨hd, ?_⟩
    rw [hd]
    rcases hl : d.seen.lookup (fingerprint ++ ":" ++ rfc3339 startsAt) with _ | lastSeen
    · rw [(hnone hl).1] at h1
      cases h1
    · rw [hrej lastSeen hl]
      simp only [dedupKey, hl]
      constructor
      · intro h2
        exact ⟨lastSeen, rfl, h2⟩
      · rintro ⟨x, hx, h2⟩
        cases hx
        exact h2

/-- C33 on the deduplicator of a new handler: a call at 0 returns true and a
call at minute 59 returns false. -/
theorem ShouldProcess_second_call_witness :
    (59 * minute - 0 < NewAlertmanagerHandler.dedup.ttl) ∧
    (NewAlertmanagerHandler.dedup.ShouldProcess formatRFC3339 "abc" noon 0).2 = true ∧
    ((NewAlertmanagerHandler.dedup.ShouldProcess formatRFC3339 "abc" noon 0).1.ShouldProcess
      formatRFC3339 "abc" noon (59 * minute)).2 = false :=
  ⟨by decide,
    (ShouldProcess_second_call formatRFC3339 NewAlertmanagerHandler.dedup "abc" noon 0
      (59 * minute) (by decide)).2.2.1 rfl⟩

/-! ## Eviction and deduplication -/

theorem lookup_filter_key {β : Type} (q : String → Bool) (k : String) (m : List (String × β)) :
    (m.filter fun e => q e.1).lookup k = if q k then m.lookup k else none := by
  induction m with
  | nil => simp [List.lookup]
  | cons kv rest ih =>
    obtain ⟨k0, v0⟩ := kv
    by_cases hk : k = k0
    · subst hk
      by_cases hq : q k = true
      · simp [List.filter, hq, List.lookup]
      · have hq2 : q k = false := by simpa using hq
        simp only [List.filter, hq2, ih]
        simp
    · have h2 : (k == k0) = false := by simpa using hk
      by_cases hq : q k0 = true
      · simp only [List.filter, hq, List.lookup, h2, ih]
      · have hq2 : q k0 = false := by simpa using hq
        simp only [List.filter, hq2, List.lookup, h2, ih]

theorem cleanupPass_lookup (now : Int) (d : AlertDeduplicator) (k : String) :
    (cleanupPass now d).seen.lookup k =
      (d.seen.lookup k).bind fun lastSeen =>
        if now - lastSeen > d.ttl then none else some lastSeen := by
  have h := lookup_filter_key
    (fun key => match d.seen.lookup key with
      | some lastSeen => !decide (now - lastSeen > d.ttl)
      | none => true) k d.seen
  show (d.seen.filter _).lookup k = _
  rw [h]
  rcases hl : d.seen.lookup k with _ | lastSeen
  · simp
  · by_cases hgt : now - lastSeen > d.ttl
    · simp [hgt]
    · simp [hgt]

/-- C34. An eviction pass run at `tc`, not after the call, changes nothing a
call of `ShouldProcess` at `now` can see: the call returns the same value and
leaves the same entry for its key with and without the pass; the pass keeps
the TTL, changes no entry it keeps, and removes only keys whose entry is at
least the TTL old at `now`, which `ShouldProcess` would accept again. -/
theorem cleanupPass_transparent (rfc3339 : Time → String) (d : AlertDeduplicator)
    (fingerprint : String) (startsAt : Time) (tc now : Int) (h : tc ≤ now) :
    ((cleanupPass tc d).ShouldProcess rfc3339 fingerprint startsAt now).2 =
      (d.ShouldProcess rfc3339 fingerprint startsAt now).2 ∧
    ((cleanupPass tc d).ShouldProcess rfc3339 fingerprint startsAt now).1.seen.lookup
        (dedupKey rfc3339 fingerprint startsAt) =
      (d.ShouldProcess rfc3339 fingerprint startsAt now).1.seen.lookup
        (dedupKey rfc3339 fingerprint startsAt) ∧
    (cleanupPass tc d).ttl = d.ttl ∧
    (∀ k lastSeen, (cleanupPass tc d).seen.lookup k = some lastSeen →
      d.seen.lookup k = some lastSeen) ∧
    (∀ k lastSeen, d.seen.lookup k = some lastSeen → (cleanupPass tc d).seen.lookup k = none →
      tc - lastSeen > d.ttl ∧ ¬ now - lastSeen < d.ttl) := by
  have hkeep : ∀ k lastSeen, (cleanupPass tc d).seen.lookup k = some lastSeen →
      d.seen.lookup k = some lastSeen := by
    intro k lastSeen hk
    rw [cleanupPass_lookup] at hk
    rcases hl : d.seen.lookup k with _ | x
    · rw [hl] at hk
      cases hk
    · rw [hl] at hk
      by_cases hgt : tc - x > d.ttl
      · simp [hgt] at hk
      · simp [hgt] at hk
        rw [hk]
  have hgone : ∀ k lastSeen, d.seen.lookup k = some lastSeen →
      (cleanupPass tc d).seen.lookup k = none →
      tc - lastSeen > d.ttl ∧ ¬ now - lastSeen < d.ttl := by
    intro k lastSeen hl hk
    rw [cleanupPass_lookup, hl] at hk
    by_cases hgt : tc - lastSeen > d.ttl
    · exact ⟨hgt, by omega⟩
    · simp [hgt] at hk
  have httl : (cleanupPass tc d).ttl = d.ttl := rfl
  refine ⟨?_, ?_, httl, hkeep, hgone⟩
  · rcases hl : d.seen.lookup (fingerprint ++ ":" ++ rfc3339 startsAt) with _ | lastSeen
    · have hc : (cleanupPass tc d).seen.lookup (fingerprint ++ ":" ++ rfc3339 startsAt) = none := by
        rw [cleanupPass_lookup, hl]
        rfl
      rw [ShouldProcess_of_absent _ _ _ _ _ hc, ShouldProcess_of_absent _ _ _ _ _ hl]
    · rcases hc : (cleanupPass tc d).seen.lookup (fingerprint ++ ":" ++ rfc3339 startsAt)
        with _ | x
      · have hs := (hgone _ _ hl hc).2
        rw [ShouldProcess_of_absent _ _ _ _ _ hc, ShouldProcess_of_stale _ _ _ _ _ _ hl hs]
      · have hx := hkeep _ _ hc
        rw [hl] at hx
        cases hx
        by_cases h2 : now - lastSeen < d.ttl
        · rw [ShouldProcess_of_recent _ _ _ _ _ _ hc (by rw [httl]; exact h2),
            ShouldProcess_of_recent _ _ _ _ _ _ hl h2]
        · rw [ShouldProcess_of_stale _ _ _ _ _ _ hc (by rw [httl]; exact h2),
            ShouldProcess_of_stale _ _ _ _ _ _ hl h2]
  · show _ = ((d.ShouldProcess rfc3339 fingerprint startsAt now).1.seen.lookup
      (fingerprint ++ ":" ++ rfc3339 startsAt))
    show (((cleanupPass tc d).ShouldProcess rfc3339 fingerprint startsAt now).1.seen.lookup
      (fingerprint ++ ":" ++ rfc3339 startsAt)) = _
    rcases hl : d.seen.lookup (fingerprint ++ ":" ++ rfc3339 startsAt) with _ | lastSeen
    · have hc : (cleanupPass tc d).seen.lookup (fingerprint ++ ":" ++ rfc3339 startsAt) = none := by
        rw [cleanupPass_lookup, hl]
        rfl
      rw [ShouldProcess_of_absent _ _ _ _ _ hc, ShouldProcess_of_absent _ _ _ _ _ hl]
      show (mapSet _ _ _).lookup _ = (mapSet _ _ _).lookup _
      rw [lookup_mapSet_self, lookup_mapSet_self]
    · rcases hc : (cleanupPass tc d).seen.lookup (fingerprint ++ ":" ++ rfc3339 startsAt)
        with _ | x
      · have hs := (hgone _ _ hl hc).2
        rw [ShouldProcess_of_absent _ _ _ _ _ hc, ShouldProcess_of_stale _ _ _ _ _ _ hl hs]
        show (mapSet _ _ _).lookup _ = (mapSet _ _ _).lookup _
        rw [lookup_mapSet_self, lookup_mapSet_self]
      · have hx := hkeep _ _ hc
        rw [hl] at hx
        cases hx
        by_cases h2 : now - lastSeen < d.ttl
        · rw [ShouldProcess_of_recent _ _ _ _ _ _ hc (by rw [httl]; exact h2),
            ShouldProcess_of_recent _ _ _ _ _ _ hl h2]
          show (cleanupPass tc d).seen.lookup _ = d.seen.lookup _
          rw [hc, hl]
        · rw [ShouldProcess_of_stale _ _ _ _ _ _ hc (by rw [httl]; exact h2),
            ShouldProcess_of_stale _ _ _ _ _ _ hl h2]
          show (mapSet _ _ _).lookup _ = (mapSet _ _ _).lookup _
          rw [lookup_mapSet_self, lookup_mapSet_self]

/-- C34 on `agedDedup`: a pass at minute 61 empties the table, and a call at
minute 62 returns the same value with and without it. -/
theorem cleanupPass_transparent_witness :
    (61 * minute ≤ 62 * minute) ∧
    (cleanupPass (61 * minute) agedDedup).seen = [] ∧
    ((cleanupPass (61 * minute) agedDedup).ShouldProcess formatRFC3339 "abc" noon
        (62 * minute)).2 =
      (agedDedup.ShouldProcess formatRFC3339 "abc" noon (62 * minute)).2 :=
  ⟨by decide, rfl,
    (cleanupPass_transparent formatRFC3339 agedDedup "abc" noon (61 * minute) (62 * minute)
      (by decide)).1⟩

/-! ## Direct apply and the kind of the target -/

/-- C35 (counterexample). The patch engine scales the StatefulSet `database`
from 3 to 4 replicas and raises the limit of the DaemonSet `logAgent` from 256Mi
to 320Mi, but `Reconcile` of the Direct records aimed at them, in phase
`Analyzing`, ends in `Failed` with the reason "Direct remediation not
implemented for kind", and the targets stay as they were. -/
theorem Reconcile_direct_statefulSet_fails :
    ApplyScaleUp (.statefulSet database) scaleDatabase.spec.action.params =
      (.statefulSet { database with replicas := some 4 }, none) ∧
    (ApplyIncreaseMemory parseBinaryQuantity (.daemonSet logAgent) "agent"
        growAgent.spec.action.params).2 = none ∧
    (Reconcile mapClient parseBinaryQuantity parseSimpleDuration 5 statefulStore "default"
        "scale-db").1.statefulSets = [database] ∧
    ((Reconcile mapClient parseBinaryQuantity parseSimpleDuration 5 statefulStore "default"
        "scale-db").1.remediations.map fun r => (r.name, r.status.phase, r.status.reason)) =
      [ ("scale-db", RemediationPhaseFailed,
          "Direct remediation not implemented for kind: StatefulSet"),
        ("grow-agent", RemediationPhaseAnalyzing, "") ] ∧
    (Reconcile mapClient parseBinaryQuantity parseSimpleDuration 5 statefulStore "default"
        "grow-agent").1.daemonSets = [logAgent] ∧
    ((Reconcile mapClient parseBinaryQuantity parseSimpleDuration 5 statefulStore "default"
        "grow-agent").1.remediations.map fun r => (r.name, r.status.phase, r.status.reason)) =
      [ ("scale-db", RemediationPhaseAnalyzing, ""),
        ("grow-agent", RemediationPhaseFailed,
          "Direct remediation not implemented for kind: DaemonSet") ] := by
  refine ⟨?_, ?_, ?_, ?_, ?_, ?_⟩ <;> rfl

/-- C35 (amended). Direct apply is available for Deployments only: for a record
in phase `Analyzing` with Strategy Direct and requireApproval=false whose target
kind is not `Deployment`, `Reconcile` is the write of `Failed` with the reason
"Direct remediation not implemented for kind: " and the kind, for every client;
on the store that is a map the step returns no error, the record is then
`Failed` with that reason and `ResolvedAt` set, and no workload has changed. -/
theorem Reconcile_direct_other_kind (parseQuantity : String → Option Quantity)
    (parseDuration : String → Option Int) (now : Int) (s : Store) (ns name : String)
    (r : Remediation)
    (hget : mapClient.getRemediation s ns name = .ok r)
    (hphase : r.status.phase = RemediationPhaseAnalyzing)
    (hmode : r.spec.strategy.mode = StrategyModeDirect)
    (happroval : r.spec.strategy.requireApproval = false)
    (hkind : r.spec.target.kind ≠ "Deployment") :
    (∀ {σ : Type} (c : Client σ) (t : σ), c.getRemediation t ns name = .ok r →
      Reconcile c parseQuantity parseDuration now t ns name =
        updateStatusToFailed c now t r
          ("Direct remediation not implemented for kind: " ++ r.spec.target.kind)) ∧
    ∃ s1 r1, Reconcile mapClient parseQuantity parseDuration now s ns name =
        (s1, { requeue := false, requeueAfter := 0 }, none) ∧
      mapClient.getRemediation s1 ns name = .ok r1 ∧
      r1.spec = r.spec ∧
      r1.status.phase = RemediationPhaseFailed ∧
      r1.status.reason =
        "Direct remediation not implemented for kind: " ++ r.spec.target.kind ∧
      r1.status.resolvedAt = some now ∧
      r1.status.appliedAt = r.status.appliedAt ∧
      r1.status.attempts = r.status.attempts ∧
      s1.deployments = s.deployments ∧ s1.statefulSets = s.statefulSets ∧
      s1.daemonSets = s.daemonSets := by
  have hall : ∀ {σ : Type} (c : Client σ) (t : σ), c.getRemediation t ns name = .ok r →
      Reconcile c parseQuantity parseDuration now t ns name =
        updateStatusToFailed c now t r
          ("Direct remediation not implemented for kind: " ++ r.spec.target.kind) := by
    intro σ c t hg
    rw [Reconcile_of_get c parseQuantity parseDuration now t ns name r hg]
    simp only [hphase, RemediationPhaseAnalyzing, RemediationPhasePending, String.reduceEq,
      if_false, if_true]
    unfold handleAnalyzingRemediation
    rw [if_pos ⟨hmode, happroval⟩]
    unfold handleDirectRemediation
    simp only []
    rw [if_pos hkind]
  refine ⟨hall, ?_⟩
  obtain ⟨hrns, hrname⟩ := mapClient_getRemediation_key s ns name r hget
  obtain ⟨s1, hw, hg1, _, hd, hs, hds, _⟩ :=
    updateStatusToFailed_mapClient now s ns name r r
      ("Direct remediation not implemented for kind: " ++ r.spec.target.kind) hget hrns hrname
  refine ⟨s1, _, ?_, hg1, rfl, rfl, rfl, rfl, rfl, rfl, hd, hs, hds⟩
  rw [hall mapClient s hget, hw]
  rfl

/-- C35 on `statefulStore`: the record aimed at the StatefulSet ends in
`Failed` and the workloads are as before. -/
theorem Reconcile_direct_other_kind_witness :
    ∃ s1 r1, Reconcile mapClient parseBinaryQuantity parseSimpleDuration 5 statefulStore
        "default" "scale-db" = (s1, { requeue := false, requeueAfter := 0 }, none) ∧
      mapClient.getRemediation s1 "default" "scale-db" = .ok r1 ∧
      r1.spec = scaleDatabase.spec ∧
      r1.status.phase = RemediationPhaseFailed ∧
      r1.status.reason =
        "Direct remediation not implemented for kind: " ++ scaleDatabase.spec.target.kind ∧
      r1.status.resolvedAt = some 5 ∧
      r1.status.appliedAt = scaleDatabase.status.appliedAt ∧
      r1.status.attempts = scaleDatabase.status.attempts ∧
      s1.deployments = statefulStore.deployments ∧
      s1.statefulSets = statefulStore.statefulSets ∧
      s1.daemonSets = statefulStore.daemonSets :=
  (Reconcile_direct_other_kind parseBinaryQuantity parseSimpleDuration 5 statefulStore
    "default" "scale-db" scaleDatabase rfl rfl rfl rfl (by decide)).2

/-! ## A record that awaits the GitOps worker -/

/-- C36 (the code at the failing input). The Analyzing step leaves the GitOps
record `oom-1` in `Pending` with the reason "Waiting for GitHub App service to
create PR" and asks for no requeue; the next `Reconcile`, with the target
still there and no write by the worker, moves it back to `Analyzing` with
another reason and asks for a requeue; the one after parks it in `Pending`
again. The targets are never touched. -/
theorem Reconcile_parked_moves_on :
    parkedStore.phases =
      [("oom-1", RemediationPhasePending, "Waiting for GitHub App service to create PR")] ∧
    (Reconcile mapClient parseBinaryQuantity parseSimpleDuration 1 analyzingStore "default"
      "oom-1").2 = ({ requeue := false, requeueAfter := 0 }, none) ∧
    mapClient.getDeployment parkedStore "default" "test-app" = .ok testApp ∧
    (Reconcile mapClient parseBinaryQuantity parseSimpleDuration 2 parkedStore "default"
      "oom-1").1.phases =
      [ ("oom-1", RemediationPhaseAnalyzing,
          "Analyzing target resource and calculating remediation") ] ∧
    (Reconcile mapClient parseBinaryQuantity parseSimpleDuration 2 parkedStore "default"
      "oom-1").2 = ({ requeue := true, requeueAfter := 0 }, none) ∧
    (Reconcile mapClient parseBinaryQuantity parseSimpleDuration 3
      (Reconcile mapClient parseBinaryQuantity parseSimpleDuration 2 parkedStore "default"
        "oom-1").1 "default" "oom-1").1.phases =
      [("oom-1", RemediationPhasePending, "Waiting for GitHub App service to create PR")] ∧
    (Reconcile mapClient parseBinaryQuantity parseSimpleDuration 3
      (Reconcile mapClient parseBinaryQuantity parseSimpleDuration 2 parkedStore "default"
        "oom-1").1 "default" "oom-1").1.deployments = [testApp] := by
  refine ⟨?_, ?_, ?_, ?_, ?_, ?_, ?_⟩ <;> rfl

/-! ## The strategy of the records that the worker selects -/

/-- C37 (counterexample). The Analyzing step parks the Direct record `oom-1`,
which requires approval and has GitHub enabled, in `Pending`, and
`ListPendingRemediations` then returns it: a returned record whose
`Strategy.Mode` is `Direct`. -/
theorem ListPendingRemediations_returns_direct :
    (Reconcile mapClient parseBinaryQuantity parseSimpleDuration 1 approvalStore "default"
      "oom-1").1.phases =
      [("oom-1", RemediationPhasePending, "Waiting for GitHub App service to create PR")] ∧
    (ListPendingRemediations mapK8sClient
        (Reconcile mapClient parseBinaryQuantity parseSimpleDuration 1 approvalStore "default"
          "oom-1").1 "").map (List.map fun r => (r.name, r.spec.strategy.mode)) =
      .ok [("oom-1", StrategyModeDirect)] ∧
    StrategyModeDirect ≠ StrategyModeGitOps := by
  refine ⟨rfl, rfl, by decide⟩

/-- C37 (amended). `ListPendingRemediations` does not look at `Strategy.Mode`:
when the list call returns `items`, every record it returns is in phase
`Pending` with GitHub enabled, every such record of `items` is returned
whatever its mode, and when a second list call returns the same records with
their mode replaced by `mode`, the second selection is the first with the mode
replaced. -/
theorem ListPendingRemediations_any_mode {σ : Type} (c : K8sClient σ) (s t : σ) (ns : String)
    (items : List Remediation) (mode : String) (h : c.list s ns = .ok items)
    (ht : c.list t ns = .ok (items.map (Remediation.withMode mode))) :
    ∃ pending, ListPendingRemediations c s ns = .ok pending ∧
      ListPendingRemediations c t ns = .ok (pending.map (Remediation.withMode mode)) ∧
      (∀ item ∈ pending, item.status.phase = RemediationPhasePending ∧
        ∃ gitHub, item.spec.gitHub = some gitHub ∧ gitHub.enabled = true) ∧
      (∀ item ∈ items, item.status.phase = RemediationPhasePending →
        (∃ gitHub, item.spec.gitHub = some gitHub ∧ gitHub.enabled = true) →
        item ∈ pending) := by
  refine ⟨_, ListPendingRemediations_ok c s ns items h, ?_, ?_, ?_⟩
  · rw [ListPendingRemediations_ok c t ns _ ht, List.filter_map]
    rfl
  · intro item hi
    exact (pending_test_iff item).1 (List.mem_filter.1 hi).2
  · intro item hi hp hg
    exact List.mem_filter.2 ⟨hi, (pending_test_iff item).2 ⟨hp, hg⟩⟩

/-- C37 on `mixedStore`: with every mode replaced by `Direct` the same records
are selected. -/
theorem ListPendingRemediations_any_mode_witness :
    ∃ pending, ListPendingRemediations mapK8sClient mixedStore "" = .ok pending ∧
      ListPendingRemediations mapK8sClient
          { mixedStore with
            remediations := mixedStore.remediations.map (Remediation.withMode StrategyModeDirect) }
          "" =
        .ok (pending.map (Remediation.withMode StrategyModeDirect)) ∧
      (∀ item ∈ pending, item.status.phase = RemediationPhasePending ∧
        ∃ gitHub, item.spec.gitHub = some gitHub ∧ gitHub.enabled = true) ∧
      (∀ item ∈ (firstOfKey mixedStore.remediations).filter
          (fun r => decide (("" : String) = "") || decide (r.ns = "")),
        item.status.phase = RemediationPhasePending →
        (∃ gitHub, item.spec.gitHub = some gitHub ∧ gitHub.enabled = true) →
        item ∈ pending) :=
  ListPendingRemediations_any_mode mapK8sClient mixedStore
    { mixedStore with
      remediations := mixedStore.remediations.map (Remediation.withMode StrategyModeDirect) }
    "" _ StrategyModeDirect rfl rfl

/-! ## The patcher against the patch engine -/

/-- The memory patch of the patcher is that of the patch engine whenever the
scan of the percentage, when the parameter is present, gives what
`strconv.Atoi` gives. -/
theorem patchIncreaseMemory_of_scan (lib : WorkerLib) (obj : Object) (r : Remediation)
    (h : ∀ val, r.spec.action.params.lookup "memoryIncreasePercent" = some val →
      lib.sscanInt val = Atoi val) :
    patchIncreaseMemory lib obj r =
      ApplyIncreaseMemory lib.parseQuantity obj r.spec.target.container r.spec.action.params := by
  unfold patchIncreaseMemory ApplyIncreaseMemory
  rcases h1 : r.spec.action.params.lookup "memoryIncreasePercent" with _ | p
  · rfl
  · simp only [h p h1]

/-- C38 (the code at the failing input). For the percentage `50abc`,
`strconv.Atoi` fails and the patch engine falls back to 25 percent: 256Mi
becomes 320Mi. The scan of the patcher reads 50 and the patcher writes 384Mi,
which is what `PatchManifest` encodes. -/
theorem patchIncreaseMemory_trailing_text :
    Atoi "50abc" = none ∧ scanDecimal "50abc" = some 50 ∧
    ApplyIncreaseMemory parseBinaryQuantity (.deployment testApp)
        trailingOOM.spec.target.container trailingOOM.spec.action.params =
      (.deployment
        { testApp with
          containers :=
            [ { name := "app"
                image := "nginx:latest"
                limits := [(ResourceMemory, 320 * Mi)]
                requests := [(ResourceMemory, 320 * Mi)] } ] }, none) ∧
    patchIncreaseMemory sampleLib (.deployment testApp) trailingOOM =
      (.deployment
        { testApp with
          containers :=
            [ { name := "app"
                image := "nginx:latest"
                limits := [(ResourceMemory, 384 * Mi)]
                requests := [(ResourceMemory, 384 * Mi)] } ] }, none) ∧
    PatchManifest sampleLib "kind: Deployment # test-app" trailingOOM = .ok "384Mi" := by
  refine ⟨by decide, by decide, ?_, ?_, ?_⟩ <;> rfl

/-- The replica patch of the patcher is that of the patch engine whenever the
scans of the two parameters, when present, give what `strconv.Atoi` gives and
the cap, when present, is an integer for `strconv.Atoi`. -/
theorem patchScaleUp_of_scan (lib : WorkerLib) (obj : Object) (r : Remediation)
    (hp : ∀ val, r.spec.action.params.lookup "scaleUpPercent" = some val →
      lib.sscanInt val = Atoi val)
    (hm : ∀ val, r.spec.action.params.lookup "maxReplicas" = some val →
      lib.sscanInt val = Atoi val ∧ (Atoi val).isSome) :
    patchScaleUp lib obj r = ApplyScaleUp obj r.spec.action.params := by
  unfold patchScaleUp ApplyScaleUp
  rcases h1 : r.spec.action.params.lookup "scaleUpPercent" with _ | p <;>
    rcases h2 : r.spec.action.params.lookup "maxReplicas" with _ | m
  · rfl
  · obtain ⟨h3, h4⟩ := hm m h2
    rcases h5 : Atoi m with _ | v
    · rw [h5] at h4
      cases h4
    · simp only [h3, h5]
  · simp only [hp p h1]
  · obtain ⟨h3, h4⟩ := hm m h2
    rcases h5 : Atoi m with _ | v
    · rw [h5] at h4
      cases h4
    · simp only [hp p h1, h3, h5]

/-- C39 (the code at the failing input). For the cap `ten`, `strconv.Atoi`
fails and the patch engine keeps the default cap 10: three replicas become
four. The patcher scans nothing into its zero-initialised integer, takes the
cap 0, and writes zero replicas, which is what `PatchManifest` encodes. -/
theorem patchScaleUp_unscanned_cap :
    Atoi "ten" = none ∧ scanDecimal "ten" = none ∧
    ApplyScaleUp (.deployment webApp) wordyScale.spec.action.params =
      (.deployment { webApp with replicas := some 4 }, none) ∧
    patchScaleUp sampleLib (.deployment webApp) wordyScale =
      (.deployment { webApp with replicas := some 0 }, none) ∧
    PatchManifest (manifestLib "web-app.yaml" (.deployment webApp)) "web-app.yaml" wordyScale =
      .ok "replicas: 0 memory: 0Mi" := by
  refine ⟨by decide, by decide, ?_, ?_, ?_⟩ <;> rfl

/-- C40 (counterexample). The manifest of `sidecarDeployment` decodes and
carries the annotation `heal8s.io/last-stable-image`, and the patch engine
rolls the Deployment back without error, but `PatchManifest` with the action
`RollbackImage` returns the error of its `default` branch. -/
theorem PatchManifest_rollback_unsupported :
    (manifestLib "api.yaml" (.deployment sidecarDeployment)).decode "api.yaml" =
      .ok (.deployment sidecarDeployment) ∧
    sidecarDeployment.annotations.lookup lastStableImageKey = some "myapp:v1" ∧
    (ApplyRollbackImage (.deployment sidecarDeployment) rollbackAPI.spec.action.params).2 = none ∧
    PatchManifest (manifestLib "api.yaml" (.deployment sidecarDeployment)) "api.yaml"
        rollbackAPI =
      .error "unsupported action type: RollbackImage" := by
  refine ⟨?_, ?_, ?_, ?_⟩ <;> rfl

/-- C40 (amended). `PatchManifest` patches the actions `IncreaseMemory` and
`ScaleUp` only: for every manifest that decodes and every action of another
type, `RollbackImage` among them, it returns the error "unsupported action
type: " followed by the type, whatever the object and its annotations, and
encodes nothing. -/
theorem PatchManifest_other_action (lib : WorkerLib) (yamlContent : String) (r : Remediation)
    (obj : Object) (hd : lib.decode yamlContent = .ok obj)
    (hm : r.spec.action.type ≠ ActionTypeIncreaseMemory)
    (hs : r.spec.action.type ≠ ActionTypeScaleUp) :
    PatchManifest lib yamlContent r =
      .error ("unsupported action type: " ++ r.spec.action.type) := by
  unfold PatchManifest
  rw [hd]
  simp only []
  rw [if_neg hm, if_neg hs]

/-- C40 on the manifest of `sidecarDeployment` and the action `RollbackImage`. -/
theorem PatchManifest_other_action_witness :
    PatchManifest (manifestLib "api.yaml" (.deployment sidecarDeployment)) "api.yaml"
        rollbackAPI =
      .error ("unsupported action type: " ++ ActionTypeRollbackImage) :=
  PatchManifest_other_action (manifestLib "api.yaml" (.deployment sidecarDeployment)) "api.yaml"
    rollbackAPI (.deployment sidecarDeployment) rfl (by decide) (by decide)

end Heal8s
